import Mathlib

/-! Distortion engine of the VTM codec (`source/Lib/CommonLib/x86/RdCostX86.h`).

A shallow embedding of the accelerated distortion functions of `RdCost`
(SAD, SSE and Hadamard cost) together with the SSE4/AVX2 intrinsics they are
written with.

Conventions of the embedding.

* A `Pel` is a 16-bit `short`.  Memory is a function from element offsets to
  values; a load keeps the low 16 bits of each element.  A pointer is the element
  offset from the start of the buffer it points into.
* A 128-bit register is eight 16-bit lanes, lane 0 being the least significant
  one; a 32-bit lane `j` is the pair of 16-bit lanes `2j`, `2j+1`.  Every lane
  holds its unsigned bit pattern; instructions that read lanes as signed
  numbers convert explicitly.
* A 256-bit register is a pair of 128-bit registers (`lo`, `hi`).
* `uint32_t`, `int` and `uint64_t` arithmetic is arithmetic on the bit
  patterns modulo `2^32` resp. `2^64`.
* The template instantiation modelled is the one installed by
  `_initRdCostX86`: `Torg = Tcur = Pel`, for which `sizeof( Torg ) > 1`.
  The bodies guarded by `USE_AVX2` are modelled as compiled in, which is the
  configuration in which an instantiation with `vext >= AVX2` is built.
-/

namespace VTM

/-! ## Machine integers -/

/-- Value of a 32-bit pattern read as a signed `int`. -/
def toInt32 (a : Nat) : Int := if a < 2147483648 then (a : Int) else (a : Int) - 4294967296

/-- The 32-bit pattern of an integer (conversion to `uint32_t`, or to `int` with wrap-around). -/
def ofInt32 (x : Int) : Nat := (x % 4294967296).toNat

/-- Lane-wise 16-bit addition. -/
def add16 (a b : Nat) : Nat := (a + b) % 65536

/-- Lane-wise 16-bit subtraction. -/
def sub16 (a b : Nat) : Nat := (a + (65536 - b % 65536)) % 65536

/-- Lane-wise 16-bit absolute value of a signed lane (`-32768` stays `-32768`). -/
def abs16 (a : Nat) : Nat := if a < 32768 then a else (65536 - a % 65536) % 65536

/-- 32-bit addition. -/
def add32 (a b : Nat) : Nat := (a + b) % 4294967296

/-- 32-bit subtraction. -/
def sub32 (a b : Nat) : Nat := (a + (4294967296 - b % 4294967296)) % 4294967296

/-- 32-bit absolute value of a signed lane. -/
def abs32 (a : Nat) : Nat := if a < 2147483648 then a else (4294967296 - a % 4294967296) % 4294967296

/-- Sign extension of a 16-bit pattern to a 32-bit pattern. -/
def sext16 (a : Nat) : Nat := if a < 32768 then a else a + 4294901760

/-- An `__m128i` as eight 16-bit lanes. -/
structure M128 where
  e0 : Nat
  e1 : Nat
  e2 : Nat
  e3 : Nat
  e4 : Nat
  e5 : Nat
  e6 : Nat
  e7 : Nat
  deriving DecidableEq, Repr

namespace M128

/-- 32-bit lane 0. -/
def w0 (v : M128) : Nat := v.e0 + 65536 * v.e1
/-- 32-bit lane 1. -/
def w1 (v : M128) : Nat := v.e2 + 65536 * v.e3
/-- 32-bit lane 2. -/
def w2 (v : M128) : Nat := v.e4 + 65536 * v.e5
/-- 32-bit lane 3. -/
def w3 (v : M128) : Nat := v.e6 + 65536 * v.e7

/-- The register whose four 32-bit lanes are the given patterns. -/
def ofWords (a b c d : Nat) : M128 :=
  ⟨a % 65536, a / 65536 % 65536, b % 65536, b / 65536 % 65536,
   c % 65536, c / 65536 % 65536, d % 65536, d / 65536 % 65536⟩

/-- Apply a 16-bit operation to each pair of corresponding lanes. -/
def map2 (f : Nat → Nat → Nat) (a b : M128) : M128 :=
  ⟨f a.e0 b.e0, f a.e1 b.e1, f a.e2 b.e2, f a.e3 b.e3,
   f a.e4 b.e4, f a.e5 b.e5, f a.e6 b.e6, f a.e7 b.e7⟩

/-- Apply a 16-bit operation to each lane. -/
def map (f : Nat → Nat) (a : M128) : M128 :=
  ⟨f a.e0, f a.e1, f a.e2, f a.e3, f a.e4, f a.e5, f a.e6, f a.e7⟩

/-- Apply a 32-bit operation to each pair of corresponding 32-bit lanes. -/
def map2w (f : Nat → Nat → Nat) (a b : M128) : M128 :=
  ofWords (f a.w0 b.w0) (f a.w1 b.w1) (f a.w2 b.w2) (f a.w3 b.w3)

/-- Apply a 32-bit operation to each 32-bit lane. -/
def mapw (f : Nat → Nat) (a : M128) : M128 :=
  ofWords (f a.w0) (f a.w1) (f a.w2) (f a.w3)

end M128

/-- The intrinsic `_mm_setzero_si128`. -/
def mm_setzero_si128 : M128 := ⟨0, 0, 0, 0, 0, 0, 0, 0⟩

/-- The intrinsic `_mm_set1_epi16`. -/
def mm_set1_epi16 (a : Nat) : M128 :=
  ⟨a % 65536, a % 65536, a % 65536, a % 65536, a % 65536, a % 65536, a % 65536, a % 65536⟩

/-- The intrinsics `_mm_loadu_si128` and `_mm_lddqu_si128`: eight consecutive `short`s at `p`. -/
def mm_loadu_si128 (mem : Nat → Nat) (p : Nat) : M128 :=
  ⟨mem p % 65536, mem (p + 1) % 65536, mem (p + 2) % 65536, mem (p + 3) % 65536,
   mem (p + 4) % 65536, mem (p + 5) % 65536, mem (p + 6) % 65536, mem (p + 7) % 65536⟩

/-- The intrinsic `_mm_loadl_epi64`: four consecutive `short`s at `p` in the low half, zero above. -/
def mm_loadl_epi64 (mem : Nat → Nat) (p : Nat) : M128 :=
  ⟨mem p % 65536, mem (p + 1) % 65536, mem (p + 2) % 65536, mem (p + 3) % 65536, 0, 0, 0, 0⟩

/-- The intrinsic `_mm_loadh_pi` (through the `ps` casts): keeps the low half of `a` and loads
four consecutive `short`s at `p` into the high half. -/
def mm_loadh_pi (a : M128) (mem : Nat → Nat) (p : Nat) : M128 :=
  ⟨a.e0, a.e1, a.e2, a.e3,
   mem p % 65536, mem (p + 1) % 65536, mem (p + 2) % 65536, mem (p + 3) % 65536⟩

/-- The intrinsic `_mm_add_epi16`. -/
def mm_add_epi16 (a b : M128) : M128 := M128.map2 add16 a b
/-- The intrinsic `_mm_sub_epi16`. -/
def mm_sub_epi16 (a b : M128) : M128 := M128.map2 sub16 a b
/-- The intrinsic `_mm_abs_epi16`. -/
def mm_abs_epi16 (a : M128) : M128 := M128.map abs16 a
/-- The intrinsic `_mm_add_epi32`. -/
def mm_add_epi32 (a b : M128) : M128 := M128.map2w add32 a b
/-- The intrinsic `_mm_sub_epi32`. -/
def mm_sub_epi32 (a b : M128) : M128 := M128.map2w sub32 a b
/-- The intrinsic `_mm_abs_epi32`. -/
def mm_abs_epi32 (a : M128) : M128 := M128.mapw abs32 a

/-- The intrinsic `_mm_hadd_epi16`. -/
def mm_hadd_epi16 (a b : M128) : M128 :=
  ⟨add16 a.e0 a.e1, add16 a.e2 a.e3, add16 a.e4 a.e5, add16 a.e6 a.e7,
   add16 b.e0 b.e1, add16 b.e2 b.e3, add16 b.e4 b.e5, add16 b.e6 b.e7⟩

/-- The intrinsic `_mm_hadd_epi32`. -/
def mm_hadd_epi32 (a b : M128) : M128 :=
  M128.ofWords (add32 a.w0 a.w1) (add32 a.w2 a.w3) (add32 b.w0 b.w1) (add32 b.w2 b.w3)

/-- The intrinsic `_mm_unpacklo_epi16`. -/
def mm_unpacklo_epi16 (a b : M128) : M128 := ⟨a.e0, b.e0, a.e1, b.e1, a.e2, b.e2, a.e3, b.e3⟩
/-- The intrinsic `_mm_unpackhi_epi16`. -/
def mm_unpackhi_epi16 (a b : M128) : M128 := ⟨a.e4, b.e4, a.e5, b.e5, a.e6, b.e6, a.e7, b.e7⟩
/-- The intrinsic `_mm_unpacklo_epi32`. -/
def mm_unpacklo_epi32 (a b : M128) : M128 := ⟨a.e0, a.e1, b.e0, b.e1, a.e2, a.e3, b.e2, b.e3⟩
/-- The intrinsic `_mm_unpackhi_epi32`. -/
def mm_unpackhi_epi32 (a b : M128) : M128 := ⟨a.e4, a.e5, b.e4, b.e5, a.e6, a.e7, b.e6, b.e7⟩
/-- The intrinsic `_mm_unpacklo_epi64`. -/
def mm_unpacklo_epi64 (a b : M128) : M128 := ⟨a.e0, a.e1, a.e2, a.e3, b.e0, b.e1, b.e2, b.e3⟩
/-- The intrinsic `_mm_unpackhi_epi64`. -/
def mm_unpackhi_epi64 (a b : M128) : M128 := ⟨a.e4, a.e5, a.e6, a.e7, b.e4, b.e5, b.e6, b.e7⟩

/-- The intrinsic `_mm_srli_si128( a, 8 )`: the register shifted right by eight bytes. -/
def mm_srli_si128_8 (a : M128) : M128 := ⟨a.e4, a.e5, a.e6, a.e7, 0, 0, 0, 0⟩

/-- The intrinsic `_mm_shuffle_epi32( a, 0xEE )`: the 32-bit lanes 2, 3, 2, 3 of `a`. -/
def mm_shuffle_epi32_EE (a : M128) : M128 := ⟨a.e4, a.e5, a.e6, a.e7, a.e4, a.e5, a.e6, a.e7⟩

/-- The intrinsic `_mm_cvtepi16_epi32`: the four low 16-bit lanes, sign-extended. -/
def mm_cvtepi16_epi32 (a : M128) : M128 :=
  M128.ofWords (sext16 a.e0) (sext16 a.e1) (sext16 a.e2) (sext16 a.e3)

/-- The intrinsic `_mm_cvtsi128_si32`: the bit pattern of the `int` in 32-bit lane 0. -/
def mm_cvtsi128_si32 (a : M128) : Nat := a.w0

/-! ## 256-bit registers -/

/-- An `__m256i` as its low and high 128-bit halves. -/
structure M256 where
  lo : M128
  hi : M128
  deriving DecidableEq, Repr

/-- The intrinsic `_mm256_setzero_si256`. -/
def mm256_setzero_si256 : M256 := ⟨mm_setzero_si128, mm_setzero_si128⟩

/-- The intrinsic `_mm256_lddqu_si256`: sixteen consecutive `short`s at `p`. -/
def mm256_lddqu_si256 (mem : Nat → Nat) (p : Nat) : M256 :=
  ⟨mm_loadu_si128 mem p, mm_loadu_si128 mem (p + 8)⟩

/-- The intrinsic `_mm256_add_epi16`. -/
def mm256_add_epi16 (a b : M256) : M256 := ⟨mm_add_epi16 a.lo b.lo, mm_add_epi16 a.hi b.hi⟩
/-- The intrinsic `_mm256_sub_epi16`. -/
def mm256_sub_epi16 (a b : M256) : M256 := ⟨mm_sub_epi16 a.lo b.lo, mm_sub_epi16 a.hi b.hi⟩
/-- The intrinsic `_mm256_abs_epi16`. -/
def mm256_abs_epi16 (a : M256) : M256 := ⟨mm_abs_epi16 a.lo, mm_abs_epi16 a.hi⟩
/-- The intrinsic `_mm256_add_epi32`. -/
def mm256_add_epi32 (a b : M256) : M256 := ⟨mm_add_epi32 a.lo b.lo, mm_add_epi32 a.hi b.hi⟩
/-- The intrinsic `_mm256_sub_epi32`. -/
def mm256_sub_epi32 (a b : M256) : M256 := ⟨mm_sub_epi32 a.lo b.lo, mm_sub_epi32 a.hi b.hi⟩
/-- The intrinsic `_mm256_abs_epi32`. -/
def mm256_abs_epi32 (a : M256) : M256 := ⟨mm_abs_epi32 a.lo, mm_abs_epi32 a.hi⟩
/-- The intrinsic `_mm256_hadd_epi32`, which adds within each 128-bit half. -/
def mm256_hadd_epi32 (a b : M256) : M256 := ⟨mm_hadd_epi32 a.lo b.lo, mm_hadd_epi32 a.hi b.hi⟩

/-- The intrinsic `_mm256_unpacklo_epi16`, which interleaves within each 128-bit half. -/
def mm256_unpacklo_epi16 (a b : M256) : M256 :=
  ⟨mm_unpacklo_epi16 a.lo b.lo, mm_unpacklo_epi16 a.hi b.hi⟩
/-- The intrinsic `_mm256_unpackhi_epi16`. -/
def mm256_unpackhi_epi16 (a b : M256) : M256 :=
  ⟨mm_unpackhi_epi16 a.lo b.lo, mm_unpackhi_epi16 a.hi b.hi⟩
/-- The intrinsic `_mm256_unpacklo_epi32`. -/
def mm256_unpacklo_epi32 (a b : M256) : M256 :=
  ⟨mm_unpacklo_epi32 a.lo b.lo, mm_unpacklo_epi32 a.hi b.hi⟩
/-- The intrinsic `_mm256_unpackhi_epi32`. -/
def mm256_unpackhi_epi32 (a b : M256) : M256 :=
  ⟨mm_unpackhi_epi32 a.lo b.lo, mm_unpackhi_epi32 a.hi b.hi⟩
/-- The intrinsic `_mm256_unpacklo_epi64`. -/
def mm256_unpacklo_epi64 (a b : M256) : M256 :=
  ⟨mm_unpacklo_epi64 a.lo b.lo, mm_unpacklo_epi64 a.hi b.hi⟩
/-- The intrinsic `_mm256_unpackhi_epi64`. -/
def mm256_unpackhi_epi64 (a b : M256) : M256 :=
  ⟨mm_unpackhi_epi64 a.lo b.lo, mm_unpackhi_epi64 a.hi b.hi⟩

/-- The intrinsic `_mm256_castsi256_si128`: the low half. -/
def mm256_castsi256_si128 (a : M256) : M128 := a.lo

/-- The 64-bit lane `k` (0 to 3) of a 256-bit register, as four 16-bit lanes. -/
def M256.quad (a : M256) (k : Nat) : Nat × Nat × Nat × Nat :=
  match k % 4 with
  | 0 => (a.lo.e0, a.lo.e1, a.lo.e2, a.lo.e3)
  | 1 => (a.lo.e4, a.lo.e5, a.lo.e6, a.lo.e7)
  | 2 => (a.hi.e0, a.hi.e1, a.hi.e2, a.hi.e3)
  | _ => (a.hi.e4, a.hi.e5, a.hi.e6, a.hi.e7)

/-- The 128-bit register made of two 64-bit lanes. -/
def M128.ofQuads (q r : Nat × Nat × Nat × Nat) : M128 :=
  ⟨q.1, q.2.1, q.2.2.1, q.2.2.2, r.1, r.2.1, r.2.2.1, r.2.2.2⟩

/-- The intrinsic `_mm256_permute4x64_epi64( a, imm )`: 64-bit lane `i` of the result is the
64-bit lane of `a` selected by bits `2i+1 : 2i` of `imm`. -/
def mm256_permute4x64_epi64 (a : M256) (imm : Nat) : M256 :=
  ⟨M128.ofQuads (a.quad (imm % 4)) (a.quad (imm / 4 % 4)),
   M128.ofQuads (a.quad (imm / 16 % 4)) (a.quad (imm / 64 % 4))⟩

/-- The intrinsic `_mm256_permute2x128_si256( a, a, 0x11 )`: both halves are the high half of `a`. -/
def mm256_permute2x128_si256_11 (a : M256) : M256 := ⟨a.hi, a.hi⟩

/-- The intrinsic `_mm256_cvtepi16_epi32`: the eight 16-bit lanes of a 128-bit register,
sign-extended to eight 32-bit lanes. -/
def mm256_cvtepi16_epi32 (a : M128) : M256 :=
  ⟨M128.ofWords (sext16 a.e0) (sext16 a.e1) (sext16 a.e2) (sext16 a.e3),
   M128.ofWords (sext16 a.e4) (sext16 a.e5) (sext16 a.e6) (sext16 a.e7)⟩

/-! ## Loops -/

/-- The loop `for( i = i0; i < limit; i += step ) s = body( i, s );`, run for at most `fuel`
iterations.  Every use below passes `fuel = limit` with a positive `step`, which is never
exhausted (see `forLoop_eq_loopN`). -/
def forLoop {σ : Type} : Nat → Nat → Nat → Nat → (Nat → σ → σ) → σ → σ
  | 0, _, _, _, _, s => s
  | fuel + 1, i, limit, step, body, s =>
      if i < limit then forLoop fuel (i + step) limit step body (body i s) else s

/-! ## Parameters of a distortion call -/

/-- A `CPelBuf` (`AreaBuf<const Pel>`): the memory `buf` points into, read from `buf` on, with
the stride and the size of the block. -/
structure PelBuf where
  buf : Nat → Nat
  stride : Nat
  width : Nat
  height : Nat

/-- The sample `at( x, y )` of a buffer. -/
def PelBuf.at (b : PelBuf) (x y : Nat) : Nat := b.buf (y * b.stride + x)

/-- The fields of `DistParam` read by the accelerated distortion functions. -/
structure DistParam where
  org : PelBuf
  cur : PelBuf
  step : Nat
  bitDepth : Nat
  applyWeight : Bool
  subShift : Nat

/-- The enumeration `X86_VEXT` of `CommonDefX86.h`, in its declaration order. -/
inductive X86_VEXT where
  | SCALAR
  | SSE41
  | SSE42
  | AVX
  | AVX2
  | AVX512
  deriving DecidableEq, Repr

/-- The enumerator value. -/
def X86_VEXT.toNat : X86_VEXT → Nat
  | .SCALAR => 0
  | .SSE41 => 1
  | .SSE42 => 2
  | .AVX => 3
  | .AVX2 => 4
  | .AVX512 => 5

/-- The test `vext >= AVX2`. -/
def X86_VEXT.geAVX2 (vext : X86_VEXT) : Bool := decide (X86_VEXT.AVX2.toNat ≤ vext.toNat)

/-- Modelled from the spec: the macro `DISTORTION_PRECISION_ADJUSTMENT`, whose definition is
not among the sources; the spec gives it as `max(0, bitDepth-8)`. -/
def DISTORTION_PRECISION_ADJUSTMENT (bitDepth : Nat) : Nat := bitDepth - 8

/-! ## Sum of absolute differences -/

/-- The variables a row loop of the SAD and SSE functions updates: the two row pointers and
the accumulator register. -/
structure RowState (α : Type) where
  pSrc1 : Nat
  pSrc2 : Nat
  acc : α

/-- The inner loop over `iX` of the AVX2 path of `xGetSAD_SIMD` (lines 231-237) for the row at
`pSrc1`, `pSrc2`: the 16-bit lane accumulator `vsum16` at its end. -/
def xGetSAD_SIMD_vsum16_avx2 (org cur : Nat → Nat) (pSrc1 pSrc2 iCols : Nat) : M256 :=
  forLoop iCols 0 iCols 16 (fun iX vsum16 =>
    let vsrc1 := mm256_lddqu_si256 org (pSrc1 + iX)
    let vsrc2 := mm256_lddqu_si256 cur (pSrc2 + iX)
    mm256_add_epi16 vsum16 (mm256_abs_epi16 (mm256_sub_epi16 vsrc1 vsrc2))) mm256_setzero_si256

/-- The inner loop over `iX` of the step-8 path of `xGetSAD_SIMD` (lines 255-261): the 16-bit
lane accumulator `vsum16` at its end. -/
def xGetSAD_SIMD_vsum16_step8 (org cur : Nat → Nat) (pSrc1 pSrc2 iCols : Nat) : M128 :=
  forLoop iCols 0 iCols 8 (fun iX vsum16 =>
    let vsrc1 := mm_loadu_si128 org (pSrc1 + iX)
    let vsrc2 := mm_loadu_si128 cur (pSrc2 + iX)
    mm_add_epi16 vsum16 (mm_abs_epi16 (mm_sub_epi16 vsrc1 vsrc2))) mm_setzero_si128

/-- The inner loop over `iX` of the step-4 path of `xGetSAD_SIMD` (lines 279-285): the 16-bit
lane accumulator `vsum16` at its end. -/
def xGetSAD_SIMD_vsum16_step4 (org cur : Nat → Nat) (pSrc1 pSrc2 iCols : Nat) : M128 :=
  forLoop iCols 0 iCols 4 (fun iX vsum16 =>
    let vsrc1 := mm_loadl_epi64 org (pSrc1 + iX)
    let vsrc2 := mm_loadl_epi64 cur (pSrc2 + iX)
    mm_add_epi16 vsum16 (mm_abs_epi16 (mm_sub_epi16 vsrc1 vsrc2))) mm_setzero_si128

/-- `RdCost::xGetSAD_SIMD` (lines 207-298).  `xGetSAD` is the scalar `RdCost::xGetSAD`, which
is not among the sources.  The inner loops over `iX` are the three definitions above. -/
def xGetSAD_SIMD (xGetSAD : DistParam → Except String Nat) (vext : X86_VEXT)
    (rcDtParam : DistParam) : Except String Nat :=
  if rcDtParam.org.width < 4 ∨ rcDtParam.bitDepth > 10 ∨ rcDtParam.applyWeight = true then
    xGetSAD rcDtParam
  else
    let org := rcDtParam.org.buf
    let cur := rcDtParam.cur.buf
    let iRows := rcDtParam.org.height
    let iCols := rcDtParam.org.width
    let iSubShift := rcDtParam.subShift
    let iSubStep := 1 <<< iSubShift
    let iStrideSrc1 := rcDtParam.org.stride * iSubStep
    let iStrideSrc2 := rcDtParam.cur.stride * iSubStep
    if vext.geAVX2 = true ∧ iCols &&& 15 = 0 then
      -- Do for width that multiple of 16
      let vzero := mm256_setzero_si256
      let st := forLoop iRows 0 iRows iSubStep (fun _ (st : RowState M256) =>
        let vsum16 := xGetSAD_SIMD_vsum16_avx2 org cur st.pSrc1 st.pSrc2 iCols
        let vsumtemp := mm256_add_epi32 (mm256_unpacklo_epi16 vsum16 vzero)
          (mm256_unpackhi_epi16 vsum16 vzero)
        ⟨st.pSrc1 + iStrideSrc1, st.pSrc2 + iStrideSrc2, mm256_add_epi32 st.acc vsumtemp⟩)
        ⟨0, 0, vzero⟩
      let vsum32 := mm256_hadd_epi32 st.acc vzero
      let vsum32 := mm256_hadd_epi32 vsum32 vzero
      let uiSum := add32 (mm_cvtsi128_si32 (mm256_castsi256_si128 vsum32))
        (mm_cvtsi128_si32 (mm256_castsi256_si128 (mm256_permute2x128_si256_11 vsum32)))
      let uiSum := (uiSum <<< iSubShift) % 4294967296
      .ok (uiSum >>> DISTORTION_PRECISION_ADJUSTMENT rcDtParam.bitDepth)
    else if iCols &&& 7 = 0 then
      -- Do with step of 8
      let vzero := mm_setzero_si128
      let st := forLoop iRows 0 iRows iSubStep (fun _ (st : RowState M128) =>
        let vsum16 := xGetSAD_SIMD_vsum16_step8 org cur st.pSrc1 st.pSrc2 iCols
        let vsumtemp := mm_add_epi32 (mm_unpacklo_epi16 vsum16 vzero)
          (mm_unpackhi_epi16 vsum16 vzero)
        ⟨st.pSrc1 + iStrideSrc1, st.pSrc2 + iStrideSrc2, mm_add_epi32 st.acc vsumtemp⟩)
        ⟨0, 0, vzero⟩
      let vsum32 := mm_hadd_epi32 st.acc vzero
      let vsum32 := mm_hadd_epi32 vsum32 vzero
      let uiSum := mm_cvtsi128_si32 vsum32
      let uiSum := (uiSum <<< iSubShift) % 4294967296
      .ok (uiSum >>> DISTORTION_PRECISION_ADJUSTMENT rcDtParam.bitDepth)
    else if iCols &&& 3 ≠ 0 then
      -- CHECK( ( iCols & 3 ) != 0, "Not divisible by 4: " << iCols );
      .error ("Not divisible by 4: " ++ toString iCols)
    else
      -- Do with step of 4
      let vzero := mm_setzero_si128
      let st := forLoop iRows 0 iRows iSubStep (fun _ (st : RowState M128) =>
        let vsum16 := xGetSAD_SIMD_vsum16_step4 org cur st.pSrc1 st.pSrc2 iCols
        let vsumtemp := mm_add_epi32 (mm_unpacklo_epi16 vsum16 vzero)
          (mm_unpackhi_epi16 vsum16 vzero)
        ⟨st.pSrc1 + iStrideSrc1, st.pSrc2 + iStrideSrc2, mm_add_epi32 st.acc vsumtemp⟩)
        ⟨0, 0, vzero⟩
      let vsum32 := mm_hadd_epi32 st.acc vzero
      let vsum32 := mm_hadd_epi32 vsum32 vzero
      let uiSum := mm_cvtsi128_si32 vsum32
      let uiSum := (uiSum <<< iSubShift) % 4294967296
      .ok (uiSum >>> DISTORTION_PRECISION_ADJUSTMENT rcDtParam.bitDepth)

/-- `RdCost::xGetSAD_IBD_SIMD` (lines 300-336).  The source initialises its local `width`
from `org.height` and its local `height` from `org.width`; the locals keep their names here.
`Distortion` is a 64-bit unsigned integer. -/
def xGetSAD_IBD_SIMD (xGetSAD : DistParam → Except String Nat) (_vext : X86_VEXT)
    (rcDtParam : DistParam) : Except String Nat :=
  if rcDtParam.org.width < 4 ∨ rcDtParam.bitDepth > 10 ∨ rcDtParam.applyWeight = true then
    xGetSAD rcDtParam
  else
    let org := rcDtParam.org.buf
    let cur := rcDtParam.cur.buf
    let width := rcDtParam.org.height
    let height := rcDtParam.org.width
    let subShift := rcDtParam.subShift
    let subStep := 1 <<< subShift
    let src0Stride := rcDtParam.org.stride * subStep
    let src1Stride := rcDtParam.cur.stride * subStep
    let vzero := mm_setzero_si128
    let st := forLoop height 0 height subStep (fun _ (st : RowState M128) =>
      let vtotalsum32 := forLoop width 0 width 4 (fun x vtotalsum32 =>
        let vsrc1 := mm_loadl_epi64 org (st.pSrc1 + x)
        let vsrc2 := mm_loadl_epi64 cur (st.pSrc2 + x)
        let vsrc1 := mm_cvtepi16_epi32 vsrc1
        let vsrc2 := mm_cvtepi16_epi32 vsrc2
        mm_add_epi32 vtotalsum32 (mm_abs_epi32 (mm_sub_epi32 vsrc1 vsrc2))) st.acc
      ⟨st.pSrc1 + src0Stride, st.pSrc2 + src1Stride, vtotalsum32⟩)
      ⟨0, 0, mm_setzero_si128⟩
    let vtotalsum32 := mm_hadd_epi32 st.acc vzero
    let vtotalsum32 := mm_hadd_epi32 vtotalsum32 vzero
    -- Distortion uiSum = _mm_cvtsi128_si32( vtotalsum32 ): an int converted to uint64_t
    let uiSum := (toInt32 (mm_cvtsi128_si32 vtotalsum32) % 18446744073709551616).toNat
    let uiSum := (uiSum <<< subShift) % 18446744073709551616
    .ok (uiSum >>> DISTORTION_PRECISION_ADJUSTMENT rcDtParam.bitDepth)

/-- `RdCost::xGetSAD_NxN_SIMD` (lines 338-453) for the template argument `iWidth`. -/
def xGetSAD_NxN_SIMD (xGetSAD : DistParam → Except String Nat) (iWidth : Nat) (vext : X86_VEXT)
    (rcDtParam : DistParam) : Except String Nat :=
  if rcDtParam.bitDepth > 10 ∨ rcDtParam.applyWeight = true then
    xGetSAD rcDtParam
  else
    let org := rcDtParam.org.buf
    let cur := rcDtParam.cur.buf
    let iRows := rcDtParam.org.height
    let iSubShift := rcDtParam.subShift
    let iSubStep := 1 <<< iSubShift
    let iStrideSrc1 := rcDtParam.org.stride * iSubStep
    let iStrideSrc2 := rcDtParam.cur.stride * iSubStep
    let uiSum :=
      if iWidth = 4 then
        if iRows = 4 ∧ iSubShift = 0 then
          let vzero := mm_setzero_si128
          let vsrc1 := mm_loadl_epi64 org 0
          let vsrc1 := mm_loadh_pi vsrc1 org iStrideSrc1
          let vsrc2 := mm_loadl_epi64 cur 0
          let vsrc2 := mm_loadh_pi vsrc2 cur iStrideSrc2
          let vsum := mm_abs_epi16 (mm_sub_epi16 vsrc1 vsrc2)
          let vsrc1 := mm_loadl_epi64 org (2 * iStrideSrc1)
          let vsrc1 := mm_loadh_pi vsrc1 org (3 * iStrideSrc1)
          let vsrc2 := mm_loadl_epi64 cur (2 * iStrideSrc2)
          let vsrc2 := mm_loadh_pi vsrc2 cur (3 * iStrideSrc2)
          let vsum := mm_hadd_epi16 vsum (mm_abs_epi16 (mm_sub_epi16 vsrc1 vsrc2))
          let vsum := mm_hadd_epi16 vsum vzero
          let vsum := mm_hadd_epi16 vsum vzero
          let vsum := mm_hadd_epi16 vsum vzero
          mm_cvtsi128_si32 vsum
        else
          let vzero := mm_setzero_si128
          let st := forLoop iRows 0 iRows iSubStep (fun _ (st : RowState M128) =>
            let vsum16 := vzero
            let vsrc1 := mm_loadl_epi64 org st.pSrc1
            let vsrc2 := mm_loadl_epi64 cur st.pSrc2
            let vsum16 := mm_add_epi16 vsum16 (mm_abs_epi16 (mm_sub_epi16 vsrc1 vsrc2))
            let vsumtemp := mm_add_epi32 (mm_unpacklo_epi16 vsum16 vzero)
              (mm_unpackhi_epi16 vsum16 vzero)
            ⟨st.pSrc1 + iStrideSrc1, st.pSrc2 + iStrideSrc2, mm_add_epi32 st.acc vsumtemp⟩)
            ⟨0, 0, vzero⟩
          let vsum32 := mm_hadd_epi32 st.acc vzero
          let vsum32 := mm_hadd_epi32 vsum32 vzero
          mm_cvtsi128_si32 vsum32
      else if vext.geAVX2 = true ∧ iWidth ≥ 16 then
        -- Do for width that multiple of 16
        let vzero := mm256_setzero_si256
        let st := forLoop iRows 0 iRows iSubStep (fun _ (st : RowState M256) =>
          let vsum16 := forLoop iWidth 0 iWidth 16 (fun iX vsum16 =>
            let vsrc1 := mm256_lddqu_si256 org (st.pSrc1 + iX)
            let vsrc2 := mm256_lddqu_si256 cur (st.pSrc2 + iX)
            mm256_add_epi16 vsum16 (mm256_abs_epi16 (mm256_sub_epi16 vsrc1 vsrc2))) vzero
          let vsumtemp := mm256_add_epi32 (mm256_unpacklo_epi16 vsum16 vzero)
            (mm256_unpackhi_epi16 vsum16 vzero)
          ⟨st.pSrc1 + iStrideSrc1, st.pSrc2 + iStrideSrc2, mm256_add_epi32 st.acc vsumtemp⟩)
          ⟨0, 0, vzero⟩
        let vsum32 := mm256_hadd_epi32 st.acc vzero
        let vsum32 := mm256_hadd_epi32 vsum32 vzero
        add32 (mm_cvtsi128_si32 (mm256_castsi256_si128 vsum32))
          (mm_cvtsi128_si32 (mm256_castsi256_si128 (mm256_permute2x128_si256_11 vsum32)))
      else
        -- For width that multiple of 8
        let vzero := mm_setzero_si128
        let st := forLoop iRows 0 iRows iSubStep (fun _ (st : RowState M128) =>
          let vsum16 := forLoop iWidth 0 iWidth 8 (fun iX vsum16 =>
            let vsrc1 := mm_loadu_si128 org (st.pSrc1 + iX)
            let vsrc2 := mm_loadu_si128 cur (st.pSrc2 + iX)
            mm_add_epi16 vsum16 (mm_abs_epi16 (mm_sub_epi16 vsrc1 vsrc2))) vzero
          let vsumtemp := mm_add_epi32 (mm_unpacklo_epi16 vsum16 vzero)
            (mm_unpackhi_epi16 vsum16 vzero)
          ⟨st.pSrc1 + iStrideSrc1, st.pSrc2 + iStrideSrc2, mm_add_epi32 st.acc vsumtemp⟩)
          ⟨0, 0, vzero⟩
        let vsum32 := mm_hadd_epi32 st.acc vzero
        let vsum32 := mm_hadd_epi32 vsum32 vzero
        mm_cvtsi128_si32 vsum32
    let uiSum := (uiSum <<< iSubShift) % 4294967296
    .ok (uiSum >>> DISTORTION_PRECISION_ADJUSTMENT rcDtParam.bitDepth)

/-! ## Sum of squared errors -/

/-- Eight registers: the contents of an array `m1[8]` or `m2[8]`. -/
structure Regs8 (α : Type) where
  r0 : α
  r1 : α
  r2 : α
  r3 : α
  r4 : α
  r5 : α
  r6 : α
  r7 : α

/-- The load loop of `xCalcHAD8x8_SSE` (lines 546-553): `m2[k]` is row `k` of `org - cur`. -/
def xCalcHAD8x8_SSE_load (org cur : Nat → Nat) (piOrg piCur iStrideOrg iStrideCur : Nat) :
    Regs8 M128 :=
  let m2_0 := mm_sub_epi16 (mm_loadu_si128 org piOrg) (mm_loadu_si128 cur piCur)
  let m2_1 := mm_sub_epi16 (mm_loadu_si128 org (piOrg + 1 * iStrideOrg)) (mm_loadu_si128 cur (piCur + 1 * iStrideCur))
  let m2_2 := mm_sub_epi16 (mm_loadu_si128 org (piOrg + 2 * iStrideOrg)) (mm_loadu_si128 cur (piCur + 2 * iStrideCur))
  let m2_3 := mm_sub_epi16 (mm_loadu_si128 org (piOrg + 3 * iStrideOrg)) (mm_loadu_si128 cur (piCur + 3 * iStrideCur))
  let m2_4 := mm_sub_epi16 (mm_loadu_si128 org (piOrg + 4 * iStrideOrg)) (mm_loadu_si128 cur (piCur + 4 * iStrideCur))
  let m2_5 := mm_sub_epi16 (mm_loadu_si128 org (piOrg + 5 * iStrideOrg)) (mm_loadu_si128 cur (piCur + 5 * iStrideCur))
  let m2_6 := mm_sub_epi16 (mm_loadu_si128 org (piOrg + 6 * iStrideOrg)) (mm_loadu_si128 cur (piCur + 6 * iStrideCur))
  let m2_7 := mm_sub_epi16 (mm_loadu_si128 org (piOrg + 7 * iStrideOrg)) (mm_loadu_si128 cur (piCur + 7 * iStrideCur))
  ⟨m2_0, m2_1, m2_2, m2_3, m2_4, m2_5, m2_6, m2_7⟩

/-- The horizontal transform and the transpose of `xCalcHAD8x8_SSE` (lines 555-610). -/
def xCalcHAD8x8_SSE_horizontal (m2 : Regs8 M128) : Regs8 M128 :=
  let m2_0 := m2.r0
  let m2_1 := m2.r1
  let m2_2 := m2.r2
  let m2_3 := m2.r3
  let m2_4 := m2.r4
  let m2_5 := m2.r5
  let m2_6 := m2.r6
  let m2_7 := m2.r7
  let m1_0 := mm_add_epi16 m2_0 m2_4
  let m1_1 := mm_add_epi16 m2_1 m2_5
  let m1_2 := mm_add_epi16 m2_2 m2_6
  let m1_3 := mm_add_epi16 m2_3 m2_7
  let m1_4 := mm_sub_epi16 m2_0 m2_4
  let m1_5 := mm_sub_epi16 m2_1 m2_5
  let m1_6 := mm_sub_epi16 m2_2 m2_6
  let m1_7 := mm_sub_epi16 m2_3 m2_7
  let m2_0 := mm_add_epi16 m1_0 m1_2
  let m2_1 := mm_add_epi16 m1_1 m1_3
  let m2_2 := mm_sub_epi16 m1_0 m1_2
  let m2_3 := mm_sub_epi16 m1_1 m1_3
  let m2_4 := mm_add_epi16 m1_4 m1_6
  let m2_5 := mm_add_epi16 m1_5 m1_7
  let m2_6 := mm_sub_epi16 m1_4 m1_6
  let m2_7 := mm_sub_epi16 m1_5 m1_7
  let m1_0 := mm_add_epi16 m2_0 m2_1
  let m1_1 := mm_sub_epi16 m2_0 m2_1
  let m1_2 := mm_add_epi16 m2_2 m2_3
  let m1_3 := mm_sub_epi16 m2_2 m2_3
  let m1_4 := mm_add_epi16 m2_4 m2_5
  let m1_5 := mm_sub_epi16 m2_4 m2_5
  let m1_6 := mm_add_epi16 m2_6 m2_7
  let m1_7 := mm_sub_epi16 m2_6 m2_7
  let m2_0 := mm_unpacklo_epi16 m1_0 m1_1
  let m2_1 := mm_unpacklo_epi16 m1_2 m1_3
  let m2_2 := mm_unpacklo_epi16 m1_4 m1_5
  let m2_3 := mm_unpacklo_epi16 m1_6 m1_7
  let m2_4 := mm_unpackhi_epi16 m1_0 m1_1
  let m2_5 := mm_unpackhi_epi16 m1_2 m1_3
  let m2_6 := mm_unpackhi_epi16 m1_4 m1_5
  let m2_7 := mm_unpackhi_epi16 m1_6 m1_7
  let m1_0 := mm_unpacklo_epi32 m2_0 m2_1
  let m1_1 := mm_unpackhi_epi32 m2_0 m2_1
  let m1_2 := mm_unpacklo_epi32 m2_2 m2_3
  let m1_3 := mm_unpackhi_epi32 m2_2 m2_3
  let m1_4 := mm_unpacklo_epi32 m2_4 m2_5
  let m1_5 := mm_unpackhi_epi32 m2_4 m2_5
  let m1_6 := mm_unpacklo_epi32 m2_6 m2_7
  let m1_7 := mm_unpackhi_epi32 m2_6 m2_7
  let m2_0 := mm_unpacklo_epi64 m1_0 m1_2
  let m2_1 := mm_unpackhi_epi64 m1_0 m1_2
  let m2_2 := mm_unpacklo_epi64 m1_1 m1_3
  let m2_3 := mm_unpackhi_epi64 m1_1 m1_3
  let m2_4 := mm_unpacklo_epi64 m1_4 m1_6
  let m2_5 := mm_unpackhi_epi64 m1_4 m1_6
  let m2_6 := mm_unpacklo_epi64 m1_5 m1_7
  let m2_7 := mm_unpackhi_epi64 m1_5 m1_7
  ⟨m2_0, m2_1, m2_2, m2_3, m2_4, m2_5, m2_6, m2_7⟩

/-- The vertical transform of `xCalcHAD8x8_SSE` for `iBitDepth >= 10` (lines 613-657), in 32-bit
lanes; it leaves the absolute values, added in pairs, in `m1`. -/
def xCalcHAD8x8_SSE_vertical32 (m2 : Regs8 M128) : Regs8 M128 :=
  let m2_0 := m2.r0
  let m2_1 := m2.r1
  let m2_2 := m2.r2
  let m2_3 := m2.r3
  let m2_4 := m2.r4
  let m2_5 := m2.r5
  let m2_6 := m2.r6
  let m2_7 := m2.r7
  let n2_0_0 := mm_cvtepi16_epi32 m2_0
  let n2_0_1 := mm_cvtepi16_epi32 (mm_shuffle_epi32_EE m2_0)
  let n2_1_0 := mm_cvtepi16_epi32 m2_1
  let n2_1_1 := mm_cvtepi16_epi32 (mm_shuffle_epi32_EE m2_1)
  let n2_2_0 := mm_cvtepi16_epi32 m2_2
  let n2_2_1 := mm_cvtepi16_epi32 (mm_shuffle_epi32_EE m2_2)
  let n2_3_0 := mm_cvtepi16_epi32 m2_3
  let n2_3_1 := mm_cvtepi16_epi32 (mm_shuffle_epi32_EE m2_3)
  let n2_4_0 := mm_cvtepi16_epi32 m2_4
  let n2_4_1 := mm_cvtepi16_epi32 (mm_shuffle_epi32_EE m2_4)
  let n2_5_0 := mm_cvtepi16_epi32 m2_5
  let n2_5_1 := mm_cvtepi16_epi32 (mm_shuffle_epi32_EE m2_5)
  let n2_6_0 := mm_cvtepi16_epi32 m2_6
  let n2_6_1 := mm_cvtepi16_epi32 (mm_shuffle_epi32_EE m2_6)
  let n2_7_0 := mm_cvtepi16_epi32 m2_7
  let n2_7_1 := mm_cvtepi16_epi32 (mm_shuffle_epi32_EE m2_7)
  let n1_0_0 := mm_add_epi32 n2_0_0 n2_4_0
  let n1_1_0 := mm_add_epi32 n2_1_0 n2_5_0
  let n1_2_0 := mm_add_epi32 n2_2_0 n2_6_0
  let n1_3_0 := mm_add_epi32 n2_3_0 n2_7_0
  let n1_4_0 := mm_sub_epi32 n2_0_0 n2_4_0
  let n1_5_0 := mm_sub_epi32 n2_1_0 n2_5_0
  let n1_6_0 := mm_sub_epi32 n2_2_0 n2_6_0
  let n1_7_0 := mm_sub_epi32 n2_3_0 n2_7_0
  let n2_0_0 := mm_add_epi32 n1_0_0 n1_2_0
  let n2_1_0 := mm_add_epi32 n1_1_0 n1_3_0
  let n2_2_0 := mm_sub_epi32 n1_0_0 n1_2_0
  let n2_3_0 := mm_sub_epi32 n1_1_0 n1_3_0
  let n2_4_0 := mm_add_epi32 n1_4_0 n1_6_0
  let n2_5_0 := mm_add_epi32 n1_5_0 n1_7_0
  let n2_6_0 := mm_sub_epi32 n1_4_0 n1_6_0
  let n2_7_0 := mm_sub_epi32 n1_5_0 n1_7_0
  let n1_0_0 := mm_abs_epi32 (mm_add_epi32 n2_0_0 n2_1_0)
  let n1_1_0 := mm_abs_epi32 (mm_sub_epi32 n2_0_0 n2_1_0)
  let n1_2_0 := mm_abs_epi32 (mm_add_epi32 n2_2_0 n2_3_0)
  let n1_3_0 := mm_abs_epi32 (mm_sub_epi32 n2_2_0 n2_3_0)
  let n1_4_0 := mm_abs_epi32 (mm_add_epi32 n2_4_0 n2_5_0)
  let n1_5_0 := mm_abs_epi32 (mm_sub_epi32 n2_4_0 n2_5_0)
  let n1_6_0 := mm_abs_epi32 (mm_add_epi32 n2_6_0 n2_7_0)
  let n1_7_0 := mm_abs_epi32 (mm_sub_epi32 n2_6_0 n2_7_0)
  let n1_0_1 := mm_add_epi32 n2_0_1 n2_4_1
  let n1_1_1 := mm_add_epi32 n2_1_1 n2_5_1
  let n1_2_1 := mm_add_epi32 n2_2_1 n2_6_1
  let n1_3_1 := mm_add_epi32 n2_3_1 n2_7_1
  let n1_4_1 := mm_sub_epi32 n2_0_1 n2_4_1
  let n1_5_1 := mm_sub_epi32 n2_1_1 n2_5_1
  let n1_6_1 := mm_sub_epi32 n2_2_1 n2_6_1
  let n1_7_1 := mm_sub_epi32 n2_3_1 n2_7_1
  let n2_0_1 := mm_add_epi32 n1_0_1 n1_2_1
  let n2_1_1 := mm_add_epi32 n1_1_1 n1_3_1
  let n2_2_1 := mm_sub_epi32 n1_0_1 n1_2_1
  let n2_3_1 := mm_sub_epi32 n1_1_1 n1_3_1
  let n2_4_1 := mm_add_epi32 n1_4_1 n1_6_1
  let n2_5_1 := mm_add_epi32 n1_5_1 n1_7_1
  let n2_6_1 := mm_sub_epi32 n1_4_1 n1_6_1
  let n2_7_1 := mm_sub_epi32 n1_5_1 n1_7_1
  let n1_0_1 := mm_abs_epi32 (mm_add_epi32 n2_0_1 n2_1_1)
  let n1_1_1 := mm_abs_epi32 (mm_sub_epi32 n2_0_1 n2_1_1)
  let n1_2_1 := mm_abs_epi32 (mm_add_epi32 n2_2_1 n2_3_1)
  let n1_3_1 := mm_abs_epi32 (mm_sub_epi32 n2_2_1 n2_3_1)
  let n1_4_1 := mm_abs_epi32 (mm_add_epi32 n2_4_1 n2_5_1)
  let n1_5_1 := mm_abs_epi32 (mm_sub_epi32 n2_4_1 n2_5_1)
  let n1_6_1 := mm_abs_epi32 (mm_add_epi32 n2_6_1 n2_7_1)
  let n1_7_1 := mm_abs_epi32 (mm_sub_epi32 n2_6_1 n2_7_1)
  let m1_0 := mm_add_epi32 n1_0_0 n1_0_1
  let m1_1 := mm_add_epi32 n1_1_0 n1_1_1
  let m1_2 := mm_add_epi32 n1_2_0 n1_2_1
  let m1_3 := mm_add_epi32 n1_3_0 n1_3_1
  let m1_4 := mm_add_epi32 n1_4_0 n1_4_1
  let m1_5 := mm_add_epi32 n1_5_0 n1_5_1
  let m1_6 := mm_add_epi32 n1_6_0 n1_6_1
  let m1_7 := mm_add_epi32 n1_7_0 n1_7_1
  ⟨m1_0, m1_1, m1_2, m1_3, m1_4, m1_5, m1_6, m1_7⟩

/-- The vertical transform of `xCalcHAD8x8_SSE` for `iBitDepth < 10` (lines 659-696), in 16-bit
lanes; it leaves the absolute values, widened to 32 bits and added in pairs, in `m1`. -/
def xCalcHAD8x8_SSE_vertical16 (m2 : Regs8 M128) : Regs8 M128 :=
  let m2_0 := m2.r0
  let m2_1 := m2.r1
  let m2_2 := m2.r2
  let m2_3 := m2.r3
  let m2_4 := m2.r4
  let m2_5 := m2.r5
  let m2_6 := m2.r6
  let m2_7 := m2.r7
  let m1_0 := mm_add_epi16 m2_0 m2_4
  let m1_1 := mm_add_epi16 m2_1 m2_5
  let m1_2 := mm_add_epi16 m2_2 m2_6
  let m1_3 := mm_add_epi16 m2_3 m2_7
  let m1_4 := mm_sub_epi16 m2_0 m2_4
  let m1_5 := mm_sub_epi16 m2_1 m2_5
  let m1_6 := mm_sub_epi16 m2_2 m2_6
  let m1_7 := mm_sub_epi16 m2_3 m2_7
  let m2_0 := mm_add_epi16 m1_0 m1_2
  let m2_1 := mm_add_epi16 m1_1 m1_3
  let m2_2 := mm_sub_epi16 m1_0 m1_2
  let m2_3 := mm_sub_epi16 m1_1 m1_3
  let m2_4 := mm_add_epi16 m1_4 m1_6
  let m2_5 := mm_add_epi16 m1_5 m1_7
  let m2_6 := mm_sub_epi16 m1_4 m1_6
  let m2_7 := mm_sub_epi16 m1_5 m1_7
  let m1_0 := mm_abs_epi16 (mm_add_epi16 m2_0 m2_1)
  let m1_1 := mm_abs_epi16 (mm_sub_epi16 m2_0 m2_1)
  let m1_2 := mm_abs_epi16 (mm_add_epi16 m2_2 m2_3)
  let m1_3 := mm_abs_epi16 (mm_sub_epi16 m2_2 m2_3)
  let m1_4 := mm_abs_epi16 (mm_add_epi16 m2_4 m2_5)
  let m1_5 := mm_abs_epi16 (mm_sub_epi16 m2_4 m2_5)
  let m1_6 := mm_abs_epi16 (mm_add_epi16 m2_6 m2_7)
  let m1_7 := mm_abs_epi16 (mm_sub_epi16 m2_6 m2_7)
  let vzero := mm_setzero_si128
  let ma1 := mm_unpacklo_epi16 m1_0 vzero
  let ma2 := mm_unpackhi_epi16 m1_0 vzero
  let m1_0 := mm_add_epi32 ma1 ma2
  let ma1 := mm_unpacklo_epi16 m1_1 vzero
  let ma2 := mm_unpackhi_epi16 m1_1 vzero
  let m1_1 := mm_add_epi32 ma1 ma2
  let ma1 := mm_unpacklo_epi16 m1_2 vzero
  let ma2 := mm_unpackhi_epi16 m1_2 vzero
  let m1_2 := mm_add_epi32 ma1 ma2
  let ma1 := mm_unpacklo_epi16 m1_3 vzero
  let ma2 := mm_unpackhi_epi16 m1_3 vzero
  let m1_3 := mm_add_epi32 ma1 ma2
  let ma1 := mm_unpacklo_epi16 m1_4 vzero
  let ma2 := mm_unpackhi_epi16 m1_4 vzero
  let m1_4 := mm_add_epi32 ma1 ma2
  let ma1 := mm_unpacklo_epi16 m1_5 vzero
  let ma2 := mm_unpackhi_epi16 m1_5 vzero
  let m1_5 := mm_add_epi32 ma1 ma2
  let ma1 := mm_unpacklo_epi16 m1_6 vzero
  let ma2 := mm_unpackhi_epi16 m1_6 vzero
  let m1_6 := mm_add_epi32 ma1 ma2
  let ma1 := mm_unpacklo_epi16 m1_7 vzero
  let ma2 := mm_unpackhi_epi16 m1_7 vzero
  let m1_7 := mm_add_epi32 ma1 ma2
  ⟨m1_0, m1_1, m1_2, m1_3, m1_4, m1_5, m1_6, m1_7⟩

/-- The final sum of `xCalcHAD8x8_SSE` (lines 699-714). -/
def xCalcHAD8x8_SSE_sum (m1 : Regs8 M128) : Nat :=
  let m1_0 := m1.r0
  let m1_1 := m1.r1
  let m1_2 := m1.r2
  let m1_3 := m1.r3
  let m1_4 := m1.r4
  let m1_5 := m1.r5
  let m1_6 := m1.r6
  let m1_7 := m1.r7
  let m1_0 := mm_add_epi32 m1_0 m1_1
  let m1_2 := mm_add_epi32 m1_2 m1_3
  let m1_4 := mm_add_epi32 m1_4 m1_5
  let m1_6 := mm_add_epi32 m1_6 m1_7
  let m1_0 := mm_add_epi32 m1_0 m1_2
  let m1_4 := mm_add_epi32 m1_4 m1_6
  let iSum := mm_add_epi32 m1_0 m1_4
  let iSum := mm_hadd_epi32 iSum iSum
  let iSum := mm_hadd_epi32 iSum iSum
  let sad := mm_cvtsi128_si32 iSum
  let sad := ((sad + 2) % 4294967296) >>> 2
  sad

/-- `xCalcHAD8x8_SSE` (lines 540-715). -/
def xCalcHAD8x8_SSE (org cur : Nat → Nat) (piOrg piCur iStrideOrg iStrideCur iBitDepth : Nat) :
    Nat :=
  let m2 := xCalcHAD8x8_SSE_load org cur piOrg piCur iStrideOrg iStrideCur
  let m2 := xCalcHAD8x8_SSE_horizontal m2
  let m1 := if iBitDepth ≥ 10 then xCalcHAD8x8_SSE_vertical32 m2
    else xCalcHAD8x8_SSE_vertical16 m2
  xCalcHAD8x8_SSE_sum m1

/-- The load loop of one pass of `xCalcHAD16x16_AVX2` (lines 1601-1608): `m2[k]` is row `k` of
`org - cur`, sixteen samples wide. -/
def xCalcHAD16x16_AVX2_load (org cur : Nat → Nat) (piOrg piCur iStrideOrg iStrideCur : Nat) :
    Regs8 M256 :=
  let m2_0 := mm256_sub_epi16 (mm256_lddqu_si256 org piOrg) (mm256_lddqu_si256 cur piCur)
  let m2_1 := mm256_sub_epi16 (mm256_lddqu_si256 org (piOrg + 1 * iStrideOrg)) (mm256_lddqu_si256 cur (piCur + 1 * iStrideCur))
  let m2_2 := mm256_sub_epi16 (mm256_lddqu_si256 org (piOrg + 2 * iStrideOrg)) (mm256_lddqu_si256 cur (piCur + 2 * iStrideCur))
  let m2_3 := mm256_sub_epi16 (mm256_lddqu_si256 org (piOrg + 3 * iStrideOrg)) (mm256_lddqu_si256 cur (piCur + 3 * iStrideCur))
  let m2_4 := mm256_sub_epi16 (mm256_lddqu_si256 org (piOrg + 4 * iStrideOrg)) (mm256_lddqu_si256 cur (piCur + 4 * iStrideCur))
  let m2_5 := mm256_sub_epi16 (mm256_lddqu_si256 org (piOrg + 5 * iStrideOrg)) (mm256_lddqu_si256 cur (piCur + 5 * iStrideCur))
  let m2_6 := mm256_sub_epi16 (mm256_lddqu_si256 org (piOrg + 6 * iStrideOrg)) (mm256_lddqu_si256 cur (piCur + 6 * iStrideCur))
  let m2_7 := mm256_sub_epi16 (mm256_lddqu_si256 org (piOrg + 7 * iStrideOrg)) (mm256_lddqu_si256 cur (piCur + 7 * iStrideCur))
  ⟨m2_0, m2_1, m2_2, m2_3, m2_4, m2_5, m2_6, m2_7⟩

/-- The horizontal transform and the transpose of two 8x8 blocks in parallel of
`xCalcHAD16x16_AVX2` (lines 1611-1667). -/
def xCalcHAD16x16_AVX2_horizontal (m2 : Regs8 M256) : Regs8 M256 :=
  let m2_0 := m2.r0
  let m2_1 := m2.r1
  let m2_2 := m2.r2
  let m2_3 := m2.r3
  let m2_4 := m2.r4
  let m2_5 := m2.r5
  let m2_6 := m2.r6
  let m2_7 := m2.r7
  let m1_0 := mm256_add_epi16 m2_0 m2_4
  let m1_1 := mm256_add_epi16 m2_1 m2_5
  let m1_2 := mm256_add_epi16 m2_2 m2_6
  let m1_3 := mm256_add_epi16 m2_3 m2_7
  let m1_4 := mm256_sub_epi16 m2_0 m2_4
  let m1_5 := mm256_sub_epi16 m2_1 m2_5
  let m1_6 := mm256_sub_epi16 m2_2 m2_6
  let m1_7 := mm256_sub_epi16 m2_3 m2_7
  let m2_0 := mm256_add_epi16 m1_0 m1_2
  let m2_1 := mm256_add_epi16 m1_1 m1_3
  let m2_2 := mm256_sub_epi16 m1_0 m1_2
  let m2_3 := mm256_sub_epi16 m1_1 m1_3
  let m2_4 := mm256_add_epi16 m1_4 m1_6
  let m2_5 := mm256_add_epi16 m1_5 m1_7
  let m2_6 := mm256_sub_epi16 m1_4 m1_6
  let m2_7 := mm256_sub_epi16 m1_5 m1_7
  let m1_0 := mm256_add_epi16 m2_0 m2_1
  let m1_1 := mm256_sub_epi16 m2_0 m2_1
  let m1_2 := mm256_add_epi16 m2_2 m2_3
  let m1_3 := mm256_sub_epi16 m2_2 m2_3
  let m1_4 := mm256_add_epi16 m2_4 m2_5
  let m1_5 := mm256_sub_epi16 m2_4 m2_5
  let m1_6 := mm256_add_epi16 m2_6 m2_7
  let m1_7 := mm256_sub_epi16 m2_6 m2_7
  -- transpose 2 8x8 blocks in parallel
  let m2_0 := mm256_unpacklo_epi16 m1_0 m1_1
  let m2_1 := mm256_unpacklo_epi16 m1_2 m1_3
  let m2_2 := mm256_unpacklo_epi16 m1_4 m1_5
  let m2_3 := mm256_unpacklo_epi16 m1_6 m1_7
  let m2_4 := mm256_unpackhi_epi16 m1_0 m1_1
  let m2_5 := mm256_unpackhi_epi16 m1_2 m1_3
  let m2_6 := mm256_unpackhi_epi16 m1_4 m1_5
  let m2_7 := mm256_unpackhi_epi16 m1_6 m1_7
  let m1_0 := mm256_unpacklo_epi32 m2_0 m2_1
  let m1_1 := mm256_unpackhi_epi32 m2_0 m2_1
  let m1_2 := mm256_unpacklo_epi32 m2_2 m2_3
  let m1_3 := mm256_unpackhi_epi32 m2_2 m2_3
  let m1_4 := mm256_unpacklo_epi32 m2_4 m2_5
  let m1_5 := mm256_unpackhi_epi32 m2_4 m2_5
  let m1_6 := mm256_unpacklo_epi32 m2_6 m2_7
  let m1_7 := mm256_unpackhi_epi32 m2_6 m2_7
  let m2_0 := mm256_unpacklo_epi64 m1_0 m1_2
  let m2_1 := mm256_unpackhi_epi64 m1_0 m1_2
  let m2_2 := mm256_unpacklo_epi64 m1_1 m1_3
  let m2_3 := mm256_unpackhi_epi64 m1_1 m1_3
  let m2_4 := mm256_unpacklo_epi64 m1_4 m1_6
  let m2_5 := mm256_unpackhi_epi64 m1_4 m1_6
  let m2_6 := mm256_unpacklo_epi64 m1_5 m1_7
  let m2_7 := mm256_unpackhi_epi64 m1_5 m1_7
  ⟨m2_0, m2_1, m2_2, m2_3, m2_4, m2_5, m2_6, m2_7⟩

/-- The vertical transform of `xCalcHAD16x16_AVX2` for `iBitDepth >= 10` (lines 1670-1714). -/
def xCalcHAD16x16_AVX2_vertical32 (m2 : Regs8 M256) : Regs8 M256 :=
  let m2_0 := m2.r0
  let m2_1 := m2.r1
  let m2_2 := m2.r2
  let m2_3 := m2.r3
  let m2_4 := m2.r4
  let m2_5 := m2.r5
  let m2_6 := m2.r6
  let m2_7 := m2.r7
  let n2_0_0 := mm256_cvtepi16_epi32 (mm256_castsi256_si128 (mm256_permute4x64_epi64 m2_0 0xD8))
  let n2_0_1 := mm256_cvtepi16_epi32 (mm256_castsi256_si128 (mm256_permute4x64_epi64 m2_0 0x8D))
  let n2_1_0 := mm256_cvtepi16_epi32 (mm256_castsi256_si128 (mm256_permute4x64_epi64 m2_1 0xD8))
  let n2_1_1 := mm256_cvtepi16_epi32 (mm256_castsi256_si128 (mm256_permute4x64_epi64 m2_1 0x8D))
  let n2_2_0 := mm256_cvtepi16_epi32 (mm256_castsi256_si128 (mm256_permute4x64_epi64 m2_2 0xD8))
  let n2_2_1 := mm256_cvtepi16_epi32 (mm256_castsi256_si128 (mm256_permute4x64_epi64 m2_2 0x8D))
  let n2_3_0 := mm256_cvtepi16_epi32 (mm256_castsi256_si128 (mm256_permute4x64_epi64 m2_3 0xD8))
  let n2_3_1 := mm256_cvtepi16_epi32 (mm256_castsi256_si128 (mm256_permute4x64_epi64 m2_3 0x8D))
  let n2_4_0 := mm256_cvtepi16_epi32 (mm256_castsi256_si128 (mm256_permute4x64_epi64 m2_4 0xD8))
  let n2_4_1 := mm256_cvtepi16_epi32 (mm256_castsi256_si128 (mm256_permute4x64_epi64 m2_4 0x8D))
  let n2_5_0 := mm256_cvtepi16_epi32 (mm256_castsi256_si128 (mm256_permute4x64_epi64 m2_5 0xD8))
  let n2_5_1 := mm256_cvtepi16_epi32 (mm256_castsi256_si128 (mm256_permute4x64_epi64 m2_5 0x8D))
  let n2_6_0 := mm256_cvtepi16_epi32 (mm256_castsi256_si128 (mm256_permute4x64_epi64 m2_6 0xD8))
  let n2_6_1 := mm256_cvtepi16_epi32 (mm256_castsi256_si128 (mm256_permute4x64_epi64 m2_6 0x8D))
  let n2_7_0 := mm256_cvtepi16_epi32 (mm256_castsi256_si128 (mm256_permute4x64_epi64 m2_7 0xD8))
  let n2_7_1 := mm256_cvtepi16_epi32 (mm256_castsi256_si128 (mm256_permute4x64_epi64 m2_7 0x8D))
  let n1_0_0 := mm256_add_epi32 n2_0_0 n2_4_0
  let n1_1_0 := mm256_add_epi32 n2_1_0 n2_5_0
  let n1_2_0 := mm256_add_epi32 n2_2_0 n2_6_0
  let n1_3_0 := mm256_add_epi32 n2_3_0 n2_7_0
  let n1_4_0 := mm256_sub_epi32 n2_0_0 n2_4_0
  let n1_5_0 := mm256_sub_epi32 n2_1_0 n2_5_0
  let n1_6_0 := mm256_sub_epi32 n2_2_0 n2_6_0
  let n1_7_0 := mm256_sub_epi32 n2_3_0 n2_7_0
  let n2_0_0 := mm256_add_epi32 n1_0_0 n1_2_0
  let n2_1_0 := mm256_add_epi32 n1_1_0 n1_3_0
  let n2_2_0 := mm256_sub_epi32 n1_0_0 n1_2_0
  let n2_3_0 := mm256_sub_epi32 n1_1_0 n1_3_0
  let n2_4_0 := mm256_add_epi32 n1_4_0 n1_6_0
  let n2_5_0 := mm256_add_epi32 n1_5_0 n1_7_0
  let n2_6_0 := mm256_sub_epi32 n1_4_0 n1_6_0
  let n2_7_0 := mm256_sub_epi32 n1_5_0 n1_7_0
  let n1_0_0 := mm256_abs_epi32 (mm256_add_epi32 n2_0_0 n2_1_0)
  let n1_1_0 := mm256_abs_epi32 (mm256_sub_epi32 n2_0_0 n2_1_0)
  let n1_2_0 := mm256_abs_epi32 (mm256_add_epi32 n2_2_0 n2_3_0)
  let n1_3_0 := mm256_abs_epi32 (mm256_sub_epi32 n2_2_0 n2_3_0)
  let n1_4_0 := mm256_abs_epi32 (mm256_add_epi32 n2_4_0 n2_5_0)
  let n1_5_0 := mm256_abs_epi32 (mm256_sub_epi32 n2_4_0 n2_5_0)
  let n1_6_0 := mm256_abs_epi32 (mm256_add_epi32 n2_6_0 n2_7_0)
  let n1_7_0 := mm256_abs_epi32 (mm256_sub_epi32 n2_6_0 n2_7_0)
  let n1_0_1 := mm256_add_epi32 n2_0_1 n2_4_1
  let n1_1_1 := mm256_add_epi32 n2_1_1 n2_5_1
  let n1_2_1 := mm256_add_epi32 n2_2_1 n2_6_1
  let n1_3_1 := mm256_add_epi32 n2_3_1 n2_7_1
  let n1_4_1 := mm256_sub_epi32 n2_0_1 n2_4_1
  let n1_5_1 := mm256_sub_epi32 n2_1_1 n2_5_1
  let n1_6_1 := mm256_sub_epi32 n2_2_1 n2_6_1
  let n1_7_1 := mm256_sub_epi32 n2_3_1 n2_7_1
  let n2_0_1 := mm256_add_epi32 n1_0_1 n1_2_1
  let n2_1_1 := mm256_add_epi32 n1_1_1 n1_3_1
  let n2_2_1 := mm256_sub_epi32 n1_0_1 n1_2_1
  let n2_3_1 := mm256_sub_epi32 n1_1_1 n1_3_1
  let n2_4_1 := mm256_add_epi32 n1_4_1 n1_6_1
  let n2_5_1 := mm256_add_epi32 n1_5_1 n1_7_1
  let n2_6_1 := mm256_sub_epi32 n1_4_1 n1_6_1
  let n2_7_1 := mm256_sub_epi32 n1_5_1 n1_7_1
  let n1_0_1 := mm256_abs_epi32 (mm256_add_epi32 n2_0_1 n2_1_1)
  let n1_1_1 := mm256_abs_epi32 (mm256_sub_epi32 n2_0_1 n2_1_1)
  let n1_2_1 := mm256_abs_epi32 (mm256_add_epi32 n2_2_1 n2_3_1)
  let n1_3_1 := mm256_abs_epi32 (mm256_sub_epi32 n2_2_1 n2_3_1)
  let n1_4_1 := mm256_abs_epi32 (mm256_add_epi32 n2_4_1 n2_5_1)
  let n1_5_1 := mm256_abs_epi32 (mm256_sub_epi32 n2_4_1 n2_5_1)
  let n1_6_1 := mm256_abs_epi32 (mm256_add_epi32 n2_6_1 n2_7_1)
  let n1_7_1 := mm256_abs_epi32 (mm256_sub_epi32 n2_6_1 n2_7_1)
  let m1_0 := mm256_add_epi32 n1_0_0 n1_0_1
  let m1_1 := mm256_add_epi32 n1_1_0 n1_1_1
  let m1_2 := mm256_add_epi32 n1_2_0 n1_2_1
  let m1_3 := mm256_add_epi32 n1_3_0 n1_3_1
  let m1_4 := mm256_add_epi32 n1_4_0 n1_4_1
  let m1_5 := mm256_add_epi32 n1_5_0 n1_5_1
  let m1_6 := mm256_add_epi32 n1_6_0 n1_6_1
  let m1_7 := mm256_add_epi32 n1_7_0 n1_7_1
  ⟨m1_0, m1_1, m1_2, m1_3, m1_4, m1_5, m1_6, m1_7⟩

/-- The vertical transform of `xCalcHAD16x16_AVX2` for `iBitDepth < 10` (lines 1715-1753). -/
def xCalcHAD16x16_AVX2_vertical16 (m2 : Regs8 M256) : Regs8 M256 :=
  let m2_0 := m2.r0
  let m2_1 := m2.r1
  let m2_2 := m2.r2
  let m2_3 := m2.r3
  let m2_4 := m2.r4
  let m2_5 := m2.r5
  let m2_6 := m2.r6
  let m2_7 := m2.r7
  let m1_0 := mm256_add_epi16 m2_0 m2_4
  let m1_1 := mm256_add_epi16 m2_1 m2_5
  let m1_2 := mm256_add_epi16 m2_2 m2_6
  let m1_3 := mm256_add_epi16 m2_3 m2_7
  let m1_4 := mm256_sub_epi16 m2_0 m2_4
  let m1_5 := mm256_sub_epi16 m2_1 m2_5
  let m1_6 := mm256_sub_epi16 m2_2 m2_6
  let m1_7 := mm256_sub_epi16 m2_3 m2_7
  let m2_0 := mm256_add_epi16 m1_0 m1_2
  let m2_1 := mm256_add_epi16 m1_1 m1_3
  let m2_2 := mm256_sub_epi16 m1_0 m1_2
  let m2_3 := mm256_sub_epi16 m1_1 m1_3
  let m2_4 := mm256_add_epi16 m1_4 m1_6
  let m2_5 := mm256_add_epi16 m1_5 m1_7
  let m2_6 := mm256_sub_epi16 m1_4 m1_6
  let m2_7 := mm256_sub_epi16 m1_5 m1_7
  let m1_0 := mm256_abs_epi16 (mm256_add_epi16 m2_0 m2_1)
  let m1_1 := mm256_abs_epi16 (mm256_sub_epi16 m2_0 m2_1)
  let m1_2 := mm256_abs_epi16 (mm256_add_epi16 m2_2 m2_3)
  let m1_3 := mm256_abs_epi16 (mm256_sub_epi16 m2_2 m2_3)
  let m1_4 := mm256_abs_epi16 (mm256_add_epi16 m2_4 m2_5)
  let m1_5 := mm256_abs_epi16 (mm256_sub_epi16 m2_4 m2_5)
  let m1_6 := mm256_abs_epi16 (mm256_add_epi16 m2_6 m2_7)
  let m1_7 := mm256_abs_epi16 (mm256_sub_epi16 m2_6 m2_7)
  let vzero := mm256_setzero_si256
  let ma1 := mm256_unpacklo_epi16 m1_0 vzero
  let ma2 := mm256_unpackhi_epi16 m1_0 vzero
  let m1_0 := mm256_add_epi32 ma1 ma2
  let ma1 := mm256_unpacklo_epi16 m1_1 vzero
  let ma2 := mm256_unpackhi_epi16 m1_1 vzero
  let m1_1 := mm256_add_epi32 ma1 ma2
  let ma1 := mm256_unpacklo_epi16 m1_2 vzero
  let ma2 := mm256_unpackhi_epi16 m1_2 vzero
  let m1_2 := mm256_add_epi32 ma1 ma2
  let ma1 := mm256_unpacklo_epi16 m1_3 vzero
  let ma2 := mm256_unpackhi_epi16 m1_3 vzero
  let m1_3 := mm256_add_epi32 ma1 ma2
  let ma1 := mm256_unpacklo_epi16 m1_4 vzero
  let ma2 := mm256_unpackhi_epi16 m1_4 vzero
  let m1_4 := mm256_add_epi32 ma1 ma2
  let ma1 := mm256_unpacklo_epi16 m1_5 vzero
  let ma2 := mm256_unpackhi_epi16 m1_5 vzero
  let m1_5 := mm256_add_epi32 ma1 ma2
  let ma1 := mm256_unpacklo_epi16 m1_6 vzero
  let ma2 := mm256_unpackhi_epi16 m1_6 vzero
  let m1_6 := mm256_add_epi32 ma1 ma2
  let ma1 := mm256_unpacklo_epi16 m1_7 vzero
  let ma2 := mm256_unpackhi_epi16 m1_7 vzero
  let m1_7 := mm256_add_epi32 ma1 ma2
  ⟨m1_0, m1_1, m1_2, m1_3, m1_4, m1_5, m1_6, m1_7⟩

/-- The final sum of one pass of `xCalcHAD16x16_AVX2` (lines 1755-1774): the new value of `sad`,
to which the rounded sums of the two 128-bit halves are added. -/
def xCalcHAD16x16_AVX2_sum (m1 : Regs8 M256) (sad : Nat) : Nat :=
  let m1_0 := m1.r0
  let m1_1 := m1.r1
  let m1_2 := m1.r2
  let m1_3 := m1.r3
  let m1_4 := m1.r4
  let m1_5 := m1.r5
  let m1_6 := m1.r6
  let m1_7 := m1.r7
  let m1_0 := mm256_add_epi32 m1_0 m1_1
  let m1_2 := mm256_add_epi32 m1_2 m1_3
  let m1_4 := mm256_add_epi32 m1_4 m1_5
  let m1_6 := mm256_add_epi32 m1_6 m1_7
  let m1_0 := mm256_add_epi32 m1_0 m1_2
  let m1_4 := mm256_add_epi32 m1_4 m1_6
  let iSum := mm256_add_epi32 m1_0 m1_4
  let iSum := mm256_hadd_epi32 iSum iSum
  let iSum := mm256_hadd_epi32 iSum iSum
  let tmp := mm_cvtsi128_si32 (mm256_castsi256_si128 iSum)
  let tmp := ((tmp + 2) % 4294967296) >>> 2
  let sad := add32 sad tmp
  let tmp := mm_cvtsi128_si32 (mm256_castsi256_si128 (mm256_permute2x128_si256_11 iSum))
  let tmp := ((tmp + 2) % 4294967296) >>> 2
  let sad := add32 sad tmp
  sad

/-- One pass of the loop over `l` of `xCalcHAD16x16_AVX2` (lines 1600-1774) on the eight rows
at `piOrg`, `piCur`: the new value of `sad`. -/
def xCalcHAD16x16_AVX2_pass (org cur : Nat → Nat)
    (piOrg piCur iStrideOrg iStrideCur iBitDepth sad : Nat) : Nat :=
  let m2 := xCalcHAD16x16_AVX2_load org cur piOrg piCur iStrideOrg iStrideCur
  let m2 := xCalcHAD16x16_AVX2_horizontal m2
  let m1 := if iBitDepth ≥ 10 then xCalcHAD16x16_AVX2_vertical32 m2
    else xCalcHAD16x16_AVX2_vertical16 m2
  xCalcHAD16x16_AVX2_sum m1 sad

/-- The variables the loop over `l` of `xCalcHAD16x16_AVX2` updates. -/
structure HadState where
  piOrg : Nat
  piCur : Nat
  sad : Nat

/-- `xCalcHAD16x16_AVX2` (lines 1588-1779): two passes of eight rows each; the load loop of a
pass advances both pointers by eight rows. -/
def xCalcHAD16x16_AVX2 (org cur : Nat → Nat) (piOrg piCur iStrideOrg iStrideCur iBitDepth : Nat) :
    Nat :=
  let iLoops := 2
  let st := forLoop iLoops 0 iLoops 1 (fun _ (st : HadState) =>
    ⟨st.piOrg + 8 * iStrideOrg, st.piCur + 8 * iStrideCur,
     xCalcHAD16x16_AVX2_pass org cur st.piOrg st.piCur iStrideOrg iStrideCur iBitDepth st.sad⟩)
    ⟨piOrg, piCur, 0⟩
  st.sad

/-- `xCalcHAD4x4_SSE` (lines 456-538). -/
def xCalcHAD4x4_SSE (org cur : Nat → Nat) (piOrg piCur iStrideOrg iStrideCur : Nat) : Nat :=
  let r0 := mm_loadl_epi64 org piOrg
  let r1 := mm_loadl_epi64 org (piOrg + iStrideOrg)
  let r2 := mm_loadl_epi64 org (piOrg + 2 * iStrideOrg)
  let r3 := mm_loadl_epi64 org (piOrg + 3 * iStrideOrg)
  let r4 := mm_loadl_epi64 cur piCur
  let r5 := mm_loadl_epi64 cur (piCur + iStrideCur)
  let r6 := mm_loadl_epi64 cur (piCur + 2 * iStrideCur)
  let r7 := mm_loadl_epi64 cur (piCur + 3 * iStrideCur)
  let r0 := mm_sub_epi16 r0 r4
  let r1 := mm_sub_epi16 r1 r5
  let r2 := mm_sub_epi16 r2 r6
  let r3 := mm_sub_epi16 r3 r7
  -- first stage
  let r4 := r0
  let r5 := r1
  let r0 := mm_add_epi16 r0 r3
  let r1 := mm_add_epi16 r1 r2
  let r4 := mm_sub_epi16 r4 r3
  let r5 := mm_sub_epi16 r5 r2
  let r2 := r0
  let r3 := r4
  let r0 := mm_add_epi16 r0 r1
  let r2 := mm_sub_epi16 r2 r1
  let r3 := mm_sub_epi16 r3 r5
  let r5 := mm_add_epi16 r5 r4
  -- shuffle - flip matrix for vertical transform
  let r0 := mm_unpacklo_epi16 r0 r5
  let r2 := mm_unpacklo_epi16 r2 r3
  let r3 := r0
  let r0 := mm_unpacklo_epi32 r0 r2
  let r3 := mm_unpackhi_epi32 r3 r2
  let r1 := r0
  let r2 := r3
  let r1 := mm_srli_si128_8 r1
  let r3 := mm_srli_si128_8 r3
  -- second stage
  let r4 := r0
  let r5 := r1
  let r0 := mm_add_epi16 r0 r3
  let r1 := mm_add_epi16 r1 r2
  let r4 := mm_sub_epi16 r4 r3
  let r5 := mm_sub_epi16 r5 r2
  let r2 := r0
  let r3 := r4
  let r0 := mm_add_epi16 r0 r1
  let r2 := mm_sub_epi16 r2 r1
  let r3 := mm_sub_epi16 r3 r5
  let r5 := mm_add_epi16 r5 r4
  -- abs
  let Sum := mm_abs_epi16 r0
  let Sum := mm_add_epi16 Sum (mm_abs_epi16 r2)
  let Sum := mm_add_epi16 Sum (mm_abs_epi16 r3)
  let Sum := mm_add_epi16 Sum (mm_abs_epi16 r5)
  let iZero := mm_set1_epi16 0
  let Sum := mm_unpacklo_epi16 Sum iZero
  let Sum := mm_hadd_epi32 Sum Sum
  let Sum := mm_hadd_epi32 Sum Sum
  let sad := mm_cvtsi128_si32 Sum
  let sad := ((sad + 1) % 4294967296) >>> 1
  sad

/-- The tile kernels of `RdCostX86.h` whose result passes through a floating-point
normalisation (`sad / sqrt( w * h ) * 2`), and `xCalcHADs2x2` of `RdCost.cpp`, which is not
among the sources.  Each takes the two memories, the two pointers, the two strides and the bit
depth (for `xCalcHADs2x2`: the step). -/
structure HadKernels where
  xCalcHAD16x8_AVX2 : (Nat → Nat) → (Nat → Nat) → Nat → Nat → Nat → Nat → Nat → Nat
  xCalcHAD16x8_SSE : (Nat → Nat) → (Nat → Nat) → Nat → Nat → Nat → Nat → Nat → Nat
  xCalcHAD8x16_AVX2 : (Nat → Nat) → (Nat → Nat) → Nat → Nat → Nat → Nat → Nat → Nat
  xCalcHAD8x16_SSE : (Nat → Nat) → (Nat → Nat) → Nat → Nat → Nat → Nat → Nat → Nat
  xCalcHAD8x4_SSE : (Nat → Nat) → (Nat → Nat) → Nat → Nat → Nat → Nat → Nat → Nat
  xCalcHAD4x8_SSE : (Nat → Nat) → (Nat → Nat) → Nat → Nat → Nat → Nat → Nat → Nat
  xCalcHADs2x2 : (Nat → Nat) → (Nat → Nat) → Nat → Nat → Nat → Nat → Nat → Nat

/-- The variables a row-of-tiles loop of `xGetHADs_SIMD` updates. -/
structure TileState where
  piOrg : Nat
  piCur : Nat
  uiSum : Nat

/-- The statement `uiSum += k` on the 64-bit `Distortion uiSum`. -/
def addDist (uiSum k : Nat) : Nat := (uiSum + k) % 18446744073709551616

/-- `RdCost::xGetHADs_SIMD` (lines 2289-2425).  `xGetHADs` is the scalar `RdCost::xGetHADs`,
which is not among the sources.  The final `return uiSum >> DISTORTION_PRECISION_ADJUSTMENT`
is written at the end of each branch that reaches it. -/
def xGetHADs_SIMD (K : HadKernels) (xGetHADs : DistParam → Except String Nat) (vext : X86_VEXT)
    (rcDtParam : DistParam) : Except String Nat :=
  if rcDtParam.bitDepth > 10 ∨ rcDtParam.applyWeight = true then
    xGetHADs rcDtParam
  else
    let org := rcDtParam.org.buf
    let cur := rcDtParam.cur.buf
    let iRows := rcDtParam.org.height
    let iCols := rcDtParam.org.width
    let iStrideCur := rcDtParam.cur.stride
    let iStrideOrg := rcDtParam.org.stride
    let iBitDepth := rcDtParam.bitDepth
    let shift := DISTORTION_PRECISION_ADJUSTMENT rcDtParam.bitDepth
    if iCols > iRows ∧ iCols &&& 15 = 0 ∧ iRows &&& 7 = 0 then
      let st := forLoop iRows 0 iRows 8 (fun _ (st : TileState) =>
        let uiSum := forLoop iCols 0 iCols 16 (fun x uiSum =>
          if vext.geAVX2 = true then
            addDist uiSum (K.xCalcHAD16x8_AVX2 org cur (st.piOrg + x) (st.piCur + x)
              iStrideOrg iStrideCur iBitDepth)
          else
            addDist uiSum (K.xCalcHAD16x8_SSE org cur (st.piOrg + x) (st.piCur + x)
              iStrideOrg iStrideCur iBitDepth)) st.uiSum
        ⟨st.piOrg + iStrideOrg * 8, st.piCur + iStrideCur * 8, uiSum⟩) ⟨0, 0, 0⟩
      .ok (st.uiSum >>> shift)
    else if iCols < iRows ∧ iRows &&& 15 = 0 ∧ iCols &&& 7 = 0 then
      let st := forLoop iRows 0 iRows 16 (fun _ (st : TileState) =>
        let uiSum := forLoop iCols 0 iCols 8 (fun x uiSum =>
          if vext.geAVX2 = true then
            addDist uiSum (K.xCalcHAD8x16_AVX2 org cur (st.piOrg + x) (st.piCur + x)
              iStrideOrg iStrideCur iBitDepth)
          else
            addDist uiSum (K.xCalcHAD8x16_SSE org cur (st.piOrg + x) (st.piCur + x)
              iStrideOrg iStrideCur iBitDepth)) st.uiSum
        ⟨st.piOrg + iStrideOrg * 16, st.piCur + iStrideCur * 16, uiSum⟩) ⟨0, 0, 0⟩
      .ok (st.uiSum >>> shift)
    else if iCols > iRows ∧ iCols &&& 7 = 0 ∧ iRows &&& 3 = 0 then
      let st := forLoop iRows 0 iRows 4 (fun _ (st : TileState) =>
        let uiSum := forLoop iCols 0 iCols 8 (fun x uiSum =>
          addDist uiSum (K.xCalcHAD8x4_SSE org cur (st.piOrg + x) (st.piCur + x)
            iStrideOrg iStrideCur iBitDepth)) st.uiSum
        ⟨st.piOrg + iStrideOrg * 4, st.piCur + iStrideCur * 4, uiSum⟩) ⟨0, 0, 0⟩
      .ok (st.uiSum >>> shift)
    else if iCols < iRows ∧ iRows &&& 7 = 0 ∧ iCols &&& 3 = 0 then
      let st := forLoop iRows 0 iRows 8 (fun _ (st : TileState) =>
        let uiSum := forLoop iCols 0 iCols 4 (fun x uiSum =>
          addDist uiSum (K.xCalcHAD4x8_SSE org cur (st.piOrg + x) (st.piCur + x)
            iStrideOrg iStrideCur iBitDepth)) st.uiSum
        ⟨st.piOrg + iStrideOrg * 8, st.piCur + iStrideCur * 8, uiSum⟩) ⟨0, 0, 0⟩
      .ok (st.uiSum >>> shift)
    else if vext.geAVX2 = true ∧ (iRows ||| iCols) &&& 15 = 0 ∧ iRows = iCols then
      let iOffsetOrg := iStrideOrg <<< 4
      let iOffsetCur := iStrideCur <<< 4
      let st := forLoop iRows 0 iRows 16 (fun _ (st : TileState) =>
        let uiSum := forLoop iCols 0 iCols 16 (fun x uiSum =>
          addDist uiSum (xCalcHAD16x16_AVX2 org cur (st.piOrg + x) (st.piCur + x)
            iStrideOrg iStrideCur iBitDepth)) st.uiSum
        ⟨st.piOrg + iOffsetOrg, st.piCur + iOffsetCur, uiSum⟩) ⟨0, 0, 0⟩
      .ok (st.uiSum >>> shift)
    else if (iRows ||| iCols) &&& 7 = 0 ∧ iRows = iCols then
      let iOffsetOrg := iStrideOrg <<< 3
      let iOffsetCur := iStrideCur <<< 3
      let st := forLoop iRows 0 iRows 8 (fun _ (st : TileState) =>
        let uiSum := forLoop iCols 0 iCols 8 (fun x uiSum =>
          addDist uiSum (xCalcHAD8x8_SSE org cur (st.piOrg + x) (st.piCur + x)
            iStrideOrg iStrideCur iBitDepth)) st.uiSum
        ⟨st.piOrg + iOffsetOrg, st.piCur + iOffsetCur, uiSum⟩) ⟨0, 0, 0⟩
      .ok (st.uiSum >>> shift)
    else if iRows % 4 = 0 ∧ iCols % 4 = 0 then
      let iOffsetOrg := iStrideOrg <<< 2
      let iOffsetCur := iStrideCur <<< 2
      let st := forLoop iRows 0 iRows 4 (fun _ (st : TileState) =>
        let uiSum := forLoop iCols 0 iCols 4 (fun x uiSum =>
          addDist uiSum (xCalcHAD4x4_SSE org cur (st.piOrg + x) (st.piCur + x)
            iStrideOrg iStrideCur)) st.uiSum
        ⟨st.piOrg + iOffsetOrg, st.piCur + iOffsetCur, uiSum⟩) ⟨0, 0, 0⟩
      .ok (st.uiSum >>> shift)
    else if iRows % 2 = 0 ∧ iCols % 2 = 0 then
      let iOffsetOrg := iStrideOrg <<< 1
      let iOffsetCur := iStrideCur <<< 1
      let st := forLoop iRows 0 iRows 2 (fun _ (st : TileState) =>
        let uiSum := forLoop iCols 0 iCols 2 (fun x uiSum =>
          addDist uiSum (K.xCalcHADs2x2 org cur (st.piOrg + x) (st.piCur + x * rcDtParam.step)
            iStrideOrg iStrideCur rcDtParam.step)) st.uiSum
        ⟨st.piOrg + iOffsetOrg, st.piCur + iOffsetCur, uiSum⟩) ⟨0, 0, 0⟩
      .ok (st.uiSum >>> shift)
    else
      .error "Unsupported size"

/-! ## Reference quantities of the contracts -/

/-- The sum `S` of the SAD contract: the absolute differences `|org[y][x] - cur[y][x]|`
over the columns `x < width` and the rows `y < height` that are multiples of `2^subShift`. -/
def sadSum (p : DistParam) : Nat :=
  ∑ y ∈ (Finset.range p.org.height).filter (fun y => y % 2 ^ p.subShift = 0),
    ∑ x ∈ Finset.range p.org.width, Nat.dist (p.org.at x y) (p.cur.at x y)

/-- All samples of the original and of the current block lie in `[0, 2^bitDepth)`. -/
def DistParam.InRange (p : DistParam) : Prop :=
  ∀ x y, x < p.org.width → y < p.org.height →
    p.org.at x y < 2 ^ p.bitDepth ∧ p.cur.at x y < 2 ^ p.bitDepth

/-- The canonical tile shapes of the Hadamard cost. -/
inductive Tile where
  | T16x8
  | T8x16
  | T8x4
  | T4x8
  | T16x16
  | T8x8
  | T4x4
  | T2x2
  deriving DecidableEq, Repr

/-- Width of a tile shape. -/
def Tile.width : Tile → Nat
  | .T16x8 => 16
  | .T8x16 => 8
  | .T8x4 => 8
  | .T4x8 => 4
  | .T16x16 => 16
  | .T8x8 => 8
  | .T4x4 => 4
  | .T2x2 => 2

/-- Height of a tile shape. -/
def Tile.height : Tile → Nat
  | .T16x8 => 8
  | .T8x16 => 16
  | .T8x4 => 4
  | .T4x8 => 8
  | .T16x16 => 16
  | .T8x8 => 8
  | .T4x4 => 4
  | .T2x2 => 2

/-- The rule of each tile shape as the contract words it: the aspect condition and the
divisibility of the block width and height. -/
def Tile.applies (vext : X86_VEXT) (width height : Nat) : Tile → Bool
  | .T16x8 => decide (width > height ∧ 16 ∣ width ∧ 8 ∣ height)
  | .T8x16 => decide (width < height ∧ 16 ∣ height ∧ 8 ∣ width)
  | .T8x4 => decide (width > height ∧ 8 ∣ width ∧ 4 ∣ height)
  | .T4x8 => decide (width < height ∧ 8 ∣ height ∧ 4 ∣ width)
  | .T16x16 => vext.geAVX2 && decide (width = height ∧ 16 ∣ width)
  | .T8x8 => decide (width = height ∧ 8 ∣ width)
  | .T4x4 => decide (4 ∣ width ∧ 4 ∣ height)
  | .T2x2 => decide (2 ∣ width ∧ 2 ∣ height)

/-- The precedence of the tile rules. -/
def tilePrecedence : List Tile :=
  [.T16x8, .T8x16, .T8x4, .T4x8, .T16x16, .T8x8, .T4x4, .T2x2]

/-- The first applicable tile shape in the order of precedence, if any. -/
def chosenTile (vext : X86_VEXT) (width height : Nat) : Option Tile :=
  tilePrecedence.find? (fun t => t.applies vext width height)

/-- The cost of the tile of shape `t` whose top-left sample is `(x, y)`: the kernel
`xGetHADs_SIMD` calls for that shape. -/
def tileCost (K : HadKernels) (vext : X86_VEXT) (p : DistParam) (t : Tile) (x y : Nat) : Nat :=
  let pOrg := y * p.org.stride + x
  let pCur := y * p.cur.stride + x
  match t with
  | .T16x8 =>
      if vext.geAVX2 = true then
        K.xCalcHAD16x8_AVX2 p.org.buf p.cur.buf pOrg pCur p.org.stride p.cur.stride p.bitDepth
      else
        K.xCalcHAD16x8_SSE p.org.buf p.cur.buf pOrg pCur p.org.stride p.cur.stride p.bitDepth
  | .T8x16 =>
      if vext.geAVX2 = true then
        K.xCalcHAD8x16_AVX2 p.org.buf p.cur.buf pOrg pCur p.org.stride p.cur.stride p.bitDepth
      else
        K.xCalcHAD8x16_SSE p.org.buf p.cur.buf pOrg pCur p.org.stride p.cur.stride p.bitDepth
  | .T8x4 =>
      K.xCalcHAD8x4_SSE p.org.buf p.cur.buf pOrg pCur p.org.stride p.cur.stride p.bitDepth
  | .T4x8 =>
      K.xCalcHAD4x8_SSE p.org.buf p.cur.buf pOrg pCur p.org.stride p.cur.stride p.bitDepth
  | .T16x16 =>
      xCalcHAD16x16_AVX2 p.org.buf p.cur.buf pOrg pCur p.org.stride p.cur.stride p.bitDepth
  | .T8x8 =>
      xCalcHAD8x8_SSE p.org.buf p.cur.buf pOrg pCur p.org.stride p.cur.stride p.bitDepth
  | .T4x4 =>
      xCalcHAD4x4_SSE p.org.buf p.cur.buf pOrg pCur p.org.stride p.cur.stride
  | .T2x2 =>
      K.xCalcHADs2x2 p.org.buf p.cur.buf pOrg (y * p.cur.stride + x * p.step)
        p.org.stride p.cur.stride p.step

/-- The cost of a block tiled with the single shape `t`: the sum of the costs of the tiles at
`(i * t.width, j * t.height)`, `i < width / t.width`, `j < height / t.height`, held in the
64-bit `Distortion`. -/
def tiledCost (K : HadKernels) (vext : X86_VEXT) (p : DistParam) (t : Tile) : Nat :=
  (∑ j ∈ Finset.range (p.org.height / t.height), ∑ i ∈ Finset.range (p.org.width / t.width),
    tileCost K vext p t (i * t.width) (j * t.height)) % 18446744073709551616

/-! ## Auxiliary definitions of the proofs -/

/-- Number of iterations of `for( i = 0; i < limit; i += step )`. -/
def iters (limit step : Nat) : Nat := (limit + step - 1) / step

/-- Exactly `n` iterations of a loop body, the index starting at `i` and advancing by `step`. -/
def loopN {σ : Type} : Nat → Nat → Nat → (Nat → σ → σ) → σ → σ
  | 0, _, _, _, s => s
  | n + 1, i, step, body, s => loopN n (i + step) step body (body i s)

/-- The low 128-bit halves of eight 256-bit registers. -/
def Regs8.lo (m : Regs8 M256) : Regs8 M128 :=
  ⟨m.r0.lo, m.r1.lo, m.r2.lo, m.r3.lo, m.r4.lo, m.r5.lo, m.r6.lo, m.r7.lo⟩

/-- The high 128-bit halves of eight 256-bit registers. -/
def Regs8.hi (m : Regs8 M256) : Regs8 M128 :=
  ⟨m.r0.hi, m.r1.hi, m.r2.hi, m.r3.hi, m.r4.hi, m.r5.hi, m.r6.hi, m.r7.hi⟩

/-- Sum of the eight 16-bit lanes. -/
def M128.esum (v : M128) : Nat := v.e0 + v.e1 + v.e2 + v.e3 + v.e4 + v.e5 + v.e6 + v.e7

/-- Sum of the four 32-bit lanes. -/
def M128.wsum (v : M128) : Nat := v.w0 + v.w1 + v.w2 + v.w3

/-- Every 16-bit lane holds a 16-bit pattern. -/
def M128.WF (v : M128) : Prop :=
  v.e0 < 65536 ∧ v.e1 < 65536 ∧ v.e2 < 65536 ∧ v.e3 < 65536 ∧
  v.e4 < 65536 ∧ v.e5 < 65536 ∧ v.e6 < 65536 ∧ v.e7 < 65536

/-- The absolute differences of the `n` samples at `p1` in `org` and at `p2` in `cur`, summed. -/
def rowSad (org cur : Nat → Nat) (p1 p2 n : Nat) : Nat :=
  ∑ x ∈ Finset.range n, Nat.dist (org (p1 + x)) (cur (p2 + x))

/-- The 16-bit lane `k`. -/
def M128.get (v : M128) : Nat → Nat
  | 0 => v.e0
  | 1 => v.e1
  | 2 => v.e2
  | 3 => v.e3
  | 4 => v.e4
  | 5 => v.e5
  | 6 => v.e6
  | 7 => v.e7
  | _ => 0

/-! ## Example inputs -/

/-- A parameter record with constant samples, `org = 3` and `cur = 1` everywhere, used to
instantiate the theorems. -/
def exampleParam (width height bitDepth : Nat) (applyWeight : Bool) : DistParam :=
  { org := { buf := fun _ => 3, stride := width, width := width, height := height }
    cur := { buf := fun _ => 1, stride := width, width := width, height := height }
    step := 1
    bitDepth := bitDepth
    applyWeight := applyWeight
    subShift := 0 }

/-- A scalar distortion function standing for the ones of `RdCost.cpp` in the examples. -/
def exampleScalar : DistParam → Except String Nat := fun _ => .ok 0

/-- Tile kernels standing for the parameters of `xGetHADs_SIMD` in the examples. -/
def exampleKernels : HadKernels :=
  { xCalcHAD16x8_AVX2 := fun _ _ _ _ _ _ _ => 1
    xCalcHAD16x8_SSE := fun _ _ _ _ _ _ _ => 1
    xCalcHAD8x16_AVX2 := fun _ _ _ _ _ _ _ => 1
    xCalcHAD8x16_SSE := fun _ _ _ _ _ _ _ => 1
    xCalcHAD8x4_SSE := fun _ _ _ _ _ _ _ => 1
    xCalcHAD4x8_SSE := fun _ _ _ _ _ _ _ => 1
    xCalcHADs2x2 := fun _ _ _ _ _ _ _ => 1 }

/-- A 4x8 block (width 4, height 8, stride 4) of 8-bit samples whose original is 1 on the last
row and 0 elsewhere and whose current block is 0. -/
def ibdParam : DistParam :=
  { org := { buf := fun k => if 28 ≤ k then 1 else 0, stride := 4, width := 4, height := 8 }
    cur := { buf := fun _ => 0, stride := 4, width := 4, height := 8 }
    step := 1
    bitDepth := 8
    applyWeight := false
    subShift := 0 }

/-- A block of 10-bit samples with `org = 1023` and `cur = 0` everywhere. -/
def extremeParam (width height subShift : Nat) : DistParam :=
  { org := { buf := fun _ => 1023, stride := width, width := width, height := height }
    cur := { buf := fun _ => 0, stride := width, width := width, height := height }
    step := 1
    bitDepth := 10
    applyWeight := false
    subShift := subShift }

/-! ## Decoder reconstruction (`source/Lib/DecoderLib/DecCu.cpp`)

Conventions of this part of the embedding.

* The sample buffers of the coding structure are planes, functions from picture coordinates to
  samples; a `PelBuf` obtained with `getPredBuf`, `getResiBuf` or `getRecoBuf` for an area is
  the plane restricted to that area, and an operation on it rewrites the plane inside the area.
* The objects the decoder updates through references (`CodingUnit`, `PredictionUnit`) are
  passed and returned as values; the per-unit store of a `TransformUnit` (`setChromaAdj`,
  `getPcmbuf`) is kept in the decoder state under the index of the unit.
* `THROW( msg )` and a failing `CHECK( cond, msg )` end the call with `Except.error msg`.
* The calls the functions make are recorded, in order, in the `trace` of the decoder state.
* The collaborators whose code is in other files (prediction, inverse transform, merge
  candidate lists, the reshaper) are the fields of `Ext`; they return the values they write,
  and the embedding stores those values where the source passes the destination.
* The preprocessor configuration is the one with every `JVET_N*` switch of the file enabled and
  with `RExt__DECODER_DEBUG_TOOL_STATISTICS` and `K0149_BLOCK_STATISTICS` disabled;
  `KEEP_PRED_AND_RESI_SIGNALS` and `REUSE_CU_RESULTS` are fields of `Config`.
-/

/-- `ComponentID`. -/
inductive ComponentID where
  | COMPONENT_Y
  | COMPONENT_Cb
  | COMPONENT_Cr
  deriving DecidableEq, Repr

/-- `ChannelType`. -/
inductive ChannelType where
  | CHANNEL_TYPE_LUMA
  | CHANNEL_TYPE_CHROMA
  deriving DecidableEq, Repr

/-- `toChannelType`. -/
def toChannelType : ComponentID → ChannelType
  | .COMPONENT_Y => .CHANNEL_TYPE_LUMA
  | _ => .CHANNEL_TYPE_CHROMA

/-- `isLuma( compID )`. -/
def isLuma (compID : ComponentID) : Bool := compID = .COMPONENT_Y

/-- `isChroma( compID )`. -/
def isChroma (compID : ComponentID) : Bool := compID ≠ .COMPONENT_Y

/-- `PredMode`; `NUMBER_OF_PREDICTION_MODES` stands for every value that is none of the three
modes. -/
inductive PredMode where
  | MODE_INTER
  | MODE_INTRA
  | MODE_IBC
  | NUMBER_OF_PREDICTION_MODES
  deriving DecidableEq, Repr

/-- A `CompArea`: position and size in samples of its component; `valid` is the result of its
`valid()`. -/
structure CompArea where
  x : Nat
  y : Nat
  width : Nat
  height : Nat
  valid : Bool
  deriving DecidableEq, Repr

/-- A plane of samples. -/
abbrev Plane := Nat → Nat → Int

/-- The three planes of a `PelUnitBuf`. -/
abbrev Planes := ComponentID → Plane

/-- Whether the sample `(x, y)` lies in the area; the buffer of an area that is not valid is
empty. -/
def CompArea.contains (a : CompArea) (x y : Nat) : Bool :=
  a.valid && decide (a.x ≤ x ∧ x < a.x + a.width ∧ a.y ≤ y ∧ y < a.y + a.height)

/-- The samples of the area, addressed from its top-left corner: what `getBuf( area )` shows. -/
def Plane.view (p : Plane) (a : CompArea) : Plane := fun i j => p (a.x + i) (a.y + j)

/-- The plane with the samples of the area replaced by the block `blk`, addressed from the
top-left corner of the area. -/
def Plane.write (p : Plane) (a : CompArea) (blk : Plane) : Plane :=
  fun x y => if a.contains x y then blk (x - a.x) (y - a.y) else p x y

/-- The planes with the area of component `c` replaced by the block `blk`. -/
def Planes.write (b : Planes) (c : ComponentID) (a : CompArea) (blk : Plane) : Planes :=
  fun c2 => if c2 = c then (b c2).write a blk else b c2

/-- A `ClpRng`: the bounds of the samples of a component. -/
structure ClpRng where
  min : Int
  max : Int
  deriving DecidableEq, Repr

/-- `ClipPel( v, clpRng )`. -/
def ClipPel (v : Int) (r : ClpRng) : Int := if v < r.min then r.min else if v > r.max then r.max else v

/-- A value stored into a `Pel`, a 16-bit `short`. -/
def toPel (v : Int) : Int := (v + 32768) % 65536 - 32768

/-- Modelled from the spec: `PelBuf::fill( v )` of `Buffer.h`, every sample of the block is `v`. -/
def PelBuf.fill (v : Int) : Plane := fun _ _ => v

/-- Modelled from the spec: `PelBuf::copyAndNegate( other )` of `Buffer.h`, "the Cr residual
equals the negated Cb residual". -/
def PelBuf.copyAndNegate (other : Plane) : Plane := fun i j => - other i j

/-- Modelled from the spec: `PelBuf::reconstruct( pred, resi, clpRng )` of `Buffer.h`,
"reconstruct = clip(prediction + residual)". -/
def PelBuf.reconstruct (pred resi : Plane) (r : ClpRng) : Plane :=
  fun i j => ClipPel (pred i j + resi i j) r

/-- Modelled from the spec: `PelBuf::copyClip( src, clpRng )` of `Buffer.h`,
"prediction-with-clip-only". -/
def PelBuf.copyClip (src : Plane) (r : ClpRng) : Plane := fun i j => ClipPel (src i j) r

/-- Modelled from the spec: `PelBuf::rspSignal( lut )` of `Buffer.h`, every sample "remapped
through the reshaper lookup table". -/
def PelBuf.rspSignal (lut : Int → Int) (src : Plane) : Plane := fun i j => lut (src i j)

/-- The numeric value of a `ComponentID`. -/
def ComponentID.toNat : ComponentID → Nat
  | .COMPONENT_Y => 0
  | .COMPONENT_Cb => 1
  | .COMPONENT_Cr => 2

/-- `ChromaFormat`. -/
inductive ChromaFormat where
  | CHROMA_400
  | CHROMA_420
  | CHROMA_422
  | CHROMA_444
  deriving DecidableEq, Repr

/-- A motion vector `Mv`. -/
structure Mv where
  hor : Int
  ver : Int
  deriving DecidableEq, Repr

/-- The sum of two motion vectors, `operator+` of `Mv`. -/
def Mv.add (a b : Mv) : Mv := ⟨a.hor + b.hor, a.ver + b.ver⟩

/-- `MergeType`. -/
inductive MergeType where
  | MRG_TYPE_DEFAULT_N
  | MRG_TYPE_SUBPU_ATMVP
  | MRG_TYPE_IBC
  | NUM_MRG_TYPE
  deriving DecidableEq, Repr

/-- `MvField`: a motion vector and its reference index. -/
structure MvField where
  mv : Mv
  refIdx : Int
  deriving DecidableEq, Repr

/-- `MotionInfo`, the record a motion look-up table holds. -/
structure MotionInfo where
  interDir : Nat
  mv : Nat → Mv
  refIdx : Nat → Int
  GBiIdx : Nat
  isIBC : Bool

/-- The members of a `PredictionUnit` the decoder reads or writes. -/
structure PredictionUnit where
  idx : Nat
  blocks : ComponentID → CompArea
  mergeFlag : Bool
  mmvdMergeFlag : Bool
  mhIntraFlag : Bool
  mmvdMergeIdx : Nat
  mergeIdx : Nat
  mergeType : MergeType
  interDir : Nat
  refIdx : Nat → Int
  mvpIdx : Nat → Nat
  mvpNum : Nat → Nat
  mvd : Nat → Mv
  mv : Nat → Mv
  mvdAffi : Nat → Nat → Mv
  mvAffi : Nat → Nat → Mv
  triangleSplitDir : Bool
  triangleMergeIdx0 : Nat
  triangleMergeIdx1 : Nat
  shareParentPos : Int × Int
  shareParentSize : Nat × Nat
  GBiIdx : Nat

/-- `pu.Y()`. -/
def PredictionUnit.Y (pu : PredictionUnit) : CompArea := pu.blocks .COMPONENT_Y

/-- The members of a `TransformUnit` the decoder reads; `idx` identifies the unit in the
per-unit stores of the decoder state. -/
structure TransformUnit where
  idx : Nat
  chType : ChannelType
  chromaFormat : ChromaFormat
  blocks : ComponentID → CompArea
  cbf : ComponentID → Nat
  jointCbCr : Bool
  compAlpha : ComponentID → Int
  pcmbuf : ComponentID → Plane

/-- `tu.Y()`. -/
def TransformUnit.Y (tu : TransformUnit) : CompArea := tu.blocks .COMPONENT_Y

/-- The members of a `CodingUnit` the decoder reads or writes.  `firstPU` and `firstTU` are the
units of those names; `CU::traversePUs` and `CU::traverseTUs` visit them and then the units of
`nextPUs` and `nextTUs`. -/
structure CodingUnit where
  idx : Nat
  predMode : PredMode
  chromaFormat : ChromaFormat
  blocks : ComponentID → CompArea
  affine : Bool
  triangle : Bool
  rootCbf : Bool
  ipcm : Bool
  ispMode : Nat
  imv : Nat
  mmvdSkip : Bool
  affineType : Nat
  GBiIdx : Nat
  shareParentPos : Int × Int
  shareParentSize : Nat × Nat
  firstPU : PredictionUnit
  nextPUs : List PredictionUnit
  firstTU : TransformUnit
  nextTUs : List TransformUnit

/-- `cu.Y()`. -/
def CodingUnit.Y (cu : CodingUnit) : CompArea := cu.blocks .COMPONENT_Y

/-- `cu.Cb()`. -/
def CodingUnit.Cb (cu : CodingUnit) : CompArea := cu.blocks .COMPONENT_Cb

/-- `CU::isIBC( cu )`. -/
def CU.isIBC (cu : CodingUnit) : Bool := cu.predMode = .MODE_IBC

/-- `CU::traversePUs( cu )`. -/
def CU.traversePUs (cu : CodingUnit) : List PredictionUnit := cu.firstPU :: cu.nextPUs

/-- `CU::traverseTUs( cu )`. -/
def CU.traverseTUs (cu : CodingUnit) : List TransformUnit := cu.firstTU :: cu.nextTUs

/-- The merge candidates of a `MergeCtx`, kept as the data of the collaborator that fills them,
and the sub-block motion buffer size `DecCu` attaches. -/
structure MergeCtx where
  data : List Int
  subPuMvpMiBuf : Option (Nat × Nat)

/-- The members of an `AffineMergeCtx` that `xDeriveCUMV` reads. -/
structure AffineMergeCtx where
  interDirNeighbours : Nat → Nat
  affineType : Nat → Nat
  GBiIdx : Nat → Nat
  mergeType : Nat → MergeType
  mvFieldNeighbours : Nat → Nat → MvField
  mrgCtx : Option MergeCtx

/-- The parameters of the sequence, the slice and the reshaper that the decoder reads, and the
two preprocessor switches that are not fixed. -/
structure Config where
  KEEP_PRED_AND_RESI_SIGNALS : Bool
  REUSE_CU_RESULTS : Bool
  isEncoder : Bool
  chrFormat : ChromaFormat
  isDualITree : Bool
  sliceIsIntra : Bool
  spsIBCFlag : Bool
  lmcsEnabledFlag : Bool
  lmcsChromaResidualScaleFlag : Bool
  reshapeCTUFlag : Bool
  sbTMVPEnabledFlag : Bool
  numRefIdx : Nat → Nat
  picWidthInLumaSamples : Int
  picHeightInLumaSamples : Int
  maxCUWidth : Nat
  bitDepth : ChannelType → Nat
  pcmBitDepth : ChannelType → Nat
  clpRng : ComponentID → ClpRng
  fwdLUT : Int → Int
  calculateChromaAdj : Int → Int
  mctsDecCheckEnabled : Bool
  MV_FRACTIONAL_BITS_INTERNAL : Nat
  MMVD_MAX_REFINE_NUM : Nat
  GBI_DEFAULT : Nat
  AFFINEMODEL_6PARAM : Nat
  NO_SHARE : Nat
  GEN_ON_SHARED_BOUND : Nat

/-- `AMVPInfo`. -/
structure AMVPInfo where
  mvCand : Nat → Mv
  numCand : Nat

/-- `AffineAMVPInfo`. -/
structure AffineAMVPInfo where
  mvCandLT : Nat → Mv
  mvCandRT : Nat → Mv
  mvCandLB : Nat → Mv
  numCand : Nat

/-- `RefPicList`. -/
inductive RefPicList where
  | REF_PIC_LIST_0
  | REF_PIC_LIST_1
  | REF_PIC_LIST_X
  deriving DecidableEq, Repr

/-- The buffers a forward reshaping may be applied to. -/
inductive RspTarget where
  | predBuf
  | recoBuf
  | tmpPred
  deriving DecidableEq, Repr

/-- The calls recorded in the trace of the decoder; units are named by their `idx`. -/
inductive Event where
  | xDeriveCUMV (cu : Nat)
  | xReconInter (cu : Nat)
  | xReconIntraQT (cu : Nat)
  | xReconPCM (tu : Nat)
  | xFillPCMBuffer (cu : Nat)
  | xIntraRecBlk (tu : Nat) (compID : ComponentID)
  | xDecodeInterTU (tu : Nat) (compID : ComponentID)
  | initIntraPatternChType (tu : Nat) (compID : ComponentID)
  | predIntraChromaLM (tu : Nat) (compID : ComponentID)
  | predIntraMip (tu : Nat) (compID : ComponentID)
  | predIntraAng (tu : Nat) (compID : ComponentID)
  | setChromaAdj (tu : Nat) (adj : Int)
  | invTransformNxN (tu : Nat) (compID : ComponentID)
  | fill (tu : Nat) (compID : ComponentID)
  | copyAndNegate (tu : Nat) (compID : ComponentID)
  | scaleSignal (tu : Nat) (compID : ComponentID) (adj : Int)
  | crossComponentPrediction (tu : Nat) (compID : ComponentID)
  | setDecomp (compID : ComponentID) (area : CompArea)
  | writeReco (compID : ComponentID) (area : CompArea)
  | rspSignal (target : RspTarget) (cu : Nat)
  | motionCompensation4Triangle (cu : Nat)
  | spanTriangleMotionInfo (cu : Nat)
  | geneIntrainterPred (cu : Nat)
  | motionCompensation (cu : Nat) (luma chroma : Bool)
  | geneWeightedPred (cu : Nat) (compID : ComponentID)
  | addMiToLut (cu : Nat) (ibc : Bool)
  | spanMotionInfo (pu : Nat)
  | applyImv (pu : Nat)
  | setAllAffineMv (pu : Nat) (eRefList : Nat)
  | isBlockVectorValid (pu : Nat) (xPred yPred : Int) (valid : Bool)
  deriving DecidableEq, Repr

/-- The state the decoder works on: the buffers of the coding structure and of the picture, the
scratch buffer `m_tmpStorageLCU`, the per-unit stores, the motion look-up tables, the members
`m_shareStateDec` and `m_triangleMrgCtx`, and the trace of the calls made. -/
structure Dec where
  pred : Planes
  resi : Planes
  reco : Planes
  picPred : Planes
  picReco : Planes
  tmpStorageLCU : Plane
  pcm : Nat → Planes
  chromaAdj : Nat → Int
  lut : List MotionInfo
  lutIbc : List MotionInfo
  lutShareIbc : List MotionInfo
  shareStateDec : Nat
  triangleMrgCtx : MergeCtx
  trace : List Event

/-- Appends a call to the trace. -/
def Dec.log (s : Dec) (e : Event) : Dec := { s with trace := s.trace ++ [e] }

/-- The collaborators of `DecCu` whose code is in other files. -/
structure Ext where
  getNumberValidComponents : ChromaFormat → Nat
  getNumberValidChannels : ChromaFormat → Nat
  getPU : CodingUnit → CompArea → ChannelType → PredictionUnit
  getFinalIntraMode : PredictionUnit → ChannelType → Nat
  isLMCMode : Nat → Bool
  isMIP : PredictionUnit → ChannelType → Bool
  predIntraChromaLM : ComponentID → PredictionUnit → CompArea → Nat → Dec → Plane
  predIntraMip : ComponentID → PredictionUnit → Dec → Plane
  predIntraAng : ComponentID → PredictionUnit → Dec → Plane
  recalcArea : ChromaFormat → ChannelType → CompArea → CompArea
  computeAvg : CompArea → Plane → Int
  getCbf : TransformUnit → ComponentID → Bool
  invTransformNxN : TransformUnit → ComponentID → Plane
  scaleSignal : Int → ClpRng → Plane → Plane
  crossComponentPrediction : TransformUnit → ComponentID → Plane → Plane → Plane
  isISPFirst : CodingUnit → CompArea → ComponentID → Bool
  isLosslessCoded : CodingUnit → Bool
  motionCompensation4Triangle : CodingUnit → MergeCtx → Bool → Nat → Nat → Dec → Planes
  motionCompensation : CodingUnit → RefPicList → Bool → Bool → Dec → Planes
  geneWeightedPred : ComponentID → Plane → PredictionUnit → Dec → Plane
  getMotionInfo : PredictionUnit → Dec → MotionInfo
  addMiToLut : List MotionInfo → MotionInfo → List MotionInfo
  miScaling : Nat × Nat → Nat × Nat
  getInterMergeCandidates : PredictionUnit → MergeCtx → Nat → Nat → Dec → MergeCtx
  getInterMMVDMergeCandidates : PredictionUnit → MergeCtx → Nat → Dec → MergeCtx
  setMmvdMergeCandiInfo : MergeCtx → PredictionUnit → Nat → PredictionUnit
  getTriangleMergeCandidates : PredictionUnit → Dec → MergeCtx
  getAffineMergeCand : PredictionUnit → AffineMergeCtx → Nat → Dec → AffineMergeCtx
  setAllAffineMvField : PredictionUnit → (Nat → MvField) → Nat → PredictionUnit
  getIBCMergeCandidates : PredictionUnit → MergeCtx → Nat → Dec → MergeCtx
  setMergeInfo : MergeCtx → PredictionUnit → Nat → PredictionUnit
  applyImv : PredictionUnit → MergeCtx → Dec → PredictionUnit
  fillAffineMvpCand : PredictionUnit → Nat → Int → Dec → AffineAMVPInfo
  fillIBCMvpCand : PredictionUnit → Dec → AMVPInfo
  fillMvpCand : PredictionUnit → Nat → Int → Dec → AMVPInfo
  setAllAffineMv : PredictionUnit → Mv → Mv → Mv → Nat → PredictionUnit
  changeAffinePrecAmvr2Internal : Mv → Nat → Mv
  changeIbcPrecAmvr2Internal : Mv → Nat → Mv
  changeTransPrecAmvr2Internal : Mv → Nat → Mv
  mvCliptoStorageBitDepth : Mv → Mv
  isBlockVectorValid : PredictionUnit → Int → Int → Int → Int → Int → Int → Int → Int → Int →
    Int → Nat → Dec → Bool

/-- `CHECK( cond, msg )`: fails with `msg` when `cond` holds. -/
def CHECK (cond : Bool) (msg : String) : Except String Unit :=
  if cond then .error msg else .ok ()

/-- Writes a block into the prediction buffer of the coding structure. -/
def Dec.writePred (s : Dec) (c : ComponentID) (a : CompArea) (blk : Plane) : Dec :=
  { s with pred := s.pred.write c a blk }

/-- Writes a block into the residual buffer of the coding structure. -/
def Dec.writeResi (s : Dec) (c : ComponentID) (a : CompArea) (blk : Plane) : Dec :=
  { s with resi := s.resi.write c a blk }

/-- Writes a block into the reconstruction buffer of the coding structure. -/
def Dec.writeReco (s : Dec) (c : ComponentID) (a : CompArea) (blk : Plane) : Dec :=
  { s with reco := s.reco.write c a blk }

/-- Writes a block into the prediction buffer of the picture. -/
def Dec.writePicPred (s : Dec) (c : ComponentID) (a : CompArea) (blk : Plane) : Dec :=
  { s with picPred := s.picPred.write c a blk }

/-- Writes a block into the reconstruction buffer of the picture. -/
def Dec.writePicReco (s : Dec) (c : ComponentID) (a : CompArea) (blk : Plane) : Dec :=
  { s with picReco := s.picReco.write c a blk }

/-- Writes a block into the luma plane of `m_tmpStorageLCU`. -/
def Dec.writeTmp (s : Dec) (a : CompArea) (blk : Plane) : Dec :=
  { s with tmpStorageLCU := s.tmpStorageLCU.write a blk }

/-- `tu.getPcmbuf( compID ).copyFrom( source )` for the unit of index `tu`. -/
def Dec.setPcm (s : Dec) (tu : Nat) (compID : ComponentID) (source : Plane) : Dec :=
  let bufs : Planes := fun c => if c = compID then source else s.pcm tu c
  { s with pcm := Function.update s.pcm tu bufs }

/-- `tu.setChromaAdj( adj )` for the unit of index `tu`. -/
def Dec.setChromaAdj (s : Dec) (tu : Nat) (adj : Int) : Dec :=
  { s with chromaAdj := Function.update s.chromaAdj tu adj }

/-- The component whose block `tu.blocks[tu.chType]` is. -/
def ChannelType.toComponent : ChannelType → ComponentID
  | .CHANNEL_TYPE_LUMA => .COMPONENT_Y
  | .CHANNEL_TYPE_CHROMA => .COMPONENT_Cb

/-- The area `CompArea( COMPONENT_Y, format, Position( 0, 0 ), area.size() )`. -/
def tmpAreaOf (area : CompArea) : CompArea := { area with x := 0, y := 0 }

/-- The condition `slice.getLmcsEnabledFlag() && m_pcReshape->getCTUFlag()`. -/
def Config.reshapeActive (C : Config) : Bool := C.lmcsEnabledFlag && C.reshapeCTUFlag

/-- `DecCu::xIntraRecBlk` (lines 172-332); `cu` is `*tu.cu`. -/
def xIntraRecBlk (C : Config) (E : Ext) (cu : CodingUnit) (tu : TransformUnit)
    (compID : ComponentID) (s : Dec) : Dec :=
  let s := s.log (.xIntraRecBlk tu.idx compID)
  if !(tu.blocks compID).valid then s
  else
    let area := tu.blocks compID
    let chType := toChannelType compID
    let pu := E.getPU cu area chType
    let uiChFinalMode := E.getFinalIntraMode pu chType
    -- init availability pattern
    let s := s.log (.initIntraPatternChType tu.idx compID)
    -- get prediction signal
    let s :=
      if compID ≠ .COMPONENT_Y && E.isLMCMode uiChFinalMode then
        let pu := cu.firstPU
        (s.writePred compID area
            (E.predIntraChromaLM compID pu area uiChFinalMode s)).log
          (.predIntraChromaLM tu.idx compID)
      else if E.isMIP pu chType then
        (s.writePred compID area
            (E.predIntraMip compID pu s)).log
          (.predIntraMip tu.idx compID)
      else
        (s.writePred compID area
            (E.predIntraAng compID pu s)).log
          (.predIntraAng tu.idx compID)
    let flag := C.lmcsEnabledFlag &&
      (C.sliceIsIntra || (!C.sliceIsIntra && C.reshapeCTUFlag))
    let s :=
      if flag && C.lmcsChromaResidualScaleFlag && compID ≠ .COMPONENT_Y &&
          (tu.cbf .COMPONENT_Cb ≠ 0 || tu.cbf .COMPONENT_Cr ≠ 0) then
        let areaY := if tu.Y.valid then tu.Y
          else E.recalcArea tu.chromaFormat tu.chType (tu.blocks tu.chType.toComponent)
        let piPredY := (s.picPred .COMPONENT_Y).view areaY
        let avgLuma := E.computeAvg areaY piPredY
        let adj := C.calculateChromaAdj avgLuma
        (s.setChromaAdj tu.idx adj).log (.setChromaAdj tu.idx adj)
      else s
    -- inverse transform
    let s :=
      -- Joint chroma residual mode: Cr uses negative of the signalled Cb residual
      if tu.jointCbCr && compID = .COMPONENT_Cr then
        let src := (s.resi .COMPONENT_Cb).view (tu.blocks .COMPONENT_Cb)
        (s.writeResi compID area (PelBuf.copyAndNegate src)).log (.copyAndNegate tu.idx compID)
      else if E.getCbf tu compID then
        (s.writeResi compID area (E.invTransformNxN tu compID)).log
          (.invTransformNxN tu.idx compID)
      else
        (s.writeResi compID area (PelBuf.fill 0)).log (.fill tu.idx compID)
    -- reconstruction
    let flag := flag && decide (area.width * area.height > 4)
    let s :=
      if flag && E.getCbf tu compID && isChroma compID && C.lmcsChromaResidualScaleFlag then
        -- Joint chroma residual mode: chroma scaling took place already when doing Cb
        if !(tu.jointCbCr && compID = .COMPONENT_Cr) then
          let piResi := (s.resi compID).view area
          (s.writeResi compID area
            (E.scaleSignal (s.chromaAdj tu.idx) (C.clpRng compID) piResi)).log
            (.scaleSignal tu.idx compID (s.chromaAdj tu.idx))
        else s
      else s
    let s :=
      if isChroma compID && tu.compAlpha compID ≠ 0 then
        let piResi := (s.resi compID).view area
        let resiY := (s.resi .COMPONENT_Y).view tu.Y
        (s.writeResi compID area (E.crossComponentPrediction tu compID resiY piResi)).log
          (.crossComponentPrediction tu.idx compID)
      else s
    let s :=
      if cu.ispMode = 0 || !isLuma compID then s.log (.setDecomp compID area)
      else if cu.ispMode ≠ 0 && isLuma compID && E.isISPFirst cu area compID then
        s.log (.setDecomp compID (cu.blocks compID))
      else s
    let lumaReshape := C.lmcsEnabledFlag && (C.reshapeCTUFlag || C.sliceIsIntra) &&
      decide (compID = .COMPONENT_Y)
    let s :=
      if lumaReshape && C.REUSE_CU_RESULTS then
        s.writeTmp (tmpAreaOf area) ((s.pred compID).view area)
      else s
    let piPred := (s.pred compID).view area
    let piResi := (s.resi compID).view area
    let s :=
      if C.KEEP_PRED_AND_RESI_SIGNALS then
        (s.writeReco compID area
            (PelBuf.reconstruct piPred piResi (C.clpRng compID))).log (.writeReco compID area)
      else
        let s := (s.writePred compID area
            (PelBuf.reconstruct piPred piResi (C.clpRng compID)))
        (s.writeReco compID area
            ((s.pred compID).view area)).log
          (.writeReco compID area)
    let s :=
      if lumaReshape && C.REUSE_CU_RESULTS then
        (s.writePred compID area
            (s.tmpStorageLCU.view (tmpAreaOf area)))
      else s
    if C.REUSE_CU_RESULTS && C.isEncoder then
      let s := (s.writePicReco compID area
            ((s.reco compID).view area))
      (s.writePicPred compID area
            ((s.pred compID).view area))
    else s

/-- `DecCu::xDecodePCMTexture` (lines 364-382). -/
def xDecodePCMTexture (C : Config) (tu : TransformUnit) (compID : ComponentID) (s : Dec) : Dec :=
  let area := tu.blocks compID
  let piPicPcm := tu.pcmbuf compID
  let uiPcmLeftShiftBit :=
    ((C.bitDepth (toChannelType compID) : Int) - C.pcmBitDepth (toChannelType compID)) %
      4294967296
  let s := (s.writeReco compID area
            (fun uiX uiY => toPel (piPicPcm uiX uiY * 2 ^ uiPcmLeftShiftBit.toNat))).log
    (.writeReco compID area)
  let s := (s.writePicReco compID area
            ((s.reco compID).view area))
  s.log (.setDecomp compID area)

/-- `DecCu::xReconPCM` (lines 389-401). -/
def xReconPCM (C : Config) (tu : TransformUnit) (s : Dec) : Dec :=
  let s := s.log (.xReconPCM tu.idx)
  let chType := tu.chType
  let compStr := if C.isDualITree && !(chType = .CHANNEL_TYPE_LUMA) then 1 else 0
  let compEnd := if C.isDualITree && chType = .CHANNEL_TYPE_LUMA then 0 else 2
  ([ComponentID.COMPONENT_Y, .COMPONENT_Cb, .COMPONENT_Cr].filter
    (fun c => compStr ≤ c.toNat ∧ c.toNat ≤ compEnd)).foldl
    (fun s compID => xDecodePCMTexture C tu compID s) s

/-- `DecCu::xIntraRecQT` (lines 413-432). -/
def xIntraRecQT (C : Config) (E : Ext) (cu : CodingUnit) (chType : ChannelType) (s : Dec) :
    Dec :=
  (CU.traverseTUs cu).foldl (fun s currTU =>
    if chType = .CHANNEL_TYPE_LUMA then
      xIntraRecBlk C E cu currTU .COMPONENT_Y s
    else
      let numValidComp := E.getNumberValidComponents cu.chromaFormat
      ([ComponentID.COMPONENT_Cb, .COMPONENT_Cr].filter (fun c => c.toNat < numValidComp)).foldl
        (fun s compID => xIntraRecBlk C E cu currTU compID s) s) s

/-- `DecCu::xReconIntraQT` (lines 334-351). -/
def xReconIntraQT (C : Config) (E : Ext) (cu : CodingUnit) (s : Dec) : Dec :=
  let s := s.log (.xReconIntraQT cu.idx)
  if cu.ipcm then xReconPCM C cu.firstTU s
  else
    let numChType := E.getNumberValidChannels cu.chromaFormat
    ([ChannelType.CHANNEL_TYPE_LUMA, .CHANNEL_TYPE_CHROMA].filter
      (fun t => (if t = .CHANNEL_TYPE_LUMA then 0 else 1) < numChType)).foldl
      (fun s chType =>
        if (cu.blocks chType.toComponent).valid then xIntraRecQT C E cu chType s else s) s

/-- `DecCu::xFillPCMBuffer` (lines 438-452). -/
def xFillPCMBuffer (cu : CodingUnit) (s : Dec) : Dec :=
  let s := s.log (.xFillPCMBuffer cu.idx)
  (CU.traverseTUs cu).foldl (fun s currTU =>
    [ComponentID.COMPONENT_Y, .COMPONENT_Cb, .COMPONENT_Cr].foldl (fun s compID =>
      let area := currTU.blocks compID
      if !area.valid then s
      else
        let source := (s.reco compID).view area
        s.setPcm currTU.idx compID source) s) s

/-- The components of a unit buffer: an operation on `cs.getPredBuf( unit )`,
`cs.getResiBuf( unit )` or `cs.getRecoBuf( unit )` is made on each valid block of the unit. -/
def forValidBlocks (blocks : ComponentID → CompArea) (f : ComponentID → CompArea → Dec → Dec)
    (s : Dec) : Dec :=
  [ComponentID.COMPONENT_Y, .COMPONENT_Cb, .COMPONENT_Cr].foldl
    (fun s c => if (blocks c).valid then f c (blocks c) s else s) s

/-- `DecCu::xDecodeInterTU` (lines 583-628). -/
def xDecodeInterTU (C : Config) (E : Ext) (currTU : TransformUnit) (compID : ComponentID)
    (s : Dec) : Dec :=
  let s := s.log (.xDecodeInterTU currTU.idx compID)
  if !(currTU.blocks compID).valid then s
  else
    let area := currTU.blocks compID
    -- inverse transform
    -- Joint chroma residual mode: Cr uses negative of the signalled Cb residual
    let s :=
      if currTU.jointCbCr && compID = .COMPONENT_Cr then
        let src := (s.resi .COMPONENT_Cb).view (currTU.blocks .COMPONENT_Cb)
        (s.writeResi compID area (PelBuf.copyAndNegate src)).log
          (.copyAndNegate currTU.idx compID)
      else if E.getCbf currTU compID then
        (s.writeResi compID area (E.invTransformNxN currTU compID)).log
          (.invTransformNxN currTU.idx compID)
      else
        (s.writeResi compID area (PelBuf.fill 0)).log (.fill currTU.idx compID)
    -- reconstruction
    let s :=
      if C.lmcsEnabledFlag && C.reshapeCTUFlag && isChroma compID && E.getCbf currTU compID &&
          C.lmcsChromaResidualScaleFlag && decide (area.width * area.height > 4) then
        -- Joint chroma residual mode: chroma scaling took place already when doing Cb
        if !(currTU.jointCbCr && compID = .COMPONENT_Cr) then
          let resiBuf := (s.resi compID).view area
          (s.writeResi compID area
            (E.scaleSignal (s.chromaAdj currTU.idx) (C.clpRng compID) resiBuf)).log
            (.scaleSignal currTU.idx compID (s.chromaAdj currTU.idx))
        else s
      else s
    if isChroma compID && currTU.compAlpha compID ≠ 0 then
      let resiBuf := (s.resi compID).view area
      let resiY := (s.resi .COMPONENT_Y).view currTU.Y
      (s.writeResi compID area (E.crossComponentPrediction currTU compID resiY resiBuf)).log
        (.crossComponentPrediction currTU.idx compID)
    else s

/-- `DecCu::xDecodeInterTexture` (lines 630-671). -/
def xDecodeInterTexture (C : Config) (E : Ext) (cu : CodingUnit) (s : Dec) : Dec :=
  if !cu.rootCbf then s
  else
    let uiNumVaildComp := E.getNumberValidComponents cu.chromaFormat
    ([ComponentID.COMPONENT_Y, .COMPONENT_Cb, .COMPONENT_Cr].filter
      (fun c => c.toNat < uiNumVaildComp)).foldl (fun s compID =>
        (CU.traverseTUs cu).foldl (fun s currTU =>
          let s :=
            if C.lmcsEnabledFlag && C.reshapeCTUFlag && C.lmcsChromaResidualScaleFlag &&
                decide (compID = .COMPONENT_Y) &&
                (currTU.cbf .COMPONENT_Cb ≠ 0 || currTU.cbf .COMPONENT_Cr ≠ 0) then
              let areaY := currTU.blocks .COMPONENT_Y
              let predY := (s.pred .COMPONENT_Y).view areaY
              let tmpArea := tmpAreaOf areaY
              let s := s.writeTmp tmpArea predY
              let s :=
                if !cu.firstPU.mhIntraFlag && !CU.isIBC cu then
                  (s.writeTmp tmpArea
                    (PelBuf.rspSignal C.fwdLUT (s.tmpStorageLCU.view tmpArea))).log
                    (.rspSignal .tmpPred cu.idx)
                else s
              let avgLuma := E.computeAvg tmpArea (s.tmpStorageLCU.view tmpArea)
              let adj := C.calculateChromaAdj avgLuma
              (s.setChromaAdj currTU.idx adj).log (.setChromaAdj currTU.idx adj)
            else s
          xDecodeInterTU C E currTU compID s) s) s

/-- The prediction part of `DecCu::xReconInter` (lines 458-485), which may fail. -/
def xReconInter_predict (E : Ext) (cu : CodingUnit) (s : Dec) : Except String Dec := do
  let s ←
    if cu.triangle then
      let splitDir := cu.firstPU.triangleSplitDir
      let candIdx0 := cu.firstPU.triangleMergeIdx0
      let candIdx1 := cu.firstPU.triangleMergeIdx1
      let blk := E.motionCompensation4Triangle cu s.triangleMrgCtx splitDir candIdx0 candIdx1 s
      let s := forValidBlocks cu.blocks (fun c a s => s.writePred c a (blk c)) s
      let s := s.log (.motionCompensation4Triangle cu.idx)
      pure (s.log (.spanTriangleMotionInfo cu.idx))
    else do
      let s := s.log (.geneIntrainterPred cu.idx)
      -- inter prediction
      CHECK (CU.isIBC cu && cu.firstPU.mhIntraFlag) "IBC and MHIntra cannot be used together"
      CHECK (CU.isIBC cu && cu.affine) "IBC and Affine cannot be used together"
      CHECK (CU.isIBC cu && cu.triangle) "IBC and triangle cannot be used together"
      CHECK (CU.isIBC cu && cu.firstPU.mmvdMergeFlag) "IBC and MMVD cannot be used together"
      let luma := cu.Y.valid
      let chroma := cu.Cb.valid
      if luma && chroma then
        let blk := E.motionCompensation cu .REF_PIC_LIST_X true true s
        let s := forValidBlocks cu.blocks (fun c a s => s.writePred c a (blk c)) s
        pure (s.log (.motionCompensation cu.idx true true))
      else
        let blk := E.motionCompensation cu .REF_PIC_LIST_0 luma chroma s
        let s := forValidBlocks cu.blocks (fun c a s =>
          if (if isLuma c then luma else chroma) then s.writePred c a (blk c) else s) s
        pure (s.log (.motionCompensation cu.idx luma chroma))
  pure s

/-- The statements of `DecCu::xReconInter` after the prediction (lines 486-580), which cannot
fail. -/
def xReconInter_rest (C : Config) (E : Ext) (cu : CodingUnit) (s : Dec) : Dec :=
  let s :=
    if cu.Y.valid then
      let pu := cu.firstPU
      if !cu.affine && !cu.triangle then
        let mi := E.getMotionInfo pu s
        let mi := { mi with GBiIdx := if mi.interDir = 3 then cu.GBiIdx else C.GBI_DEFAULT }
        let s :=
          if CU.isIBC cu then { s with lutIbc := E.addMiToLut s.lutIbc mi }
          else { s with lut := E.addMiToLut s.lut mi }
        s.log (.addMiToLut cu.idx (CU.isIBC cu))
      else s
    else s
  let s :=
    if cu.firstPU.mhIntraFlag then
      let s :=
        if C.lmcsEnabledFlag && C.reshapeCTUFlag then
          let a := cu.firstPU.blocks .COMPONENT_Y
          (s.writePred .COMPONENT_Y a
            (PelBuf.rspSignal C.fwdLUT ((s.pred .COMPONENT_Y).view a))).log
            (.rspSignal .predBuf cu.idx)
        else s
      [ComponentID.COMPONENT_Y, .COMPONENT_Cb, .COMPONENT_Cr].foldl (fun s c =>
        let a := cu.firstPU.blocks c
        (s.writePred c a (E.geneWeightedPred c ((s.pred c).view a) cu.firstPU s)).log
          (.geneWeightedPred cu.idx c)) s
    else s
  -- inter recon
  let s := xDecodeInterTexture C E cu s
  -- clip for only non-zero cbf case
  let s :=
    if cu.rootCbf then
      let area := cu.blocks .COMPONENT_Y
      let tmpArea := tmpAreaOf area
      let s :=
        if C.lmcsEnabledFlag && C.reshapeCTUFlag then
          let s :=
            if C.REUSE_CU_RESULTS && C.isEncoder then
              s.writeTmp tmpArea ((s.pred .COMPONENT_Y).view area)
            else s
          if !cu.firstPU.mhIntraFlag && !CU.isIBC cu then
            (s.writePred .COMPONENT_Y area
              (PelBuf.rspSignal C.fwdLUT ((s.pred .COMPONENT_Y).view area))).log
              (.rspSignal .predBuf cu.idx)
          else s
        else s
      let s :=
        if C.KEEP_PRED_AND_RESI_SIGNALS then
          forValidBlocks cu.blocks (fun c a s =>
            (s.writeReco c a (PelBuf.reconstruct ((s.pred c).view a) ((s.resi c).view a)
              (C.clpRng c))).log (.writeReco c a)) s
        else
          let s := forValidBlocks cu.blocks (fun c a s =>
            s.writeResi c a (PelBuf.reconstruct ((s.pred c).view a) ((s.resi c).view a)
              (C.clpRng c))) s
          forValidBlocks cu.blocks (fun c a s =>
            (s.writeReco c a ((s.resi c).view a)).log (.writeReco c a)) s
      if C.lmcsEnabledFlag && C.reshapeCTUFlag then
        if C.REUSE_CU_RESULTS && C.isEncoder then
          s.writePred .COMPONENT_Y area (s.tmpStorageLCU.view tmpArea)
        else s
      else s
    else
      let s := forValidBlocks cu.blocks (fun c a s =>
        (s.writeReco c a (PelBuf.copyClip ((s.pred c).view a) (C.clpRng c))).log
          (.writeReco c a)) s
      if C.lmcsEnabledFlag && C.reshapeCTUFlag && !cu.firstPU.mhIntraFlag && !CU.isIBC cu then
        let a := cu.blocks .COMPONENT_Y
        (s.writeReco .COMPONENT_Y a
          (PelBuf.rspSignal C.fwdLUT ((s.reco .COMPONENT_Y).view a))).log
          (.rspSignal .recoBuf cu.idx)
      else s
  forValidBlocks cu.blocks (fun c a s => s.log (.setDecomp c a)) s

/-- `DecCu::xReconInter` (lines 456-581): the prediction, which may fail, then the remaining
statements. -/
def xReconInter (C : Config) (E : Ext) (cu : CodingUnit) (s : Dec) : Except String Dec := do
  let s := s.log (.xReconInter cu.idx)
  let s ← xReconInter_predict E cu s
  pure (xReconInter_rest C E cu s)

/-- The state of the loop of `xDeriveCUMV` over the prediction units: the coding unit, whose
`affineType` and `GBiIdx` the loop may set, the current prediction unit, and the decoder. -/
structure DeriveState where
  cu : CodingUnit
  pu : PredictionUnit
  s : Dec

/-- A default-constructed `MergeCtx`. -/
def MergeCtx.new : MergeCtx := ⟨[], none⟩

/-- A default-constructed `AffineMergeCtx`. -/
def AffineMergeCtx.new : AffineMergeCtx :=
  { interDirNeighbours := fun _ => 0
    affineType := fun _ => 0
    GBiIdx := fun _ => 0
    mergeType := fun _ => .MRG_TYPE_DEFAULT_N
    mvFieldNeighbours := fun _ _ => ⟨⟨0, 0⟩, 0⟩
    mrgCtx := none }

/-- `pu.lumaSize()`. -/
def PredictionUnit.lumaSize (pu : PredictionUnit) : Nat × Nat := (pu.Y.width, pu.Y.height)

/-- The merge branch of the loop body of `DecCu::xDeriveCUMV` (lines 687-772). -/
def xDeriveCUMV_merge (C : Config) (E : Ext) (d : DeriveState) : Except String DeriveState := do
  let cu := d.cu
  let pu := d.pu
  let s := d.s
  let mrgCtx := MergeCtx.new
  if pu.mmvdMergeFlag || cu.mmvdSkip then
    CHECK (pu.mhIntraFlag == true) "invalid MHIntra"
    let mrgCtx :=
      if C.sbTMVPEnabledFlag then { mrgCtx with subPuMvpMiBuf := some (E.miScaling pu.lumaSize) }
      else mrgCtx
    let fPosBaseIdx := pu.mmvdMergeIdx / C.MMVD_MAX_REFINE_NUM
    let pu := { pu with shareParentPos := cu.shareParentPos, shareParentSize := cu.shareParentSize }
    let mrgCtx := E.getInterMergeCandidates pu mrgCtx 1 (fPosBaseIdx + 1) s
    let mrgCtx := E.getInterMMVDMergeCandidates pu mrgCtx pu.mmvdMergeIdx s
    let pu := E.setMmvdMergeCandiInfo mrgCtx pu pu.mmvdMergeIdx
    pure ⟨cu, pu, s.log (.spanMotionInfo pu.idx)⟩
  else if cu.triangle then
    pure ⟨cu, pu, { s with triangleMrgCtx := E.getTriangleMergeCandidates pu s }⟩
  else if cu.affine then
    let affineMergeCtx := AffineMergeCtx.new
    let mrgCtx :=
      if C.sbTMVPEnabledFlag then { mrgCtx with subPuMvpMiBuf := some (E.miScaling pu.lumaSize) }
      else mrgCtx
    let affineMergeCtx :=
      if C.sbTMVPEnabledFlag then { affineMergeCtx with mrgCtx := some mrgCtx }
      else affineMergeCtx
    let affineMergeCtx := E.getAffineMergeCand pu affineMergeCtx pu.mergeIdx s
    let pu := { pu with interDir := affineMergeCtx.interDirNeighbours pu.mergeIdx }
    let cu := { cu with affineType := affineMergeCtx.affineType pu.mergeIdx }
    let cu := { cu with GBiIdx := affineMergeCtx.GBiIdx pu.mergeIdx }
    let pu := { pu with mergeType := affineMergeCtx.mergeType pu.mergeIdx }
    let pu :=
      if pu.mergeType = .MRG_TYPE_SUBPU_ATMVP then
        let r0 := (affineMergeCtx.mvFieldNeighbours ((pu.mergeIdx <<< 1) + 0) 0).refIdx
        let r1 := (affineMergeCtx.mvFieldNeighbours ((pu.mergeIdx <<< 1) + 1) 0).refIdx
        { pu with refIdx := Function.update (Function.update pu.refIdx 0 r0) 1 r1 }
      else
        [0, 1].foldl (fun (pu : PredictionUnit) (i : Nat) =>
          if C.numRefIdx i > 0 then
            let mvField := affineMergeCtx.mvFieldNeighbours ((pu.mergeIdx <<< 1) + i)
            let pu := { pu with mvpIdx := Function.update pu.mvpIdx i 0 }
            let pu := { pu with mvpNum := Function.update pu.mvpNum i 0 }
            let pu := { pu with mvd := Function.update pu.mvd i ⟨0, 0⟩ }
            E.setAllAffineMvField pu mvField i
          else pu) pu
    pure ⟨cu, pu, s.log (.spanMotionInfo pu.idx)⟩
  else
    let pu := { pu with shareParentPos := cu.shareParentPos, shareParentSize := cu.shareParentSize }
    let mrgCtx :=
      if CU.isIBC cu then E.getIBCMergeCandidates pu mrgCtx pu.mergeIdx s
      else E.getInterMergeCandidates pu mrgCtx 0 pu.mergeIdx s
    let pu := E.setMergeInfo mrgCtx pu pu.mergeIdx
    pure ⟨cu, pu, s.log (.spanMotionInfo pu.idx)⟩

/-- One pass of the loop over the reference lists of the affine AMVP branch of
`DecCu::xDeriveCUMV` (lines 791-831). -/
def xDeriveCUMV_affineAMVP (C : Config) (E : Ext) (cu : CodingUnit) (uiRefListIdx : Nat)
    (ps : PredictionUnit × Dec) : Except String (PredictionUnit × Dec) := do
  let pu := ps.1
  let s := ps.2
  let eRefList := uiRefListIdx
  if C.numRefIdx eRefList > 0 ∧ pu.interDir &&& (1 <<< uiRefListIdx) ≠ 0 then
    let affineAMVPInfo := E.fillAffineMvpCand pu eRefList (pu.refIdx eRefList) s
    let mvp_idx := pu.mvpIdx eRefList
    let pu := { pu with mvpNum := Function.update pu.mvpNum eRefList affineAMVPInfo.numCand }
    CHECK (pu.refIdx eRefList < 0) "Unexpected negative refIdx."
    let pu :=
      if !C.isEncoder then
        let m0 := E.changeAffinePrecAmvr2Internal (pu.mvdAffi eRefList 0) cu.imv
        let m1 := E.changeAffinePrecAmvr2Internal (pu.mvdAffi eRefList 1) cu.imv
        let row := Function.update (Function.update (pu.mvdAffi eRefList) 0 m0) 1 m1
        let row :=
          if cu.affineType = C.AFFINEMODEL_6PARAM then
            Function.update row 2 (E.changeAffinePrecAmvr2Internal (pu.mvdAffi eRefList 2) cu.imv)
          else row
        { pu with mvdAffi := Function.update pu.mvdAffi eRefList row }
      else pu
    let mvLT := (affineAMVPInfo.mvCandLT mvp_idx).add (pu.mvdAffi eRefList 0)
    let mvRT := (affineAMVPInfo.mvCandRT mvp_idx).add (pu.mvdAffi eRefList 1)
    let mvRT := mvRT.add (pu.mvdAffi eRefList 0)
    let mvLB : Mv := ⟨0, 0⟩
    let mvLB :=
      if cu.affineType = C.AFFINEMODEL_6PARAM then
        ((affineAMVPInfo.mvCandLB mvp_idx).add (pu.mvdAffi eRefList 2)).add
          (pu.mvdAffi eRefList 0)
      else mvLB
    let pu := E.setAllAffineMv pu mvLT mvRT mvLB eRefList
    pure (pu, s.log (.setAllAffineMv pu.idx eRefList))
  else pure (pu, s)

/-- One pass of the loop over the reference lists of the last AMVP branch of
`DecCu::xDeriveCUMV` (lines 852-869). -/
def xDeriveCUMV_AMVP (C : Config) (E : Ext) (cu : CodingUnit) (s : Dec)
    (pu : PredictionUnit) (uiRefListIdx : Nat) : PredictionUnit :=
  let eRefList := uiRefListIdx
  if (C.numRefIdx eRefList > 0 ∨ (eRefList = 0 ∧ CU.isIBC cu = true)) ∧
      pu.interDir &&& (1 <<< uiRefListIdx) ≠ 0 then
    let amvpInfo := E.fillMvpCand pu eRefList (pu.refIdx eRefList) s
    let pu := { pu with mvpNum := Function.update pu.mvpNum eRefList amvpInfo.numCand }
    let pu :=
      if !C.isEncoder then
        let mvd := E.changeTransPrecAmvr2Internal (pu.mvd eRefList) cu.imv
        { pu with mvd := Function.update pu.mvd eRefList mvd }
      else pu
    let mv := (amvpInfo.mvCand (pu.mvpIdx eRefList)).add (pu.mvd eRefList)
    { pu with mv := Function.update pu.mv eRefList (E.mvCliptoStorageBitDepth mv) }
  else pu

/-- The non-merge branch of the loop body of `DecCu::xDeriveCUMV` (lines 773-873). -/
def xDeriveCUMV_nonMerge (C : Config) (E : Ext) (d : DeriveState) :
    Except String DeriveState := do
  let cu := d.cu
  let pu := d.pu
  let s := d.s
  let mrgCtx := MergeCtx.new
  let pu := { pu with shareParentPos := cu.shareParentPos, shareParentSize := cu.shareParentSize }
  if (if C.REUSE_CU_RESULTS then cu.imv ≠ 0 && !cu.affine && !C.isEncoder
      else cu.imv ≠ 0 && !cu.affine) then
    let pu := E.applyImv pu mrgCtx s
    pure ⟨cu, pu, s.log (.applyImv pu.idx)⟩
  else
    let ps ←
      if cu.affine then do
        let ps ← xDeriveCUMV_affineAMVP C E cu 0 (pu, s)
        xDeriveCUMV_affineAMVP C E cu 1 ps
      else if CU.isIBC cu && pu.interDir = 1 then
        let amvpInfo := E.fillIBCMvpCand pu s
        let pu := { pu with mvpNum := Function.update pu.mvpNum 0 amvpInfo.numCand }
        let mvd := pu.mvd 0
        let mvd :=
          if C.REUSE_CU_RESULTS then
            if !C.isEncoder then E.changeIbcPrecAmvr2Internal mvd cu.imv else mvd
          else E.changeIbcPrecAmvr2Internal mvd cu.imv
        let mv := (amvpInfo.mvCand (pu.mvpIdx 0)).add mvd
        pure ({ pu with mv := Function.update pu.mv 0 (E.mvCliptoStorageBitDepth mv) }, s)
      else
        pure ([0, 1].foldl (xDeriveCUMV_AMVP C E cu s) pu, s)
    pure ⟨cu, ps.1, ps.2.log (.spanMotionInfo ps.1.idx)⟩

/-- The derivation of the motion of one prediction unit: the loop body of
`DecCu::xDeriveCUMV` up to line 873.  The statement of lines 874-880 only prints a message and
is left out. -/
def xDeriveCUMV_motion (C : Config) (E : Ext) (d : DeriveState) : Except String DeriveState :=
  if d.pu.mergeFlag then xDeriveCUMV_merge C E d else xDeriveCUMV_nonMerge C E d

/-- The check of the block vector of an IBC unit at the end of the loop body of
`DecCu::xDeriveCUMV` (lines 881-893). -/
def xDeriveCUMV_check (C : Config) (E : Ext) (d : DeriveState) : Except String DeriveState := do
  let cu := d.cu
  let pu := d.pu
  let s := d.s
  if CU.isIBC cu then
    let cuPelX : Int := pu.Y.x
    let cuPelY : Int := pu.Y.y
    let roiWidth : Int := pu.Y.width
    let roiHeight : Int := pu.Y.height
    let picWidth := C.picWidthInLumaSamples
    let picHeight := C.picHeightInLumaSamples
    let lcuWidth := C.maxCUWidth
    let xPred := (pu.mv 0).hor >>> C.MV_FRACTIONAL_BITS_INTERNAL
    let yPred := (pu.mv 0).ver >>> C.MV_FRACTIONAL_BITS_INTERNAL
    let valid := E.isBlockVectorValid pu cuPelX cuPelY roiWidth roiHeight picWidth picHeight 0 0
      xPred yPred lcuWidth s
    let s := s.log (.isBlockVectorValid pu.idx xPred yPred valid)
    CHECK (!valid) "invalid block vector for IBC detected."
    pure ⟨cu, pu, s⟩
  else pure ⟨cu, pu, s⟩

/-- The loop of `DecCu::xDeriveCUMV` over the prediction units `pus` still to visit; `done`
holds the units already visited, last first. -/
def xDeriveCUMV_loop (C : Config) (E : Ext) :
    List PredictionUnit → CodingUnit → List PredictionUnit → Dec →
      Except String (CodingUnit × List PredictionUnit × Dec)
  | [], cu, done, s => .ok (cu, done.reverse, s)
  | pu :: pus, cu, done, s => do
    let d ← xDeriveCUMV_motion C E ⟨cu, pu, s⟩
    let d ← xDeriveCUMV_check C E d
    xDeriveCUMV_loop C E pus d.cu (d.pu :: done) d.s

/-- `DecCu::xDeriveCUMV` (lines 673-895): the coding unit with its prediction units updated. -/
def xDeriveCUMV (C : Config) (E : Ext) (cu : CodingUnit) (s : Dec) :
    Except String (CodingUnit × Dec) := do
  let s := s.log (.xDeriveCUMV cu.idx)
  let r ← xDeriveCUMV_loop C E (CU.traversePUs cu) cu [] s
  match r.2.1 with
  | [] => pure (r.1, r.2.2)
  | pu :: pus => pure ({ r.1 with firstPU := pu, nextPUs := pus }, r.2.2)

/-- The variables of the loop of `decompressCtu` over the coding units. -/
structure CtuState where
  prevTmpPos : Int × Int
  s : Dec

/-- The statements of the body of the loop of `DecCu::decompressCtu` before the `switch` (lines
120-140): the state of the motion sharing and the derivation of the motion. -/
def decompressCtu_derive (C : Config) (E : Ext) (sharePrepareCondition : Bool) (st : CtuState)
    (currCU : CodingUnit) : Except String (CodingUnit × CtuState) := do
  let s := st.s
  let prevTmpPos := st.prevTmpPos
  let s :=
    if sharePrepareCondition then
      let s :=
        if currCU.shareParentPos.1 ≥ 0 ∧
            ¬ (currCU.shareParentPos.1 = prevTmpPos.1 ∧ currCU.shareParentPos.2 = prevTmpPos.2)
        then { s with shareStateDec := C.GEN_ON_SHARED_BOUND, lutShareIbc := s.lutIbc }
        else s
      if currCU.shareParentPos.1 < 0 then { s with shareStateDec := 0 } else s
    else s
  let prevTmpPos := if sharePrepareCondition then currCU.shareParentPos else prevTmpPos
  let (currCU, s) ←
    if currCU.predMode ≠ .MODE_INTRA ∧ currCU.Y.valid = true then xDeriveCUMV C E currCU s
    else pure (currCU, s)
  pure (currCU, ⟨prevTmpPos, s⟩)

/-- The `switch` of the body of the loop of `DecCu::decompressCtu` and the statements after it
(lines 141-160). -/
def decompressCtu_dispatch (C : Config) (E : Ext) (currCU : CodingUnit) (st : CtuState) :
    Except String CtuState := do
  let s ←
    match currCU.predMode with
    | .MODE_INTER => xReconInter C E currCU st.s
    | .MODE_IBC => xReconInter C E currCU st.s
    | .MODE_INTRA => pure (xReconIntraQT C E currCU st.s)
    | _ => .error "Invalid prediction mode"
  let s := if E.isLosslessCoded currCU && !currCU.ipcm then xFillPCMBuffer currCU s else s
  pure ⟨st.prevTmpPos, s⟩

/-- The body of the loop of `DecCu::decompressCtu` over the coding units (lines 120-160): the
statements before the `switch`, then the `switch` and the statements after it. -/
def decompressCtu_body (C : Config) (E : Ext) (sharePrepareCondition : Bool) (st : CtuState)
    (currCU : CodingUnit) : Except String CtuState := do
  let r ← decompressCtu_derive C E sharePrepareCondition st currCU
  decompressCtu_dispatch C E r.1 r.2

/-- The loop of `DecCu::decompressCtu` over the coding units of one channel type. -/
def decompressCtu_loop (C : Config) (E : Ext) (sharePrepareCondition : Bool) :
    List CodingUnit → CtuState → Except String CtuState
  | [], st => .ok st
  | currCU :: cus, st => do
    let st ← decompressCtu_body C E sharePrepareCondition st currCU
    decompressCtu_loop C E sharePrepareCondition cus st

/-- `DecCu::decompressCtu` (lines 102-166); `traverseCUs chType` lists the coding units
`cs.traverseCUs( CS::getArea( cs, ctuArea, chType ), chType )` visits. -/
def decompressCtu (C : Config) (E : Ext) (traverseCUs : ChannelType → List CodingUnit)
    (s : Dec) : Except String Dec := do
  let maxNumChannelType := if C.chrFormat ≠ .CHROMA_400 ∧ C.isDualITree = true then 2 else 1
  let s := if !C.isEncoder then { s with shareStateDec := C.NO_SHARE } else s
  let sharePrepareCondition := !C.isEncoder && (!C.sliceIsIntra || C.spsIBCFlag)
  let st ← decompressCtu_loop C E sharePrepareCondition (traverseCUs .CHANNEL_TYPE_LUMA)
    ⟨(-1, -1), s⟩
  if maxNumChannelType = 2 then
    let st ← decompressCtu_loop C E sharePrepareCondition (traverseCUs .CHANNEL_TYPE_CHROMA)
      ⟨(-1, -1), st.s⟩
    pure st.s
  else pure st.s

/-! ### Example inputs of the decoder -/

/-- A valid area of the given size at the origin. -/
def exampleArea (width height : Nat) : CompArea := ⟨0, 0, width, height, true⟩

/-- A prediction unit in AMVP mode that uses reference list 0 with index 0 and has zero motion. -/
def examplePU : PredictionUnit :=
  { idx := 0
    blocks := fun c => if c = .COMPONENT_Y then exampleArea 4 4 else exampleArea 2 2
    mergeFlag := false
    mmvdMergeFlag := false
    mhIntraFlag := false
    mmvdMergeIdx := 0
    mergeIdx := 0
    mergeType := .MRG_TYPE_DEFAULT_N
    interDir := 1
    refIdx := fun _ => 0
    mvpIdx := fun _ => 0
    mvpNum := fun _ => 0
    mvd := fun _ => ⟨0, 0⟩
    mv := fun _ => ⟨0, 0⟩
    mvdAffi := fun _ _ => ⟨0, 0⟩
    mvAffi := fun _ _ => ⟨0, 0⟩
    triangleSplitDir := false
    triangleMergeIdx0 := 0
    triangleMergeIdx1 := 1
    shareParentPos := (-1, -1)
    shareParentSize := (0, 0)
    GBiIdx := 0 }

/-- A 4x4 luma, 2x2 chroma transform unit with all coded-block flags set, coded in the joint
chroma mode or not. -/
def exampleTU (jointCbCr : Bool) : TransformUnit :=
  { idx := 0
    chType := .CHANNEL_TYPE_LUMA
    chromaFormat := .CHROMA_420
    blocks := fun c => if c = .COMPONENT_Y then exampleArea 4 4 else exampleArea 2 2
    cbf := fun _ => 1
    jointCbCr := jointCbCr
    compAlpha := fun _ => 0
    pcmbuf := fun _ _ _ => 0 }

/-- A coding unit of the given prediction mode with one prediction unit and one transform
unit. -/
def exampleCU (predMode : PredMode) : CodingUnit :=
  { idx := 0
    predMode := predMode
    chromaFormat := .CHROMA_420
    blocks := fun c => if c = .COMPONENT_Y then exampleArea 4 4 else exampleArea 2 2
    affine := false
    triangle := false
    rootCbf := true
    ipcm := false
    ispMode := 0
    imv := 0
    mmvdSkip := false
    affineType := 0
    GBiIdx := 0
    shareParentPos := (-1, -1)
    shareParentSize := (0, 0)
    firstPU := examplePU
    nextPUs := []
    firstTU := exampleTU false
    nextTUs := [] }

/-- A decoder configuration for 8-bit 4:2:0 video in an inter slice, with the reshaper and its
chroma residual scaling enabled or not; the forward table adds 1 and the chroma adjustment of an
average luma `a` is `a + 2`. -/
def exampleConfig (lmcs : Bool) : Config :=
  { KEEP_PRED_AND_RESI_SIGNALS := false
    REUSE_CU_RESULTS := true
    isEncoder := false
    chrFormat := .CHROMA_420
    isDualITree := false
    sliceIsIntra := false
    spsIBCFlag := true
    lmcsEnabledFlag := lmcs
    lmcsChromaResidualScaleFlag := lmcs
    reshapeCTUFlag := lmcs
    sbTMVPEnabledFlag := false
    numRefIdx := fun _ => 1
    picWidthInLumaSamples := 64
    picHeightInLumaSamples := 64
    maxCUWidth := 64
    bitDepth := fun _ => 8
    pcmBitDepth := fun _ => 8
    clpRng := fun _ => ⟨0, 255⟩
    fwdLUT := fun v => v + 1
    calculateChromaAdj := fun a => a + 2
    mctsDecCheckEnabled := false
    MV_FRACTIONAL_BITS_INTERNAL := 4
    MMVD_MAX_REFINE_NUM := 8
    GBI_DEFAULT := 2
    AFFINEMODEL_6PARAM := 1
    NO_SHARE := 0
    GEN_ON_SHARED_BOUND := 3 }

/-- Collaborators for the examples: every prediction is 100, every inverse transform yields the
residual 5, the residual scaling multiplies by the adjustment, the cross-component prediction
adds `(alpha * luma residual) >> 3`, the average is the top-left sample, candidate lists are
empty, derived motion is left as it is, and a block vector is valid when it points up or left. -/
def exampleExt : Ext :=
  { getNumberValidComponents := fun f => if f = .CHROMA_400 then 1 else 3
    getNumberValidChannels := fun f => if f = .CHROMA_400 then 1 else 2
    getPU := fun cu _ _ => cu.firstPU
    getFinalIntraMode := fun _ _ => 0
    isLMCMode := fun _ => false
    isMIP := fun _ _ => false
    predIntraChromaLM := fun _ _ _ _ _ _ _ => 100
    predIntraMip := fun _ _ _ _ _ => 100
    predIntraAng := fun _ _ _ _ _ => 100
    recalcArea := fun _ _ a => { a with width := 2 * a.width, height := 2 * a.height }
    computeAvg := fun _ p => p 0 0
    getCbf := fun tu c => tu.cbf c ≠ 0
    invTransformNxN := fun _ _ _ _ => 5
    scaleSignal := fun adj _ p i j => adj * p i j
    crossComponentPrediction := fun tu c resiL resiC i j =>
      resiC i j + (tu.compAlpha c * resiL i j) >>> 3
    isISPFirst := fun _ _ _ => true
    isLosslessCoded := fun _ => false
    motionCompensation4Triangle := fun _ _ _ _ _ _ _ _ _ => 100
    motionCompensation := fun _ _ _ _ _ _ _ _ => 100
    geneWeightedPred := fun _ p _ _ => p
    getMotionInfo := fun pu _ => ⟨pu.interDir, pu.mv, pu.refIdx, 0, false⟩
    addMiToLut := fun l mi => l ++ [mi]
    miScaling := fun sz => (sz.1 / 4, sz.2 / 4)
    getInterMergeCandidates := fun _ m _ _ _ => m
    getInterMMVDMergeCandidates := fun _ m _ _ => m
    setMmvdMergeCandiInfo := fun _ pu _ => pu
    getTriangleMergeCandidates := fun _ _ => MergeCtx.new
    getAffineMergeCand := fun _ a _ _ => a
    setAllAffineMvField := fun pu _ _ => pu
    getIBCMergeCandidates := fun _ m _ _ => m
    setMergeInfo := fun _ pu _ => pu
    applyImv := fun pu _ _ => pu
    fillAffineMvpCand := fun _ _ _ _ => ⟨fun _ => ⟨0, 0⟩, fun _ => ⟨0, 0⟩, fun _ => ⟨0, 0⟩, 2⟩
    fillIBCMvpCand := fun _ _ => ⟨fun _ => ⟨0, 0⟩, 2⟩
    fillMvpCand := fun _ _ _ _ => ⟨fun _ => ⟨0, 0⟩, 2⟩
    setAllAffineMv := fun pu _ _ _ _ => pu
    changeAffinePrecAmvr2Internal := fun mv _ => mv
    changeIbcPrecAmvr2Internal := fun mv _ => mv
    changeTransPrecAmvr2Internal := fun mv _ => mv
    mvCliptoStorageBitDepth := fun mv => mv
    isBlockVectorValid := fun _ _ _ _ _ _ _ _ _ xPred yPred _ _ =>
      decide (xPred < 0 ∨ yPred < 0) }

/-- A decoder state with empty tables and trace, the luma residual 8 and all other samples 0. -/
def exampleDec : Dec :=
  { pred := fun _ _ _ => 0
    resi := fun c _ _ => if c = .COMPONENT_Y then 8 else 0
    reco := fun _ _ _ => 0
    picPred := fun _ _ _ => 0
    picReco := fun _ _ _ => 0
    tmpStorageLCU := fun _ _ => 0
    pcm := fun _ _ _ _ => 0
    chromaAdj := fun _ => 0
    lut := []
    lutIbc := []
    lutShareIbc := []
    shareStateDec := 0
    triangleMrgCtx := MergeCtx.new
    trace := [] }

/-- The trace of a result, empty for a failure. -/
def traceOf (r : Except String Dec) : List Event :=
  match r with
  | .ok s => s.trace
  | .error _ => []

/-- The message of a failure. -/
def errorOf {α : Type} (r : Except String α) : Option String :=
  match r with
  | .ok _ => none
  | .error e => some e

/-! ### Auxiliary definitions of the proofs on the decoder -/

/-- The statements on the residual that `DecCu::xIntraRecBlk` (lines 239-275) and
`DecCu::xDecodeInterTU` (lines 591-627) share: the inverse transform, the negated copy or the
zero fill, then the chroma residual scaling under `flag` and the cross-component prediction. -/
def residualOfTU (C : Config) (E : Ext) (tu : TransformUnit) (compID : ComponentID)
    (flag : Bool) (s : Dec) : Dec :=
  let area := tu.blocks compID
  -- Joint chroma residual mode: Cr uses negative of the signalled Cb residual
  let s :=
    if tu.jointCbCr && compID = .COMPONENT_Cr then
      let src := (s.resi .COMPONENT_Cb).view (tu.blocks .COMPONENT_Cb)
      (s.writeResi compID area
            (PelBuf.copyAndNegate src)).log
        (.copyAndNegate tu.idx compID)
    else if E.getCbf tu compID then
      (s.writeResi compID area
            (E.invTransformNxN tu compID)).log
        (.invTransformNxN tu.idx compID)
    else
      (s.writeResi compID area
            (PelBuf.fill 0)).log (.fill tu.idx compID)
  let s :=
    if flag && E.getCbf tu compID && isChroma compID && C.lmcsChromaResidualScaleFlag then
      if !(tu.jointCbCr && compID = .COMPONENT_Cr) then
        let piResi := (s.resi compID).view area
        (s.writeResi compID area
            (E.scaleSignal (s.chromaAdj tu.idx) (C.clpRng compID) piResi)).log
          (.scaleSignal tu.idx compID (s.chromaAdj tu.idx))
      else s
    else s
  if isChroma compID && tu.compAlpha compID ≠ 0 then
    let piResi := (s.resi compID).view area
    let resiY := (s.resi .COMPONENT_Y).view tu.Y
    (s.writeResi compID area
            (E.crossComponentPrediction tu compID resiY piResi)).log
      (.crossComponentPrediction tu.idx compID)
  else s

/-- The statements of `DecCu::xIntraRecBlk` from the prediction to the chroma adjustment (lines
184-238). -/
def xIntraRecBlk_pred (C : Config) (E : Ext) (cu : CodingUnit) (tu : TransformUnit)
    (compID : ComponentID) (s : Dec) : Dec :=
  let area := tu.blocks compID
  let chType := toChannelType compID
  let pu := E.getPU cu area chType
  let uiChFinalMode := E.getFinalIntraMode pu chType
  let s := s.log (.initIntraPatternChType tu.idx compID)
  let s :=
    if compID ≠ .COMPONENT_Y && E.isLMCMode uiChFinalMode then
      let pu := cu.firstPU
      (s.writePred compID area (E.predIntraChromaLM compID pu area uiChFinalMode s)).log
        (.predIntraChromaLM tu.idx compID)
    else if E.isMIP pu chType then
      (s.writePred compID area (E.predIntraMip compID pu s)).log (.predIntraMip tu.idx compID)
    else
      (s.writePred compID area (E.predIntraAng compID pu s)).log (.predIntraAng tu.idx compID)
  let flag := C.lmcsEnabledFlag &&
    (C.sliceIsIntra || (!C.sliceIsIntra && C.reshapeCTUFlag))
  if flag && C.lmcsChromaResidualScaleFlag && compID ≠ .COMPONENT_Y &&
      (tu.cbf .COMPONENT_Cb ≠ 0 || tu.cbf .COMPONENT_Cr ≠ 0) then
    let areaY := if tu.Y.valid then tu.Y
      else E.recalcArea tu.chromaFormat tu.chType (tu.blocks tu.chType.toComponent)
    let piPredY := (s.picPred .COMPONENT_Y).view areaY
    let avgLuma := E.computeAvg areaY piPredY
    let adj := C.calculateChromaAdj avgLuma
    (s.setChromaAdj tu.idx adj).log (.setChromaAdj tu.idx adj)
  else s

/-- The statements of `DecCu::xIntraRecBlk` after the residual (lines 277-331). -/
def xIntraRecBlk_reco (C : Config) (E : Ext) (cu : CodingUnit) (tu : TransformUnit)
    (compID : ComponentID) (s : Dec) : Dec :=
  let area := tu.blocks compID
  let s :=
    if cu.ispMode = 0 || !isLuma compID then s.log (.setDecomp compID area)
    else if cu.ispMode ≠ 0 && isLuma compID && E.isISPFirst cu area compID then
      s.log (.setDecomp compID (cu.blocks compID))
    else s
  let lumaReshape := C.lmcsEnabledFlag && (C.reshapeCTUFlag || C.sliceIsIntra) &&
    decide (compID = .COMPONENT_Y)
  let s :=
    if lumaReshape && C.REUSE_CU_RESULTS then
      s.writeTmp (tmpAreaOf area) ((s.pred compID).view area)
    else s
  let piPred := (s.pred compID).view area
  let piResi := (s.resi compID).view area
  let s :=
    if C.KEEP_PRED_AND_RESI_SIGNALS then
      (s.writeReco compID area (PelBuf.reconstruct piPred piResi (C.clpRng compID))).log
        (.writeReco compID area)
    else
      let s := s.writePred compID area (PelBuf.reconstruct piPred piResi (C.clpRng compID))
      (s.writeReco compID area ((s.pred compID).view area)).log (.writeReco compID area)
  let s :=
    if lumaReshape && C.REUSE_CU_RESULTS then
      s.writePred compID area (s.tmpStorageLCU.view (tmpAreaOf area))
    else s
  if C.REUSE_CU_RESULTS && C.isEncoder then
    let s := s.writePicReco compID area ((s.reco compID).view area)
    s.writePicPred compID area ((s.pred compID).view area)
  else s

/-- The flag under which `DecCu::xIntraRecBlk` scales a chroma residual (lines 217 and 260). -/
def xIntraRecBlk_flag (C : Config) (tu : TransformUnit) (compID : ComponentID) : Bool :=
  (C.lmcsEnabledFlag && (C.sliceIsIntra || (!C.sliceIsIntra && C.reshapeCTUFlag))) &&
    decide ((tu.blocks compID).width * (tu.blocks compID).height > 4)

/-- The flag under which `DecCu::xDecodeInterTU` scales a chroma residual (line 614). -/
def xDecodeInterTU_flag (C : Config) (tu : TransformUnit) (compID : ComponentID) : Bool :=
  C.lmcsEnabledFlag && C.reshapeCTUFlag &&
    decide ((tu.blocks compID).width * (tu.blocks compID).height > 4)

/-- The prediction block `DecCu::xIntraRecBlk` asks of the intra predictor (lines 193-214),
in the state `s` in which the predictor is called. -/
def xIntraRecBlk_prediction (E : Ext) (cu : CodingUnit) (tu : TransformUnit)
    (compID : ComponentID) (s : Dec) : Plane :=
  let area := tu.blocks compID
  let chType := toChannelType compID
  let pu := E.getPU cu area chType
  let uiChFinalMode := E.getFinalIntraMode pu chType
  if compID ≠ .COMPONENT_Y && E.isLMCMode uiChFinalMode then
    E.predIntraChromaLM compID cu.firstPU area uiChFinalMode s
  else if E.isMIP pu chType then E.predIntraMip compID pu s
  else E.predIntraAng compID pu s

/-- The chroma adjustment `DecCu::xIntraRecBlk` computes (lines 231-236) from the luma
prediction buffer `picPredY` of the picture. -/
def xIntraRecBlk_adj (C : Config) (E : Ext) (tu : TransformUnit) (picPredY : Plane) : Int :=
  let areaY := if tu.Y.valid then tu.Y
    else E.recalcArea tu.chromaFormat tu.chType (tu.blocks tu.chType.toComponent)
  C.calculateChromaAdj (E.computeAvg areaY (picPredY.view areaY))

/-- The condition under which `DecCu::xIntraRecBlk` computes and stores the chroma adjustment
(line 223). -/
def xIntraRecBlk_setsAdj (C : Config) (tu : TransformUnit) (compID : ComponentID) : Bool :=
  (C.lmcsEnabledFlag && (C.sliceIsIntra || (!C.sliceIsIntra && C.reshapeCTUFlag))) &&
    C.lmcsChromaResidualScaleFlag && compID ≠ .COMPONENT_Y &&
    (tu.cbf .COMPONENT_Cb ≠ 0 || tu.cbf .COMPONENT_Cr ≠ 0)

/-- Whether the sample `(i, j)`, counted from the top-left corner, lies in a block of the size
of the area. -/
def CompArea.inside (a : CompArea) (i j : Nat) : Prop := i < a.width ∧ j < a.height

/-- The answer of `PU::isBlockVectorValid` to the call of `DecCu::xDeriveCUMV` (lines 883-892)
for the prediction unit of `d`: the luma position and size of the unit, the picture size, the
integer-sample vector `mv[0] >> MV_FRACTIONAL_BITS_INTERNAL` and the CTU width. -/
def blockVectorValid (C : Config) (E : Ext) (d : DeriveState) : Bool :=
  E.isBlockVectorValid d.pu d.pu.Y.x d.pu.Y.y d.pu.Y.width d.pu.Y.height
    C.picWidthInLumaSamples C.picHeightInLumaSamples 0 0
    ((d.pu.mv 0).hor >>> C.MV_FRACTIONAL_BITS_INTERNAL)
    ((d.pu.mv 0).ver >>> C.MV_FRACTIONAL_BITS_INTERNAL) C.maxCUWidth d.s

/-- The number of `setChromaAdj` calls for the transform unit `tu` in a list of calls. -/
def countSetChromaAdj (tu : Nat) (l : List Event) : Nat :=
  (l.filter (fun e => match e with
    | .setChromaAdj t _ => decide (t = tu)
    | _ => false)).length

/-! ### Further example inputs of the decoder -/

/-- A coding unit with a prediction mode that is none of the three modes, whose prediction unit
is in MMVD merge mode with the MHIntra flag set. -/
def badModeCU : CodingUnit :=
  { exampleCU .NUMBER_OF_PREDICTION_MODES with
    firstPU := { examplePU with mergeFlag := true, mmvdMergeFlag := true, mhIntraFlag := true } }

/-- An IBC coding unit with the triangle flag set. -/
def ibcTriangleCU : CodingUnit := { exampleCU .MODE_IBC with triangle := true }

/-- An IBC coding unit with the triangle flag and the MHIntra flag of its prediction unit set. -/
def ibcTriangleMHIntraCU : CodingUnit :=
  { exampleCU .MODE_IBC with
    triangle := true
    firstPU := { examplePU with mergeFlag := true, mhIntraFlag := true } }

/-- An inter coding unit in AMVP mode, affine or not, that uses reference list 0 with the
reference index -1 and the motion vector difference (3, 5). -/
def negRefIdxCU (affine : Bool) : CodingUnit :=
  { exampleCU .MODE_INTER with
    affine := affine
    firstPU := { examplePU with refIdx := fun _ => -1, mvd := fun _ => ⟨3, 5⟩ } }

/-- An IBC coding unit in AMVP mode whose block vector difference points 4 samples to the
left. -/
def ibcCU : CodingUnit :=
  { exampleCU .MODE_IBC with firstPU := { examplePU with mvd := fun _ => ⟨-64, 0⟩ } }

/-- A transform unit coded in the joint chroma mode whose cross-component prediction parameter
of Cr is 1. -/
def jointAlphaTU : TransformUnit :=
  { exampleTU true with compAlpha := fun c => if c = .COMPONENT_Cr then 1 else 0 }

/-- The coding units of a CTU with a single tree: those of the luma channel type. -/
def singleTree (cus : List CodingUnit) : ChannelType → List CodingUnit :=
  fun t => if t = .CHANNEL_TYPE_LUMA then cus else []

/-- The `sharePrepareCondition` of `DecCu::decompressCtu` (line 110). -/
def decompressCtu_sharePrepareCondition (C : Config) : Bool :=
  !C.isEncoder && (!C.sliceIsIntra || C.spsIBCFlag)

/-- The variables of `DecCu::decompressCtu` at the start of the loop over the coding units of a
channel type, the decoder being `s` at line 106. -/
def decompressCtu_start (C : Config) (s : Dec) : CtuState :=
  ⟨(-1, -1), if !C.isEncoder then { s with shareStateDec := C.NO_SHARE } else s⟩

/-- The calls `residualOfTU` records, `adj` being the chroma adjustment stored for the unit. -/
def residualEvents (C : Config) (E : Ext) (tu : TransformUnit) (compID : ComponentID)
    (flag : Bool) (adj : Int) : List Event :=
  [if tu.jointCbCr && compID = .COMPONENT_Cr then Event.copyAndNegate tu.idx compID
    else if E.getCbf tu compID then Event.invTransformNxN tu.idx compID
    else Event.fill tu.idx compID] ++
  (if (flag && E.getCbf tu compID && isChroma compID && C.lmcsChromaResidualScaleFlag) &&
      !(tu.jointCbCr && compID = .COMPONENT_Cr)
    then [Event.scaleSignal tu.idx compID adj] else []) ++
  (if isChroma compID && tu.compAlpha compID ≠ 0
    then [Event.crossComponentPrediction tu.idx compID] else [])

/-- The calls `xIntraRecBlk_pred` records, `picPredY` being the luma prediction buffer of the
picture. -/
def xIntraRecBlk_predEvents (C : Config) (E : Ext) (cu : CodingUnit) (tu : TransformUnit)
    (compID : ComponentID) (picPredY : Plane) : List Event :=
  [Event.initIntraPatternChType tu.idx compID,
    if compID ≠ .COMPONENT_Y &&
        E.isLMCMode (E.getFinalIntraMode (E.getPU cu (tu.blocks compID)
          (toChannelType compID)) (toChannelType compID))
      then Event.predIntraChromaLM tu.idx compID
    else if E.isMIP (E.getPU cu (tu.blocks compID) (toChannelType compID))
        (toChannelType compID)
      then Event.predIntraMip tu.idx compID
    else Event.predIntraAng tu.idx compID] ++
  (if xIntraRecBlk_setsAdj C tu compID
    then [Event.setChromaAdj tu.idx (xIntraRecBlk_adj C E tu picPredY)]
    else [])

/-- The calls `xIntraRecBlk_reco` records. -/
def xIntraRecBlk_recoEvents (E : Ext) (cu : CodingUnit) (tu : TransformUnit)
    (compID : ComponentID) : List Event :=
  (if cu.ispMode = 0 || !isLuma compID then [Event.setDecomp compID (tu.blocks compID)]
    else if cu.ispMode ≠ 0 && isLuma compID && E.isISPFirst cu (tu.blocks compID) compID
      then [Event.setDecomp compID (cu.blocks compID)]
    else []) ++ [Event.writeReco compID (tu.blocks compID)]

/-- The chroma adjustment stored for the unit when `DecCu::xIntraRecBlk` reaches the residual,
`adj` being the one stored at the start of the call. -/
def xIntraRecBlk_storedAdj (C : Config) (E : Ext) (tu : TransformUnit) (compID : ComponentID)
    (picPredY : Plane) (adj : Int) : Int :=
  if xIntraRecBlk_setsAdj C tu compID then xIntraRecBlk_adj C E tu picPredY else adj

/-- The statements of `DecCu::xDecodeInterTexture` that compute and store the chroma adjustment
of a transform unit (lines 649-667). -/
def xDecodeInterTexture_adj (C : Config) (E : Ext) (cu : CodingUnit) (compID : ComponentID)
    (currTU : TransformUnit) (s : Dec) : Dec :=
  if C.lmcsEnabledFlag && C.reshapeCTUFlag && C.lmcsChromaResidualScaleFlag &&
      decide (compID = .COMPONENT_Y) &&
      (currTU.cbf .COMPONENT_Cb ≠ 0 || currTU.cbf .COMPONENT_Cr ≠ 0) then
    let areaY := currTU.blocks .COMPONENT_Y
    let predY := (s.pred .COMPONENT_Y).view areaY
    let tmpArea := tmpAreaOf areaY
    let s := s.writeTmp tmpArea predY
    let s :=
      if !cu.firstPU.mhIntraFlag && !CU.isIBC cu then
        (s.writeTmp tmpArea (PelBuf.rspSignal C.fwdLUT (s.tmpStorageLCU.view tmpArea))).log
          (.rspSignal .tmpPred cu.idx)
      else s
    let avgLuma := E.computeAvg tmpArea (s.tmpStorageLCU.view tmpArea)
    let adj := C.calculateChromaAdj avgLuma
    (s.setChromaAdj currTU.idx adj).log (.setChromaAdj currTU.idx adj)
  else s

/-- The body of the loop of `DecCu::xDecodeInterTexture` over the transform units (lines
645-668). -/
def xDecodeInterTexture_step (C : Config) (E : Ext) (cu : CodingUnit) (compID : ComponentID)
    (s : Dec) (currTU : TransformUnit) : Dec :=
  xDecodeInterTU C E currTU compID (xDecodeInterTexture_adj C E cu compID currTU s)

/-! ## Intra prediction (`source/Lib/CommonLib/IntraPrediction.h`) -/

/-- `IntraPrediction::isIntegerSlope` (lines 125-129).  The argument is an `int`; the bitwise
`absAng & 0x1F` is taken on its 32-bit two's complement pattern.  The flag is the compile-time
switch `JVET_N0435_WAIP_HARMONIZATION`, which selects one of the two bodies. -/
def isIntegerSlope (JVET_N0435_WAIP_HARMONIZATION : Bool) (absAng : Int) : Bool :=
  if JVET_N0435_WAIP_HARMONIZATION then decide (0 = (ofInt32 absAng &&& 0x1F))
  else decide (0 = (ofInt32 absAng &&& 0x1F)) && decide (absAng ≤ 32)

/-! ### Auxiliary definitions of the proofs on the order of the decoder's calls -/

/-- Whether a recorded call is a call of `xDeriveCUMV`. -/
def Event.isDerive : Event → Bool
  | .xDeriveCUMV _ => true
  | _ => false

/-- Whether a recorded call is a call of `setDecomp`. -/
def Event.isSetDecomp : Event → Bool
  | .setDecomp _ _ => true
  | _ => false

/-- The trace of `s1` is the trace of `s` followed by calls that all satisfy `p`. -/
def Dec.Grows (p : Event → Bool) (s s1 : Dec) : Prop :=
  ∃ new, s1.trace = s.trace ++ new ∧ ∀ e ∈ new, p e = true

/-- The statements of `DecCu::xReconInter` that add the motion of the unit to a look-up table
(lines 486-495). -/
def xReconInter_lut (C : Config) (E : Ext) (cu : CodingUnit) (s : Dec) : Dec :=
  if cu.Y.valid then
    let pu := cu.firstPU
    if !cu.affine && !cu.triangle then
      let mi := E.getMotionInfo pu s
      let mi := { mi with GBiIdx := if mi.interDir = 3 then cu.GBiIdx else C.GBI_DEFAULT }
      let s :=
        if CU.isIBC cu then { s with lutIbc := E.addMiToLut s.lutIbc mi }
        else { s with lut := E.addMiToLut s.lut mi }
      s.log (.addMiToLut cu.idx (CU.isIBC cu))
    else s
  else s

/-- The statements of `DecCu::xReconInter` for a unit with the MHIntra flag (lines 497-510). -/
def xReconInter_mhIntra (C : Config) (E : Ext) (cu : CodingUnit) (s : Dec) : Dec :=
  if cu.firstPU.mhIntraFlag then
    let s :=
      if C.lmcsEnabledFlag && C.reshapeCTUFlag then
        let a := cu.firstPU.blocks .COMPONENT_Y
        (s.writePred .COMPONENT_Y a
          (PelBuf.rspSignal C.fwdLUT ((s.pred .COMPONENT_Y).view a))).log
          (.rspSignal .predBuf cu.idx)
      else s
    [ComponentID.COMPONENT_Y, .COMPONENT_Cb, .COMPONENT_Cr].foldl (fun s c =>
      let a := cu.firstPU.blocks c
      (s.writePred c a (E.geneWeightedPred c ((s.pred c).view a) cu.firstPU s)).log
        (.geneWeightedPred cu.idx c)) s
  else s

/-- The reconstruction of `DecCu::xReconInter` for a unit with a coded residual (lines
523-562). -/
def xReconInter_reconCbf (C : Config) (cu : CodingUnit) (s : Dec) : Dec :=
  let area := cu.blocks .COMPONENT_Y
  let tmpArea := tmpAreaOf area
  let s :=
    if C.lmcsEnabledFlag && C.reshapeCTUFlag then
      let s :=
        if C.REUSE_CU_RESULTS && C.isEncoder then
          s.writeTmp tmpArea ((s.pred .COMPONENT_Y).view area)
        else s
      if !cu.firstPU.mhIntraFlag && !CU.isIBC cu then
        (s.writePred .COMPONENT_Y area
          (PelBuf.rspSignal C.fwdLUT ((s.pred .COMPONENT_Y).view area))).log
          (.rspSignal .predBuf cu.idx)
      else s
    else s
  let s :=
    if C.KEEP_PRED_AND_RESI_SIGNALS then
      forValidBlocks cu.blocks (fun c a s =>
        (s.writeReco c a (PelBuf.reconstruct ((s.pred c).view a) ((s.resi c).view a)
          (C.clpRng c))).log (.writeReco c a)) s
    else
      let s := forValidBlocks cu.blocks (fun c a s =>
        s.writeResi c a (PelBuf.reconstruct ((s.pred c).view a) ((s.resi c).view a)
          (C.clpRng c))) s
      forValidBlocks cu.blocks (fun c a s =>
        (s.writeReco c a ((s.resi c).view a)).log (.writeReco c a)) s
  if C.lmcsEnabledFlag && C.reshapeCTUFlag then
    if C.REUSE_CU_RESULTS && C.isEncoder then
      s.writePred .COMPONENT_Y area (s.tmpStorageLCU.view tmpArea)
    else s
  else s

/-- The reconstruction of `DecCu::xReconInter` for a unit without a coded residual (lines
566-574). -/
def xReconInter_reconNoCbf (C : Config) (cu : CodingUnit) (s : Dec) : Dec :=
  let s := forValidBlocks cu.blocks (fun c a s =>
    (s.writeReco c a (PelBuf.copyClip ((s.pred c).view a) (C.clpRng c))).log
      (.writeReco c a)) s
  if C.lmcsEnabledFlag && C.reshapeCTUFlag && !cu.firstPU.mhIntraFlag && !CU.isIBC cu then
    let a := cu.blocks .COMPONENT_Y
    (s.writeReco .COMPONENT_Y a
      (PelBuf.rspSignal C.fwdLUT ((s.reco .COMPONENT_Y).view a))).log
      (.rspSignal .recoBuf cu.idx)
  else s

/-- The reconstruction of `DecCu::xReconInter` (lines 519-575). -/
def xReconInter_recon (C : Config) (cu : CodingUnit) (s : Dec) : Dec :=
  if cu.rootCbf then xReconInter_reconCbf C cu s else xReconInter_reconNoCbf C cu s

/-- The call `cs.setDecomp( cu )` of `DecCu::xReconInter` (line 580), which marks every valid
block of the unit. -/
def xReconInter_setDecomp (cu : CodingUnit) (s : Dec) : Dec :=
  forValidBlocks cu.blocks (fun c a s => s.log (.setDecomp c a)) s

/-- The valid blocks of a unit, as the calls of `kind` made on each of them in the order of the
components. -/
def validBlockEvents (blocks : ComponentID → CompArea) (kind : ComponentID → CompArea → Event) :
    List Event :=
  ([ComponentID.COMPONENT_Y, .COMPONENT_Cb, .COMPONENT_Cr].filter
    (fun c => (blocks c).valid)).map (fun c => kind c (blocks c))

/-! ## SEI writer (`source/Lib/EncoderLib/SEIwrite.cpp`)

The class `OutputBitstream` and the macros `WRITE_CODE`, `WRITE_FLAG` and `WRITE_UVLC` are not
among the sources.  A bitstream is the list of the codes written to it, a code being a value
and its length in bits; the number of written bits of a bitstream is the sum of the lengths.
Bitstreams are named by numbers.  The writer holds `m_pcBitIf`, the bitstream it currently
writes to, and every `WRITE_` macro appends to that bitstream.  The functions that write the
syntax of one message (`xWriteSEIuserDataUnregistered` and the like) only call `WRITE_` macros
with values read from the message and from `sps`, so a message carries the codes its function
writes.  Three of these functions can abort instead: `xWriteSEIDecodedPictureHash` on an
unknown hash method (line 217), `xWriteSEIActiveParameterSets` when the list of parameter set
ids has not `numSpsIdsMinus1 + 1` entries (line 239), and `xWriteSEIToneMappingInfo` on an
undefined model id (line 479); a message with such contents is an `aborting` message.
Tracing (`ENABLE_TRACING`) does not touch the bitstreams and is left out; the case guarded by
`U0033_ALTERNATIVE_TRANSFER_CHARACTERISTICS_SEI` is modelled as compiled in. -/

/-- A code written by a `WRITE_` macro: its value and its length in bits. -/
structure Code where
  value : Nat
  length : Nat
  deriving DecidableEq, Repr

/-- The enumerators of `SEI::PayloadType` that `xWriteSEIpayloadData` has a case for; any other
payload type is `other`, with its value. -/
inductive PayloadType where
  | USER_DATA_UNREGISTERED
  | ACTIVE_PARAMETER_SETS
  | DECODING_UNIT_INFO
  | DECODED_PICTURE_HASH
  | BUFFERING_PERIOD
  | PICTURE_TIMING
  | RECOVERY_POINT
  | FRAME_PACKING
  | SEGM_RECT_FRAME_PACKING
  | DISPLAY_ORIENTATION
  | TEMPORAL_LEVEL0_INDEX
  | REGION_REFRESH_INFO
  | NO_DISPLAY
  | TONE_MAPPING_INFO
  | SOP_DESCRIPTION
  | SCALABLE_NESTING
  | CHROMA_RESAMPLING_FILTER_HINT
  | TEMP_MOTION_CONSTRAINED_TILE_SETS
  | TIME_CODE
  | KNEE_FUNCTION_INFO
  | COLOUR_REMAPPING_INFO
  | MASTERING_DISPLAY_COLOUR_VOLUME
  | ALTERNATIVE_TRANSFER_CHARACTERISTICS
  | GREEN_METADATA
  | other (value : Nat)
  deriving DecidableEq, Repr

/-- The contents of a message that make the function of its payload type abort: a decoded
picture hash with a method other than MD5, CRC and checksum (line 217), active parameter sets
with `activeSeqParameterSetId.size() != numSpsIdsMinus1 + 1` (line 239), and a tone mapping
info that is not cancelled, with a model id other than 0 to 4 (line 479). -/
inductive SEIAbort where
  | unknownHashType
  | unknownActiveSPS
  | undefinedToneMapModelId
  deriving DecidableEq, Repr

/-- The payload type of a message whose function aborts. -/
def SEIAbort.payloadType : SEIAbort → PayloadType
  | .unknownHashType => .DECODED_PICTURE_HASH
  | .unknownActiveSPS => .ACTIVE_PARAMETER_SETS
  | .undefinedToneMapModelId => .TONE_MAPPING_INFO

/-- The message of the `THROW` or `CHECK` that aborts (lines 217, 239 and 479). -/
def SEIAbort.message : SEIAbort → String
  | .unknownHashType => "Unknown hash type"
  | .unknownActiveSPS => "Unknown active SPS"
  | .undefinedToneMapModelId => "Undefined SEIToneMapModelId"

mutual
/-- An SEI message.  `mk`: its payload type, the codes the function of its type writes (for a
scalable nesting message: the codes written before the byte alignment of line 561), and the
nested messages `m_nestedSEIs` of a scalable nesting message.  `aborting`: a message whose
contents make the function of its type abort. -/
inductive SEI where
  | mk (payloadType : PayloadType) (syntaxCodes : List Code) (m_nestedSEIs : SEIMessages)
  | aborting (a : SEIAbort)
/-- A list of SEI messages (`SEIMessages`). -/
inductive SEIMessages where
  | nil
  | cons (sei : SEI) (rest : SEIMessages)
end

/-- `sei.payloadType()`. -/
def SEI.payloadType : SEI → PayloadType
  | .mk t _ _ => t
  | .aborting a => a.payloadType

/-- The number of messages of a list. -/
def SEIMessages.length : SEIMessages → Nat
  | .nil => 0
  | .cons _ rest => rest.length + 1

/-- What the writer needs from files that are not among the sources: the values of the
enumerators of `SEI::PayloadType` (`SEI.h`) and the codes `xWriteRbspTrailingBits` writes when
the bitstream holds the given number of bits. -/
structure SEIParams where
  payloadTypeValue : PayloadType → Nat
  rbspTrailingBits : Nat → List Code

/-- The state of an `SEIWriter` and of the bitstreams: the bitstream `m_pcBitIf` points to and
the codes each bitstream holds. -/
structure SEIWriter where
  m_pcBitIf : Nat
  streams : Nat → List Code

/-- The number of bits a bitstream holds. -/
def numberOfBits (codes : List Code) : Nat := (codes.map (fun c => c.length)).sum

/-- `m_pcBitIf->getNumberOfWrittenBits()`, a `uint32_t`. -/
def SEIWriter.getNumberOfWrittenBits (w : SEIWriter) : Nat :=
  numberOfBits (w.streams w.m_pcBitIf) % 4294967296

/-- `setBitstream( &bs )`. -/
def SEIWriter.setBitstream (w : SEIWriter) (bs : Nat) : SEIWriter := { w with m_pcBitIf := bs }

/-- `bs.clear()`. -/
def SEIWriter.clear (w : SEIWriter) (bs : Nat) : SEIWriter :=
  { w with streams := Function.update w.streams bs [] }

/-- Appends codes to the bitstream `m_pcBitIf` points to. -/
def SEIWriter.write (w : SEIWriter) (codes : List Code) : SEIWriter :=
  { w with streams := Function.update w.streams w.m_pcBitIf (w.streams w.m_pcBitIf ++ codes) }

/-- `WRITE_CODE( value, length, name )`. -/
def WRITE_CODE (value length : Nat) (w : SEIWriter) : SEIWriter := w.write [⟨value, length⟩]

/-- `WRITE_FLAG( value, name )`. -/
def WRITE_FLAG (value : Nat) (w : SEIWriter) : SEIWriter := w.write [⟨value, 1⟩]

/-- The loop `while( m_pcBitIf->getNumberOfWrittenBits() % 8 != 0 ) WRITE_FLAG( 0, name );`
(lines 561-564 and 831-834), run for at most `fuel` passes; seven passes always suffice. -/
def writeZeroBits : Nat → SEIWriter → SEIWriter
  | 0, w => w
  | fuel + 1, w =>
      if w.getNumberOfWrittenBits % 8 ≠ 0 then writeZeroBits fuel (WRITE_FLAG 0 w) else w

/-- `SEIWriter::xWriteByteAlign` (lines 826-836). -/
def xWriteByteAlign (w : SEIWriter) : SEIWriter :=
  if w.getNumberOfWrittenBits % 8 ≠ 0 then
    let w := WRITE_FLAG 1 w
    writeZeroBits 8 w
  else w

/-- The loop `for (; v >= 0xff; v -= 0xff) WRITE_CODE( 0xff, 8, name );` (lines 161-164 and
168-171) on the `uint32_t` `v`, run for at most `fuel` passes; it yields the final `v`. -/
def writeFFBytes : Nat → Nat → SEIWriter → Nat × SEIWriter
  | 0, v, w => (v, w)
  | fuel + 1, v, w =>
      if v ≥ 0xff then writeFFBytes fuel (v - 0xff) (WRITE_CODE 0xff 8 w) else (v, w)

mutual
/-- `SEIWriter::xWriteSEIpayloadData` (lines 44-127) together with the functions it calls; the
case of a scalable nesting message is `SEIWriter::xWriteSEIScalableNesting` (lines 532-568).
`loc` names the local bitstream `bs_count` the next activation of `writeSEImessages` will
have. -/
def xWriteSEIpayloadData (P : SEIParams) (loc : Nat) (bs : Nat) :
    SEI → SEIWriter → Except String SEIWriter
  | .mk payloadType syntaxCodes m_nestedSEIs, w =>
    match payloadType with
    | .other _ => .error "Trying to write unhandled SEI message"
    | .SCALABLE_NESTING =>
      let w := w.write syntaxCodes
      -- byte alignment
      let w := writeZeroBits 8 w
      -- write nested SEI messages
      match writeSEImessages P loc bs m_nestedSEIs true w with
      | .error e => .error e
      | .ok w => .ok (xWriteByteAlign w)
    | _ => .ok (xWriteByteAlign (w.write syntaxCodes))
  | .aborting a, _ => .error a.message
  termination_by structural sei => sei

/-- `SEIWriter::writeSEImessages` (lines 129-186).  `loc` names the local bitstream `bs_count`
of this activation; the activations nested in it take the names from `loc + 1` on. -/
def writeSEImessages (P : SEIParams) (loc : Nat) (bs : Nat) :
    SEIMessages → Bool → SEIWriter → Except String SEIWriter
  | .nil, isNested, w =>
    if !isNested then .ok (w.write (P.rbspTrailingBits w.getNumberOfWrittenBits)) else .ok w
  | .cons sei rest, isNested, w =>
    let bs_count := loc
    -- calculate how large the payload data is
    let w := w.clear bs_count
    let w := w.setBitstream bs_count
    match xWriteSEIpayloadData P (loc + 1) bs_count sei w with
    | .error e => .error e
    | .ok w =>
      let payload_data_num_bits := numberOfBits (w.streams bs_count) % 4294967296
      if 0 ≠ payload_data_num_bits % 8 then .error "Invalid number of payload data bits"
      else
        let w := w.setBitstream bs
        let payloadType := P.payloadTypeValue sei.payloadType % 4294967296
        let r := writeFFBytes payloadType payloadType w
        let w := WRITE_CODE r.1 8 r.2
        let payloadSize := payload_data_num_bits / 8
        let r := writeFFBytes payloadSize payloadSize w
        let w := WRITE_CODE r.1 8 r.2
        -- payloadData
        match xWriteSEIpayloadData P (loc + 1) bs sei w with
        | .error e => .error e
        | .ok w => writeSEImessages P loc bs rest isNested w
  termination_by structural seiList => seiList
end

/-! ### Example inputs of the SEI writer -/

/-- Parameters for the examples: the payload type values of HEVC for two message types, and
the trailing bits `1 0 .. 0` up to the next byte boundary. -/
def exampleSEIParams : SEIParams :=
  { payloadTypeValue := fun t =>
      match t with
      | .other v => v
      | .USER_DATA_UNREGISTERED => 5
      | .SCALABLE_NESTING => 133
      | _ => 0
    rbspTrailingBits := fun n => ⟨1, 1⟩ :: List.replicate (7 - n % 8) ⟨0, 1⟩ }

/-- The codes a bitstream holds after a call, empty for a failure. -/
def streamOf (r : Except String SEIWriter) (bs : Nat) : List Code :=
  match r with
  | .ok w => w.streams bs
  | .error _ => []

/-- The bitstream the writer points to after a call. -/
def bitIfOf (r : Except String SEIWriter) : Option Nat :=
  match r with
  | .ok w => some w.m_pcBitIf
  | .error _ => none

/-- A writer left pointing to the bitstream 0 by an earlier call, all bitstreams empty. -/
def exampleSEIWriter : SEIWriter := ⟨0, fun _ => []⟩

/-! ## Reference quantities of the Hadamard contracts -/

/-- Every tile kernel taken as a parameter returns a `uint32_t`. -/
def HadKernels.ReturnsUInt32 (K : HadKernels) : Prop :=
  ∀ (org cur : Nat → Nat) (a b c d e : Nat),
    K.xCalcHAD16x8_AVX2 org cur a b c d e < 4294967296 ∧
    K.xCalcHAD16x8_SSE org cur a b c d e < 4294967296 ∧
    K.xCalcHAD8x16_AVX2 org cur a b c d e < 4294967296 ∧
    K.xCalcHAD8x16_SSE org cur a b c d e < 4294967296 ∧
    K.xCalcHAD8x4_SSE org cur a b c d e < 4294967296 ∧
    K.xCalcHAD4x8_SSE org cur a b c d e < 4294967296 ∧
    K.xCalcHADs2x2 org cur a b c d e < 4294967296

/-! ### The time code message (`SEIWriter::xWriteSEITimeCode`) -/

/-- The members of an `SEITimeSet` (`SEI.h`, not among the sources) that `xWriteSEITimeCode`
reads; `timeOffsetValue` is an `int`. -/
structure SEITimeSet where
  clockTimeStampFlag : Bool
  numUnitFieldBasedFlag : Bool
  countingType : Nat
  fullTimeStampFlag : Bool
  discontinuityFlag : Bool
  cntDroppedFlag : Bool
  numberOfFrames : Nat
  secondsValue : Nat
  minutesValue : Nat
  hoursValue : Nat
  secondsFlag : Bool
  minutesFlag : Bool
  hoursFlag : Bool
  timeOffsetLength : Nat
  timeOffsetValue : Int

/-- The members of an `SEITimeCode` that `xWriteSEITimeCode` reads. -/
structure SEITimeCode where
  numClockTs : Nat
  timeSetArray : Nat → SEITimeSet

/-- The value of a flag as written by `WRITE_FLAG`. -/
def flagValue (b : Bool) : Nat := if b then 1 else 0

/-- The statements of `SEIWriter::xWriteSEITimeCode` for one time set (lines 632-679). -/
def xWriteSEITimeCode_timeSet (currentTimeSet : SEITimeSet) (w : SEIWriter) : SEIWriter :=
  let w := WRITE_FLAG (flagValue currentTimeSet.clockTimeStampFlag) w
  if currentTimeSet.clockTimeStampFlag then
    let w := WRITE_FLAG (flagValue currentTimeSet.numUnitFieldBasedFlag) w
    let w := WRITE_CODE currentTimeSet.countingType 5 w
    let w := WRITE_FLAG (flagValue currentTimeSet.fullTimeStampFlag) w
    let w := WRITE_FLAG (flagValue currentTimeSet.discontinuityFlag) w
    let w := WRITE_FLAG (flagValue currentTimeSet.cntDroppedFlag) w
    let w := WRITE_CODE currentTimeSet.numberOfFrames 9 w
    let w :=
      if currentTimeSet.fullTimeStampFlag then
        let w := WRITE_CODE currentTimeSet.secondsValue 6 w
        let w := WRITE_CODE currentTimeSet.minutesValue 6 w
        WRITE_CODE currentTimeSet.hoursValue 5 w
      else
        let w := WRITE_FLAG (flagValue currentTimeSet.secondsFlag) w
        if currentTimeSet.secondsFlag then
          let w := WRITE_CODE currentTimeSet.secondsValue 6 w
          let w := WRITE_FLAG (flagValue currentTimeSet.minutesFlag) w
          if currentTimeSet.minutesFlag then
            let w := WRITE_CODE currentTimeSet.minutesValue 6 w
            let w := WRITE_FLAG (flagValue currentTimeSet.hoursFlag) w
            if currentTimeSet.hoursFlag then
              WRITE_CODE currentTimeSet.hoursValue 5 w
            else w
          else w
        else w
    let w := WRITE_CODE currentTimeSet.timeOffsetLength 5 w
    if currentTimeSet.timeOffsetLength > 0 then
      if currentTimeSet.timeOffsetValue ≥ 0 then
        WRITE_CODE (ofInt32 currentTimeSet.timeOffsetValue) currentTimeSet.timeOffsetLength w
      else
        --  Two's complement conversion
        let offsetValue := ofInt32 (~~~currentTimeSet.timeOffsetValue + 1)
        let offsetValue :=
          offsetValue ||| ((1 <<< (currentTimeSet.timeOffsetLength - 1)) % 4294967296)
        WRITE_CODE offsetValue currentTimeSet.timeOffsetLength w
    else w
  else w

/-- `SEIWriter::xWriteSEITimeCode` (lines 627-680). -/
def xWriteSEITimeCode (sei : SEITimeCode) (w : SEIWriter) : SEIWriter :=
  let w := WRITE_CODE sei.numClockTs 2 w
  (List.range sei.numClockTs).foldl (fun w i => xWriteSEITimeCode_timeSet (sei.timeSetArray i) w) w

/-- The `length`-bit two's complement representation of a negative value `v`, as a number. -/
def twosComplement (v : Int) (length : Nat) : Nat := (v + 2 ^ length).toNat

/-- A time set with a clock time stamp, a full time stamp of 0:00:00, frame 0, and the given
time offset. -/
def exampleTimeSet (timeOffsetLength : Nat) (timeOffsetValue : Int) : SEITimeSet :=
  { clockTimeStampFlag := true
    numUnitFieldBasedFlag := false
    countingType := 0
    fullTimeStampFlag := true
    discontinuityFlag := false
    cntDroppedFlag := false
    numberOfFrames := 0
    secondsValue := 0
    minutesValue := 0
    hoursValue := 0
    secondsFlag := false
    minutesFlag := false
    hoursFlag := false
    timeOffsetLength := timeOffsetLength
    timeOffsetValue := timeOffsetValue }

/-- A time code message with one time set. -/
def exampleTimeCode (timeOffsetLength : Nat) (timeOffsetValue : Int) : SEITimeCode :=
  { numClockTs := 1
    timeSetArray := fun _ => exampleTimeSet timeOffsetLength timeOffsetValue }

/-! ### Auxiliary definitions of the proofs on the SEI writer -/

/-- The bytes that code the value `v` as `writeSEImessages` writes a payload type or a payload
size: `v / 255` bytes `0xFF` and a last byte `v % 255`. -/
def ffCodes (v : Nat) : List Code := List.replicate (v / 255) ⟨255, 8⟩ ++ [⟨v % 255, 8⟩]

/-- The reader of such a value: the sum of the bytes up to and including the first byte that
is not `0xFF`, and the codes that follow. -/
def readFF : List Code → Nat × List Code
  | [] => (0, [])
  | c :: cs => if c.value = 255 then (255 + (readFF cs).1, (readFF cs).2) else (c.value, cs)

/-- The sum of the values of a list of codes. -/
def valueSum (codes : List Code) : Nat := (codes.map (fun c => c.value)).sum

/-! ## The dispatch table (`RdCost::_initRdCostX86`) -/

/-- Modelled from the spec: the distortion kinds `DFunc` (`RdCost.h` is not among the sources),
"SAD, SAD at fixed width, SSE (+ fixed-width variants), Hadamard-transform cost (+ fixed-width
variants), SAD at intermediate bit depth", under the names `_initRdCostX86` gives them; `other`
stands for any further enumerator. -/
inductive DFunc where
  | DF_SSE
  | DF_SSE2
  | DF_SSE4
  | DF_SSE8
  | DF_SSE16
  | DF_SSE32
  | DF_SSE64
  | DF_SSE16N
  | DF_SAD
  | DF_SAD2
  | DF_SAD4
  | DF_SAD8
  | DF_SAD16
  | DF_SAD32
  | DF_SAD64
  | DF_SAD16N
  | DF_SAD12
  | DF_SAD24
  | DF_SAD48
  | DF_HAD
  | DF_HAD2
  | DF_HAD4
  | DF_HAD8
  | DF_HAD16
  | DF_HAD32
  | DF_HAD64
  | DF_HAD16N
  | DF_SAD_INTERMEDIATE_BITDEPTH
  | other (value : Nat)
  deriving DecidableEq, Repr

/-- A function the dispatch table can hold: one of the accelerated functions of `RdCostX86.h`
with its template arguments, or a function of `RdCost.cpp`, named by a number. -/
inductive FpDistFunc where
  | xGetSAD_SIMD (vext : X86_VEXT)
  | xGetSAD_NxN_SIMD (iWidth : Nat) (vext : X86_VEXT)
  | xGetHADs_SIMD (vext : X86_VEXT)
  | xGetSAD_IBD_SIMD (vext : X86_VEXT)
  | scalar (name : Nat)
  deriving DecidableEq, Repr

/-- `RdCost::_initRdCostX86` (lines 2427-2464) on the table `m_afpDistortFunc`; the assignments
to the SSE entries are commented out in the source. -/
def _initRdCostX86 (vext : X86_VEXT) (m_afpDistortFunc : DFunc → FpDistFunc) :
    DFunc → FpDistFunc :=
  let m := m_afpDistortFunc
  let m := Function.update m .DF_SAD (.xGetSAD_SIMD vext)
  let m := Function.update m .DF_SAD2 (.xGetSAD_SIMD vext)
  let m := Function.update m .DF_SAD4 (.xGetSAD_NxN_SIMD 4 vext)
  let m := Function.update m .DF_SAD8 (.xGetSAD_NxN_SIMD 8 vext)
  let m := Function.update m .DF_SAD16 (.xGetSAD_NxN_SIMD 16 vext)
  let m := Function.update m .DF_SAD32 (.xGetSAD_NxN_SIMD 32 vext)
  let m := Function.update m .DF_SAD64 (.xGetSAD_NxN_SIMD 64 vext)
  let m := Function.update m .DF_SAD16N (.xGetSAD_SIMD vext)
  let m := Function.update m .DF_SAD12 (.xGetSAD_SIMD vext)
  let m := Function.update m .DF_SAD24 (.xGetSAD_SIMD vext)
  let m := Function.update m .DF_SAD48 (.xGetSAD_SIMD vext)
  let m := Function.update m .DF_HAD (.xGetHADs_SIMD vext)
  let m := Function.update m .DF_HAD2 (.xGetHADs_SIMD vext)
  let m := Function.update m .DF_HAD4 (.xGetHADs_SIMD vext)
  let m := Function.update m .DF_HAD8 (.xGetHADs_SIMD vext)
  let m := Function.update m .DF_HAD16 (.xGetHADs_SIMD vext)
  let m := Function.update m .DF_HAD32 (.xGetHADs_SIMD vext)
  let m := Function.update m .DF_HAD64 (.xGetHADs_SIMD vext)
  let m := Function.update m .DF_HAD16N (.xGetHADs_SIMD vext)
  let m := Function.update m .DF_SAD_INTERMEDIATE_BITDEPTH (.xGetSAD_IBD_SIMD vext)
  m

/-- Whether a distortion kind is an SSE kind. -/
def DFunc.isSSE : DFunc → Bool
  | .DF_SSE | .DF_SSE2 | .DF_SSE4 | .DF_SSE8 | .DF_SSE16 | .DF_SSE32 | .DF_SSE64
  | .DF_SSE16N => true
  | _ => false

/-- Whether a function of the table is one of the accelerated functions. -/
def FpDistFunc.isSIMD : FpDistFunc → Bool
  | .scalar _ => false
  | _ => true

/-- The number of samples of a tile shape. -/
def Tile.area (t : Tile) : Nat := t.width * t.height

/-- The tile shape divides a block of the given width and height. -/
def Tile.divides (t : Tile) (width height : Nat) : Prop := t.width ∣ width ∧ t.height ∣ height

/-- The loads of the kernel `xGetHADs_SIMD` calls for a tile shape, from each of the two
blocks: the row, the first column and the number of samples of every load instruction
(`_mm_loadl_epi64` loads four samples, `_mm_loadu_si128` and `_mm_lddqu_si128` eight,
`_mm256_lddqu_si256` sixteen).  Modelled from the spec: `xCalcHADs2x2`, which is not among the
sources, reads the two rows of two samples of its tile. -/
def kernelLoads (vext : X86_VEXT) : Tile → List (Nat × Nat × Nat)
  | .T16x8 =>
      if vext.geAVX2 = true then (List.range 8).map (fun k => (k, 0, 16))
      else (List.range 2).flatMap (fun l => (List.range 8).map (fun k => (k, 8 * l, 8)))
  | .T8x16 => (List.range 16).map (fun k => (k, 0, 8))
  | .T8x4 => (List.range 4).map (fun k => (k, 0, 8))
  | .T4x8 => (List.range 8).map (fun k => (k, 0, 4))
  | .T16x16 => (List.range 2).flatMap (fun l => (List.range 8).map (fun k => (8 * l + k, 0, 16)))
  | .T8x8 => (List.range 8).map (fun k => (k, 0, 8))
  | .T4x4 => (List.range 4).map (fun k => (k, 0, 4))
  | .T2x2 => (List.range 2).map (fun k => (k, 0, 2))

/-- Kernels that tell the tile shapes apart in the examples: every kernel of a parameter
returns the number of samples of its tile. -/
def areaKernels : HadKernels :=
  { xCalcHAD16x8_AVX2 := fun _ _ _ _ _ _ _ => 128
    xCalcHAD16x8_SSE := fun _ _ _ _ _ _ _ => 128
    xCalcHAD8x16_AVX2 := fun _ _ _ _ _ _ _ => 128
    xCalcHAD8x16_SSE := fun _ _ _ _ _ _ _ => 128
    xCalcHAD8x4_SSE := fun _ _ _ _ _ _ _ => 32
    xCalcHAD4x8_SSE := fun _ _ _ _ _ _ _ => 32
    xCalcHADs2x2 := fun _ _ _ _ _ _ _ => 4 }

/-- The offsets into the original block of the samples that the kernel of the tile of shape `t`
at `(x, y)` loads: the kernel gets the pointer `piOrg + y * stride + x` and loads from
`pointer + row * stride + column`. -/
def tileReadsOrg (vext : X86_VEXT) (p : DistParam) (t : Tile) (x y : Nat) : List Nat :=
  (kernelLoads vext t).flatMap (fun ld =>
    (List.range ld.2.2).map (fun c => y * p.org.stride + x + ld.1 * p.org.stride + (ld.2.1 + c)))

/-- The offsets into the current block of the samples that the kernel of the tile of shape `t`
at `(x, y)` loads.  For the 2x2 tile the kernel gets the pointer `piCur + y * stride + x * step`
and, modelled from the spec, as `xCalcHADs2x2` is not among the sources, reads the columns
`0` and `step`. -/
def tileReadsCur (vext : X86_VEXT) (p : DistParam) (t : Tile) (x y : Nat) : List Nat :=
  (kernelLoads vext t).flatMap (fun ld =>
    (List.range ld.2.2).map (fun c =>
      if t = .T2x2 then y * p.cur.stride + x * p.step + ld.1 * p.cur.stride + (ld.2.1 + c) * p.step
      else y * p.cur.stride + x + ld.1 * p.cur.stride + (ld.2.1 + c)))

/-- The state of a result, `s` for a failure. -/
def stateOf (r : Except String Dec) (s : Dec) : Dec :=
  match r with
  | .ok s1 => s1
  | .error _ => s

/-- The motion `DecCu::xReconInter` adds to a look-up table (lines 490-491): the motion of the
first prediction unit, read in the state `s`, with the GBi index of the coding unit when
`interDir` is 3 and the default index otherwise. -/
def xReconInter_lutMotion (C : Config) (E : Ext) (cu : CodingUnit) (s : Dec) : MotionInfo :=
  { E.getMotionInfo cu.firstPU s with
    GBiIdx := if (E.getMotionInfo cu.firstPU s).interDir = 3 then cu.GBiIdx else C.GBI_DEFAULT }

/-- The two motion look-up tables `DecCu::xReconInter` can add to. -/
def Dec.luts (s : Dec) : List MotionInfo × List MotionInfo := (s.lut, s.lutIbc)

/-- The statements of `DecCu::xReconInter` before the reconstruction of a unit with a coded
residual (lines 523-539): the forward reshaping of the luma prediction. -/
def xReconInter_reconCbf_reshape (C : Config) (cu : CodingUnit) (s : Dec) : Dec :=
  let area := cu.blocks .COMPONENT_Y
  let tmpArea := tmpAreaOf area
  if C.lmcsEnabledFlag && C.reshapeCTUFlag then
    let s :=
      if C.REUSE_CU_RESULTS && C.isEncoder then
        s.writeTmp tmpArea ((s.pred .COMPONENT_Y).view area)
      else s
    if !cu.firstPU.mhIntraFlag && !CU.isIBC cu then
      (s.writePred .COMPONENT_Y area
        (PelBuf.rspSignal C.fwdLUT ((s.pred .COMPONENT_Y).view area))).log
        (.rspSignal .predBuf cu.idx)
    else s
  else s

/-- The reconstruction proper of a unit with a coded residual (lines 540-550). -/
def xReconInter_reconCbf_add (C : Config) (cu : CodingUnit) (s : Dec) : Dec :=
  if C.KEEP_PRED_AND_RESI_SIGNALS then
    forValidBlocks cu.blocks (fun c a s =>
      (s.writeReco c a (PelBuf.reconstruct ((s.pred c).view a) ((s.resi c).view a)
        (C.clpRng c))).log (.writeReco c a)) s
  else
    let s := forValidBlocks cu.blocks (fun c a s =>
      s.writeResi c a (PelBuf.reconstruct ((s.pred c).view a) ((s.resi c).view a)
        (C.clpRng c))) s
    forValidBlocks cu.blocks (fun c a s =>
      (s.writeReco c a ((s.resi c).view a)).log (.writeReco c a)) s

/-- The statements after the reconstruction of a unit with a coded residual (lines 551-561):
the luma prediction is restored. -/
def xReconInter_reconCbf_restore (C : Config) (cu : CodingUnit) (s : Dec) : Dec :=
  let area := cu.blocks .COMPONENT_Y
  let tmpArea := tmpAreaOf area
  if C.lmcsEnabledFlag && C.reshapeCTUFlag then
    if C.REUSE_CU_RESULTS && C.isEncoder then
      s.writePred .COMPONENT_Y area (s.tmpStorageLCU.view tmpArea)
    else s
  else s

/-- The example configuration with the reshaper active and a forward table that maps the
clipping range `[0, 255]` into itself. -/
def reshapeConfig : Config := { exampleConfig true with fwdLUT := fun v => v / 2 + 64 }

/-- The example inter coding unit with no coded-block flag set in its transform unit. -/
def zeroCbfCU : CodingUnit :=
  { exampleCU .MODE_INTER with firstTU := { exampleTU false with cbf := fun _ => 0 } }

/-- A decoder state in which the prediction buffer holds 100 everywhere, and the other buffers
are those of `exampleDec`. -/
def predictedDec : Dec := { exampleDec with pred := fun _ _ _ => 100 }

/-- The example collaborators with motion vector candidates `(131071, 0)`, the largest
horizontal component of 18 bits, and with an `mvCliptoStorageBitDepth` that wraps each
component into the 18-bit range `[-131072, 131071]`. -/
def clipExt : Ext :=
  { exampleExt with
    fillMvpCand := fun _ _ _ _ => ⟨fun _ => ⟨131071, 0⟩, 2⟩
    mvCliptoStorageBitDepth := fun mv =>
      ⟨(mv.hor + 131072) % 262144 - 131072, (mv.ver + 131072) % 262144 - 131072⟩ }

/-- The example inter coding unit in AMVP mode with the motion vector difference `(1, 0)`. -/
def mvdOneCU : CodingUnit :=
  { exampleCU .MODE_INTER with firstPU := { examplePU with mvd := fun _ => ⟨1, 0⟩ } }

/-- Whether `xDeriveCUMV` uses the reference list `eRefList` of a prediction unit in its
affine AMVP branch (line 794). -/
def affineListUsed (C : Config) (pu : PredictionUnit) (eRefList : Nat) : Prop :=
  C.numRefIdx eRefList > 0 ∧ pu.interDir &&& (1 <<< eRefList) ≠ 0

/-- Whether `xDeriveCUMV` uses the reference list `eRefList` of a prediction unit in its last
AMVP branch (line 857). -/
def listUsed (C : Config) (cu : CodingUnit) (pu : PredictionUnit) (eRefList : Nat) : Prop :=
  (C.numRefIdx eRefList > 0 ∨ (eRefList = 0 ∧ CU.isIBC cu = true)) ∧
    pu.interDir &&& (1 <<< eRefList) ≠ 0

/-- The prediction unit after the statements `pu.shareParentPos = cu.shareParentPos;
pu.shareParentSize = cu.shareParentSize;` of `DecCu::xDeriveCUMV` (lines 776-777). -/
def xDeriveCUMV_sharePU (cu : CodingUnit) (pu : PredictionUnit) : PredictionUnit :=
  { pu with shareParentPos := cu.shareParentPos, shareParentSize := cu.shareParentSize }

/-- Whether a recorded call is a call of `scaleSignal`. -/
def Event.isScaleSignal : Event → Bool
  | .scaleSignal _ _ _ => true
  | _ => false

/-- Whether a recorded call is a call of `setChromaAdj`. -/
def Event.isSetChromaAdj : Event → Bool
  | .setChromaAdj _ _ => true
  | _ => false

/-- The condition under which the luma pass of `DecCu::xDecodeInterTexture` stores a chroma
adjustment for a transform unit (lines 649-650). -/
def xDecodeInterTexture_setsAdj (C : Config) (tu : TransformUnit) : Bool :=
  C.lmcsEnabledFlag && C.reshapeCTUFlag && C.lmcsChromaResidualScaleFlag &&
    (tu.cbf .COMPONENT_Cb ≠ 0 || tu.cbf .COMPONENT_Cr ≠ 0)

/-- Whether `xWriteSEIpayloadData` has a case for the payload type. -/
def PayloadType.isHandled : PayloadType → Bool
  | .other _ => false
  | _ => true

mutual
/-- Whether `xWriteSEIpayloadData` has a case for the message and for every message nested in
it. -/
def SEI.handled : SEI → Bool
  | .mk payloadType _ m_nestedSEIs => payloadType.isHandled && m_nestedSEIs.handled
  | .aborting _ => true
  termination_by structural sei => sei
/-- Whether `xWriteSEIpayloadData` has a case for every message of the list and for every
message nested in one of them. -/
def SEIMessages.handled : SEIMessages → Bool
  | .nil => true
  | .cons sei rest => sei.handled && rest.handled
  termination_by structural seiList => seiList
end

mutual
/-- Whether the function of the payload type of the message returns: the message is not an
`aborting` one, and for a scalable nesting message none of the nested messages is. -/
def SEI.returns : SEI → Bool
  | .mk payloadType _ m_nestedSEIs =>
    match payloadType with
    | .SCALABLE_NESTING => m_nestedSEIs.returns
    | _ => true
  | .aborting _ => false
  termination_by structural sei => sei
/-- Whether the function of the payload type returns for every message of the list. -/
def SEIMessages.returns : SEIMessages → Bool
  | .nil => true
  | .cons sei rest => sei.returns && rest.returns
  termination_by structural seiList => seiList
end

/-- The messages with which the functions of the payload types abort (lines 217, 239 and
479). -/
def writerAborts : List String :=
  ["Unknown hash type", "Unknown active SPS", "Undefined SEIToneMapModelId"]

/-- The zero bits that the loop of lines 561-564 writes to a bitstream that holds `n` bits. -/
def zeroPad (n : Nat) : List Code := List.replicate ((8 - n % 8) % 8) ⟨0, 1⟩

/-- The bits that `xWriteByteAlign` writes to a bitstream that holds `n` bits: nothing when
`n` is a multiple of 8, otherwise a 1 bit followed by 0 bits up to the next multiple of 8. -/
def alignCodes (n : Nat) : List Code :=
  if n % 8 ≠ 0 then ⟨1, 1⟩ :: List.replicate (7 - n % 8) ⟨0, 1⟩ else []

mutual
/-- The codes of the payload of a message written to a byte-aligned bitstream: for a scalable
nesting message its own codes, the zero bits up to the byte boundary and the nested messages;
for another message its codes and the bits of `xWriteByteAlign`; none for an `aborting`
message. -/
def payloadCodes (P : SEIParams) : SEI → List Code
  | .mk payloadType syntaxCodes m_nestedSEIs =>
    match payloadType with
    | .SCALABLE_NESTING =>
      syntaxCodes ++ zeroPad (numberOfBits syntaxCodes) ++ messagesCodes P m_nestedSEIs
    | _ => syntaxCodes ++ alignCodes (numberOfBits syntaxCodes)
  | .aborting _ => []
  termination_by structural sei => sei
/-- The codes of a list of messages written to a byte-aligned bitstream: for each message the
bytes of its payload type, the bytes of its payload size, which is the number of bits of its
payload as a `uint32_t`, divided by 8, and its payload. -/
def messagesCodes (P : SEIParams) : SEIMessages → List Code
  | .nil => []
  | .cons sei rest =>
    ffCodes (P.payloadTypeValue sei.payloadType % 4294967296) ++
      ffCodes (numberOfBits (payloadCodes P sei) % 4294967296 / 8) ++
      payloadCodes P sei ++ messagesCodes P rest
  termination_by structural seiList => seiList
end

/-- A scalable nesting message with three syntax bits that nests one user data message of one
byte. -/
def exampleNesting : SEI :=
  .mk .SCALABLE_NESTING [⟨1, 1⟩, ⟨0, 1⟩, ⟨1, 1⟩]
    (.cons (.mk .USER_DATA_UNREGISTERED [⟨171, 8⟩] .nil) .nil)

/-- What the proofs show of `xWriteSEIpayloadData` on a handled message written through a
writer that points to a byte-aligned bitstream `b` which is not one of the local bitstreams
(named from `loc` on).  If the functions of the payload types return, the call returns, leaves
the writer pointing to `b`, appends the payload codes to `b`, a whole number of bytes, and
leaves the other bitstreams below `loc` as they were.  Otherwise it fails with the message of
one of these functions. -/
def SEI.WriteSpec (P : SEIParams) (sei : SEI) : Prop :=
  sei.handled = true → ∀ (loc b : Nat) (w : SEIWriter), b < loc → w.m_pcBitIf = b →
    numberOfBits (w.streams b) % 8 = 0 →
    (sei.returns = true →
      ∃ w1, xWriteSEIpayloadData P loc b sei w = .ok w1 ∧ w1.m_pcBitIf = b ∧
        w1.streams b = w.streams b ++ payloadCodes P sei ∧
        (∀ k, k < loc → k ≠ b → w1.streams k = w.streams k) ∧
        numberOfBits (payloadCodes P sei) % 8 = 0) ∧
    (sei.returns = false →
      ∃ e, xWriteSEIpayloadData P loc b sei w = .error e ∧ e ∈ writerAborts)

/-- What the proofs show of `writeSEImessages` on a list of handled messages, called as for
nested messages, without the trailing bits, to write to a byte-aligned bitstream `bs` which is
not one of the local bitstreams.  If the functions of the payload types return, the call
returns, appends the codes of the messages to `bs`, a whole number of bytes, leaves the other
bitstreams below `loc` as they were, and leaves the writer pointing to `bs`, or as it was for
the empty list.  Otherwise it fails with the message of one of these functions. -/
def SEIMessages.WriteSpec (P : SEIParams) (msgs : SEIMessages) : Prop :=
  msgs.handled = true → ∀ (loc bs : Nat) (w : SEIWriter), bs < loc →
    numberOfBits (w.streams bs) % 8 = 0 →
    (msgs.returns = true →
      ∃ w1, writeSEImessages P loc bs msgs true w = .ok w1 ∧
        (w1.m_pcBitIf = bs ∨ w1.m_pcBitIf = w.m_pcBitIf) ∧
        w1.streams bs = w.streams bs ++ messagesCodes P msgs ∧
        (∀ k, k < loc → k ≠ bs → w1.streams k = w.streams k) ∧
        numberOfBits (messagesCodes P msgs) % 8 = 0) ∧
    (msgs.returns = false →
      ∃ e, writeSEImessages P loc bs msgs true w = .error e ∧ e ∈ writerAborts)

/-! ## Hadamard transform: the reference

The exact two-dimensional Hadamard transform of a block of sample differences, against which
the kernels are compared. -/


/-- The entry `(u, i)` of the Hadamard matrix of order `2^bits` in Sylvester's construction
`H(2n) = [[H(n), H(n)], [H(n), -H(n)]]`: `+1` or `-1`. -/
def hadamardEntry : Nat → Nat → Nat → Int
  | 0, _, _ => 1
  | bits + 1, u, i =>
      (if u % 2 = 1 ∧ i % 2 = 1 then -1 else 1) * hadamardEntry bits (u / 2) (i / 2)

/-- The sample differences `org - cur` of the tile at `piOrg`, `piCur`: column `x`, row `y`. -/
def tileDiff (org cur : Nat → Nat) (piOrg piCur iStrideOrg iStrideCur : Nat) (x y : Nat) : Int :=
  (org (piOrg + y * iStrideOrg + x) : Int) - (cur (piCur + y * iStrideCur + x) : Int)

/-- The coefficient `(u, v)` of the two-dimensional Hadamard transform `H D H^T` of a block `D`
of width `2^wbits` and height `2^hbits`: horizontal frequency `u`, vertical frequency `v`. -/
def hadamardCoeff (wbits hbits : Nat) (D : Nat → Nat → Int) (u v : Nat) : Int :=
  ∑ y ∈ Finset.range (2 ^ hbits), ∑ x ∈ Finset.range (2 ^ wbits),
    hadamardEntry hbits v y * hadamardEntry wbits u x * D x y

/-- The exact sum of the absolute values of all coefficients of the two-dimensional Hadamard
transform of a block of width `2^wbits` and height `2^hbits`. -/
def hadamardAbsSum (wbits hbits : Nat) (D : Nat → Nat → Int) : Nat :=
  ∑ v ∈ Finset.range (2 ^ hbits), ∑ u ∈ Finset.range (2 ^ wbits),
    (hadamardCoeff wbits hbits D u v).natAbs

/-- All samples of the `width x height` tiles at `piOrg` and `piCur` lie in `[0, 2^bitDepth)`. -/
def TileInRange (org cur : Nat → Nat) (piOrg piCur iStrideOrg iStrideCur width height
    bitDepth : Nat) : Prop :=
  ∀ x y, x < width → y < height →
    org (piOrg + y * iStrideOrg + x) < 2 ^ bitDepth ∧
    cur (piCur + y * iStrideCur + x) < 2 ^ bitDepth

/-! ## The 16x8 and 8x16 Hadamard kernels

`xCalcHAD16x8_SSE` and `xCalcHAD8x16_SSE` end with a floating-point normalisation
(`sad / sqrt( 16.0 * 8 ) * 2`).  The definitions below embed the integer part of each function,
up to the statement `uint32_t sad = _mm_cvtsi128_si32( iSum )`: the value of `sad` before the
normalisation.  As for the 8x8 kernel, the array elements `m1[k][l]`, `m2[k][l]`, `n1[k]`,
`n2[k]` are the variables `m1_k_l`, `m2_k_l`, `n1_k`, `n2_k`, and the loops are unrolled. -/

/-- One pass of the first loop over `l` of `xCalcHAD16x8_SSE` (lines 725-765): the loads of
the eight rows of the columns `8 l .. 8 l + 7` and their vertical transform; the result is
`m1[0][l]`, ..., `m1[7][l]`. -/
def xCalcHAD16x8_SSE_vertical (org cur : Nat → Nat)
    (piOrg piCur iStrideOrg iStrideCur l : Nat) : Regs8 M128 :=
  let piOrgPtr := piOrg + l * 8
  let piCurPtr := piCur + l * 8
  let m2_0_l := mm_sub_epi16 (mm_loadu_si128 org (piOrgPtr + 0 * iStrideOrg)) (mm_loadu_si128 cur (piCurPtr + 0 * iStrideCur))
  let m2_1_l := mm_sub_epi16 (mm_loadu_si128 org (piOrgPtr + 1 * iStrideOrg)) (mm_loadu_si128 cur (piCurPtr + 1 * iStrideCur))
  let m2_2_l := mm_sub_epi16 (mm_loadu_si128 org (piOrgPtr + 2 * iStrideOrg)) (mm_loadu_si128 cur (piCurPtr + 2 * iStrideCur))
  let m2_3_l := mm_sub_epi16 (mm_loadu_si128 org (piOrgPtr + 3 * iStrideOrg)) (mm_loadu_si128 cur (piCurPtr + 3 * iStrideCur))
  let m2_4_l := mm_sub_epi16 (mm_loadu_si128 org (piOrgPtr + 4 * iStrideOrg)) (mm_loadu_si128 cur (piCurPtr + 4 * iStrideCur))
  let m2_5_l := mm_sub_epi16 (mm_loadu_si128 org (piOrgPtr + 5 * iStrideOrg)) (mm_loadu_si128 cur (piCurPtr + 5 * iStrideCur))
  let m2_6_l := mm_sub_epi16 (mm_loadu_si128 org (piOrgPtr + 6 * iStrideOrg)) (mm_loadu_si128 cur (piCurPtr + 6 * iStrideCur))
  let m2_7_l := mm_sub_epi16 (mm_loadu_si128 org (piOrgPtr + 7 * iStrideOrg)) (mm_loadu_si128 cur (piCurPtr + 7 * iStrideCur))
  let m1_0_l := mm_add_epi16 m2_0_l m2_4_l
  let m1_1_l := mm_add_epi16 m2_1_l m2_5_l
  let m1_2_l := mm_add_epi16 m2_2_l m2_6_l
  let m1_3_l := mm_add_epi16 m2_3_l m2_7_l
  let m1_4_l := mm_sub_epi16 m2_0_l m2_4_l
  let m1_5_l := mm_sub_epi16 m2_1_l m2_5_l
  let m1_6_l := mm_sub_epi16 m2_2_l m2_6_l
  let m1_7_l := mm_sub_epi16 m2_3_l m2_7_l
  let m2_0_l := mm_add_epi16 m1_0_l m1_2_l
  let m2_1_l := mm_add_epi16 m1_1_l m1_3_l
  let m2_2_l := mm_sub_epi16 m1_0_l m1_2_l
  let m2_3_l := mm_sub_epi16 m1_1_l m1_3_l
  let m2_4_l := mm_add_epi16 m1_4_l m1_6_l
  let m2_5_l := mm_add_epi16 m1_5_l m1_7_l
  let m2_6_l := mm_sub_epi16 m1_4_l m1_6_l
  let m2_7_l := mm_sub_epi16 m1_5_l m1_7_l
  let m1_0_l := mm_add_epi16 m2_0_l m2_1_l
  let m1_1_l := mm_sub_epi16 m2_0_l m2_1_l
  let m1_2_l := mm_add_epi16 m2_2_l m2_3_l
  let m1_3_l := mm_sub_epi16 m2_2_l m2_3_l
  let m1_4_l := mm_add_epi16 m2_4_l m2_5_l
  let m1_5_l := mm_sub_epi16 m2_4_l m2_5_l
  let m1_6_l := mm_add_epi16 m2_6_l m2_7_l
  let m1_7_l := mm_sub_epi16 m2_6_l m2_7_l
  ⟨m1_0_l, m1_1_l, m1_2_l, m1_3_l, m1_4_l, m1_5_l, m1_6_l, m1_7_l⟩

/-- The branch `iBitDepth >= 10` of `xCalcHAD16x8_SSE` (lines 775-924): for `l = 0` and
`l = 1`, with `off = l * 4`, the transpose of the rows `off .. off + 3` of the two blocks and
the horizontal transform over the sixteen columns in 32-bit lanes; the result is `iSum`.
`m1c0` holds `m1[0][0]`, ..., `m1[7][0]` and `m1c1` holds `m1[0][1]`, ..., `m1[7][1]`. -/
def xCalcHAD16x8_SSE_horizontal32 (m1c0 m1c1 : Regs8 M128) (iSum : M128) : M128 :=
  let m1_0_0 := m1c0.r0
  let m1_1_0 := m1c0.r1
  let m1_2_0 := m1c0.r2
  let m1_3_0 := m1c0.r3
  let m1_4_0 := m1c0.r4
  let m1_5_0 := m1c0.r5
  let m1_6_0 := m1c0.r6
  let m1_7_0 := m1c0.r7
  let m1_0_1 := m1c1.r0
  let m1_1_1 := m1c1.r1
  let m1_2_1 := m1c1.r2
  let m1_3_1 := m1c1.r3
  let m1_4_1 := m1c1.r4
  let m1_5_1 := m1c1.r5
  let m1_6_1 := m1c1.r6
  let m1_7_1 := m1c1.r7
  let vzero := mm_setzero_si128
  -- l = 0
  let m2_0_0 := mm_unpacklo_epi16 m1_0_0 m1_1_0
  let m2_1_0 := mm_unpacklo_epi16 m1_2_0 m1_3_0
  let m2_2_0 := mm_unpackhi_epi16 m1_0_0 m1_1_0
  let m2_3_0 := mm_unpackhi_epi16 m1_2_0 m1_3_0
  let m1_0_0 := mm_unpacklo_epi32 m2_0_0 m2_1_0
  let m1_1_0 := mm_unpackhi_epi32 m2_0_0 m2_1_0
  let m1_2_0 := mm_unpacklo_epi32 m2_2_0 m2_3_0
  let m1_3_0 := mm_unpackhi_epi32 m2_2_0 m2_3_0
  let m2_0_0 := mm_unpacklo_epi64 m1_0_0 vzero
  let m2_1_0 := mm_unpackhi_epi64 m1_0_0 vzero
  let m2_2_0 := mm_unpacklo_epi64 m1_1_0 vzero
  let m2_3_0 := mm_unpackhi_epi64 m1_1_0 vzero
  let m2_4_0 := mm_unpacklo_epi64 m1_2_0 vzero
  let m2_5_0 := mm_unpackhi_epi64 m1_2_0 vzero
  let m2_6_0 := mm_unpacklo_epi64 m1_3_0 vzero
  let m2_7_0 := mm_unpackhi_epi64 m1_3_0 vzero
  let m2_8_0 := mm_unpacklo_epi16 m1_0_1 m1_1_1
  let m2_9_0 := mm_unpacklo_epi16 m1_2_1 m1_3_1
  let m2_10_0 := mm_unpackhi_epi16 m1_0_1 m1_1_1
  let m2_11_0 := mm_unpackhi_epi16 m1_2_1 m1_3_1
  let m1_8_0 := mm_unpacklo_epi32 m2_8_0 m2_9_0
  let m1_9_0 := mm_unpackhi_epi32 m2_8_0 m2_9_0
  let m1_10_0 := mm_unpacklo_epi32 m2_10_0 m2_11_0
  let m1_11_0 := mm_unpackhi_epi32 m2_10_0 m2_11_0
  let m2_8_0 := mm_unpacklo_epi64 m1_8_0 vzero
  let m2_9_0 := mm_unpackhi_epi64 m1_8_0 vzero
  let m2_10_0 := mm_unpacklo_epi64 m1_9_0 vzero
  let m2_11_0 := mm_unpackhi_epi64 m1_9_0 vzero
  let m2_12_0 := mm_unpacklo_epi64 m1_10_0 vzero
  let m2_13_0 := mm_unpackhi_epi64 m1_10_0 vzero
  let m2_14_0 := mm_unpacklo_epi64 m1_11_0 vzero
  let m2_15_0 := mm_unpackhi_epi64 m1_11_0 vzero
  let n1_0 := mm_cvtepi16_epi32 m2_0_0
  let n1_1 := mm_cvtepi16_epi32 m2_1_0
  let n1_2 := mm_cvtepi16_epi32 m2_2_0
  let n1_3 := mm_cvtepi16_epi32 m2_3_0
  let n1_4 := mm_cvtepi16_epi32 m2_4_0
  let n1_5 := mm_cvtepi16_epi32 m2_5_0
  let n1_6 := mm_cvtepi16_epi32 m2_6_0
  let n1_7 := mm_cvtepi16_epi32 m2_7_0
  let n1_8 := mm_cvtepi16_epi32 m2_8_0
  let n1_9 := mm_cvtepi16_epi32 m2_9_0
  let n1_10 := mm_cvtepi16_epi32 m2_10_0
  let n1_11 := mm_cvtepi16_epi32 m2_11_0
  let n1_12 := mm_cvtepi16_epi32 m2_12_0
  let n1_13 := mm_cvtepi16_epi32 m2_13_0
  let n1_14 := mm_cvtepi16_epi32 m2_14_0
  let n1_15 := mm_cvtepi16_epi32 m2_15_0
  let n2_0 := mm_add_epi32 n1_0 n1_8
  let n2_1 := mm_add_epi32 n1_1 n1_9
  let n2_2 := mm_add_epi32 n1_2 n1_10
  let n2_3 := mm_add_epi32 n1_3 n1_11
  let n2_4 := mm_add_epi32 n1_4 n1_12
  let n2_5 := mm_add_epi32 n1_5 n1_13
  let n2_6 := mm_add_epi32 n1_6 n1_14
  let n2_7 := mm_add_epi32 n1_7 n1_15
  let n2_8 := mm_sub_epi32 n1_0 n1_8
  let n2_9 := mm_sub_epi32 n1_1 n1_9
  let n2_10 := mm_sub_epi32 n1_2 n1_10
  let n2_11 := mm_sub_epi32 n1_3 n1_11
  let n2_12 := mm_sub_epi32 n1_4 n1_12
  let n2_13 := mm_sub_epi32 n1_5 n1_13
  let n2_14 := mm_sub_epi32 n1_6 n1_14
  let n2_15 := mm_sub_epi32 n1_7 n1_15
  let n1_0 := mm_add_epi32 n2_0 n2_4
  let n1_1 := mm_add_epi32 n2_1 n2_5
  let n1_2 := mm_add_epi32 n2_2 n2_6
  let n1_3 := mm_add_epi32 n2_3 n2_7
  let n1_4 := mm_sub_epi32 n2_0 n2_4
  let n1_5 := mm_sub_epi32 n2_1 n2_5
  let n1_6 := mm_sub_epi32 n2_2 n2_6
  let n1_7 := mm_sub_epi32 n2_3 n2_7
  let n1_8 := mm_add_epi32 n2_8 n2_12
  let n1_9 := mm_add_epi32 n2_9 n2_13
  let n1_10 := mm_add_epi32 n2_10 n2_14
  let n1_11 := mm_add_epi32 n2_11 n2_15
  let n1_12 := mm_sub_epi32 n2_8 n2_12
  let n1_13 := mm_sub_epi32 n2_9 n2_13
  let n1_14 := mm_sub_epi32 n2_10 n2_14
  let n1_15 := mm_sub_epi32 n2_11 n2_15
  let n2_0 := mm_add_epi32 n1_0 n1_2
  let n2_1 := mm_add_epi32 n1_1 n1_3
  let n2_2 := mm_sub_epi32 n1_0 n1_2
  let n2_3 := mm_sub_epi32 n1_1 n1_3
  let n2_4 := mm_add_epi32 n1_4 n1_6
  let n2_5 := mm_add_epi32 n1_5 n1_7
  let n2_6 := mm_sub_epi32 n1_4 n1_6
  let n2_7 := mm_sub_epi32 n1_5 n1_7
  let n2_8 := mm_add_epi32 n1_8 n1_10
  let n2_9 := mm_add_epi32 n1_9 n1_11
  let n2_10 := mm_sub_epi32 n1_8 n1_10
  let n2_11 := mm_sub_epi32 n1_9 n1_11
  let n2_12 := mm_add_epi32 n1_12 n1_14
  let n2_13 := mm_add_epi32 n1_13 n1_15
  let n2_14 := mm_sub_epi32 n1_12 n1_14
  let n2_15 := mm_sub_epi32 n1_13 n1_15
  let n1_0 := mm_abs_epi32 (mm_add_epi32 n2_0 n2_1)
  let n1_1 := mm_abs_epi32 (mm_sub_epi32 n2_0 n2_1)
  let n1_2 := mm_abs_epi32 (mm_add_epi32 n2_2 n2_3)
  let n1_3 := mm_abs_epi32 (mm_sub_epi32 n2_2 n2_3)
  let n1_4 := mm_abs_epi32 (mm_add_epi32 n2_4 n2_5)
  let n1_5 := mm_abs_epi32 (mm_sub_epi32 n2_4 n2_5)
  let n1_6 := mm_abs_epi32 (mm_add_epi32 n2_6 n2_7)
  let n1_7 := mm_abs_epi32 (mm_sub_epi32 n2_6 n2_7)
  let n1_8 := mm_abs_epi32 (mm_add_epi32 n2_8 n2_9)
  let n1_9 := mm_abs_epi32 (mm_sub_epi32 n2_8 n2_9)
  let n1_10 := mm_abs_epi32 (mm_add_epi32 n2_10 n2_11)
  let n1_11 := mm_abs_epi32 (mm_sub_epi32 n2_10 n2_11)
  let n1_12 := mm_abs_epi32 (mm_add_epi32 n2_12 n2_13)
  let n1_13 := mm_abs_epi32 (mm_sub_epi32 n2_12 n2_13)
  let n1_14 := mm_abs_epi32 (mm_add_epi32 n2_14 n2_15)
  let n1_15 := mm_abs_epi32 (mm_sub_epi32 n2_14 n2_15)
  let n1_0 := mm_add_epi32 n1_0 n1_1
  let n1_2 := mm_add_epi32 n1_2 n1_3
  let n1_4 := mm_add_epi32 n1_4 n1_5
  let n1_6 := mm_add_epi32 n1_6 n1_7
  let n1_8 := mm_add_epi32 n1_8 n1_9
  let n1_10 := mm_add_epi32 n1_10 n1_11
  let n1_12 := mm_add_epi32 n1_12 n1_13
  let n1_14 := mm_add_epi32 n1_14 n1_15
  let n1_0 := mm_add_epi32 n1_0 n1_2
  let n1_4 := mm_add_epi32 n1_4 n1_6
  let n1_8 := mm_add_epi32 n1_8 n1_10
  let n1_12 := mm_add_epi32 n1_12 n1_14
  let n1_0 := mm_add_epi32 n1_0 n1_4
  let n1_8 := mm_add_epi32 n1_8 n1_12
  let n1_0 := mm_add_epi32 n1_0 n1_8
  let iSum := mm_add_epi32 iSum n1_0
  -- l = 1
  let m2_0_0 := mm_unpacklo_epi16 m1_4_0 m1_5_0
  let m2_1_0 := mm_unpacklo_epi16 m1_6_0 m1_7_0
  let m2_2_0 := mm_unpackhi_epi16 m1_4_0 m1_5_0
  let m2_3_0 := mm_unpackhi_epi16 m1_6_0 m1_7_0
  let m1_0_0 := mm_unpacklo_epi32 m2_0_0 m2_1_0
  let m1_1_0 := mm_unpackhi_epi32 m2_0_0 m2_1_0
  let m1_2_0 := mm_unpacklo_epi32 m2_2_0 m2_3_0
  let m1_3_0 := mm_unpackhi_epi32 m2_2_0 m2_3_0
  let m2_0_0 := mm_unpacklo_epi64 m1_0_0 vzero
  let m2_1_0 := mm_unpackhi_epi64 m1_0_0 vzero
  let m2_2_0 := mm_unpacklo_epi64 m1_1_0 vzero
  let m2_3_0 := mm_unpackhi_epi64 m1_1_0 vzero
  let m2_4_0 := mm_unpacklo_epi64 m1_2_0 vzero
  let m2_5_0 := mm_unpackhi_epi64 m1_2_0 vzero
  let m2_6_0 := mm_unpacklo_epi64 m1_3_0 vzero
  let m2_7_0 := mm_unpackhi_epi64 m1_3_0 vzero
  let m2_8_0 := mm_unpacklo_epi16 m1_4_1 m1_5_1
  let m2_9_0 := mm_unpacklo_epi16 m1_6_1 m1_7_1
  let m2_10_0 := mm_unpackhi_epi16 m1_4_1 m1_5_1
  let m2_11_0 := mm_unpackhi_epi16 m1_6_1 m1_7_1
  let m1_8_0 := mm_unpacklo_epi32 m2_8_0 m2_9_0
  let m1_9_0 := mm_unpackhi_epi32 m2_8_0 m2_9_0
  let m1_10_0 := mm_unpacklo_epi32 m2_10_0 m2_11_0
  let m1_11_0 := mm_unpackhi_epi32 m2_10_0 m2_11_0
  let m2_8_0 := mm_unpacklo_epi64 m1_8_0 vzero
  let m2_9_0 := mm_unpackhi_epi64 m1_8_0 vzero
  let m2_10_0 := mm_unpacklo_epi64 m1_9_0 vzero
  let m2_11_0 := mm_unpackhi_epi64 m1_9_0 vzero
  let m2_12_0 := mm_unpacklo_epi64 m1_10_0 vzero
  let m2_13_0 := mm_unpackhi_epi64 m1_10_0 vzero
  let m2_14_0 := mm_unpacklo_epi64 m1_11_0 vzero
  let m2_15_0 := mm_unpackhi_epi64 m1_11_0 vzero
  let n1_0 := mm_cvtepi16_epi32 m2_0_0
  let n1_1 := mm_cvtepi16_epi32 m2_1_0
  let n1_2 := mm_cvtepi16_epi32 m2_2_0
  let n1_3 := mm_cvtepi16_epi32 m2_3_0
  let n1_4 := mm_cvtepi16_epi32 m2_4_0
  let n1_5 := mm_cvtepi16_epi32 m2_5_0
  let n1_6 := mm_cvtepi16_epi32 m2_6_0
  let n1_7 := mm_cvtepi16_epi32 m2_7_0
  let n1_8 := mm_cvtepi16_epi32 m2_8_0
  let n1_9 := mm_cvtepi16_epi32 m2_9_0
  let n1_10 := mm_cvtepi16_epi32 m2_10_0
  let n1_11 := mm_cvtepi16_epi32 m2_11_0
  let n1_12 := mm_cvtepi16_epi32 m2_12_0
  let n1_13 := mm_cvtepi16_epi32 m2_13_0
  let n1_14 := mm_cvtepi16_epi32 m2_14_0
  let n1_15 := mm_cvtepi16_epi32 m2_15_0
  let n2_0 := mm_add_epi32 n1_0 n1_8
  let n2_1 := mm_add_epi32 n1_1 n1_9
  let n2_2 := mm_add_epi32 n1_2 n1_10
  let n2_3 := mm_add_epi32 n1_3 n1_11
  let n2_4 := mm_add_epi32 n1_4 n1_12
  let n2_5 := mm_add_epi32 n1_5 n1_13
  let n2_6 := mm_add_epi32 n1_6 n1_14
  let n2_7 := mm_add_epi32 n1_7 n1_15
  let n2_8 := mm_sub_epi32 n1_0 n1_8
  let n2_9 := mm_sub_epi32 n1_1 n1_9
  let n2_10 := mm_sub_epi32 n1_2 n1_10
  let n2_11 := mm_sub_epi32 n1_3 n1_11
  let n2_12 := mm_sub_epi32 n1_4 n1_12
  let n2_13 := mm_sub_epi32 n1_5 n1_13
  let n2_14 := mm_sub_epi32 n1_6 n1_14
  let n2_15 := mm_sub_epi32 n1_7 n1_15
  let n1_0 := mm_add_epi32 n2_0 n2_4
  let n1_1 := mm_add_epi32 n2_1 n2_5
  let n1_2 := mm_add_epi32 n2_2 n2_6
  let n1_3 := mm_add_epi32 n2_3 n2_7
  let n1_4 := mm_sub_epi32 n2_0 n2_4
  let n1_5 := mm_sub_epi32 n2_1 n2_5
  let n1_6 := mm_sub_epi32 n2_2 n2_6
  let n1_7 := mm_sub_epi32 n2_3 n2_7
  let n1_8 := mm_add_epi32 n2_8 n2_12
  let n1_9 := mm_add_epi32 n2_9 n2_13
  let n1_10 := mm_add_epi32 n2_10 n2_14
  let n1_11 := mm_add_epi32 n2_11 n2_15
  let n1_12 := mm_sub_epi32 n2_8 n2_12
  let n1_13 := mm_sub_epi32 n2_9 n2_13
  let n1_14 := mm_sub_epi32 n2_10 n2_14
  let n1_15 := mm_sub_epi32 n2_11 n2_15
  let n2_0 := mm_add_epi32 n1_0 n1_2
  let n2_1 := mm_add_epi32 n1_1 n1_3
  let n2_2 := mm_sub_epi32 n1_0 n1_2
  let n2_3 := mm_sub_epi32 n1_1 n1_3
  let n2_4 := mm_add_epi32 n1_4 n1_6
  let n2_5 := mm_add_epi32 n1_5 n1_7
  let n2_6 := mm_sub_epi32 n1_4 n1_6
  let n2_7 := mm_sub_epi32 n1_5 n1_7
  let n2_8 := mm_add_epi32 n1_8 n1_10
  let n2_9 := mm_add_epi32 n1_9 n1_11
  let n2_10 := mm_sub_epi32 n1_8 n1_10
  let n2_11 := mm_sub_epi32 n1_9 n1_11
  let n2_12 := mm_add_epi32 n1_12 n1_14
  let n2_13 := mm_add_epi32 n1_13 n1_15
  let n2_14 := mm_sub_epi32 n1_12 n1_14
  let n2_15 := mm_sub_epi32 n1_13 n1_15
  let n1_0 := mm_abs_epi32 (mm_add_epi32 n2_0 n2_1)
  let n1_1 := mm_abs_epi32 (mm_sub_epi32 n2_0 n2_1)
  let n1_2 := mm_abs_epi32 (mm_add_epi32 n2_2 n2_3)
  let n1_3 := mm_abs_epi32 (mm_sub_epi32 n2_2 n2_3)
  let n1_4 := mm_abs_epi32 (mm_add_epi32 n2_4 n2_5)
  let n1_5 := mm_abs_epi32 (mm_sub_epi32 n2_4 n2_5)
  let n1_6 := mm_abs_epi32 (mm_add_epi32 n2_6 n2_7)
  let n1_7 := mm_abs_epi32 (mm_sub_epi32 n2_6 n2_7)
  let n1_8 := mm_abs_epi32 (mm_add_epi32 n2_8 n2_9)
  let n1_9 := mm_abs_epi32 (mm_sub_epi32 n2_8 n2_9)
  let n1_10 := mm_abs_epi32 (mm_add_epi32 n2_10 n2_11)
  let n1_11 := mm_abs_epi32 (mm_sub_epi32 n2_10 n2_11)
  let n1_12 := mm_abs_epi32 (mm_add_epi32 n2_12 n2_13)
  let n1_13 := mm_abs_epi32 (mm_sub_epi32 n2_12 n2_13)
  let n1_14 := mm_abs_epi32 (mm_add_epi32 n2_14 n2_15)
  let n1_15 := mm_abs_epi32 (mm_sub_epi32 n2_14 n2_15)
  let n1_0 := mm_add_epi32 n1_0 n1_1
  let n1_2 := mm_add_epi32 n1_2 n1_3
  let n1_4 := mm_add_epi32 n1_4 n1_5
  let n1_6 := mm_add_epi32 n1_6 n1_7
  let n1_8 := mm_add_epi32 n1_8 n1_9
  let n1_10 := mm_add_epi32 n1_10 n1_11
  let n1_12 := mm_add_epi32 n1_12 n1_13
  let n1_14 := mm_add_epi32 n1_14 n1_15
  let n1_0 := mm_add_epi32 n1_0 n1_2
  let n1_4 := mm_add_epi32 n1_4 n1_6
  let n1_8 := mm_add_epi32 n1_8 n1_10
  let n1_12 := mm_add_epi32 n1_12 n1_14
  let n1_0 := mm_add_epi32 n1_0 n1_4
  let n1_8 := mm_add_epi32 n1_8 n1_12
  let n1_0 := mm_add_epi32 n1_0 n1_8
  let iSum := mm_add_epi32 iSum n1_0
  iSum

/-- The branch `iBitDepth < 10` of `xCalcHAD16x8_SSE` (lines 927-1070): the transpose of the
four 8x4 blocks and the horizontal transform over the sixteen columns in 16-bit lanes; the
result is `iSum`. -/
def xCalcHAD16x8_SSE_horizontal16 (m1c0 m1c1 : Regs8 M128) (iSum : M128) : M128 :=
  let m1_0_0 := m1c0.r0
  let m1_1_0 := m1c0.r1
  let m1_2_0 := m1c0.r2
  let m1_3_0 := m1c0.r3
  let m1_4_0 := m1c0.r4
  let m1_5_0 := m1c0.r5
  let m1_6_0 := m1c0.r6
  let m1_7_0 := m1c0.r7
  let m1_0_1 := m1c1.r0
  let m1_1_1 := m1c1.r1
  let m1_2_1 := m1c1.r2
  let m1_3_1 := m1c1.r3
  let m1_4_1 := m1c1.r4
  let m1_5_1 := m1c1.r5
  let m1_6_1 := m1c1.r6
  let m1_7_1 := m1c1.r7
  let vzero := mm_setzero_si128
  let m2_0_0 := mm_unpacklo_epi16 m1_0_0 m1_1_0
  let m2_1_0 := mm_unpacklo_epi16 m1_2_0 m1_3_0
  let m2_2_0 := mm_unpackhi_epi16 m1_0_0 m1_1_0
  let m2_3_0 := mm_unpackhi_epi16 m1_2_0 m1_3_0
  let m1_0_0 := mm_unpacklo_epi32 m2_0_0 m2_1_0
  let m1_1_0 := mm_unpackhi_epi32 m2_0_0 m2_1_0
  let m1_2_0 := mm_unpacklo_epi32 m2_2_0 m2_3_0
  let m1_3_0 := mm_unpackhi_epi32 m2_2_0 m2_3_0
  let m2_4_0 := mm_unpacklo_epi16 m1_4_0 m1_5_0
  let m2_5_0 := mm_unpacklo_epi16 m1_6_0 m1_7_0
  let m2_6_0 := mm_unpackhi_epi16 m1_4_0 m1_5_0
  let m2_7_0 := mm_unpackhi_epi16 m1_6_0 m1_7_0
  let m1_4_0 := mm_unpacklo_epi32 m2_4_0 m2_5_0
  let m1_5_0 := mm_unpackhi_epi32 m2_4_0 m2_5_0
  let m1_6_0 := mm_unpacklo_epi32 m2_6_0 m2_7_0
  let m1_7_0 := mm_unpackhi_epi32 m2_6_0 m2_7_0
  let m2_0_0 := mm_unpacklo_epi64 m1_0_0 m1_4_0
  let m2_1_0 := mm_unpackhi_epi64 m1_0_0 m1_4_0
  let m2_2_0 := mm_unpacklo_epi64 m1_1_0 m1_5_0
  let m2_3_0 := mm_unpackhi_epi64 m1_1_0 m1_5_0
  let m2_4_0 := mm_unpacklo_epi64 m1_2_0 m1_6_0
  let m2_5_0 := mm_unpackhi_epi64 m1_2_0 m1_6_0
  let m2_6_0 := mm_unpacklo_epi64 m1_3_0 m1_7_0
  let m2_7_0 := mm_unpackhi_epi64 m1_3_0 m1_7_0
  let m2_0_1 := mm_unpacklo_epi16 m1_0_1 m1_1_1
  let m2_1_1 := mm_unpacklo_epi16 m1_2_1 m1_3_1
  let m2_2_1 := mm_unpackhi_epi16 m1_0_1 m1_1_1
  let m2_3_1 := mm_unpackhi_epi16 m1_2_1 m1_3_1
  let m1_0_1 := mm_unpacklo_epi32 m2_0_1 m2_1_1
  let m1_1_1 := mm_unpackhi_epi32 m2_0_1 m2_1_1
  let m1_2_1 := mm_unpacklo_epi32 m2_2_1 m2_3_1
  let m1_3_1 := mm_unpackhi_epi32 m2_2_1 m2_3_1
  let m2_4_1 := mm_unpacklo_epi16 m1_4_1 m1_5_1
  let m2_5_1 := mm_unpacklo_epi16 m1_6_1 m1_7_1
  let m2_6_1 := mm_unpackhi_epi16 m1_4_1 m1_5_1
  let m2_7_1 := mm_unpackhi_epi16 m1_6_1 m1_7_1
  let m1_4_1 := mm_unpacklo_epi32 m2_4_1 m2_5_1
  let m1_5_1 := mm_unpackhi_epi32 m2_4_1 m2_5_1
  let m1_6_1 := mm_unpacklo_epi32 m2_6_1 m2_7_1
  let m1_7_1 := mm_unpackhi_epi32 m2_6_1 m2_7_1
  let m2_8_0 := mm_unpacklo_epi64 m1_0_1 m1_4_1
  let m2_9_0 := mm_unpackhi_epi64 m1_0_1 m1_4_1
  let m2_10_0 := mm_unpacklo_epi64 m1_1_1 m1_5_1
  let m2_11_0 := mm_unpackhi_epi64 m1_1_1 m1_5_1
  let m2_12_0 := mm_unpacklo_epi64 m1_2_1 m1_6_1
  let m2_13_0 := mm_unpackhi_epi64 m1_2_1 m1_6_1
  let m2_14_0 := mm_unpacklo_epi64 m1_3_1 m1_7_1
  let m2_15_0 := mm_unpackhi_epi64 m1_3_1 m1_7_1
  let m1_0_0 := mm_add_epi16 m2_0_0 m2_8_0
  let m1_1_0 := mm_add_epi16 m2_1_0 m2_9_0
  let m1_2_0 := mm_add_epi16 m2_2_0 m2_10_0
  let m1_3_0 := mm_add_epi16 m2_3_0 m2_11_0
  let m1_4_0 := mm_add_epi16 m2_4_0 m2_12_0
  let m1_5_0 := mm_add_epi16 m2_5_0 m2_13_0
  let m1_6_0 := mm_add_epi16 m2_6_0 m2_14_0
  let m1_7_0 := mm_add_epi16 m2_7_0 m2_15_0
  let m1_8_0 := mm_sub_epi16 m2_0_0 m2_8_0
  let m1_9_0 := mm_sub_epi16 m2_1_0 m2_9_0
  let m1_10_0 := mm_sub_epi16 m2_2_0 m2_10_0
  let m1_11_0 := mm_sub_epi16 m2_3_0 m2_11_0
  let m1_12_0 := mm_sub_epi16 m2_4_0 m2_12_0
  let m1_13_0 := mm_sub_epi16 m2_5_0 m2_13_0
  let m1_14_0 := mm_sub_epi16 m2_6_0 m2_14_0
  let m1_15_0 := mm_sub_epi16 m2_7_0 m2_15_0
  let m2_0_0 := mm_add_epi16 m1_0_0 m1_4_0
  let m2_1_0 := mm_add_epi16 m1_1_0 m1_5_0
  let m2_2_0 := mm_add_epi16 m1_2_0 m1_6_0
  let m2_3_0 := mm_add_epi16 m1_3_0 m1_7_0
  let m2_4_0 := mm_sub_epi16 m1_0_0 m1_4_0
  let m2_5_0 := mm_sub_epi16 m1_1_0 m1_5_0
  let m2_6_0 := mm_sub_epi16 m1_2_0 m1_6_0
  let m2_7_0 := mm_sub_epi16 m1_3_0 m1_7_0
  let m2_8_0 := mm_add_epi16 m1_8_0 m1_12_0
  let m2_9_0 := mm_add_epi16 m1_9_0 m1_13_0
  let m2_10_0 := mm_add_epi16 m1_10_0 m1_14_0
  let m2_11_0 := mm_add_epi16 m1_11_0 m1_15_0
  let m2_12_0 := mm_sub_epi16 m1_8_0 m1_12_0
  let m2_13_0 := mm_sub_epi16 m1_9_0 m1_13_0
  let m2_14_0 := mm_sub_epi16 m1_10_0 m1_14_0
  let m2_15_0 := mm_sub_epi16 m1_11_0 m1_15_0
  let m1_0_0 := mm_add_epi16 m2_0_0 m2_2_0
  let m1_1_0 := mm_add_epi16 m2_1_0 m2_3_0
  let m1_2_0 := mm_sub_epi16 m2_0_0 m2_2_0
  let m1_3_0 := mm_sub_epi16 m2_1_0 m2_3_0
  let m1_4_0 := mm_add_epi16 m2_4_0 m2_6_0
  let m1_5_0 := mm_add_epi16 m2_5_0 m2_7_0
  let m1_6_0 := mm_sub_epi16 m2_4_0 m2_6_0
  let m1_7_0 := mm_sub_epi16 m2_5_0 m2_7_0
  let m1_8_0 := mm_add_epi16 m2_8_0 m2_10_0
  let m1_9_0 := mm_add_epi16 m2_9_0 m2_11_0
  let m1_10_0 := mm_sub_epi16 m2_8_0 m2_10_0
  let m1_11_0 := mm_sub_epi16 m2_9_0 m2_11_0
  let m1_12_0 := mm_add_epi16 m2_12_0 m2_14_0
  let m1_13_0 := mm_add_epi16 m2_13_0 m2_15_0
  let m1_14_0 := mm_sub_epi16 m2_12_0 m2_14_0
  let m1_15_0 := mm_sub_epi16 m2_13_0 m2_15_0
  let m2_0_0 := mm_abs_epi16 (mm_add_epi16 m1_0_0 m1_1_0)
  let m2_1_0 := mm_abs_epi16 (mm_sub_epi16 m1_0_0 m1_1_0)
  let m2_2_0 := mm_abs_epi16 (mm_add_epi16 m1_2_0 m1_3_0)
  let m2_3_0 := mm_abs_epi16 (mm_sub_epi16 m1_2_0 m1_3_0)
  let m2_4_0 := mm_abs_epi16 (mm_add_epi16 m1_4_0 m1_5_0)
  let m2_5_0 := mm_abs_epi16 (mm_sub_epi16 m1_4_0 m1_5_0)
  let m2_6_0 := mm_abs_epi16 (mm_add_epi16 m1_6_0 m1_7_0)
  let m2_7_0 := mm_abs_epi16 (mm_sub_epi16 m1_6_0 m1_7_0)
  let m2_8_0 := mm_abs_epi16 (mm_add_epi16 m1_8_0 m1_9_0)
  let m2_9_0 := mm_abs_epi16 (mm_sub_epi16 m1_8_0 m1_9_0)
  let m2_10_0 := mm_abs_epi16 (mm_add_epi16 m1_10_0 m1_11_0)
  let m2_11_0 := mm_abs_epi16 (mm_sub_epi16 m1_10_0 m1_11_0)
  let m2_12_0 := mm_abs_epi16 (mm_add_epi16 m1_12_0 m1_13_0)
  let m2_13_0 := mm_abs_epi16 (mm_sub_epi16 m1_12_0 m1_13_0)
  let m2_14_0 := mm_abs_epi16 (mm_add_epi16 m1_14_0 m1_15_0)
  let m2_15_0 := mm_abs_epi16 (mm_sub_epi16 m1_14_0 m1_15_0)
  let ma1 := mm_unpacklo_epi16 m2_0_0 vzero
  let ma2 := mm_unpackhi_epi16 m2_0_0 vzero
  let iSum := mm_add_epi32 iSum (mm_add_epi32 ma1 ma2)
  let ma1 := mm_unpacklo_epi16 m2_1_0 vzero
  let ma2 := mm_unpackhi_epi16 m2_1_0 vzero
  let iSum := mm_add_epi32 iSum (mm_add_epi32 ma1 ma2)
  let ma1 := mm_unpacklo_epi16 m2_2_0 vzero
  let ma2 := mm_unpackhi_epi16 m2_2_0 vzero
  let iSum := mm_add_epi32 iSum (mm_add_epi32 ma1 ma2)
  let ma1 := mm_unpacklo_epi16 m2_3_0 vzero
  let ma2 := mm_unpackhi_epi16 m2_3_0 vzero
  let iSum := mm_add_epi32 iSum (mm_add_epi32 ma1 ma2)
  let ma1 := mm_unpacklo_epi16 m2_4_0 vzero
  let ma2 := mm_unpackhi_epi16 m2_4_0 vzero
  let iSum := mm_add_epi32 iSum (mm_add_epi32 ma1 ma2)
  let ma1 := mm_unpacklo_epi16 m2_5_0 vzero
  let ma2 := mm_unpackhi_epi16 m2_5_0 vzero
  let iSum := mm_add_epi32 iSum (mm_add_epi32 ma1 ma2)
  let ma1 := mm_unpacklo_epi16 m2_6_0 vzero
  let ma2 := mm_unpackhi_epi16 m2_6_0 vzero
  let iSum := mm_add_epi32 iSum (mm_add_epi32 ma1 ma2)
  let ma1 := mm_unpacklo_epi16 m2_7_0 vzero
  let ma2 := mm_unpackhi_epi16 m2_7_0 vzero
  let iSum := mm_add_epi32 iSum (mm_add_epi32 ma1 ma2)
  let ma1 := mm_unpacklo_epi16 m2_8_0 vzero
  let ma2 := mm_unpackhi_epi16 m2_8_0 vzero
  let iSum := mm_add_epi32 iSum (mm_add_epi32 ma1 ma2)
  let ma1 := mm_unpacklo_epi16 m2_9_0 vzero
  let ma2 := mm_unpackhi_epi16 m2_9_0 vzero
  let iSum := mm_add_epi32 iSum (mm_add_epi32 ma1 ma2)
  let ma1 := mm_unpacklo_epi16 m2_10_0 vzero
  let ma2 := mm_unpackhi_epi16 m2_10_0 vzero
  let iSum := mm_add_epi32 iSum (mm_add_epi32 ma1 ma2)
  let ma1 := mm_unpacklo_epi16 m2_11_0 vzero
  let ma2 := mm_unpackhi_epi16 m2_11_0 vzero
  let iSum := mm_add_epi32 iSum (mm_add_epi32 ma1 ma2)
  let ma1 := mm_unpacklo_epi16 m2_12_0 vzero
  let ma2 := mm_unpackhi_epi16 m2_12_0 vzero
  let iSum := mm_add_epi32 iSum (mm_add_epi32 ma1 ma2)
  let ma1 := mm_unpacklo_epi16 m2_13_0 vzero
  let ma2 := mm_unpackhi_epi16 m2_13_0 vzero
  let iSum := mm_add_epi32 iSum (mm_add_epi32 ma1 ma2)
  let ma1 := mm_unpacklo_epi16 m2_14_0 vzero
  let ma2 := mm_unpackhi_epi16 m2_14_0 vzero
  let iSum := mm_add_epi32 iSum (mm_add_epi32 ma1 ma2)
  let ma1 := mm_unpacklo_epi16 m2_15_0 vzero
  let ma2 := mm_unpackhi_epi16 m2_15_0 vzero
  let iSum := mm_add_epi32 iSum (mm_add_epi32 ma1 ma2)
  iSum

/-- The integer part of `xCalcHAD16x8_SSE` (lines 720-1075): the value of `sad` before the
normalisation of line 1077. -/
def xCalcHAD16x8_SSE_sad (org cur : Nat → Nat)
    (piOrg piCur iStrideOrg iStrideCur iBitDepth : Nat) : Nat :=
  let iSum := mm_setzero_si128
  let m1c0 := xCalcHAD16x8_SSE_vertical org cur piOrg piCur iStrideOrg iStrideCur 0
  let m1c1 := xCalcHAD16x8_SSE_vertical org cur piOrg piCur iStrideOrg iStrideCur 1
  let iSum := if iBitDepth ≥ 10 then xCalcHAD16x8_SSE_horizontal32 m1c0 m1c1 iSum
    else xCalcHAD16x8_SSE_horizontal16 m1c0 m1c1 iSum
  let iSum := mm_hadd_epi32 iSum iSum
  let iSum := mm_hadd_epi32 iSum iSum
  let sad := mm_cvtsi128_si32 iSum
  sad

/-- The loads and the vertical transform of `xCalcHAD8x16_SSE` (lines 1090-1166): the result
is `m1[0]`, ..., `m1[7]` and `m1[8]`, ..., `m1[15]`. -/
def xCalcHAD8x16_SSE_vertical (org cur : Nat → Nat)
    (piOrg piCur iStrideOrg iStrideCur : Nat) : Regs8 M128 × Regs8 M128 :=
  let m1_0 := mm_sub_epi16 (mm_loadu_si128 org (piOrg + 0 * iStrideOrg)) (mm_loadu_si128 cur (piCur + 0 * iStrideCur))
  let m1_1 := mm_sub_epi16 (mm_loadu_si128 org (piOrg + 1 * iStrideOrg)) (mm_loadu_si128 cur (piCur + 1 * iStrideCur))
  let m1_2 := mm_sub_epi16 (mm_loadu_si128 org (piOrg + 2 * iStrideOrg)) (mm_loadu_si128 cur (piCur + 2 * iStrideCur))
  let m1_3 := mm_sub_epi16 (mm_loadu_si128 org (piOrg + 3 * iStrideOrg)) (mm_loadu_si128 cur (piCur + 3 * iStrideCur))
  let m1_4 := mm_sub_epi16 (mm_loadu_si128 org (piOrg + 4 * iStrideOrg)) (mm_loadu_si128 cur (piCur + 4 * iStrideCur))
  let m1_5 := mm_sub_epi16 (mm_loadu_si128 org (piOrg + 5 * iStrideOrg)) (mm_loadu_si128 cur (piCur + 5 * iStrideCur))
  let m1_6 := mm_sub_epi16 (mm_loadu_si128 org (piOrg + 6 * iStrideOrg)) (mm_loadu_si128 cur (piCur + 6 * iStrideCur))
  let m1_7 := mm_sub_epi16 (mm_loadu_si128 org (piOrg + 7 * iStrideOrg)) (mm_loadu_si128 cur (piCur + 7 * iStrideCur))
  let m1_8 := mm_sub_epi16 (mm_loadu_si128 org (piOrg + 8 * iStrideOrg)) (mm_loadu_si128 cur (piCur + 8 * iStrideCur))
  let m1_9 := mm_sub_epi16 (mm_loadu_si128 org (piOrg + 9 * iStrideOrg)) (mm_loadu_si128 cur (piCur + 9 * iStrideCur))
  let m1_10 := mm_sub_epi16 (mm_loadu_si128 org (piOrg + 10 * iStrideOrg)) (mm_loadu_si128 cur (piCur + 10 * iStrideCur))
  let m1_11 := mm_sub_epi16 (mm_loadu_si128 org (piOrg + 11 * iStrideOrg)) (mm_loadu_si128 cur (piCur + 11 * iStrideCur))
  let m1_12 := mm_sub_epi16 (mm_loadu_si128 org (piOrg + 12 * iStrideOrg)) (mm_loadu_si128 cur (piCur + 12 * iStrideCur))
  let m1_13 := mm_sub_epi16 (mm_loadu_si128 org (piOrg + 13 * iStrideOrg)) (mm_loadu_si128 cur (piCur + 13 * iStrideCur))
  let m1_14 := mm_sub_epi16 (mm_loadu_si128 org (piOrg + 14 * iStrideOrg)) (mm_loadu_si128 cur (piCur + 14 * iStrideCur))
  let m1_15 := mm_sub_epi16 (mm_loadu_si128 org (piOrg + 15 * iStrideOrg)) (mm_loadu_si128 cur (piCur + 15 * iStrideCur))
  let m2_0 := mm_add_epi16 m1_0 m1_8
  let m2_1 := mm_add_epi16 m1_1 m1_9
  let m2_2 := mm_add_epi16 m1_2 m1_10
  let m2_3 := mm_add_epi16 m1_3 m1_11
  let m2_4 := mm_add_epi16 m1_4 m1_12
  let m2_5 := mm_add_epi16 m1_5 m1_13
  let m2_6 := mm_add_epi16 m1_6 m1_14
  let m2_7 := mm_add_epi16 m1_7 m1_15
  let m2_8 := mm_sub_epi16 m1_0 m1_8
  let m2_9 := mm_sub_epi16 m1_1 m1_9
  let m2_10 := mm_sub_epi16 m1_2 m1_10
  let m2_11 := mm_sub_epi16 m1_3 m1_11
  let m2_12 := mm_sub_epi16 m1_4 m1_12
  let m2_13 := mm_sub_epi16 m1_5 m1_13
  let m2_14 := mm_sub_epi16 m1_6 m1_14
  let m2_15 := mm_sub_epi16 m1_7 m1_15
  let m1_0 := mm_add_epi16 m2_0 m2_4
  let m1_1 := mm_add_epi16 m2_1 m2_5
  let m1_2 := mm_add_epi16 m2_2 m2_6
  let m1_3 := mm_add_epi16 m2_3 m2_7
  let m1_4 := mm_sub_epi16 m2_0 m2_4
  let m1_5 := mm_sub_epi16 m2_1 m2_5
  let m1_6 := mm_sub_epi16 m2_2 m2_6
  let m1_7 := mm_sub_epi16 m2_3 m2_7
  let m1_8 := mm_add_epi16 m2_8 m2_12
  let m1_9 := mm_add_epi16 m2_9 m2_13
  let m1_10 := mm_add_epi16 m2_10 m2_14
  let m1_11 := mm_add_epi16 m2_11 m2_15
  let m1_12 := mm_sub_epi16 m2_8 m2_12
  let m1_13 := mm_sub_epi16 m2_9 m2_13
  let m1_14 := mm_sub_epi16 m2_10 m2_14
  let m1_15 := mm_sub_epi16 m2_11 m2_15
  let m2_0 := mm_add_epi16 m1_0 m1_2
  let m2_1 := mm_add_epi16 m1_1 m1_3
  let m2_2 := mm_sub_epi16 m1_0 m1_2
  let m2_3 := mm_sub_epi16 m1_1 m1_3
  let m2_4 := mm_add_epi16 m1_4 m1_6
  let m2_5 := mm_add_epi16 m1_5 m1_7
  let m2_6 := mm_sub_epi16 m1_4 m1_6
  let m2_7 := mm_sub_epi16 m1_5 m1_7
  let m2_8 := mm_add_epi16 m1_8 m1_10
  let m2_9 := mm_add_epi16 m1_9 m1_11
  let m2_10 := mm_sub_epi16 m1_8 m1_10
  let m2_11 := mm_sub_epi16 m1_9 m1_11
  let m2_12 := mm_add_epi16 m1_12 m1_14
  let m2_13 := mm_add_epi16 m1_13 m1_15
  let m2_14 := mm_sub_epi16 m1_12 m1_14
  let m2_15 := mm_sub_epi16 m1_13 m1_15
  let m1_0 := mm_add_epi16 m2_0 m2_1
  let m1_1 := mm_sub_epi16 m2_0 m2_1
  let m1_2 := mm_add_epi16 m2_2 m2_3
  let m1_3 := mm_sub_epi16 m2_2 m2_3
  let m1_4 := mm_add_epi16 m2_4 m2_5
  let m1_5 := mm_sub_epi16 m2_4 m2_5
  let m1_6 := mm_add_epi16 m2_6 m2_7
  let m1_7 := mm_sub_epi16 m2_6 m2_7
  let m1_8 := mm_add_epi16 m2_8 m2_9
  let m1_9 := mm_sub_epi16 m2_8 m2_9
  let m1_10 := mm_add_epi16 m2_10 m2_11
  let m1_11 := mm_sub_epi16 m2_10 m2_11
  let m1_12 := mm_add_epi16 m2_12 m2_13
  let m1_13 := mm_sub_epi16 m2_12 m2_13
  let m1_14 := mm_add_epi16 m2_14 m2_15
  let m1_15 := mm_sub_epi16 m2_14 m2_15
  (⟨m1_0, m1_1, m1_2, m1_3, m1_4, m1_5, m1_6, m1_7⟩,
   ⟨m1_8, m1_9, m1_10, m1_11, m1_12, m1_13, m1_14, m1_15⟩)

/-- The horizontal calculation of `xCalcHAD8x16_SSE` for `iBitDepth >= 10` (lines 1210-1251),
in 32-bit lanes. -/
def xCalcHAD8x16_SSE_horizontal32 (m2 : Regs8 M128) : Regs8 M128 :=
  let m2_0 := m2.r0
  let m2_1 := m2.r1
  let m2_2 := m2.r2
  let m2_3 := m2.r3
  let m2_4 := m2.r4
  let m2_5 := m2.r5
  let m2_6 := m2.r6
  let m2_7 := m2.r7
  let n2_0_0 := mm_cvtepi16_epi32 m2_0
  let n2_0_1 := mm_cvtepi16_epi32 (mm_shuffle_epi32_EE m2_0)
  let n2_1_0 := mm_cvtepi16_epi32 m2_1
  let n2_1_1 := mm_cvtepi16_epi32 (mm_shuffle_epi32_EE m2_1)
  let n2_2_0 := mm_cvtepi16_epi32 m2_2
  let n2_2_1 := mm_cvtepi16_epi32 (mm_shuffle_epi32_EE m2_2)
  let n2_3_0 := mm_cvtepi16_epi32 m2_3
  let n2_3_1 := mm_cvtepi16_epi32 (mm_shuffle_epi32_EE m2_3)
  let n2_4_0 := mm_cvtepi16_epi32 m2_4
  let n2_4_1 := mm_cvtepi16_epi32 (mm_shuffle_epi32_EE m2_4)
  let n2_5_0 := mm_cvtepi16_epi32 m2_5
  let n2_5_1 := mm_cvtepi16_epi32 (mm_shuffle_epi32_EE m2_5)
  let n2_6_0 := mm_cvtepi16_epi32 m2_6
  let n2_6_1 := mm_cvtepi16_epi32 (mm_shuffle_epi32_EE m2_6)
  let n2_7_0 := mm_cvtepi16_epi32 m2_7
  let n2_7_1 := mm_cvtepi16_epi32 (mm_shuffle_epi32_EE m2_7)
  let n1_0_0 := mm_add_epi32 n2_0_0 n2_4_0
  let n1_1_0 := mm_add_epi32 n2_1_0 n2_5_0
  let n1_2_0 := mm_add_epi32 n2_2_0 n2_6_0
  let n1_3_0 := mm_add_epi32 n2_3_0 n2_7_0
  let n1_4_0 := mm_sub_epi32 n2_0_0 n2_4_0
  let n1_5_0 := mm_sub_epi32 n2_1_0 n2_5_0
  let n1_6_0 := mm_sub_epi32 n2_2_0 n2_6_0
  let n1_7_0 := mm_sub_epi32 n2_3_0 n2_7_0
  let n2_0_0 := mm_add_epi32 n1_0_0 n1_2_0
  let n2_1_0 := mm_add_epi32 n1_1_0 n1_3_0
  let n2_2_0 := mm_sub_epi32 n1_0_0 n1_2_0
  let n2_3_0 := mm_sub_epi32 n1_1_0 n1_3_0
  let n2_4_0 := mm_add_epi32 n1_4_0 n1_6_0
  let n2_5_0 := mm_add_epi32 n1_5_0 n1_7_0
  let n2_6_0 := mm_sub_epi32 n1_4_0 n1_6_0
  let n2_7_0 := mm_sub_epi32 n1_5_0 n1_7_0
  let n1_0_0 := mm_abs_epi32 (mm_add_epi32 n2_0_0 n2_1_0)
  let n1_1_0 := mm_abs_epi32 (mm_sub_epi32 n2_0_0 n2_1_0)
  let n1_2_0 := mm_abs_epi32 (mm_add_epi32 n2_2_0 n2_3_0)
  let n1_3_0 := mm_abs_epi32 (mm_sub_epi32 n2_2_0 n2_3_0)
  let n1_4_0 := mm_abs_epi32 (mm_add_epi32 n2_4_0 n2_5_0)
  let n1_5_0 := mm_abs_epi32 (mm_sub_epi32 n2_4_0 n2_5_0)
  let n1_6_0 := mm_abs_epi32 (mm_add_epi32 n2_6_0 n2_7_0)
  let n1_7_0 := mm_abs_epi32 (mm_sub_epi32 n2_6_0 n2_7_0)
  let n1_0_1 := mm_add_epi32 n2_0_1 n2_4_1
  let n1_1_1 := mm_add_epi32 n2_1_1 n2_5_1
  let n1_2_1 := mm_add_epi32 n2_2_1 n2_6_1
  let n1_3_1 := mm_add_epi32 n2_3_1 n2_7_1
  let n1_4_1 := mm_sub_epi32 n2_0_1 n2_4_1
  let n1_5_1 := mm_sub_epi32 n2_1_1 n2_5_1
  let n1_6_1 := mm_sub_epi32 n2_2_1 n2_6_1
  let n1_7_1 := mm_sub_epi32 n2_3_1 n2_7_1
  let n2_0_1 := mm_add_epi32 n1_0_1 n1_2_1
  let n2_1_1 := mm_add_epi32 n1_1_1 n1_3_1
  let n2_2_1 := mm_sub_epi32 n1_0_1 n1_2_1
  let n2_3_1 := mm_sub_epi32 n1_1_1 n1_3_1
  let n2_4_1 := mm_add_epi32 n1_4_1 n1_6_1
  let n2_5_1 := mm_add_epi32 n1_5_1 n1_7_1
  let n2_6_1 := mm_sub_epi32 n1_4_1 n1_6_1
  let n2_7_1 := mm_sub_epi32 n1_5_1 n1_7_1
  let n1_0_1 := mm_abs_epi32 (mm_add_epi32 n2_0_1 n2_1_1)
  let n1_1_1 := mm_abs_epi32 (mm_sub_epi32 n2_0_1 n2_1_1)
  let n1_2_1 := mm_abs_epi32 (mm_add_epi32 n2_2_1 n2_3_1)
  let n1_3_1 := mm_abs_epi32 (mm_sub_epi32 n2_2_1 n2_3_1)
  let n1_4_1 := mm_abs_epi32 (mm_add_epi32 n2_4_1 n2_5_1)
  let n1_5_1 := mm_abs_epi32 (mm_sub_epi32 n2_4_1 n2_5_1)
  let n1_6_1 := mm_abs_epi32 (mm_add_epi32 n2_6_1 n2_7_1)
  let n1_7_1 := mm_abs_epi32 (mm_sub_epi32 n2_6_1 n2_7_1)
  let m1_0 := mm_add_epi32 n1_0_0 n1_0_1
  let m1_1 := mm_add_epi32 n1_1_0 n1_1_1
  let m1_2 := mm_add_epi32 n1_2_0 n1_2_1
  let m1_3 := mm_add_epi32 n1_3_0 n1_3_1
  let m1_4 := mm_add_epi32 n1_4_0 n1_4_1
  let m1_5 := mm_add_epi32 n1_5_0 n1_5_1
  let m1_6 := mm_add_epi32 n1_6_0 n1_6_1
  let m1_7 := mm_add_epi32 n1_7_0 n1_7_1
  ⟨m1_0, m1_1, m1_2, m1_3, m1_4, m1_5, m1_6, m1_7⟩

/-- The horizontal calculation of `xCalcHAD8x16_SSE` for `iBitDepth < 10` (lines 1255-1290),
in 16-bit lanes. -/
def xCalcHAD8x16_SSE_horizontal16 (m2 : Regs8 M128) : Regs8 M128 :=
  let m2_0 := m2.r0
  let m2_1 := m2.r1
  let m2_2 := m2.r2
  let m2_3 := m2.r3
  let m2_4 := m2.r4
  let m2_5 := m2.r5
  let m2_6 := m2.r6
  let m2_7 := m2.r7
  let m1_0 := mm_add_epi16 m2_0 m2_4
  let m1_1 := mm_add_epi16 m2_1 m2_5
  let m1_2 := mm_add_epi16 m2_2 m2_6
  let m1_3 := mm_add_epi16 m2_3 m2_7
  let m1_4 := mm_sub_epi16 m2_0 m2_4
  let m1_5 := mm_sub_epi16 m2_1 m2_5
  let m1_6 := mm_sub_epi16 m2_2 m2_6
  let m1_7 := mm_sub_epi16 m2_3 m2_7
  let m2_0 := mm_add_epi16 m1_0 m1_2
  let m2_1 := mm_add_epi16 m1_1 m1_3
  let m2_2 := mm_sub_epi16 m1_0 m1_2
  let m2_3 := mm_sub_epi16 m1_1 m1_3
  let m2_4 := mm_add_epi16 m1_4 m1_6
  let m2_5 := mm_add_epi16 m1_5 m1_7
  let m2_6 := mm_sub_epi16 m1_4 m1_6
  let m2_7 := mm_sub_epi16 m1_5 m1_7
  let m1_0 := mm_abs_epi16 (mm_add_epi16 m2_0 m2_1)
  let m1_1 := mm_abs_epi16 (mm_sub_epi16 m2_0 m2_1)
  let m1_2 := mm_abs_epi16 (mm_add_epi16 m2_2 m2_3)
  let m1_3 := mm_abs_epi16 (mm_sub_epi16 m2_2 m2_3)
  let m1_4 := mm_abs_epi16 (mm_add_epi16 m2_4 m2_5)
  let m1_5 := mm_abs_epi16 (mm_sub_epi16 m2_4 m2_5)
  let m1_6 := mm_abs_epi16 (mm_add_epi16 m2_6 m2_7)
  let m1_7 := mm_abs_epi16 (mm_sub_epi16 m2_6 m2_7)
  let vzero := mm_setzero_si128
  let ma1 := mm_unpacklo_epi16 m1_0 vzero
  let ma2 := mm_unpackhi_epi16 m1_0 vzero
  let m1_0 := mm_add_epi32 ma1 ma2
  let ma1 := mm_unpacklo_epi16 m1_1 vzero
  let ma2 := mm_unpackhi_epi16 m1_1 vzero
  let m1_1 := mm_add_epi32 ma1 ma2
  let ma1 := mm_unpacklo_epi16 m1_2 vzero
  let ma2 := mm_unpackhi_epi16 m1_2 vzero
  let m1_2 := mm_add_epi32 ma1 ma2
  let ma1 := mm_unpacklo_epi16 m1_3 vzero
  let ma2 := mm_unpackhi_epi16 m1_3 vzero
  let m1_3 := mm_add_epi32 ma1 ma2
  let ma1 := mm_unpacklo_epi16 m1_4 vzero
  let ma2 := mm_unpackhi_epi16 m1_4 vzero
  let m1_4 := mm_add_epi32 ma1 ma2
  let ma1 := mm_unpacklo_epi16 m1_5 vzero
  let ma2 := mm_unpackhi_epi16 m1_5 vzero
  let m1_5 := mm_add_epi32 ma1 ma2
  let ma1 := mm_unpacklo_epi16 m1_6 vzero
  let ma2 := mm_unpackhi_epi16 m1_6 vzero
  let m1_6 := mm_add_epi32 ma1 ma2
  let ma1 := mm_unpacklo_epi16 m1_7 vzero
  let ma2 := mm_unpackhi_epi16 m1_7 vzero
  let m1_7 := mm_add_epi32 ma1 ma2
  ⟨m1_0, m1_1, m1_2, m1_3, m1_4, m1_5, m1_6, m1_7⟩

/-- One pass of the loop over `l` of `xCalcHAD8x16_SSE` (lines 1171-1301): `m1` holds
`m1[off]`, ..., `m1[off + 7]` for `off = l * 8`; the result is the new `iSum`. -/
def xCalcHAD8x16_SSE_pass (m1 : Regs8 M128) (iBitDepth : Nat) (iSum : M128) : M128 :=
  let m1_0 := m1.r0
  let m1_1 := m1.r1
  let m1_2 := m1.r2
  let m1_3 := m1.r3
  let m1_4 := m1.r4
  let m1_5 := m1.r5
  let m1_6 := m1.r6
  let m1_7 := m1.r7
  let m2_0 := mm_unpacklo_epi16 m1_0 m1_1
  let m2_1 := mm_unpacklo_epi16 m1_2 m1_3
  let m2_2 := mm_unpacklo_epi16 m1_4 m1_5
  let m2_3 := mm_unpacklo_epi16 m1_6 m1_7
  let m2_4 := mm_unpackhi_epi16 m1_0 m1_1
  let m2_5 := mm_unpackhi_epi16 m1_2 m1_3
  let m2_6 := mm_unpackhi_epi16 m1_4 m1_5
  let m2_7 := mm_unpackhi_epi16 m1_6 m1_7
  let m1_0 := mm_unpacklo_epi32 m2_0 m2_1
  let m1_1 := mm_unpackhi_epi32 m2_0 m2_1
  let m1_2 := mm_unpacklo_epi32 m2_2 m2_3
  let m1_3 := mm_unpackhi_epi32 m2_2 m2_3
  let m2_0 := mm_unpacklo_epi64 m1_0 m1_2
  let m2_1 := mm_unpackhi_epi64 m1_0 m1_2
  let m2_2 := mm_unpacklo_epi64 m1_1 m1_3
  let m2_3 := mm_unpackhi_epi64 m1_1 m1_3
  let m1_4 := mm_unpacklo_epi32 m2_4 m2_5
  let m1_5 := mm_unpackhi_epi32 m2_4 m2_5
  let m1_6 := mm_unpacklo_epi32 m2_6 m2_7
  let m1_7 := mm_unpackhi_epi32 m2_6 m2_7
  let m2_4 := mm_unpacklo_epi64 m1_4 m1_6
  let m2_5 := mm_unpackhi_epi64 m1_4 m1_6
  let m2_6 := mm_unpacklo_epi64 m1_5 m1_7
  let m2_7 := mm_unpackhi_epi64 m1_5 m1_7
  let m1 := if iBitDepth ≥ 10 then
      xCalcHAD8x16_SSE_horizontal32 ⟨m2_0, m2_1, m2_2, m2_3, m2_4, m2_5, m2_6, m2_7⟩
    else xCalcHAD8x16_SSE_horizontal16 ⟨m2_0, m2_1, m2_2, m2_3, m2_4, m2_5, m2_6, m2_7⟩
  let m1_0 := m1.r0
  let m1_1 := m1.r1
  let m1_2 := m1.r2
  let m1_3 := m1.r3
  let m1_4 := m1.r4
  let m1_5 := m1.r5
  let m1_6 := m1.r6
  let m1_7 := m1.r7
  let m1_0 := mm_add_epi32 m1_0 m1_1
  let m1_2 := mm_add_epi32 m1_2 m1_3
  let m1_4 := mm_add_epi32 m1_4 m1_5
  let m1_6 := mm_add_epi32 m1_6 m1_7
  let m1_0 := mm_add_epi32 m1_0 m1_2
  let m1_4 := mm_add_epi32 m1_4 m1_6
  let iSum := mm_add_epi32 iSum (mm_add_epi32 m1_0 m1_4)
  iSum

/-- The integer part of `xCalcHAD8x16_SSE` (lines 1085-1306): the value of `sad` before the
normalisation of line 1308. -/
def xCalcHAD8x16_SSE_sad (org cur : Nat → Nat)
    (piOrg piCur iStrideOrg iStrideCur iBitDepth : Nat) : Nat :=
  let iSum := mm_setzero_si128
  let m1 := xCalcHAD8x16_SSE_vertical org cur piOrg piCur iStrideOrg iStrideCur
  let iSum := xCalcHAD8x16_SSE_pass m1.1 iBitDepth iSum
  let iSum := xCalcHAD8x16_SSE_pass m1.2 iBitDepth iSum
  let iSum := mm_hadd_epi32 iSum iSum
  let iSum := mm_hadd_epi32 iSum iSum
  let sad := mm_cvtsi128_si32 iSum
  sad

/-! ### Auxiliary definitions of the proofs on the Hadamard kernels -/

/-- The 16-bit pattern of an integer. -/
def enc16 (z : Int) : Nat := (z % 65536).toNat

/-- The register with the 16-bit lanes `f 0`, ..., `f 7`. -/
def M128.tab (f : Nat → Nat) : M128 := ⟨f 0, f 1, f 2, f 3, f 4, f 5, f 6, f 7⟩

/-- Eight registers: register `r` has the 16-bit lanes `F r 0`, ..., `F r 7`. -/
def Regs8.tab (F : Nat → Nat → Nat) : Regs8 M128 :=
  ⟨M128.tab (F 0), M128.tab (F 1), M128.tab (F 2), M128.tab (F 3),
   M128.tab (F 4), M128.tab (F 5), M128.tab (F 6), M128.tab (F 7)⟩

/-- Eight registers: register `r` has the 32-bit lanes `F r 0`, ..., `F r 3`. -/
def Regs8.tabw (F : Nat → Nat → Nat) : Regs8 M128 :=
  ⟨M128.ofWords (F 0 0) (F 0 1) (F 0 2) (F 0 3), M128.ofWords (F 1 0) (F 1 1) (F 1 2) (F 1 3),
   M128.ofWords (F 2 0) (F 2 1) (F 2 2) (F 2 3), M128.ofWords (F 3 0) (F 3 1) (F 3 2) (F 3 3),
   M128.ofWords (F 4 0) (F 4 1) (F 4 2) (F 4 3), M128.ofWords (F 5 0) (F 5 1) (F 5 2) (F 5 3),
   M128.ofWords (F 6 0) (F 6 1) (F 6 2) (F 6 3), M128.ofWords (F 7 0) (F 7 1) (F 7 2) (F 7 3)⟩

/-- The three butterfly stages of the 8x8 kernel (lines 556-581) on the values of one lane in
eight registers, for an addition `add` and a subtraction `sub` of lanes: output `r`. -/
def butterfly8 {α : Type} (add sub : α → α → α) (z : Nat → α) (r : Nat) : α :=
  let a0 := add (z 0) (z 4)
  let a1 := add (z 1) (z 5)
  let a2 := add (z 2) (z 6)
  let a3 := add (z 3) (z 7)
  let a4 := sub (z 0) (z 4)
  let a5 := sub (z 1) (z 5)
  let a6 := sub (z 2) (z 6)
  let a7 := sub (z 3) (z 7)
  let b0 := add a0 a2
  let b1 := add a1 a3
  let b2 := sub a0 a2
  let b3 := sub a1 a3
  let b4 := add a4 a6
  let b5 := add a5 a7
  let b6 := sub a4 a6
  let b7 := sub a5 a7
  match r with
  | 0 => add b0 b1
  | 1 => sub b0 b1
  | 2 => add b2 b3
  | 3 => sub b2 b3
  | 4 => add b4 b5
  | 5 => sub b4 b5
  | 6 => add b6 b7
  | _ => sub b6 b7

/-- The two butterfly stages of the 4x4 kernel (lines 478-491) on the values of one lane in
the four registers, for an addition `add` and a subtraction `sub` of lanes: the outputs left
in `r0`, `r5`, `r2` and `r3`, in this order. -/
def butterfly4 {α : Type} (add sub : α → α → α) (z : Nat → α) (i : Nat) : α :=
  let r0 := add (z 0) (z 3)
  let r1 := add (z 1) (z 2)
  let r4 := sub (z 0) (z 3)
  let r5 := sub (z 1) (z 2)
  match i with
  | 0 => add r0 r1
  | 1 => add r5 r4
  | 2 => sub r0 r1
  | _ => sub r4 r5

/-- The value a register holds in a 32-bit lane written with `ofWords`: the pattern modulo
`2^32`, assembled from its two 16-bit halves. -/
def word32 (a : Nat) : Nat := a % 65536 + 65536 * (a / 65536 % 65536)

/-- The 32-bit addition of two lanes written with `ofWords`. -/
def add32w (a b : Nat) : Nat := add32 (word32 a) (word32 b)

/-- The 32-bit subtraction of two lanes written with `ofWords`. -/
def sub32w (a b : Nat) : Nat := sub32 (word32 a) (word32 b)

/-- The 32-bit absolute value of a lane written with `ofWords`. -/
def abs32w (a : Nat) : Nat := abs32 (word32 a)

/-- Row `u` of the Hadamard matrix of order `2^bits` applied to a vector. -/
def hadamardRow (bits : Nat) (z : Nat → Int) (u : Nat) : Int :=
  ∑ x ∈ Finset.range (2 ^ bits), hadamardEntry bits u x * z x

/-- The rows of the Hadamard matrix of order 4 that the outputs of `butterfly4` hold. -/
def hadRow4 : Nat → Nat
  | 0 => 0
  | 1 => 2
  | 2 => 3
  | _ => 1

/-- The address of row `y` of a block as the 4x4 kernel computes it (lines 461-468). -/
def rowAddr4 (p stride : Nat) : Nat → Nat
  | 0 => p
  | 1 => p + stride
  | 2 => p + 2 * stride
  | _ => p + 3 * stride

/-- A block of samples of the given bit depth with `org = 2^bitDepth - 1` and `cur = 0`
everywhere. -/
def saturatedParam (width height bitDepth : Nat) : DistParam :=
  { org := { buf := fun _ => 2 ^ bitDepth - 1, stride := width, width := width,
             height := height }
    cur := { buf := fun _ => 0, stride := width, width := width, height := height }
    step := 1
    bitDepth := bitDepth
    applyWeight := false
    subShift := 0 }

/-- The 16-bit lane `x` of row `y` of `org - cur` as the 4x4 kernel loads and subtracts it
(lines 461-473). -/
def xCalcHAD4x4_SSE_diff (org cur : Nat → Nat) (piOrg piCur iStrideOrg iStrideCur : Nat)
    (y x : Nat) : Nat :=
  sub16 (org (rowAddr4 piOrg iStrideOrg y + x) % 65536)
    (cur (rowAddr4 piCur iStrideCur y + x) % 65536)

/-- The 16-bit lane `t` of `Sum` in the 4x4 kernel after line 522, for the lanes `X y x` of
the differences: the two butterfly passes and the sum of the four absolute values. -/
def xCalcHAD4x4_SSE_lane (X : Nat → Nat → Nat) (t : Nat) : Nat :=
  let second := fun i =>
    butterfly4 add16 sub16 (fun x => butterfly4 add16 sub16 (fun y => X y x) t) i
  add16 (add16 (add16 (abs16 (second 0)) (abs16 (second 2))) (abs16 (second 3)))
    (abs16 (second 1))

/-! ## Decoder: the state of `xReconInter` at an abort -/

/-- The prediction part of `DecCu::xReconInter` (lines 458-485) with the state it ends in: the
decoder it has reached, and the message of the `CHECK` that aborted it, if one did.  A failing
`CHECK` ends the part in the state reached by the statements before it. -/
def xReconInter_predict_run (E : Ext) (cu : CodingUnit) (s : Dec) : Dec × Option String :=
  if cu.triangle then
    let splitDir := cu.firstPU.triangleSplitDir
    let candIdx0 := cu.firstPU.triangleMergeIdx0
    let candIdx1 := cu.firstPU.triangleMergeIdx1
    let blk := E.motionCompensation4Triangle cu s.triangleMrgCtx splitDir candIdx0 candIdx1 s
    let s := forValidBlocks cu.blocks (fun c a s => s.writePred c a (blk c)) s
    let s := s.log (.motionCompensation4Triangle cu.idx)
    (s.log (.spanTriangleMotionInfo cu.idx), none)
  else
    let s := s.log (.geneIntrainterPred cu.idx)
    -- inter prediction
    if CU.isIBC cu && cu.firstPU.mhIntraFlag then
      (s, some "IBC and MHIntra cannot be used together")
    else if CU.isIBC cu && cu.affine then
      (s, some "IBC and Affine cannot be used together")
    else if CU.isIBC cu && cu.triangle then
      (s, some "IBC and triangle cannot be used together")
    else if CU.isIBC cu && cu.firstPU.mmvdMergeFlag then
      (s, some "IBC and MMVD cannot be used together")
    else
      let luma := cu.Y.valid
      let chroma := cu.Cb.valid
      if luma && chroma then
        let blk := E.motionCompensation cu .REF_PIC_LIST_X true true s
        let s := forValidBlocks cu.blocks (fun c a s => s.writePred c a (blk c)) s
        (s.log (.motionCompensation cu.idx true true), none)
      else
        let blk := E.motionCompensation cu .REF_PIC_LIST_0 luma chroma s
        let s := forValidBlocks cu.blocks (fun c a s =>
          if (if isLuma c then luma else chroma) then s.writePred c a (blk c) else s) s
        (s.log (.motionCompensation cu.idx luma chroma), none)

/-- `DecCu::xReconInter` (lines 456-581) with the state it ends in: the decoder it has reached,
and the message of the `CHECK` that aborted it, if one did; the statements after the prediction
part run only when no `CHECK` has failed. -/
def xReconInter_run (C : Config) (E : Ext) (cu : CodingUnit) (s : Dec) : Dec × Option String :=
  let s := s.log (.xReconInter cu.idx)
  match xReconInter_predict_run E cu s with
  | (s, some e) => (s, some e)
  | (s, none) => (xReconInter_rest C E cu s, none)

/-- Whether a call recorded in the trace is a motion compensation. -/
def Event.isMotionCompensation : Event → Bool
  | .motionCompensation _ _ _ => true
  | .motionCompensation4Triangle _ => true
  | _ => false

/-- Whether a call recorded in the trace writes to the reconstruction. -/
def Event.isWriteReco : Event → Bool
  | .writeReco _ _ => true
  | _ => false

/-! ### Further example inputs of the decoder -/

/-- An IBC coding unit whose prediction unit is in MMVD merge mode with the MHIntra flag set;
its block vector is zero. -/
def ibcMmvdMHIntraCU : CodingUnit :=
  { exampleCU .MODE_IBC with
    firstPU := { examplePU with mergeFlag := true, mmvdMergeFlag := true, mhIntraFlag := true } }

/-! ## The calls through the dispatch table -/

theorem land3 (n : Nat) : n &&& 3 = n % 4 := Nat.and_pow_two_sub_one_eq_mod n 2
theorem land7 (n : Nat) : n &&& 7 = n % 8 := Nat.and_pow_two_sub_one_eq_mod n 3
theorem land15 (n : Nat) : n &&& 15 = n % 16 := Nat.and_pow_two_sub_one_eq_mod n 4

theorem mod_two_pow_eq_zero_iff (x k : Nat) :
    x % 2 ^ k = 0 ↔ ∀ i, i < k → x.testBit i = false := by
  constructor
  · intro h i hi
    have := Nat.testBit_mod_two_pow x k i
    rw [h] at this
    simpa [hi] using this.symm
  · intro h
    apply Nat.eq_of_testBit_eq
    intro i
    rw [Nat.testBit_mod_two_pow]
    by_cases hi : i < k
    · simp [hi, h i hi]
    · simp [hi]

theorem lor_mod_two_pow_eq_zero (a b k : Nat) :
    (a ||| b) % 2 ^ k = 0 ↔ a % 2 ^ k = 0 ∧ b % 2 ^ k = 0 := by
  simp only [mod_two_pow_eq_zero_iff, Nat.testBit_or, Bool.or_eq_false_iff]
  constructor
  · intro h; exact ⟨fun i hi => (h i hi).1, fun i hi => (h i hi).2⟩
  · intro h i hi; exact ⟨h.1 i hi, h.2 i hi⟩

theorem lor_land15 (a b : Nat) : (a ||| b) &&& 15 = 0 ↔ a % 16 = 0 ∧ b % 16 = 0 := by
  rw [land15]; exact lor_mod_two_pow_eq_zero a b 4

theorem lor_land7 (a b : Nat) : (a ||| b) &&& 7 = 0 ↔ a % 8 = 0 ∧ b % 8 = 0 := by
  rw [land7]; exact lor_mod_two_pow_eq_zero a b 3

theorem lor_mod16 (a b : Nat) : (a ||| b) % 16 = 0 ↔ a % 16 = 0 ∧ b % 16 = 0 :=
  lor_mod_two_pow_eq_zero a b 4

theorem lor_mod8 (a b : Nat) : (a ||| b) % 8 = 0 ↔ a % 8 = 0 ∧ b % 8 = 0 :=
  lor_mod_two_pow_eq_zero a b 3

theorem shl1 (a : Nat) : a <<< 1 = a * 2 := by rw [Nat.shiftLeft_eq]
theorem shl2 (a : Nat) : a <<< 2 = a * 4 := by rw [Nat.shiftLeft_eq]
theorem shl3 (a : Nat) : a <<< 3 = a * 8 := by rw [Nat.shiftLeft_eq]
theorem shl4 (a : Nat) : a <<< 4 = a * 16 := by rw [Nat.shiftLeft_eq]

/-! ### Loops -/

theorem iters_step (limit i step : Nat) (hs : 0 < step) (hi : i < limit) :
    (limit - i + step - 1) / step = (limit - (i + step) + step - 1) / step + 1 := by
  by_cases h : limit - i ≥ step
  · have : limit - i + step - 1 = (limit - (i + step) + step - 1) + step := by omega
    rw [this, Nat.add_div_right _ hs]
  · have h1 : limit - (i + step) + step - 1 = step - 1 := by omega
    have h2 : (step - 1) / step = 0 := Nat.div_eq_of_lt (by omega)
    rw [h1, h2]
    apply Nat.div_eq_of_lt_le
    · omega
    · omega

theorem forLoop_eq_loopN_aux {σ : Type} (body : Nat → σ → σ) (limit step : Nat) (hs : 0 < step) :
    ∀ (fuel i : Nat) (s : σ), (limit - i + step - 1) / step ≤ fuel →
      forLoop fuel i limit step body s = loopN ((limit - i + step - 1) / step) i step body s := by
  intro fuel
  induction fuel with
  | zero =>
    intro i s h
    have : (limit - i + step - 1) / step = 0 := Nat.le_zero.mp h
    rw [this]; rfl
  | succ n ih =>
    intro i s h
    by_cases hi : i < limit
    · rw [iters_step limit i step hs hi] at h ⊢
      simp only [forLoop, hi, if_true, loopN]
      exact ih (i + step) (body i s) (by omega)
    · have h0 : (limit - i + step - 1) / step = 0 := by
        apply Nat.div_eq_of_lt; omega
      rw [h0]
      simp only [forLoop, hi, if_false, loopN]

theorem iters_le (limit step : Nat) (hs : 0 < step) : iters limit step ≤ limit := by
  unfold iters
  rcases Nat.eq_zero_or_pos limit with h | h
  · subst h
    have : (0 + step - 1) / step = 0 := Nat.div_eq_of_lt (by omega)
    omega
  · apply Nat.div_le_of_le_mul
    obtain ⟨l, rfl⟩ : ∃ l, limit = l + 1 := ⟨limit - 1, by omega⟩
    obtain ⟨t, rfl⟩ : ∃ t, step = t + 1 := ⟨step - 1, by omega⟩
    have : (t + 1) * (l + 1) = t * l + t + l + 1 := by ring
    omega

/-- With a positive step the fuel `limit` is never exhausted: the loop runs its
`iters limit step` iterations. -/
theorem forLoop_eq_loopN {σ : Type} (body : Nat → σ → σ) (limit step : Nat) (hs : 0 < step)
    (s : σ) : forLoop limit 0 limit step body s = loopN (iters limit step) 0 step body s := by
  have := forLoop_eq_loopN_aux body limit step hs limit 0 s
    (by simpa [iters] using iters_le limit step hs)
  simpa [iters] using this

theorem iters_of_dvd (limit step : Nat) (hs : 0 < step) (h : limit % step = 0) :
    iters limit step = limit / step := by
  unfold iters
  obtain ⟨k, rfl⟩ := Nat.dvd_of_mod_eq_zero h
  rw [Nat.mul_div_cancel_left _ hs]
  have e1 : k * step = step * k := Nat.mul_comm _ _
  have e2 : (k + 1) * step = step * k + step := by ring
  apply Nat.div_eq_of_lt_le
  · omega
  · show step * k + step - 1 < (k + 1) * step
    omega

theorem loopN_succ_last {σ : Type} (body : Nat → σ → σ) (step : Nat) :
    ∀ (n i : Nat) (s : σ),
      loopN (n + 1) i step body s = body (i + n * step) (loopN n i step body s) := by
  intro n
  induction n with
  | zero => intro i s; simp [loopN]
  | succ n ih =>
    intro i s
    rw [loopN, ih (i + step) (body i s)]
    have : i + step + n * step = i + (n + 1) * step := by ring
    rw [this]; rfl

/-! ## Tiling of the Hadamard cost -/

theorem find_cons_ite {α : Type} (q : α → Bool) (a : α) (l : List α) :
    (a :: l).find? q = if q a = true then some a else l.find? q := by
  cases h : q a <;> simp [List.find?_cons, h]

theorem chosenTile_eq (vext : X86_VEXT) (w h : Nat) :
    chosenTile vext w h =
      if w > h ∧ w % 16 = 0 ∧ h % 8 = 0 then some .T16x8
      else if w < h ∧ h % 16 = 0 ∧ w % 8 = 0 then some .T8x16
      else if w > h ∧ w % 8 = 0 ∧ h % 4 = 0 then some .T8x4
      else if w < h ∧ h % 8 = 0 ∧ w % 4 = 0 then some .T4x8
      else if vext.geAVX2 = true ∧ (h % 16 = 0 ∧ w % 16 = 0) ∧ h = w then some .T16x16
      else if (h % 8 = 0 ∧ w % 8 = 0) ∧ h = w then some .T8x8
      else if h % 4 = 0 ∧ w % 4 = 0 then some .T4x4
      else if h % 2 = 0 ∧ w % 2 = 0 then some .T2x2
      else none := by
  have e1 : Tile.applies vext w h .T16x8 = true ↔ (w > h ∧ w % 16 = 0 ∧ h % 8 = 0) := by
    simp [Tile.applies, Nat.dvd_iff_mod_eq_zero]
  have e2 : Tile.applies vext w h .T8x16 = true ↔ (w < h ∧ h % 16 = 0 ∧ w % 8 = 0) := by
    simp [Tile.applies, Nat.dvd_iff_mod_eq_zero]
  have e3 : Tile.applies vext w h .T8x4 = true ↔ (w > h ∧ w % 8 = 0 ∧ h % 4 = 0) := by
    simp [Tile.applies, Nat.dvd_iff_mod_eq_zero]
  have e4 : Tile.applies vext w h .T4x8 = true ↔ (w < h ∧ h % 8 = 0 ∧ w % 4 = 0) := by
    simp [Tile.applies, Nat.dvd_iff_mod_eq_zero]
  have e5 : Tile.applies vext w h .T16x16 = true ↔
      (vext.geAVX2 = true ∧ (h % 16 = 0 ∧ w % 16 = 0) ∧ h = w) := by
    simp only [Tile.applies, Nat.dvd_iff_mod_eq_zero, Bool.and_eq_true, decide_eq_true_eq]
    constructor
    · rintro ⟨a, b, c⟩; exact ⟨a, ⟨b ▸ c, c⟩, b.symm⟩
    · rintro ⟨a, ⟨_, c⟩, d⟩; exact ⟨a, d.symm, c⟩
  have e6 : Tile.applies vext w h .T8x8 = true ↔ ((h % 8 = 0 ∧ w % 8 = 0) ∧ h = w) := by
    simp only [Tile.applies, Nat.dvd_iff_mod_eq_zero, decide_eq_true_eq]
    constructor
    · rintro ⟨b, c⟩; exact ⟨⟨b ▸ c, c⟩, b.symm⟩
    · rintro ⟨⟨_, c⟩, d⟩; exact ⟨d.symm, c⟩
  have e7 : Tile.applies vext w h .T4x4 = true ↔ (h % 4 = 0 ∧ w % 4 = 0) := by
    simp only [Tile.applies, Nat.dvd_iff_mod_eq_zero, decide_eq_true_eq]; exact And.comm
  have e8 : Tile.applies vext w h .T2x2 = true ↔ (h % 2 = 0 ∧ w % 2 = 0) := by
    simp only [Tile.applies, Nat.dvd_iff_mod_eq_zero, decide_eq_true_eq]; exact And.comm
  simp only [chosenTile, tilePrecedence, find_cons_ite, List.find?_nil, e1, e2, e3, e4, e5, e6,
    e7, e8]

theorem addDist_loopN (k : Nat → Nat) (tw : Nat) :
    ∀ (n u : Nat), u < 18446744073709551616 →
      loopN n 0 tw (fun x u => addDist u (k x)) u < 18446744073709551616 ∧
      loopN n 0 tw (fun x u => addDist u (k x)) u =
        (u + ∑ i ∈ Finset.range n, k (i * tw)) % 18446744073709551616 := by
  intro n
  induction n with
  | zero => intro u hu; simp [loopN, Nat.mod_eq_of_lt hu, hu]
  | succ n ih =>
    intro u hu
    rw [loopN_succ_last]
    obtain ⟨_, h2⟩ := ih u hu
    rw [h2, Finset.sum_range_succ]
    simp only [addDist, Nat.zero_add]
    refine ⟨Nat.mod_lt _ (by decide), ?_⟩
    rw [Nat.mod_add_mod, Nat.add_assoc]

theorem tileRows_loopN (a b tw m : Nat) (k : Nat → Nat → Nat → Nat) (step : Nat) :
    ∀ (n : Nat),
      let st := loopN n 0 step (fun _ (st : TileState) =>
        (⟨st.piOrg + a, st.piCur + b,
          loopN m 0 tw (fun x u => addDist u (k st.piOrg st.piCur x)) st.uiSum⟩ : TileState))
        ⟨0, 0, 0⟩
      st.piOrg = n * a ∧ st.piCur = n * b ∧ st.uiSum < 18446744073709551616 ∧
      st.uiSum = (∑ j ∈ Finset.range n, ∑ i ∈ Finset.range m, k (j * a) (j * b) (i * tw))
        % 18446744073709551616 := by
  intro n
  induction n with
  | zero => simp [loopN]
  | succ n ih =>
    simp only at ih ⊢
    rw [loopN_succ_last]
    obtain ⟨h1, h2, h3, h4⟩ := ih
    simp only
    refine ⟨by rw [h1]; ring, by rw [h2]; ring, ?_, ?_⟩
    · exact (addDist_loopN _ tw m _ h3).1
    · rw [(addDist_loopN _ tw m _ h3).2, h4, h1, h2, Finset.sum_range_succ, Nat.mod_add_mod]

theorem tileLoops (R C th tw a b : Nat) (hth : 0 < th) (htw : 0 < tw)
    (k : Nat → Nat → Nat → Nat) :
    (forLoop R 0 R th (fun _ (st : TileState) =>
        (⟨st.piOrg + a, st.piCur + b,
          forLoop C 0 C tw (fun x u => addDist u (k st.piOrg st.piCur x)) st.uiSum⟩ : TileState))
        ⟨0, 0, 0⟩).uiSum =
      (∑ j ∈ Finset.range (iters R th), ∑ i ∈ Finset.range (iters C tw),
        k (j * a) (j * b) (i * tw)) % 18446744073709551616 := by
  rw [forLoop_eq_loopN _ _ _ hth]
  simp only [forLoop_eq_loopN _ _ _ htw]
  exact (tileRows_loopN a b tw (iters C tw) k th (iters R th)).2.2.2



theorem tiledCost_of (K : HadKernels) (vext : X86_VEXT) (p : DistParam) (t : Tile)
    (th tw : Nat) (hth : t.height = th) (htw : t.width = tw) (h0 : 0 < th) (w0 : 0 < tw)
    (hh : p.org.height % th = 0) (hw : p.org.width % tw = 0) (g : Nat → Nat → Nat)
    (hg : ∀ i j, g j i = tileCost K vext p t (i * tw) (j * th)) (s : Nat) :
    (Except.ok (((∑ j ∈ Finset.range (iters p.org.height th),
      ∑ i ∈ Finset.range (iters p.org.width tw), g j i) % 18446744073709551616) >>> s) :
        Except String Nat) = Except.ok (tiledCost K vext p t >>> s) := by
  rw [iters_of_dvd _ _ h0 hh, iters_of_dvd _ _ w0 hw]
  unfold tiledCost
  rw [hth, htw]
  have : ∀ j ∈ Finset.range (p.org.height / th), ∑ i ∈ Finset.range (p.org.width / tw), g j i =
      ∑ i ∈ Finset.range (p.org.width / tw), tileCost K vext p t (i * tw) (j * th) :=
    fun j _ => Finset.sum_congr rfl (fun i _ => hg i j)
  rw [Finset.sum_congr rfl this]

/-- The accelerated Hadamard cost, without weighting and up to bit depth 10, is the cost of the
block tiled with the first applicable shape. -/
theorem xGetHADs_SIMD_eq (K : HadKernels) (xGetHADs : DistParam → Except String Nat)
    (vext : X86_VEXT) (p : DistParam) (hbd : p.bitDepth ≤ 10) (hw : p.applyWeight = false) :
    xGetHADs_SIMD K xGetHADs vext p =
      match chosenTile vext p.org.width p.org.height with
      | some t => .ok (tiledCost K vext p t >>> DISTORTION_PRECISION_ADJUSTMENT p.bitDepth)
      | none => .error "Unsupported size" := by
  have hg : ¬ (p.bitDepth > 10 ∨ p.applyWeight = true) := by rw [hw]; simp; omega
  unfold xGetHADs_SIMD
  rw [if_neg hg, chosenTile_eq]
  simp only [land15, land7, land3, lor_mod16, lor_mod8, shl1, shl2, shl3, shl4]
  by_cases h1 : p.org.width > p.org.height ∧ p.org.width % 16 = 0 ∧ p.org.height % 8 = 0
  · rw [if_pos h1, if_pos h1]
    cases hv : vext.geAVX2
    · simp only [Bool.false_eq_true, if_false]
      rw [tileLoops _ _ 8 16 _ _ (by decide) (by decide)
        (fun po pc x => K.xCalcHAD16x8_SSE p.org.buf p.cur.buf (po + x) (pc + x)
          p.org.stride p.cur.stride p.bitDepth)]
      apply tiledCost_of K vext p .T16x8 8 16 rfl rfl (by decide) (by decide) h1.2.2 h1.2.1
      intro i j
      simp only [tileCost, hv, Bool.false_eq_true, if_false]
      congr 1 <;> ring
    · simp only [if_true]
      rw [tileLoops _ _ 8 16 _ _ (by decide) (by decide)
        (fun po pc x => K.xCalcHAD16x8_AVX2 p.org.buf p.cur.buf (po + x) (pc + x)
          p.org.stride p.cur.stride p.bitDepth)]
      apply tiledCost_of K vext p .T16x8 8 16 rfl rfl (by decide) (by decide) h1.2.2 h1.2.1
      intro i j
      simp only [tileCost, hv, if_true]
      congr 1 <;> ring
  rw [if_neg h1, if_neg h1]
  by_cases h2 : p.org.width < p.org.height ∧ p.org.height % 16 = 0 ∧ p.org.width % 8 = 0
  · rw [if_pos h2, if_pos h2]
    cases hv : vext.geAVX2
    · simp only [Bool.false_eq_true, if_false]
      rw [tileLoops _ _ 16 8 _ _ (by decide) (by decide)
        (fun po pc x => K.xCalcHAD8x16_SSE p.org.buf p.cur.buf (po + x) (pc + x)
          p.org.stride p.cur.stride p.bitDepth)]
      apply tiledCost_of K vext p .T8x16 16 8 rfl rfl (by decide) (by decide) h2.2.1 h2.2.2
      intro i j
      simp only [tileCost, hv, Bool.false_eq_true, if_false]
      congr 1 <;> ring
    · simp only [if_true]
      rw [tileLoops _ _ 16 8 _ _ (by decide) (by decide)
        (fun po pc x => K.xCalcHAD8x16_AVX2 p.org.buf p.cur.buf (po + x) (pc + x)
          p.org.stride p.cur.stride p.bitDepth)]
      apply tiledCost_of K vext p .T8x16 16 8 rfl rfl (by decide) (by decide) h2.2.1 h2.2.2
      intro i j
      simp only [tileCost, hv, if_true]
      congr 1 <;> ring
  rw [if_neg h2, if_neg h2]
  by_cases h3 : p.org.width > p.org.height ∧ p.org.width % 8 = 0 ∧ p.org.height % 4 = 0
  · rw [if_pos h3, if_pos h3]
    rw [tileLoops _ _ 4 8 _ _ (by decide) (by decide)
      (fun po pc x => K.xCalcHAD8x4_SSE p.org.buf p.cur.buf (po + x) (pc + x)
        p.org.stride p.cur.stride p.bitDepth)]
    apply tiledCost_of K vext p .T8x4 4 8 rfl rfl (by decide) (by decide) h3.2.2 h3.2.1
    intro i j
    simp only [tileCost]
    congr 1 <;> ring
  rw [if_neg h3, if_neg h3]
  by_cases h4 : p.org.width < p.org.height ∧ p.org.height % 8 = 0 ∧ p.org.width % 4 = 0
  · rw [if_pos h4, if_pos h4]
    rw [tileLoops _ _ 8 4 _ _ (by decide) (by decide)
      (fun po pc x => K.xCalcHAD4x8_SSE p.org.buf p.cur.buf (po + x) (pc + x)
        p.org.stride p.cur.stride p.bitDepth)]
    apply tiledCost_of K vext p .T4x8 8 4 rfl rfl (by decide) (by decide) h4.2.1 h4.2.2
    intro i j
    simp only [tileCost]
    congr 1 <;> ring
  rw [if_neg h4, if_neg h4]
  by_cases h5 : vext.geAVX2 = true ∧ (p.org.height % 16 = 0 ∧ p.org.width % 16 = 0) ∧
      p.org.height = p.org.width
  · rw [if_pos h5, if_pos h5]
    rw [tileLoops _ _ 16 16 _ _ (by decide) (by decide)
      (fun po pc x => xCalcHAD16x16_AVX2 p.org.buf p.cur.buf (po + x) (pc + x)
        p.org.stride p.cur.stride p.bitDepth)]
    apply tiledCost_of K vext p .T16x16 16 16 rfl rfl (by decide) (by decide) h5.2.1.1 h5.2.1.2
    intro i j
    simp only [tileCost]
    congr 1 <;> ring
  rw [if_neg h5, if_neg h5]
  by_cases h6 : (p.org.height % 8 = 0 ∧ p.org.width % 8 = 0) ∧ p.org.height = p.org.width
  · rw [if_pos h6, if_pos h6]
    rw [tileLoops _ _ 8 8 _ _ (by decide) (by decide)
      (fun po pc x => xCalcHAD8x8_SSE p.org.buf p.cur.buf (po + x) (pc + x)
        p.org.stride p.cur.stride p.bitDepth)]
    apply tiledCost_of K vext p .T8x8 8 8 rfl rfl (by decide) (by decide) h6.1.1 h6.1.2
    intro i j
    simp only [tileCost]
    congr 1 <;> ring
  rw [if_neg h6, if_neg h6]
  by_cases h7 : p.org.height % 4 = 0 ∧ p.org.width % 4 = 0
  · rw [if_pos h7, if_pos h7]
    rw [tileLoops _ _ 4 4 _ _ (by decide) (by decide)
      (fun po pc x => xCalcHAD4x4_SSE p.org.buf p.cur.buf (po + x) (pc + x)
        p.org.stride p.cur.stride)]
    apply tiledCost_of K vext p .T4x4 4 4 rfl rfl (by decide) (by decide) h7.1 h7.2
    intro i j
    simp only [tileCost]
    congr 1 <;> ring
  rw [if_neg h7, if_neg h7]
  by_cases h8 : p.org.height % 2 = 0 ∧ p.org.width % 2 = 0
  · rw [if_pos h8, if_pos h8]
    rw [tileLoops _ _ 2 2 _ _ (by decide) (by decide)
      (fun po pc x => K.xCalcHADs2x2 p.org.buf p.cur.buf (po + x) (pc + x * p.step)
        p.org.stride p.cur.stride p.step)]
    apply tiledCost_of K vext p .T2x2 2 2 rfl rfl (by decide) (by decide) h8.1 h8.2
    intro i j
    simp only [tileCost]
    congr 1 <;> ring
  rw [if_neg h8, if_neg h8]

/-! ## Tile selection and the unsupported-size error -/

theorem chosenTile_eq_none_iff (vext : X86_VEXT) (w h : Nat) :
    chosenTile vext w h = none ↔ (w % 2 = 1 ∨ h % 2 = 1) := by
  rw [chosenTile_eq]
  split_ifs with h1 h2 h3 h4 h5 h6 h7 h8 <;> simp <;> omega

/-- C4: with `bitDepth <= 10` and no weighting, `xGetHADs_SIMD` fails with "Unsupported size"
exactly when the block width or the block height is odd; when both are even, exactly one tile
shape is chosen and the cost of the block tiled with it is returned. -/
theorem xGetHADs_SIMD_unsupported_iff_odd (K : HadKernels)
    (xGetHADs : DistParam → Except String Nat) (vext : X86_VEXT) (p : DistParam)
    (hbd : p.bitDepth ≤ 10) (hw : p.applyWeight = false) :
    (xGetHADs_SIMD K xGetHADs vext p = .error "Unsupported size" ↔
      (p.org.width % 2 = 1 ∨ p.org.height % 2 = 1)) ∧
    (p.org.width % 2 = 0 → p.org.height % 2 = 0 →
      ∃! t, chosenTile vext p.org.width p.org.height = some t ∧
        xGetHADs_SIMD K xGetHADs vext p =
          .ok (tiledCost K vext p t >>> DISTORTION_PRECISION_ADJUSTMENT p.bitDepth)) := by
  have heq := xGetHADs_SIMD_eq K xGetHADs vext p hbd hw
  have hnone := chosenTile_eq_none_iff vext p.org.width p.org.height
  constructor
  · constructor
    · intro herr
      cases hc : chosenTile vext p.org.width p.org.height with
      | none => exact hnone.mp hc
      | some t => rw [heq, hc] at herr; cases herr
    · intro hodd
      rw [heq, hnone.mpr hodd]
  · intro hwe hhe
    cases hc : chosenTile vext p.org.width p.org.height with
    | none => have := hnone.mp hc; omega
    | some t =>
      refine ⟨t, ⟨rfl, ?_⟩, ?_⟩
      · rw [heq, hc]
      · rintro t' ⟨ht', _⟩
        exact (Option.some.inj ht').symm

/-- C4 at a 6x6 block of 10-bit samples. -/
theorem xGetHADs_SIMD_unsupported_iff_odd_witness :
    (xGetHADs_SIMD exampleKernels exampleScalar .SSE41 (exampleParam 6 6 10 false) =
        .error "Unsupported size" ↔ ((6 : Nat) % 2 = 1 ∨ (6 : Nat) % 2 = 1)) ∧
    ((6 : Nat) % 2 = 0 → (6 : Nat) % 2 = 0 →
      ∃! t, chosenTile .SSE41 6 6 = some t ∧
        xGetHADs_SIMD exampleKernels exampleScalar .SSE41 (exampleParam 6 6 10 false) =
          .ok (tiledCost exampleKernels .SSE41 (exampleParam 6 6 10 false) t >>>
            DISTORTION_PRECISION_ADJUSTMENT 10)) :=
  xGetHADs_SIMD_unsupported_iff_odd exampleKernels exampleScalar .SSE41
    (exampleParam 6 6 10 false) (by decide) rfl

/-- C5: with `bitDepth <= 10` and no weighting, `xGetHADs_SIMD` costs the whole block with a
single tile shape, the first applicable one in the order 16x8, 8x16, 8x4, 4x8, 16x16 (AVX2
only), 8x8, 4x4, 2x2; the shape depends on the width, the height and `vext` alone. -/
theorem xGetHADs_SIMD_single_tile_shape (K : HadKernels)
    (xGetHADs : DistParam → Except String Nat) (vext : X86_VEXT) (p : DistParam)
    (hbd : p.bitDepth ≤ 10) (hw : p.applyWeight = false) :
    xGetHADs_SIMD K xGetHADs vext p =
      match tilePrecedence.find? (fun t => t.applies vext p.org.width p.org.height) with
      | some t => .ok (tiledCost K vext p t >>> DISTORTION_PRECISION_ADJUSTMENT p.bitDepth)
      | none => .error "Unsupported size" :=
  xGetHADs_SIMD_eq K xGetHADs vext p hbd hw

/-- C5 at a 16x16 block: 8x8 tiles without AVX2. -/
theorem xGetHADs_SIMD_single_tile_shape_witness :
    xGetHADs_SIMD exampleKernels exampleScalar .SSE41 (exampleParam 16 16 10 false) =
      match tilePrecedence.find? (fun t => t.applies .SSE41 16 16) with
      | some t => .ok (tiledCost exampleKernels .SSE41 (exampleParam 16 16 10 false) t >>>
          DISTORTION_PRECISION_ADJUSTMENT 10)
      | none => .error "Unsupported size" :=
  xGetHADs_SIMD_single_tile_shape exampleKernels exampleScalar .SSE41
    (exampleParam 16 16 10 false) (by decide) rfl

/-! ## Scalar fall-back -/

/-- C8: `xGetSAD_SIMD` and `xGetSAD_IBD_SIMD` return the result of the scalar `xGetSAD`
whenever `org.width < 4`, `bitDepth > 10` or `applyWeight` is set; `xGetSAD_NxN_SIMD` returns
the result of the scalar `xGetSAD` and `xGetHADs_SIMD` that of the scalar `xGetHADs` whenever
`bitDepth > 10` or `applyWeight` is set. -/
theorem scalar_fallback (xGetSAD xGetHADs : DistParam → Except String Nat) (K : HadKernels)
    (vext : X86_VEXT) (iWidth : Nat) (p : DistParam) :
    ((p.org.width < 4 ∨ p.bitDepth > 10 ∨ p.applyWeight = true) →
      xGetSAD_SIMD xGetSAD vext p = xGetSAD p ∧ xGetSAD_IBD_SIMD xGetSAD vext p = xGetSAD p) ∧
    ((p.bitDepth > 10 ∨ p.applyWeight = true) →
      xGetSAD_NxN_SIMD xGetSAD iWidth vext p = xGetSAD p ∧
      xGetHADs_SIMD K xGetHADs vext p = xGetHADs p) := by
  refine ⟨fun h => ⟨?_, ?_⟩, fun h => ⟨?_, ?_⟩⟩
  · unfold xGetSAD_SIMD; rw [if_pos h]
  · unfold xGetSAD_IBD_SIMD; rw [if_pos h]
  · unfold xGetSAD_NxN_SIMD; rw [if_pos h]
  · unfold xGetHADs_SIMD; rw [if_pos h]

/-- C8 at a weighted 16x16 block. -/
theorem scalar_fallback_witness :
    (xGetSAD_SIMD exampleScalar .AVX2 (exampleParam 16 16 10 true) = .ok 0 ∧
      xGetSAD_IBD_SIMD exampleScalar .AVX2 (exampleParam 16 16 10 true) = .ok 0) ∧
    (xGetSAD_NxN_SIMD exampleScalar 16 .AVX2 (exampleParam 16 16 10 true) = .ok 0 ∧
      xGetHADs_SIMD exampleKernels (fun _ => .ok 7) .AVX2 (exampleParam 16 16 10 true) = .ok 7) :=
  have h := scalar_fallback exampleScalar (fun _ => .ok 7) exampleKernels .AVX2 16
    (exampleParam 16 16 10 true)
  ⟨h.1 (Or.inr (Or.inr rfl)), h.2 (Or.inr rfl)⟩

/-! ## The width check of the SAD -/

theorem xGetSAD_SIMD_not_divisible (xGetSAD : DistParam → Except String Nat) (vext : X86_VEXT)
    (p : DistParam) (hbd : p.bitDepth ≤ 10) (hw : p.applyWeight = false)
    (h4 : 4 ≤ p.org.width) (hdiv : p.org.width % 4 ≠ 0) :
    xGetSAD_SIMD xGetSAD vext p = .error ("Not divisible by 4: " ++ toString p.org.width) := by
  unfold xGetSAD_SIMD
  have hg : ¬ (p.org.width < 4 ∨ p.bitDepth > 10 ∨ p.applyWeight = true) := by
    rw [hw]; simp; omega
  rw [if_neg hg]
  simp only [land15, land7, land3]
  have h16 : ¬ (vext.geAVX2 = true ∧ p.org.width % 16 = 0) := by omega
  have h8 : ¬ (p.org.width % 8 = 0) := by omega
  rw [if_neg h16, if_neg h8, if_pos hdiv]

/-- C10, the claim refuted at width 6: for a 6x6 block of 10-bit samples without weighting the
scalar SAD given to `xGetSAD_SIMD` returns 0, and `xGetSAD_SIMD` fails instead of returning it. -/
theorem xGetSAD_SIMD_width6_no_fallback :
    xGetSAD_SIMD exampleScalar .SSE41 (exampleParam 6 6 10 false) =
        .error "Not divisible by 4: 6" ∧
      exampleScalar (exampleParam 6 6 10 false) = .ok 0 :=
  ⟨xGetSAD_SIMD_not_divisible exampleScalar .SSE41 (exampleParam 6 6 10 false)
    (by decide) rfl (by decide) (by decide), rfl⟩

/-- C10, amended: with `bitDepth <= 10`, no weighting and a width of at least 4 that is not a
multiple of 4, `xGetSAD_SIMD` does not fall back to the scalar SAD: it fails its check with the
message "Not divisible by 4: " followed by the width. -/
theorem xGetSAD_SIMD_width_check_fails (xGetSAD : DistParam → Except String Nat)
    (vext : X86_VEXT) (p : DistParam) (hbd : p.bitDepth ≤ 10) (hw : p.applyWeight = false)
    (h4 : 4 ≤ p.org.width) (hdiv : p.org.width % 4 ≠ 0) :
    xGetSAD_SIMD xGetSAD vext p = .error ("Not divisible by 4: " ++ toString p.org.width) :=
  xGetSAD_SIMD_not_divisible xGetSAD vext p hbd hw h4 hdiv

/-- C10 amended, at a 6x6 block. -/
theorem xGetSAD_SIMD_width_check_fails_witness :
    xGetSAD_SIMD exampleScalar .SSE41 (exampleParam 6 6 10 false) =
      .error ("Not divisible by 4: " ++ toString (6 : Nat)) :=
  xGetSAD_SIMD_width_check_fails exampleScalar .SSE41 (exampleParam 6 6 10 false)
    (by decide) rfl (by decide) (by decide)

/-! ## Lanes -/

theorem ofWords_w0 (a b c d : Nat) : (M128.ofWords a b c d).w0 = a % 4294967296 := by
  simp only [M128.ofWords, M128.w0]; omega
theorem ofWords_w1 (a b c d : Nat) : (M128.ofWords a b c d).w1 = b % 4294967296 := by
  simp only [M128.ofWords, M128.w1]; omega
theorem ofWords_w2 (a b c d : Nat) : (M128.ofWords a b c d).w2 = c % 4294967296 := by
  simp only [M128.ofWords, M128.w2]; omega
theorem ofWords_w3 (a b c d : Nat) : (M128.ofWords a b c d).w3 = d % 4294967296 := by
  simp only [M128.ofWords, M128.w3]; omega

theorem abs16_sub16 (a b : Nat) (ha : a < 32768) (hb : b < 32768) :
    abs16 (sub16 (a % 65536) (b % 65536)) = Nat.dist a b := by
  unfold abs16 sub16 Nat.dist
  split <;> omega

theorem abs16_sub16_zero : abs16 (sub16 0 0) = 0 := by decide

/-- The final horizontal reduction of the SAD functions yields the sum of the four 32-bit lanes
modulo `2^32`. -/
theorem cvt_hadd_hadd (v : M128) :
    mm_cvtsi128_si32 (mm_hadd_epi32 (mm_hadd_epi32 v mm_setzero_si128) mm_setzero_si128) =
      v.wsum % 4294967296 := by
  simp only [mm_cvtsi128_si32, mm_hadd_epi32, ofWords_w0, ofWords_w1, add32, M128.wsum]
  omega

theorem wsum_add_epi32 (a b : M128) :
    (mm_add_epi32 a b).wsum % 4294967296 = (a.wsum + b.wsum) % 4294967296 := by
  simp only [mm_add_epi32, M128.map2w, M128.wsum, ofWords_w0, ofWords_w1, ofWords_w2, ofWords_w3,
    add32]
  omega

theorem wsum_widen (v : M128) (h : v.WF) :
    (mm_add_epi32 (mm_unpacklo_epi16 v mm_setzero_si128)
      (mm_unpackhi_epi16 v mm_setzero_si128)).wsum = v.esum := by
  obtain ⟨h0, h1, h2, h3, h4, h5, h6, h7⟩ := h
  simp only [mm_add_epi32, M128.map2w, M128.wsum, ofWords_w0, ofWords_w1, ofWords_w2, ofWords_w3,
    add32]
  simp only [mm_unpacklo_epi16, mm_unpackhi_epi16, mm_setzero_si128, M128.w0, M128.w1, M128.w2,
    M128.w3, M128.esum]
  omega

theorem esum_eq_sum_get (v : M128) : v.esum = ∑ k ∈ Finset.range 8, v.get k := by
  simp [M128.esum, M128.get, Finset.sum_range_succ]

theorem get_add_epi16 (a b : M128) (k : Nat) (hk : k < 8) :
    (mm_add_epi16 a b).get k = (a.get k + b.get k) % 65536 := by
  interval_cases k <;> rfl

theorem get_abs_sub (a b : M128) (k : Nat) (hk : k < 8) :
    (mm_abs_epi16 (mm_sub_epi16 a b)).get k = abs16 (sub16 (a.get k) (b.get k)) := by
  interval_cases k <;> rfl

theorem get_loadu (mem : Nat → Nat) (p k : Nat) (hk : k < 8) :
    (mm_loadu_si128 mem p).get k = mem (p + k) % 65536 := by
  interval_cases k <;> rfl

theorem get_loadl (mem : Nat → Nat) (p k : Nat) (hk : k < 8) :
    (mm_loadl_epi64 mem p).get k = if k < 4 then mem (p + k) % 65536 else 0 := by
  interval_cases k <;> rfl

theorem get_zero (k : Nat) : mm_setzero_si128.get k = 0 := by
  unfold M128.get mm_setzero_si128
  split <;> rfl

theorem WF_iff_get (v : M128) : v.WF ↔ ∀ k, k < 8 → v.get k < 65536 := by
  constructor
  · rintro ⟨h0, h1, h2, h3, h4, h5, h6, h7⟩ k hk
    interval_cases k <;> assumption
  · intro h
    exact ⟨h 0 (by decide), h 1 (by decide), h 2 (by decide), h 3 (by decide),
      h 4 (by decide), h 5 (by decide), h 6 (by decide), h 7 (by decide)⟩

/-- The lanes of an accumulating `_mm_add_epi16` loop: each is the sum of the corresponding
lanes of the addends, modulo `2^16`. -/
theorem get_acc16 (D : Nat → M128) (step : Nat) :
    ∀ (n k : Nat), k < 8 →
      (loopN n 0 step (fun iX v => mm_add_epi16 v (D iX)) mm_setzero_si128).get k =
        (∑ j ∈ Finset.range n, (D (j * step)).get k) % 65536 := by
  intro n
  induction n with
  | zero => intro k _; simp [loopN, get_zero]
  | succ n ih =>
    intro k hk
    rw [loopN_succ_last, get_add_epi16 _ _ k hk, ih k hk, Finset.sum_range_succ, Nat.zero_add,
      Nat.mod_add_mod]

/-- Splitting a sum over `x < n * c` by `x = j * c + k`. -/
theorem sum_range_mul_split (f : Nat → Nat) (c : Nat) :
    ∀ n, ∑ x ∈ Finset.range (n * c), f x =
      ∑ k ∈ Finset.range c, ∑ j ∈ Finset.range n, f (j * c + k) := by
  intro n
  induction n with
  | zero => simp
  | succ n ih =>
    rw [Nat.succ_mul, Finset.sum_range_add, ih, ← Finset.sum_add_distrib]
    apply Finset.sum_congr rfl
    intro k _
    rw [Finset.sum_range_succ]

/-! ## Rows of the SAD -/

theorem dist_lt_of_lt (a b B : Nat) (ha : a < B) (hb : b < B) : Nat.dist a b < B := by
  unfold Nat.dist; omega

/-- One lane of the 16-bit row accumulator: with samples below `2^10` and at most 32 addends
it is the exact sum of the absolute differences of its column positions. -/
theorem get_row (org cur : Nat → Nat) (p1 p2 c n k : Nat) (hk : k < 8) (hn : n ≤ 32)
    (hr : ∀ j, j < n → org (p1 + j * c + k) < 1024 ∧ cur (p2 + j * c + k) < 1024) :
    (loopN n 0 c (fun iX v => mm_add_epi16 v (mm_abs_epi16 (mm_sub_epi16
      (mm_loadu_si128 org (p1 + iX)) (mm_loadu_si128 cur (p2 + iX))))) mm_setzero_si128).get k =
      ∑ j ∈ Finset.range n, Nat.dist (org (p1 + j * c + k)) (cur (p2 + j * c + k)) := by
  rw [get_acc16 (fun iX => mm_abs_epi16 (mm_sub_epi16
      (mm_loadu_si128 org (p1 + iX)) (mm_loadu_si128 cur (p2 + iX)))) c n k hk]
  have hterm : ∀ j ∈ Finset.range n,
      (mm_abs_epi16 (mm_sub_epi16 (mm_loadu_si128 org (p1 + j * c))
        (mm_loadu_si128 cur (p2 + j * c)))).get k =
      Nat.dist (org (p1 + j * c + k)) (cur (p2 + j * c + k)) := by
    intro j hj
    have := hr j (Finset.mem_range.mp hj)
    rw [get_abs_sub _ _ k hk, get_loadu _ _ k hk, get_loadu _ _ k hk,
      abs16_sub16 _ _ (by omega) (by omega)]
  rw [Finset.sum_congr rfl hterm]
  apply Nat.mod_eq_of_lt
  have hle : ∑ j ∈ Finset.range n, Nat.dist (org (p1 + j * c + k)) (cur (p2 + j * c + k)) ≤
      ∑ _j ∈ Finset.range n, 1023 := by
    apply Finset.sum_le_sum
    intro j hj
    have := hr j (Finset.mem_range.mp hj)
    have := dist_lt_of_lt _ _ 1024 this.1 this.2
    omega
  rw [Finset.sum_const, Finset.card_range, smul_eq_mul] at hle
  omega

/-- The 16-bit row accumulator of the step-8 loops: all lanes are exact and their sum is the
SAD of the row. -/
theorem row8 (org cur : Nat → Nat) (p1 p2 n : Nat) (hn : n ≤ 32)
    (hr : ∀ x, x < n * 8 → org (p1 + x) < 1024 ∧ cur (p2 + x) < 1024) :
    (loopN n 0 8 (fun iX v => mm_add_epi16 v (mm_abs_epi16 (mm_sub_epi16
      (mm_loadu_si128 org (p1 + iX)) (mm_loadu_si128 cur (p2 + iX))))) mm_setzero_si128).WF ∧
    (loopN n 0 8 (fun iX v => mm_add_epi16 v (mm_abs_epi16 (mm_sub_epi16
      (mm_loadu_si128 org (p1 + iX)) (mm_loadu_si128 cur (p2 + iX))))) mm_setzero_si128).esum =
      rowSad org cur p1 p2 (n * 8) := by
  have hg : ∀ k, k < 8 →
      (loopN n 0 8 (fun iX v => mm_add_epi16 v (mm_abs_epi16 (mm_sub_epi16
        (mm_loadu_si128 org (p1 + iX)) (mm_loadu_si128 cur (p2 + iX))))) mm_setzero_si128).get k =
      ∑ j ∈ Finset.range n, Nat.dist (org (p1 + (j * 8 + k))) (cur (p2 + (j * 8 + k))) := by
    intro k hk
    rw [get_row org cur p1 p2 8 n k hk hn]
    · simp only [Nat.add_assoc]
    · intro j hj
      have := hr (j * 8 + k) (by omega)
      simpa only [Nat.add_assoc] using this
  constructor
  · rw [WF_iff_get]
    intro k hk
    rw [get_acc16 _ 8 n k hk]
    exact Nat.mod_lt _ (by decide)
  · rw [esum_eq_sum_get, rowSad, sum_range_mul_split _ 8 n]
    exact Finset.sum_congr rfl (fun k hk => hg k (Finset.mem_range.mp hk))


/-- One of the four low lanes of the 16-bit row accumulator of the step-4 loops. -/
theorem get_row4_lo (org cur : Nat → Nat) (p1 p2 n k : Nat) (hk : k < 4) (hn : n ≤ 32)
    (hr : ∀ x, x < n * 4 → org (p1 + x) < 1024 ∧ cur (p2 + x) < 1024) :
    (loopN n 0 4 (fun iX v => mm_add_epi16 v (mm_abs_epi16 (mm_sub_epi16
      (mm_loadl_epi64 org (p1 + iX)) (mm_loadl_epi64 cur (p2 + iX))))) mm_setzero_si128).get k =
    ∑ j ∈ Finset.range n, Nat.dist (org (p1 + (j * 4 + k))) (cur (p2 + (j * 4 + k))) := by
  rw [get_acc16 (fun iX => mm_abs_epi16 (mm_sub_epi16
      (mm_loadl_epi64 org (p1 + iX)) (mm_loadl_epi64 cur (p2 + iX)))) 4 n k (by omega)]
  have hterm : ∀ j ∈ Finset.range n,
      (mm_abs_epi16 (mm_sub_epi16 (mm_loadl_epi64 org (p1 + j * 4))
        (mm_loadl_epi64 cur (p2 + j * 4)))).get k =
      Nat.dist (org (p1 + (j * 4 + k))) (cur (p2 + (j * 4 + k))) := by
    intro j hj
    have := hr (j * 4 + k) (by have := Finset.mem_range.mp hj; omega)
    rw [get_abs_sub _ _ k (by omega), get_loadl _ _ k (by omega), get_loadl _ _ k (by omega),
      if_pos hk, if_pos hk, Nat.add_assoc, Nat.add_assoc,
      abs16_sub16 _ _ (by omega) (by omega)]
  rw [Finset.sum_congr rfl hterm]
  apply Nat.mod_eq_of_lt
  have hle : ∑ j ∈ Finset.range n, Nat.dist (org (p1 + (j * 4 + k))) (cur (p2 + (j * 4 + k))) ≤
      ∑ _j ∈ Finset.range n, 1023 := by
    apply Finset.sum_le_sum
    intro j hj
    have := hr (j * 4 + k) (by have := Finset.mem_range.mp hj; omega)
    have := dist_lt_of_lt _ _ 1024 this.1 this.2
    omega
  rw [Finset.sum_const, Finset.card_range, smul_eq_mul] at hle
  omega

/-- The four high lanes of the 16-bit row accumulator of the step-4 loops stay zero. -/
theorem get_row4_hi (org cur : Nat → Nat) (p1 p2 n k : Nat) (hk4 : 4 ≤ k) (hk : k < 8) :
    (loopN n 0 4 (fun iX v => mm_add_epi16 v (mm_abs_epi16 (mm_sub_epi16
      (mm_loadl_epi64 org (p1 + iX)) (mm_loadl_epi64 cur (p2 + iX))))) mm_setzero_si128).get k =
    0 := by
  rw [get_acc16 (fun iX => mm_abs_epi16 (mm_sub_epi16
      (mm_loadl_epi64 org (p1 + iX)) (mm_loadl_epi64 cur (p2 + iX)))) 4 n k hk]
  have hterm : ∀ j ∈ Finset.range n,
      (mm_abs_epi16 (mm_sub_epi16 (mm_loadl_epi64 org (p1 + j * 4))
        (mm_loadl_epi64 cur (p2 + j * 4)))).get k = 0 := by
    intro j _
    rw [get_abs_sub _ _ k hk, get_loadl _ _ k hk, get_loadl _ _ k hk, if_neg (by omega),
      if_neg (by omega), abs16_sub16_zero]
  rw [Finset.sum_congr rfl hterm]
  simp

/-- The 16-bit row accumulator of the step-4 loops. -/
theorem row4 (org cur : Nat → Nat) (p1 p2 n : Nat) (hn : n ≤ 32)
    (hr : ∀ x, x < n * 4 → org (p1 + x) < 1024 ∧ cur (p2 + x) < 1024) :
    (loopN n 0 4 (fun iX v => mm_add_epi16 v (mm_abs_epi16 (mm_sub_epi16
      (mm_loadl_epi64 org (p1 + iX)) (mm_loadl_epi64 cur (p2 + iX))))) mm_setzero_si128).WF ∧
    (loopN n 0 4 (fun iX v => mm_add_epi16 v (mm_abs_epi16 (mm_sub_epi16
      (mm_loadl_epi64 org (p1 + iX)) (mm_loadl_epi64 cur (p2 + iX))))) mm_setzero_si128).esum =
      rowSad org cur p1 p2 (n * 4) := by
  constructor
  · rw [WF_iff_get]
    intro k hk
    rw [get_acc16 (fun iX => mm_abs_epi16 (mm_sub_epi16
      (mm_loadl_epi64 org (p1 + iX)) (mm_loadl_epi64 cur (p2 + iX)))) 4 n k hk]
    exact Nat.mod_lt _ (by decide)
  · rw [esum_eq_sum_get, rowSad, sum_range_mul_split _ 4 n,
      show (8 : Nat) = 4 + 4 from rfl, Finset.sum_range_add]
    have h2 : ∑ x ∈ Finset.range 4, (loopN n 0 4 (fun iX v => mm_add_epi16 v (mm_abs_epi16
        (mm_sub_epi16 (mm_loadl_epi64 org (p1 + iX)) (mm_loadl_epi64 cur (p2 + iX)))))
        mm_setzero_si128).get (4 + x) = 0 := by
      apply Finset.sum_eq_zero
      intro x hx
      have := Finset.mem_range.mp hx
      exact get_row4_hi org cur p1 p2 n (4 + x) (by omega) (by omega)
    rw [h2, Nat.add_zero]
    exact Finset.sum_congr rfl
      (fun k hk => get_row4_lo org cur p1 p2 n k (Finset.mem_range.mp hk) hn hr)

/-! ## The row loops -/

/-- The outer loop of the 128-bit SAD paths: the pointers advance by the strides and the sum of
the 32-bit lanes of the accumulator is, modulo `2^32`, the sum of those of the addends. -/
theorem rows128 (T : Nat → Nat → M128) (S1 S2 step : Nat) :
    ∀ n : Nat,
      (loopN n 0 step (fun _ (st : RowState M128) =>
          (⟨st.pSrc1 + S1, st.pSrc2 + S2, mm_add_epi32 st.acc (T st.pSrc1 st.pSrc2)⟩ :
            RowState M128)) ⟨0, 0, mm_setzero_si128⟩).pSrc1 = n * S1 ∧
      (loopN n 0 step (fun _ (st : RowState M128) =>
          (⟨st.pSrc1 + S1, st.pSrc2 + S2, mm_add_epi32 st.acc (T st.pSrc1 st.pSrc2)⟩ :
            RowState M128)) ⟨0, 0, mm_setzero_si128⟩).pSrc2 = n * S2 ∧
      (loopN n 0 step (fun _ (st : RowState M128) =>
          (⟨st.pSrc1 + S1, st.pSrc2 + S2, mm_add_epi32 st.acc (T st.pSrc1 st.pSrc2)⟩ :
            RowState M128)) ⟨0, 0, mm_setzero_si128⟩).acc.wsum % 4294967296 =
        (∑ k ∈ Finset.range n, (T (k * S1) (k * S2)).wsum) % 4294967296 := by
  intro n
  induction n with
  | zero => simp [loopN, mm_setzero_si128, M128.wsum, M128.w0, M128.w1, M128.w2, M128.w3]
  | succ n ih =>
    rw [loopN_succ_last]
    obtain ⟨h1, h2, h3⟩ := ih
    refine ⟨?_, ?_, ?_⟩
    · simp only [h1]; ring
    · simp only [h2]; ring
    · simp only [h1, h2]
      rw [wsum_add_epi32, Finset.sum_range_succ, Nat.add_mod, h3, ← Nat.add_mod]

theorem mul_lt_of_lt_iters (h step k : Nat) (hs : 0 < step) (hk : k < iters h step) :
    k * step < h := by
  unfold iters at hk
  have h1 := (Nat.le_div_iff_mul_le hs).mp hk
  rw [Nat.succ_mul] at h1
  omega

theorem lt_iters_of_mul_lt (h step k : Nat) (hs : 0 < step) (hk : k * step < h) :
    k < iters h step := by
  unfold iters
  apply (Nat.le_div_iff_mul_le hs).mpr
  rw [Nat.succ_mul]
  omega

/-- A sum over the multiples of `step` below `h`, indexed by the multiplier. -/
theorem sum_filter_multiples (F : Nat → Nat) (h step : Nat) (hs : 0 < step) :
    ∑ y ∈ (Finset.range h).filter (fun y => y % step = 0), F y =
      ∑ k ∈ Finset.range (iters h step), F (k * step) := by
  have himg : (Finset.range h).filter (fun y => y % step = 0) =
      (Finset.range (iters h step)).image (fun k => k * step) := by
    ext y
    simp only [Finset.mem_filter, Finset.mem_range, Finset.mem_image]
    constructor
    · rintro ⟨hy, hmod⟩
      refine ⟨y / step, ?_, Nat.div_mul_cancel (Nat.dvd_of_mod_eq_zero hmod)⟩
      apply lt_iters_of_mul_lt h step _ hs
      rw [Nat.div_mul_cancel (Nat.dvd_of_mod_eq_zero hmod)]
      exact hy
    · rintro ⟨k, hk, rfl⟩
      exact ⟨mul_lt_of_lt_iters h step k hs hk, Nat.mul_mod_left k step⟩
  rw [himg, Finset.sum_image]
  intro a _ b _ hab
  exact Nat.eq_of_mul_eq_mul_right hs hab

theorem two_pow_pos_nat (s : Nat) : 0 < 2 ^ s := Nat.two_pow_pos s

theorem one_shl (s : Nat) : 1 <<< s = 2 ^ s := by rw [Nat.shiftLeft_eq, Nat.one_mul]

/-- The SAD of the contract as a sum of row SADs at the pointers the row loop visits. -/
theorem sadSum_eq_rows (p : DistParam) :
    sadSum p = ∑ k ∈ Finset.range (iters p.org.height (2 ^ p.subShift)),
      rowSad p.org.buf p.cur.buf (k * (p.org.stride * 2 ^ p.subShift))
        (k * (p.cur.stride * 2 ^ p.subShift)) p.org.width := by
  unfold sadSum
  rw [sum_filter_multiples _ _ _ (two_pow_pos_nat p.subShift)]
  apply Finset.sum_congr rfl
  intro k _
  unfold rowSad PelBuf.at
  apply Finset.sum_congr rfl
  intro x _
  have e1 : k * 2 ^ p.subShift * p.org.stride = k * (p.org.stride * 2 ^ p.subShift) := by ring
  have e2 : k * 2 ^ p.subShift * p.cur.stride = k * (p.cur.stride * 2 ^ p.subShift) := by ring
  rw [e1, e2]

/-- The samples of a visited row are below `2^10`. -/
theorem row_in_range (p : DistParam) (hbd : p.bitDepth ≤ 10) (hr : p.InRange) (k x : Nat)
    (hk : k < iters p.org.height (2 ^ p.subShift)) (hx : x < p.org.width) :
    p.org.buf (k * (p.org.stride * 2 ^ p.subShift) + x) < 1024 ∧
    p.cur.buf (k * (p.cur.stride * 2 ^ p.subShift) + x) < 1024 := by
  have hy := mul_lt_of_lt_iters _ _ k (two_pow_pos_nat p.subShift) hk
  have := hr x (k * 2 ^ p.subShift) hx hy
  unfold PelBuf.at at this
  have e1 : k * 2 ^ p.subShift * p.org.stride = k * (p.org.stride * 2 ^ p.subShift) := by ring
  have e2 : k * 2 ^ p.subShift * p.cur.stride = k * (p.cur.stride * 2 ^ p.subShift) := by ring
  rw [e1, e2] at this
  have hpow : 2 ^ p.bitDepth ≤ 1024 := by
    calc 2 ^ p.bitDepth ≤ 2 ^ 10 := Nat.pow_le_pow_right (by decide) hbd
      _ = 1024 := by norm_num
  omega

theorem shl_mod (a s : Nat) :
    ((a % 4294967296) <<< s) % 4294967296 = (a <<< s) % 4294967296 := by
  rw [Nat.shiftLeft_eq, Nat.shiftLeft_eq, Nat.mul_mod, Nat.mod_mod, ← Nat.mul_mod]

/-- The value of the step-8 path. -/
theorem sad_path8 (org cur : Nat → Nat) (S1 S2 w m s : Nat) (hw : w % 8 = 0) (hw128 : w ≤ 256)
    (hr : ∀ k x, k < m → x < w → org (k * S1 + x) < 1024 ∧ cur (k * S2 + x) < 1024) :
    mm_cvtsi128_si32 (mm_hadd_epi32 (mm_hadd_epi32
      (loopN m 0 s (fun _ (st : RowState M128) =>
        (⟨st.pSrc1 + S1, st.pSrc2 + S2, mm_add_epi32 st.acc
          (mm_add_epi32
            (mm_unpacklo_epi16 (loopN (iters w 8) 0 8 (fun iX vsum16 =>
              mm_add_epi16 vsum16 (mm_abs_epi16 (mm_sub_epi16
                (mm_loadu_si128 org (st.pSrc1 + iX)) (mm_loadu_si128 cur (st.pSrc2 + iX)))))
              mm_setzero_si128) mm_setzero_si128)
            (mm_unpackhi_epi16 (loopN (iters w 8) 0 8 (fun iX vsum16 =>
              mm_add_epi16 vsum16 (mm_abs_epi16 (mm_sub_epi16
                (mm_loadu_si128 org (st.pSrc1 + iX)) (mm_loadu_si128 cur (st.pSrc2 + iX)))))
              mm_setzero_si128) mm_setzero_si128))⟩ : RowState M128))
        ⟨0, 0, mm_setzero_si128⟩).acc mm_setzero_si128) mm_setzero_si128) =
      (∑ k ∈ Finset.range m, rowSad org cur (k * S1) (k * S2) w) % 4294967296 := by
  rw [cvt_hadd_hadd]
  have hrows := (rows128 (fun p1 p2 => mm_add_epi32
      (mm_unpacklo_epi16 (loopN (iters w 8) 0 8 (fun iX vsum16 =>
        mm_add_epi16 vsum16 (mm_abs_epi16 (mm_sub_epi16
          (mm_loadu_si128 org (p1 + iX)) (mm_loadu_si128 cur (p2 + iX)))))
        mm_setzero_si128) mm_setzero_si128)
      (mm_unpackhi_epi16 (loopN (iters w 8) 0 8 (fun iX vsum16 =>
        mm_add_epi16 vsum16 (mm_abs_epi16 (mm_sub_epi16
          (mm_loadu_si128 org (p1 + iX)) (mm_loadu_si128 cur (p2 + iX)))))
        mm_setzero_si128) mm_setzero_si128)) S1 S2 s m).2.2
  rw [hrows]
  congr 1
  apply Finset.sum_congr rfl
  intro k hk
  have hk' := Finset.mem_range.mp hk
  have hit : iters w 8 = w / 8 := iters_of_dvd w 8 (by decide) hw
  have hw8 : w / 8 * 8 = w := Nat.div_mul_cancel (Nat.dvd_of_mod_eq_zero hw)
  have hrow := row8 org cur (k * S1) (k * S2) (w / 8) (by omega)
    (fun x hx => hr k x hk' (by omega))
  simp only [hit]
  rw [wsum_widen _ hrow.1, hrow.2, hw8]

/-- The value of the step-4 path. -/
theorem sad_path4 (org cur : Nat → Nat) (S1 S2 w m s : Nat) (hw : w % 4 = 0) (hw128 : w ≤ 128)
    (hr : ∀ k x, k < m → x < w → org (k * S1 + x) < 1024 ∧ cur (k * S2 + x) < 1024) :
    mm_cvtsi128_si32 (mm_hadd_epi32 (mm_hadd_epi32
      (loopN m 0 s (fun _ (st : RowState M128) =>
        (⟨st.pSrc1 + S1, st.pSrc2 + S2, mm_add_epi32 st.acc
          (mm_add_epi32
            (mm_unpacklo_epi16 (loopN (iters w 4) 0 4 (fun iX vsum16 =>
              mm_add_epi16 vsum16 (mm_abs_epi16 (mm_sub_epi16
                (mm_loadl_epi64 org (st.pSrc1 + iX)) (mm_loadl_epi64 cur (st.pSrc2 + iX)))))
              mm_setzero_si128) mm_setzero_si128)
            (mm_unpackhi_epi16 (loopN (iters w 4) 0 4 (fun iX vsum16 =>
              mm_add_epi16 vsum16 (mm_abs_epi16 (mm_sub_epi16
                (mm_loadl_epi64 org (st.pSrc1 + iX)) (mm_loadl_epi64 cur (st.pSrc2 + iX)))))
              mm_setzero_si128) mm_setzero_si128))⟩ : RowState M128))
        ⟨0, 0, mm_setzero_si128⟩).acc mm_setzero_si128) mm_setzero_si128) =
      (∑ k ∈ Finset.range m, rowSad org cur (k * S1) (k * S2) w) % 4294967296 := by
  rw [cvt_hadd_hadd]
  have hrows := (rows128 (fun p1 p2 => mm_add_epi32
      (mm_unpacklo_epi16 (loopN (iters w 4) 0 4 (fun iX vsum16 =>
        mm_add_epi16 vsum16 (mm_abs_epi16 (mm_sub_epi16
          (mm_loadl_epi64 org (p1 + iX)) (mm_loadl_epi64 cur (p2 + iX)))))
        mm_setzero_si128) mm_setzero_si128)
      (mm_unpackhi_epi16 (loopN (iters w 4) 0 4 (fun iX vsum16 =>
        mm_add_epi16 vsum16 (mm_abs_epi16 (mm_sub_epi16
          (mm_loadl_epi64 org (p1 + iX)) (mm_loadl_epi64 cur (p2 + iX)))))
        mm_setzero_si128) mm_setzero_si128)) S1 S2 s m).2.2
  rw [hrows]
  congr 1
  apply Finset.sum_congr rfl
  intro k hk
  have hk' := Finset.mem_range.mp hk
  have hit : iters w 4 = w / 4 := iters_of_dvd w 4 (by decide) hw
  have hw4 : w / 4 * 4 = w := Nat.div_mul_cancel (Nat.dvd_of_mod_eq_zero hw)
  have hrow := row4 org cur (k * S1) (k * S2) (w / 4) (by omega)
    (fun x hx => hr k x hk' (by omega))
  simp only [hit]
  rw [wsum_widen _ hrow.1, hrow.2, hw4]

/-! ## The 256-bit path -/

theorem acc256_lo (D : Nat → M256) (c : Nat) :
    ∀ n, (loopN n 0 c (fun iX v => mm256_add_epi16 v (D iX)) mm256_setzero_si256).lo =
      loopN n 0 c (fun iX v => mm_add_epi16 v (D iX).lo) mm_setzero_si128 := by
  intro n
  induction n with
  | zero => rfl
  | succ n ih => rw [loopN_succ_last, loopN_succ_last, ← ih]; rfl

theorem acc256_hi (D : Nat → M256) (c : Nat) :
    ∀ n, (loopN n 0 c (fun iX v => mm256_add_epi16 v (D iX)) mm256_setzero_si256).hi =
      loopN n 0 c (fun iX v => mm_add_epi16 v (D iX).hi) mm_setzero_si128 := by
  intro n
  induction n with
  | zero => rfl
  | succ n ih => rw [loopN_succ_last, loopN_succ_last, ← ih]; rfl

/-- The lanes of the 16-bit row accumulator of the step-16 loops: lane `k` of the low half sums
the columns `16 j + k`, lane `k` of the high half the columns `16 j + 8 + k`. -/
theorem get_row16 (org cur : Nat → Nat) (p1 p2 n k : Nat) (hk : k < 8) (hn : n ≤ 32)
    (hr : ∀ x, x < n * 16 → org (p1 + x) < 1024 ∧ cur (p2 + x) < 1024) :
    (loopN n 0 16 (fun iX v => mm256_add_epi16 v (mm256_abs_epi16 (mm256_sub_epi16
      (mm256_lddqu_si256 org (p1 + iX)) (mm256_lddqu_si256 cur (p2 + iX)))))
      mm256_setzero_si256).lo.get k =
      ∑ j ∈ Finset.range n, Nat.dist (org (p1 + (j * 16 + k))) (cur (p2 + (j * 16 + k))) ∧
    (loopN n 0 16 (fun iX v => mm256_add_epi16 v (mm256_abs_epi16 (mm256_sub_epi16
      (mm256_lddqu_si256 org (p1 + iX)) (mm256_lddqu_si256 cur (p2 + iX)))))
      mm256_setzero_si256).hi.get k =
      ∑ j ∈ Finset.range n,
        Nat.dist (org (p1 + (j * 16 + (8 + k)))) (cur (p2 + (j * 16 + (8 + k)))) := by
  rw [acc256_lo, acc256_hi]
  have elo : (fun iX v => mm_add_epi16 v (mm256_abs_epi16 (mm256_sub_epi16
      (mm256_lddqu_si256 org (p1 + iX)) (mm256_lddqu_si256 cur (p2 + iX)))).lo) =
      (fun iX v => mm_add_epi16 v (mm_abs_epi16 (mm_sub_epi16
      (mm_loadu_si128 org (p1 + iX)) (mm_loadu_si128 cur (p2 + iX))))) := rfl
  have ehi : (fun iX v => mm_add_epi16 v (mm256_abs_epi16 (mm256_sub_epi16
      (mm256_lddqu_si256 org (p1 + iX)) (mm256_lddqu_si256 cur (p2 + iX)))).hi) =
      (fun iX v => mm_add_epi16 v (mm_abs_epi16 (mm_sub_epi16
      (mm_loadu_si128 org (p1 + 8 + iX)) (mm_loadu_si128 cur (p2 + 8 + iX))))) := by
    funext iX v
    show mm_add_epi16 v (mm_abs_epi16 (mm_sub_epi16
      (mm_loadu_si128 org (p1 + iX + 8)) (mm_loadu_si128 cur (p2 + iX + 8)))) = _
    rw [Nat.add_right_comm p1 iX 8, Nat.add_right_comm p2 iX 8]
  rw [elo, ehi]
  constructor
  · rw [get_row org cur p1 p2 16 n k hk hn]
    · simp only [Nat.add_assoc]
    · intro j hj
      have := hr (j * 16 + k) (by omega)
      simpa only [Nat.add_assoc] using this
  · rw [get_row org cur (p1 + 8) (p2 + 8) 16 n k hk hn]
    · apply Finset.sum_congr rfl
      intro j _
      have e1 : p1 + 8 + j * 16 + k = p1 + (j * 16 + (8 + k)) := by omega
      have e2 : p2 + 8 + j * 16 + k = p2 + (j * 16 + (8 + k)) := by omega
      rw [e1, e2]
    · intro j hj
      have := hr (j * 16 + (8 + k)) (by omega)
      have e1 : p1 + 8 + j * 16 + k = p1 + (j * 16 + (8 + k)) := by omega
      have e2 : p2 + 8 + j * 16 + k = p2 + (j * 16 + (8 + k)) := by omega
      rw [e1, e2]
      exact this

/-- The two halves of the 16-bit row accumulator of the step-16 loops. -/
theorem row16 (org cur : Nat → Nat) (p1 p2 n : Nat) (hn : n ≤ 32)
    (hr : ∀ x, x < n * 16 → org (p1 + x) < 1024 ∧ cur (p2 + x) < 1024) :
    (loopN n 0 16 (fun iX v => mm256_add_epi16 v (mm256_abs_epi16 (mm256_sub_epi16
      (mm256_lddqu_si256 org (p1 + iX)) (mm256_lddqu_si256 cur (p2 + iX)))))
      mm256_setzero_si256).lo.WF ∧
    (loopN n 0 16 (fun iX v => mm256_add_epi16 v (mm256_abs_epi16 (mm256_sub_epi16
      (mm256_lddqu_si256 org (p1 + iX)) (mm256_lddqu_si256 cur (p2 + iX)))))
      mm256_setzero_si256).hi.WF ∧
    (loopN n 0 16 (fun iX v => mm256_add_epi16 v (mm256_abs_epi16 (mm256_sub_epi16
      (mm256_lddqu_si256 org (p1 + iX)) (mm256_lddqu_si256 cur (p2 + iX)))))
      mm256_setzero_si256).lo.esum +
    (loopN n 0 16 (fun iX v => mm256_add_epi16 v (mm256_abs_epi16 (mm256_sub_epi16
      (mm256_lddqu_si256 org (p1 + iX)) (mm256_lddqu_si256 cur (p2 + iX)))))
      mm256_setzero_si256).hi.esum = rowSad org cur p1 p2 (n * 16) := by
  rw [acc256_lo, acc256_hi]
  have elo : (fun iX v => mm_add_epi16 v (mm256_abs_epi16 (mm256_sub_epi16
      (mm256_lddqu_si256 org (p1 + iX)) (mm256_lddqu_si256 cur (p2 + iX)))).lo) =
      (fun iX v => mm_add_epi16 v (mm_abs_epi16 (mm_sub_epi16
      (mm_loadu_si128 org (p1 + iX)) (mm_loadu_si128 cur (p2 + iX))))) := rfl
  have ehi : (fun iX v => mm_add_epi16 v (mm256_abs_epi16 (mm256_sub_epi16
      (mm256_lddqu_si256 org (p1 + iX)) (mm256_lddqu_si256 cur (p2 + iX)))).hi) =
      (fun iX v => mm_add_epi16 v (mm_abs_epi16 (mm_sub_epi16
      (mm_loadu_si128 org (p1 + 8 + iX)) (mm_loadu_si128 cur (p2 + 8 + iX))))) := by
    funext iX v
    show mm_add_epi16 v (mm_abs_epi16 (mm_sub_epi16
      (mm_loadu_si128 org (p1 + iX + 8)) (mm_loadu_si128 cur (p2 + iX + 8)))) = _
    rw [Nat.add_right_comm p1 iX 8, Nat.add_right_comm p2 iX 8]
  rw [elo, ehi]
  have hlo : ∀ k, k < 8 →
      (loopN n 0 16 (fun iX v => mm_add_epi16 v (mm_abs_epi16 (mm_sub_epi16
        (mm_loadu_si128 org (p1 + iX)) (mm_loadu_si128 cur (p2 + iX))))) mm_setzero_si128).get k =
      ∑ j ∈ Finset.range n, Nat.dist (org (p1 + (j * 16 + k))) (cur (p2 + (j * 16 + k))) := by
    intro k hk
    rw [get_row org cur p1 p2 16 n k hk hn]
    · simp only [Nat.add_assoc]
    · intro j hj
      have := hr (j * 16 + k) (by omega)
      simpa only [Nat.add_assoc] using this
  have hhi : ∀ k, k < 8 →
      (loopN n 0 16 (fun iX v => mm_add_epi16 v (mm_abs_epi16 (mm_sub_epi16
        (mm_loadu_si128 org (p1 + 8 + iX)) (mm_loadu_si128 cur (p2 + 8 + iX)))))
        mm_setzero_si128).get k =
      ∑ j ∈ Finset.range n, Nat.dist (org (p1 + (j * 16 + (8 + k)))) (cur (p2 + (j * 16 + (8 + k)))) := by
    intro k hk
    rw [get_row org cur (p1 + 8) (p2 + 8) 16 n k hk hn]
    · apply Finset.sum_congr rfl
      intro j _
      have e1 : p1 + 8 + j * 16 + k = p1 + (j * 16 + (8 + k)) := by omega
      have e2 : p2 + 8 + j * 16 + k = p2 + (j * 16 + (8 + k)) := by omega
      rw [e1, e2]
    · intro j hj
      have := hr (j * 16 + (8 + k)) (by omega)
      have e1 : p1 + 8 + j * 16 + k = p1 + (j * 16 + (8 + k)) := by omega
      have e2 : p2 + 8 + j * 16 + k = p2 + (j * 16 + (8 + k)) := by omega
      rw [e1, e2]
      exact this
  refine ⟨?_, ?_, ?_⟩
  · rw [WF_iff_get]
    intro k hk
    rw [get_acc16 _ 16 n k hk]
    exact Nat.mod_lt _ (by decide)
  · rw [WF_iff_get]
    intro k hk
    rw [get_acc16 _ 16 n k hk]
    exact Nat.mod_lt _ (by decide)
  · rw [esum_eq_sum_get, esum_eq_sum_get, rowSad, sum_range_mul_split _ 16 n,
      show (16 : Nat) = 8 + 8 from rfl, Finset.sum_range_add]
    congr 1
    · exact Finset.sum_congr rfl (fun k hk => hlo k (Finset.mem_range.mp hk))
    · exact Finset.sum_congr rfl (fun k hk => hhi k (Finset.mem_range.mp hk))

/-- The outer loop of the 256-bit SAD path. -/
theorem rows256 (T : Nat → Nat → M256) (S1 S2 step : Nat) :
    ∀ n : Nat,
      (loopN n 0 step (fun _ (st : RowState M256) =>
          (⟨st.pSrc1 + S1, st.pSrc2 + S2, mm256_add_epi32 st.acc (T st.pSrc1 st.pSrc2)⟩ :
            RowState M256)) ⟨0, 0, mm256_setzero_si256⟩).pSrc1 = n * S1 ∧
      (loopN n 0 step (fun _ (st : RowState M256) =>
          (⟨st.pSrc1 + S1, st.pSrc2 + S2, mm256_add_epi32 st.acc (T st.pSrc1 st.pSrc2)⟩ :
            RowState M256)) ⟨0, 0, mm256_setzero_si256⟩).pSrc2 = n * S2 ∧
      ((loopN n 0 step (fun _ (st : RowState M256) =>
          (⟨st.pSrc1 + S1, st.pSrc2 + S2, mm256_add_epi32 st.acc (T st.pSrc1 st.pSrc2)⟩ :
            RowState M256)) ⟨0, 0, mm256_setzero_si256⟩).acc.lo.wsum +
       (loopN n 0 step (fun _ (st : RowState M256) =>
          (⟨st.pSrc1 + S1, st.pSrc2 + S2, mm256_add_epi32 st.acc (T st.pSrc1 st.pSrc2)⟩ :
            RowState M256)) ⟨0, 0, mm256_setzero_si256⟩).acc.hi.wsum) % 4294967296 =
        (∑ k ∈ Finset.range n, ((T (k * S1) (k * S2)).lo.wsum + (T (k * S1) (k * S2)).hi.wsum))
          % 4294967296 := by
  intro n
  induction n with
  | zero =>
    simp [loopN, mm256_setzero_si256, mm_setzero_si128, M128.wsum, M128.w0, M128.w1, M128.w2,
      M128.w3]
  | succ n ih =>
    rw [loopN_succ_last]
    generalize loopN n 0 step (fun _ (st : RowState M256) =>
      (⟨st.pSrc1 + S1, st.pSrc2 + S2, mm256_add_epi32 st.acc (T st.pSrc1 st.pSrc2)⟩ :
        RowState M256)) ⟨0, 0, mm256_setzero_si256⟩ = L at ih ⊢
    obtain ⟨h1, h2, h3⟩ := ih
    refine ⟨?_, ?_, ?_⟩
    · show L.pSrc1 + S1 = (n + 1) * S1
      rw [h1]; ring
    · show L.pSrc2 + S2 = (n + 1) * S2
      rw [h2]; ring
    · show ((mm_add_epi32 L.acc.lo (T L.pSrc1 L.pSrc2).lo).wsum +
        (mm_add_epi32 L.acc.hi (T L.pSrc1 L.pSrc2).hi).wsum) % 4294967296 = _
      rw [h1, h2, Finset.sum_range_succ]
      have ha := wsum_add_epi32 L.acc.lo (T (n * S1) (n * S2)).lo
      have hb := wsum_add_epi32 L.acc.hi (T (n * S1) (n * S2)).hi
      omega

/-- The value of the step-16 path. -/
theorem sad_path16 (org cur : Nat → Nat) (S1 S2 w m s : Nat) (hw : w % 16 = 0) (hw128 : w ≤ 512)
    (hr : ∀ k x, k < m → x < w → org (k * S1 + x) < 1024 ∧ cur (k * S2 + x) < 1024) :
    add32
      (mm_cvtsi128_si32 (mm256_castsi256_si128 (mm256_hadd_epi32 (mm256_hadd_epi32
        (loopN m 0 s (fun _ (st : RowState M256) =>
          (⟨st.pSrc1 + S1, st.pSrc2 + S2, mm256_add_epi32 st.acc
            (mm256_add_epi32
              (mm256_unpacklo_epi16 (loopN (iters w 16) 0 16 (fun iX vsum16 =>
                mm256_add_epi16 vsum16 (mm256_abs_epi16 (mm256_sub_epi16
                  (mm256_lddqu_si256 org (st.pSrc1 + iX))
                  (mm256_lddqu_si256 cur (st.pSrc2 + iX)))))
                mm256_setzero_si256) mm256_setzero_si256)
              (mm256_unpackhi_epi16 (loopN (iters w 16) 0 16 (fun iX vsum16 =>
                mm256_add_epi16 vsum16 (mm256_abs_epi16 (mm256_sub_epi16
                  (mm256_lddqu_si256 org (st.pSrc1 + iX))
                  (mm256_lddqu_si256 cur (st.pSrc2 + iX)))))
                mm256_setzero_si256) mm256_setzero_si256))⟩ : RowState M256))
          ⟨0, 0, mm256_setzero_si256⟩).acc mm256_setzero_si256) mm256_setzero_si256)))
      (mm_cvtsi128_si32 (mm256_castsi256_si128 (mm256_permute2x128_si256_11
        (mm256_hadd_epi32 (mm256_hadd_epi32
        (loopN m 0 s (fun _ (st : RowState M256) =>
          (⟨st.pSrc1 + S1, st.pSrc2 + S2, mm256_add_epi32 st.acc
            (mm256_add_epi32
              (mm256_unpacklo_epi16 (loopN (iters w 16) 0 16 (fun iX vsum16 =>
                mm256_add_epi16 vsum16 (mm256_abs_epi16 (mm256_sub_epi16
                  (mm256_lddqu_si256 org (st.pSrc1 + iX))
                  (mm256_lddqu_si256 cur (st.pSrc2 + iX)))))
                mm256_setzero_si256) mm256_setzero_si256)
              (mm256_unpackhi_epi16 (loopN (iters w 16) 0 16 (fun iX vsum16 =>
                mm256_add_epi16 vsum16 (mm256_abs_epi16 (mm256_sub_epi16
                  (mm256_lddqu_si256 org (st.pSrc1 + iX))
                  (mm256_lddqu_si256 cur (st.pSrc2 + iX)))))
                mm256_setzero_si256) mm256_setzero_si256))⟩ : RowState M256))
          ⟨0, 0, mm256_setzero_si256⟩).acc mm256_setzero_si256) mm256_setzero_si256)))) =
      (∑ k ∈ Finset.range m, rowSad org cur (k * S1) (k * S2) w) % 4294967296 := by
  generalize hL : loopN m 0 s (fun _ (st : RowState M256) =>
          (⟨st.pSrc1 + S1, st.pSrc2 + S2, mm256_add_epi32 st.acc
            (mm256_add_epi32
              (mm256_unpacklo_epi16 (loopN (iters w 16) 0 16 (fun iX vsum16 =>
                mm256_add_epi16 vsum16 (mm256_abs_epi16 (mm256_sub_epi16
                  (mm256_lddqu_si256 org (st.pSrc1 + iX))
                  (mm256_lddqu_si256 cur (st.pSrc2 + iX)))))
                mm256_setzero_si256) mm256_setzero_si256)
              (mm256_unpackhi_epi16 (loopN (iters w 16) 0 16 (fun iX vsum16 =>
                mm256_add_epi16 vsum16 (mm256_abs_epi16 (mm256_sub_epi16
                  (mm256_lddqu_si256 org (st.pSrc1 + iX))
                  (mm256_lddqu_si256 cur (st.pSrc2 + iX)))))
                mm256_setzero_si256) mm256_setzero_si256))⟩ : RowState M256))
          ⟨0, 0, mm256_setzero_si256⟩ = L
  have hrows := (rows256 (fun p1 p2 => mm256_add_epi32
      (mm256_unpacklo_epi16 (loopN (iters w 16) 0 16 (fun iX vsum16 =>
        mm256_add_epi16 vsum16 (mm256_abs_epi16 (mm256_sub_epi16
          (mm256_lddqu_si256 org (p1 + iX)) (mm256_lddqu_si256 cur (p2 + iX)))))
        mm256_setzero_si256) mm256_setzero_si256)
      (mm256_unpackhi_epi16 (loopN (iters w 16) 0 16 (fun iX vsum16 =>
        mm256_add_epi16 vsum16 (mm256_abs_epi16 (mm256_sub_epi16
          (mm256_lddqu_si256 org (p1 + iX)) (mm256_lddqu_si256 cur (p2 + iX)))))
        mm256_setzero_si256) mm256_setzero_si256)) S1 S2 s m).2.2
  simp only at hrows
  rw [hL] at hrows
  have hfin : add32
      (mm_cvtsi128_si32 (mm256_castsi256_si128 (mm256_hadd_epi32 (mm256_hadd_epi32 L.acc
        mm256_setzero_si256) mm256_setzero_si256)))
      (mm_cvtsi128_si32 (mm256_castsi256_si128 (mm256_permute2x128_si256_11
        (mm256_hadd_epi32 (mm256_hadd_epi32 L.acc mm256_setzero_si256) mm256_setzero_si256)))) =
      (L.acc.lo.wsum + L.acc.hi.wsum) % 4294967296 := by
    show add32
      (mm_cvtsi128_si32 (mm_hadd_epi32 (mm_hadd_epi32 L.acc.lo mm_setzero_si128) mm_setzero_si128))
      (mm_cvtsi128_si32 (mm_hadd_epi32 (mm_hadd_epi32 L.acc.hi mm_setzero_si128) mm_setzero_si128))
      = _
    rw [cvt_hadd_hadd, cvt_hadd_hadd]
    unfold add32
    omega
  rw [hfin, hrows]
  congr 1
  apply Finset.sum_congr rfl
  intro k hk
  have hk' := Finset.mem_range.mp hk
  have hit : iters w 16 = w / 16 := iters_of_dvd w 16 (by decide) hw
  have hw16 : w / 16 * 16 = w := Nat.div_mul_cancel (Nat.dvd_of_mod_eq_zero hw)
  have hrow := row16 org cur (k * S1) (k * S2) (w / 16) (by omega)
    (fun x hx => hr k x hk' (by omega))
  rw [hit]
  show (mm_add_epi32 (mm_unpacklo_epi16 _ mm_setzero_si128)
      (mm_unpackhi_epi16 _ mm_setzero_si128)).wsum +
    (mm_add_epi32 (mm_unpacklo_epi16 _ mm_setzero_si128)
      (mm_unpackhi_epi16 _ mm_setzero_si128)).wsum = _
  rw [wsum_widen _ hrow.1, wsum_widen _ hrow.2.1, hrow.2.2, hw16]

/-! ## The accelerated SAD -/

/-- The value of the accelerated SAD: the exact sum of absolute differences, shifted left by
`subShift` in the 32-bit `uiSum`, then shifted right by the precision adjustment. -/
theorem xGetSAD_SIMD_value (xGetSAD : DistParam → Except String Nat) (vext : X86_VEXT)
    (p : DistParam) (hbd : p.bitDepth ≤ 10) (hw : p.applyWeight = false)
    (h4 : 4 ≤ p.org.width) (hdiv : p.org.width % 4 = 0) (h128 : p.org.width ≤ 128)
    (hr : p.InRange) :
    xGetSAD_SIMD xGetSAD vext p =
      .ok (((sadSum p <<< p.subShift) % 4294967296) >>>
        DISTORTION_PRECISION_ADJUSTMENT p.bitDepth) := by
  have hg : ¬ (p.org.width < 4 ∨ p.bitDepth > 10 ∨ p.applyWeight = true) := by
    rw [hw]; simp; omega
  have hs : 0 < 2 ^ p.subShift := Nat.two_pow_pos _
  have hrange := row_in_range p hbd hr
  unfold xGetSAD_SIMD
  rw [if_neg hg]
  simp only [land15, land7, land3, one_shl, xGetSAD_SIMD_vsum16_avx2, xGetSAD_SIMD_vsum16_step8,
    xGetSAD_SIMD_vsum16_step4]
  rw [← shl_mod (sadSum p), sadSum_eq_rows p]
  by_cases h16 : vext.geAVX2 = true ∧ p.org.width % 16 = 0
  · rw [if_pos h16]
    simp only [forLoop_eq_loopN _ _ 16 (by decide), forLoop_eq_loopN _ _ _ hs]
    rw [sad_path16 p.org.buf p.cur.buf _ _ p.org.width _ _ h16.2 (by omega) hrange]
  rw [if_neg h16]
  by_cases h8 : p.org.width % 8 = 0
  · rw [if_pos h8]
    simp only [forLoop_eq_loopN _ _ 8 (by decide), forLoop_eq_loopN _ _ _ hs]
    rw [sad_path8 p.org.buf p.cur.buf _ _ p.org.width _ _ h8 (by omega) hrange]
  rw [if_neg h8, if_neg (by omega : ¬ (p.org.width % 4 ≠ 0))]
  simp only [forLoop_eq_loopN _ _ 4 (by decide), forLoop_eq_loopN _ _ _ hs]
  rw [sad_path4 p.org.buf p.cur.buf _ _ p.org.width _ _ hdiv h128 hrange]

/-! ## The SAD contract -/

theorem pow_bitDepth_le (p : DistParam) (hbd : p.bitDepth ≤ 10) : 2 ^ p.bitDepth ≤ 1024 :=
  calc 2 ^ p.bitDepth ≤ 2 ^ 10 := Nat.pow_le_pow_right (by decide) hbd
    _ = 1024 := by norm_num

/-- In every row of the block, each 16-bit lane of the row accumulator `vsum16` of each path
holds the exact sum of the absolute differences of its columns. -/
theorem vsum16_lanes_exact (p : DistParam) (hbd : p.bitDepth ≤ 10)
    (h128 : p.org.width ≤ 128) (hr : p.InRange) (y lane : Nat) (hy : y < p.org.height)
    (hl : lane < 8) :
    (p.org.width % 16 = 0 →
      (xGetSAD_SIMD_vsum16_avx2 p.org.buf p.cur.buf (y * p.org.stride) (y * p.cur.stride)
        p.org.width).lo.get lane =
        ∑ j ∈ Finset.range (p.org.width / 16),
          Nat.dist (p.org.at (j * 16 + lane) y) (p.cur.at (j * 16 + lane) y) ∧
      (xGetSAD_SIMD_vsum16_avx2 p.org.buf p.cur.buf (y * p.org.stride) (y * p.cur.stride)
        p.org.width).hi.get lane =
        ∑ j ∈ Finset.range (p.org.width / 16),
          Nat.dist (p.org.at (j * 16 + (8 + lane)) y) (p.cur.at (j * 16 + (8 + lane)) y)) ∧
    (p.org.width % 8 = 0 →
      (xGetSAD_SIMD_vsum16_step8 p.org.buf p.cur.buf (y * p.org.stride) (y * p.cur.stride)
        p.org.width).get lane =
        ∑ j ∈ Finset.range (p.org.width / 8),
          Nat.dist (p.org.at (j * 8 + lane) y) (p.cur.at (j * 8 + lane) y)) ∧
    (p.org.width % 4 = 0 → lane < 4 →
      (xGetSAD_SIMD_vsum16_step4 p.org.buf p.cur.buf (y * p.org.stride) (y * p.cur.stride)
        p.org.width).get lane =
        ∑ j ∈ Finset.range (p.org.width / 4),
          Nat.dist (p.org.at (j * 4 + lane) y) (p.cur.at (j * 4 + lane) y)) := by
  have hpow := pow_bitDepth_le p hbd
  have hrow : ∀ x, x < p.org.width →
      p.org.buf (y * p.org.stride + x) < 1024 ∧ p.cur.buf (y * p.cur.stride + x) < 1024 := by
    intro x hx
    have := hr x y hx hy
    unfold PelBuf.at at this
    omega
  refine ⟨fun h16 => ?_, fun h8 => ?_, fun h4 hl4 => ?_⟩
  · have hw : p.org.width / 16 * 16 = p.org.width :=
      Nat.div_mul_cancel (Nat.dvd_of_mod_eq_zero h16)
    unfold xGetSAD_SIMD_vsum16_avx2 PelBuf.at
    rw [forLoop_eq_loopN _ _ 16 (by decide), iters_of_dvd _ 16 (by decide) h16]
    exact get_row16 p.org.buf p.cur.buf _ _ (p.org.width / 16) lane hl (by omega)
      (fun x hx => hrow x (by omega))
  · have hw : p.org.width / 8 * 8 = p.org.width :=
      Nat.div_mul_cancel (Nat.dvd_of_mod_eq_zero h8)
    unfold xGetSAD_SIMD_vsum16_step8 PelBuf.at
    rw [forLoop_eq_loopN _ _ 8 (by decide), iters_of_dvd _ 8 (by decide) h8]
    rw [get_row p.org.buf p.cur.buf _ _ 8 (p.org.width / 8) lane hl (by omega)]
    · simp only [Nat.add_assoc]
    · intro j hj
      have := hrow (j * 8 + lane) (by omega)
      simpa only [Nat.add_assoc] using this
  · have hw : p.org.width / 4 * 4 = p.org.width :=
      Nat.div_mul_cancel (Nat.dvd_of_mod_eq_zero h4)
    unfold xGetSAD_SIMD_vsum16_step4 PelBuf.at
    rw [forLoop_eq_loopN _ _ 4 (by decide), iters_of_dvd _ 4 (by decide) h4]
    exact get_row4_lo p.org.buf p.cur.buf _ _ (p.org.width / 4) lane hl4 (by omega)
      (fun x hx => hrow x (by omega))

theorem extremeParam_inRange (w h s : Nat) : (extremeParam w h s).InRange := by
  intro x y _ _
  simp [extremeParam, PelBuf.at]

theorem exampleParam_inRange (w h : Nat) : (exampleParam w h 10 false).InRange := by
  intro x y _ _
  simp [exampleParam, PelBuf.at]

theorem sadSum_extreme : sadSum (extremeParam 128 128 16) = 130944 := by
  rw [sadSum_eq_rows]
  have : iters (extremeParam 128 128 16).org.height (2 ^ (extremeParam 128 128 16).subShift) = 1 := by
    decide
  rw [this]
  simp [rowSad, extremeParam, Nat.dist]

/-- C1, the claim refuted at a 128x128 block of 10-bit samples (`org = 1023`, `cur = 0`) with
`subShift = 16`, for which a single row is visited: the sum of absolute differences is 130944,
the claimed value `(S << 16) >> 2` is 2145386496, and `xGetSAD_SIMD` returns 1071644672, the
32-bit `uiSum` having wrapped in `uiSum <<= iSubShift`. -/
theorem xGetSAD_SIMD_wraps_uiSum :
    (extremeParam 128 128 16).InRange ∧
    sadSum (extremeParam 128 128 16) = 130944 ∧
    (sadSum (extremeParam 128 128 16) <<< 16) >>> DISTORTION_PRECISION_ADJUSTMENT 10 =
      2145386496 ∧
    xGetSAD_SIMD exampleScalar .SSE41 (extremeParam 128 128 16) = .ok 1071644672 := by
  refine ⟨extremeParam_inRange _ _ _, sadSum_extreme, ?_, ?_⟩
  · rw [sadSum_extreme]; decide
  · rw [xGetSAD_SIMD_value exampleScalar .SSE41 (extremeParam 128 128 16) (by decide) rfl
      (by decide) (by decide) (by decide) (extremeParam_inRange _ _ _), sadSum_extreme]
    rfl

/-- C1, amended: for every block with `bitDepth <= 10`, no weighting, a width that is a multiple
of 4 between 4 and 128 and all samples of `org` and `cur` in `[0, 2^bitDepth)`, `xGetSAD_SIMD`
returns `((S << subShift) mod 2^32) >> max(0, bitDepth-8)`, where `S` is the exact sum of
`|org[y][x] - cur[y][x]|` over the columns `x < width` and the rows `y < height` that are
multiples of `2^subShift`; this is `(S << subShift) >> max(0, bitDepth-8)` whenever
`S << subShift < 2^32`; and in every row no 16-bit lane of the row accumulator wraps: each
holds the exact sum of the absolute differences of its columns. -/
theorem xGetSAD_SIMD_exact (xGetSAD : DistParam → Except String Nat) (vext : X86_VEXT)
    (p : DistParam) (hbd : p.bitDepth ≤ 10) (hw : p.applyWeight = false)
    (h4 : 4 ≤ p.org.width) (hdiv : p.org.width % 4 = 0) (h128 : p.org.width ≤ 128)
    (hr : p.InRange) :
    xGetSAD_SIMD xGetSAD vext p =
      .ok (((sadSum p <<< p.subShift) % 4294967296) >>>
        DISTORTION_PRECISION_ADJUSTMENT p.bitDepth) ∧
    (sadSum p <<< p.subShift < 4294967296 →
      xGetSAD_SIMD xGetSAD vext p =
        .ok ((sadSum p <<< p.subShift) >>> DISTORTION_PRECISION_ADJUSTMENT p.bitDepth)) ∧
    (∀ y lane, y < p.org.height → lane < 8 →
      (p.org.width % 16 = 0 →
        (xGetSAD_SIMD_vsum16_avx2 p.org.buf p.cur.buf (y * p.org.stride) (y * p.cur.stride)
          p.org.width).lo.get lane =
          ∑ j ∈ Finset.range (p.org.width / 16),
            Nat.dist (p.org.at (j * 16 + lane) y) (p.cur.at (j * 16 + lane) y) ∧
        (xGetSAD_SIMD_vsum16_avx2 p.org.buf p.cur.buf (y * p.org.stride) (y * p.cur.stride)
          p.org.width).hi.get lane =
          ∑ j ∈ Finset.range (p.org.width / 16),
            Nat.dist (p.org.at (j * 16 + (8 + lane)) y) (p.cur.at (j * 16 + (8 + lane)) y)) ∧
      (p.org.width % 8 = 0 →
        (xGetSAD_SIMD_vsum16_step8 p.org.buf p.cur.buf (y * p.org.stride) (y * p.cur.stride)
          p.org.width).get lane =
          ∑ j ∈ Finset.range (p.org.width / 8),
            Nat.dist (p.org.at (j * 8 + lane) y) (p.cur.at (j * 8 + lane) y)) ∧
      (p.org.width % 4 = 0 → lane < 4 →
        (xGetSAD_SIMD_vsum16_step4 p.org.buf p.cur.buf (y * p.org.stride) (y * p.cur.stride)
          p.org.width).get lane =
          ∑ j ∈ Finset.range (p.org.width / 4),
            Nat.dist (p.org.at (j * 4 + lane) y) (p.cur.at (j * 4 + lane) y))) := by
  have hv := xGetSAD_SIMD_value xGetSAD vext p hbd hw h4 hdiv h128 hr
  refine ⟨hv, fun hfit => ?_, fun y lane hy hl => vsum16_lanes_exact p hbd h128 hr y lane hy hl⟩
  rw [hv, Nat.mod_eq_of_lt hfit]

/-- C1 amended, at an 8x2 block of 10-bit samples. -/
theorem xGetSAD_SIMD_exact_witness :
    xGetSAD_SIMD exampleScalar .SSE41 (exampleParam 8 2 10 false) =
      .ok (((sadSum (exampleParam 8 2 10 false) <<< 0) % 4294967296) >>>
        DISTORTION_PRECISION_ADJUSTMENT 10) :=
  (xGetSAD_SIMD_exact exampleScalar .SSE41 (exampleParam 8 2 10 false) (by decide) rfl
    (by decide) (by decide) (by decide) (exampleParam_inRange 8 2)).1

/-! ## The 16x16 Hadamard kernel against the 8x8 kernel -/

theorem horizontal_lo (m : Regs8 M256) :
    (xCalcHAD16x16_AVX2_horizontal m).lo = xCalcHAD8x8_SSE_horizontal m.lo := rfl
theorem horizontal_hi (m : Regs8 M256) :
    (xCalcHAD16x16_AVX2_horizontal m).hi = xCalcHAD8x8_SSE_horizontal m.hi := rfl
theorem vertical16_lo (m : Regs8 M256) :
    (xCalcHAD16x16_AVX2_vertical16 m).lo = xCalcHAD8x8_SSE_vertical16 m.lo := rfl
theorem vertical16_hi (m : Regs8 M256) :
    (xCalcHAD16x16_AVX2_vertical16 m).hi = xCalcHAD8x8_SSE_vertical16 m.hi := rfl
theorem sum_lo_hi (m : Regs8 M256) (sad : Nat) :
    xCalcHAD16x16_AVX2_sum m sad =
      add32 (add32 sad (xCalcHAD8x8_SSE_sum m.lo)) (xCalcHAD8x8_SSE_sum m.hi) := rfl
theorem cvt_D8_lo (a : M256) :
    (mm256_cvtepi16_epi32 (mm256_castsi256_si128 (mm256_permute4x64_epi64 a 0xD8))).lo =
      mm_cvtepi16_epi32 a.lo := rfl
theorem cvt_D8_hi (a : M256) :
    (mm256_cvtepi16_epi32 (mm256_castsi256_si128 (mm256_permute4x64_epi64 a 0xD8))).hi =
      mm_cvtepi16_epi32 a.hi := rfl
theorem cvt_8D_lo (a : M256) :
    (mm256_cvtepi16_epi32 (mm256_castsi256_si128 (mm256_permute4x64_epi64 a 0x8D))).lo =
      mm_cvtepi16_epi32 (mm_shuffle_epi32_EE a.lo) := rfl
theorem cvt_8D_hi (a : M256) :
    (mm256_cvtepi16_epi32 (mm256_castsi256_si128 (mm256_permute4x64_epi64 a 0x8D))).hi =
      mm_cvtepi16_epi32 (mm_shuffle_epi32_EE a.hi) := rfl
theorem add_epi32_lo (a b : M256) : (mm256_add_epi32 a b).lo = mm_add_epi32 a.lo b.lo := rfl
theorem add_epi32_hi (a b : M256) : (mm256_add_epi32 a b).hi = mm_add_epi32 a.hi b.hi := rfl
theorem sub_epi32_lo (a b : M256) : (mm256_sub_epi32 a b).lo = mm_sub_epi32 a.lo b.lo := rfl
theorem sub_epi32_hi (a b : M256) : (mm256_sub_epi32 a b).hi = mm_sub_epi32 a.hi b.hi := rfl
theorem abs_epi32_lo (a : M256) : (mm256_abs_epi32 a).lo = mm_abs_epi32 a.lo := rfl
theorem abs_epi32_hi (a : M256) : (mm256_abs_epi32 a).hi = mm_abs_epi32 a.hi := rfl

theorem vertical32_lo (m : Regs8 M256) :
    (xCalcHAD16x16_AVX2_vertical32 m).lo = xCalcHAD8x8_SSE_vertical32 m.lo := by
  simp only [xCalcHAD16x16_AVX2_vertical32, xCalcHAD8x8_SSE_vertical32, Regs8.lo, cvt_D8_lo,
    cvt_8D_lo, add_epi32_lo, sub_epi32_lo, abs_epi32_lo]
theorem vertical32_hi (m : Regs8 M256) :
    (xCalcHAD16x16_AVX2_vertical32 m).hi = xCalcHAD8x8_SSE_vertical32 m.hi := by
  simp only [xCalcHAD16x16_AVX2_vertical32, xCalcHAD8x8_SSE_vertical32, Regs8.hi, cvt_D8_hi,
    cvt_8D_hi, add_epi32_hi, sub_epi32_hi, abs_epi32_hi]
theorem load_lo (org cur : Nat → Nat) (po pc so sc : Nat) :
    (xCalcHAD16x16_AVX2_load org cur po pc so sc).lo =
      xCalcHAD8x8_SSE_load org cur po pc so sc := rfl

theorem load_hi (org cur : Nat → Nat) (po pc so sc : Nat) :
    (xCalcHAD16x16_AVX2_load org cur po pc so sc).hi =
      xCalcHAD8x8_SSE_load org cur (po + 8) (pc + 8) so sc := by
  have e : ∀ p k s : Nat, p + 8 + k * s = p + k * s + 8 := fun p k s => by omega
  simp only [xCalcHAD8x8_SSE_load, e]
  rfl

theorem xCalcHAD8x8_SSE_sum_lt (m : Regs8 M128) : xCalcHAD8x8_SSE_sum m < 1073741824 := by
  unfold xCalcHAD8x8_SSE_sum
  simp only [Nat.shiftRight_eq_div_pow]
  omega

theorem xCalcHAD8x8_SSE_lt (org cur : Nat → Nat) (po pc so sc bd : Nat) :
    xCalcHAD8x8_SSE org cur po pc so sc bd < 1073741824 := by
  unfold xCalcHAD8x8_SSE
  exact xCalcHAD8x8_SSE_sum_lt _

/-- One pass of the 16x16 kernel adds the 8x8 costs of the left and of the right block. -/
theorem xCalcHAD16x16_AVX2_pass_eq (org cur : Nat → Nat) (po pc so sc bd sad : Nat) :
    xCalcHAD16x16_AVX2_pass org cur po pc so sc bd sad =
      add32 (add32 sad (xCalcHAD8x8_SSE org cur po pc so sc bd))
        (xCalcHAD8x8_SSE org cur (po + 8) (pc + 8) so sc bd) := by
  unfold xCalcHAD16x16_AVX2_pass xCalcHAD8x8_SSE
  simp only
  rw [sum_lo_hi, ← load_lo, ← load_hi, ← horizontal_lo, ← horizontal_hi]
  by_cases h : bd ≥ 10
  · rw [if_pos h, if_pos h, if_pos h, vertical32_lo, vertical32_hi]
  · rw [if_neg h, if_neg h, if_neg h, vertical16_lo, vertical16_hi]

/-- The 16x16 kernel is the sum of the 8x8 kernel over the four quadrants. -/
theorem xCalcHAD16x16_AVX2_eq (org cur : Nat → Nat) (po pc so sc bd : Nat) :
    xCalcHAD16x16_AVX2 org cur po pc so sc bd =
      xCalcHAD8x8_SSE org cur po pc so sc bd +
      xCalcHAD8x8_SSE org cur (po + 8) (pc + 8) so sc bd +
      xCalcHAD8x8_SSE org cur (po + 8 * so) (pc + 8 * sc) so sc bd +
      xCalcHAD8x8_SSE org cur (po + 8 * so + 8) (pc + 8 * sc + 8) so sc bd := by
  have h1 := xCalcHAD8x8_SSE_lt org cur po pc so sc bd
  have h2 := xCalcHAD8x8_SSE_lt org cur (po + 8) (pc + 8) so sc bd
  have h3 := xCalcHAD8x8_SSE_lt org cur (po + 8 * so) (pc + 8 * sc) so sc bd
  have h4 := xCalcHAD8x8_SSE_lt org cur (po + 8 * so + 8) (pc + 8 * sc + 8) so sc bd
  unfold xCalcHAD16x16_AVX2
  simp only [forLoop, Nat.lt_irrefl, if_false, Nat.zero_add, Nat.reduceAdd,
    show (0 : Nat) < 2 from by decide, show (1 : Nat) < 2 from by decide, if_true,
    xCalcHAD16x16_AVX2_pass_eq, add32]
  omega

theorem sum_range_two_mul (g : Nat → Nat) :
    ∀ n, ∑ x ∈ Finset.range (2 * n), g x =
      ∑ k ∈ Finset.range n, (g (2 * k) + g (2 * k + 1)) := by
  intro n
  induction n with
  | zero => simp
  | succ n ih =>
    rw [show 2 * (n + 1) = 2 * n + 1 + 1 from by ring, Finset.sum_range_succ,
      Finset.sum_range_succ, ih, Finset.sum_range_succ]
    ring

theorem sum_range_two_mul_two (F : Nat → Nat → Nat) (n m : Nat) :
    ∑ j ∈ Finset.range (2 * n), ∑ i ∈ Finset.range (2 * m), F j i =
      ∑ j ∈ Finset.range n, ∑ i ∈ Finset.range m,
        (F (2 * j) (2 * i) + F (2 * j) (2 * i + 1) + F (2 * j + 1) (2 * i) +
          F (2 * j + 1) (2 * i + 1)) := by
  rw [sum_range_two_mul]
  apply Finset.sum_congr rfl
  intro j _
  rw [sum_range_two_mul, sum_range_two_mul, ← Finset.sum_add_distrib]
  apply Finset.sum_congr rfl
  intro i _
  ring

/-- Tiling a block whose sides are multiples of 16 with 16x16 tiles costs what tiling it with
8x8 tiles costs. -/
theorem tiledCost_T16x16_eq_T8x8 (K : HadKernels) (v1 v2 : X86_VEXT) (p : DistParam)
    (hw : p.org.width % 16 = 0) (hh : p.org.height % 16 = 0) :
    tiledCost K v1 p .T16x16 = tiledCost K v2 p .T8x8 := by
  unfold tiledCost
  simp only [Tile.width, Tile.height]
  have e1 : p.org.width / 8 = 2 * (p.org.width / 16) := by omega
  have e2 : p.org.height / 8 = 2 * (p.org.height / 16) := by omega
  rw [e1, e2, sum_range_two_mul_two]
  congr 1
  apply Finset.sum_congr rfl
  intro j _
  apply Finset.sum_congr rfl
  intro i _
  simp only [tileCost]
  rw [xCalcHAD16x16_AVX2_eq]
  have a1 : ∀ s : Nat, j * 16 * s + i * 16 = 2 * j * 8 * s + 2 * i * 8 := fun s => by ring
  have a2 : ∀ s : Nat, j * 16 * s + i * 16 + 8 = 2 * j * 8 * s + (2 * i + 1) * 8 :=
    fun s => by ring
  have a3 : ∀ s : Nat, j * 16 * s + i * 16 + 8 * s = (2 * j + 1) * 8 * s + 2 * i * 8 :=
    fun s => by ring
  have a4 : ∀ s : Nat, j * 16 * s + i * 16 + 8 * s + 8 = (2 * j + 1) * 8 * s + (2 * i + 1) * 8 :=
    fun s => by ring
  rw [a4, a4, a3, a3, a2, a2, a1, a1]

/-- On a square block whose side is a multiple of 16 the Hadamard cost does not depend on
whether the 16x16 AVX2 tiles or the 8x8 SSE tiles are used. -/
theorem xGetHADs_SIMD_square16 (K : HadKernels) (xGetHADs : DistParam → Except String Nat)
    (v1 v2 : X86_VEXT) (p : DistParam) (h1 : v1.geAVX2 = true) (h2 : v2.geAVX2 = false)
    (hsq : p.org.width = p.org.height) (h16 : p.org.width % 16 = 0) :
    xGetHADs_SIMD K xGetHADs v1 p = xGetHADs_SIMD K xGetHADs v2 p ∧
    (p.bitDepth ≤ 10 → p.applyWeight = false →
      chosenTile v1 p.org.width p.org.height = some .T16x16 ∧
      chosenTile v2 p.org.width p.org.height = some .T8x8 ∧
      xGetHADs_SIMD K xGetHADs v2 p =
        .ok (tiledCost K v2 p .T8x8 >>> DISTORTION_PRECISION_ADJUSTMENT p.bitDepth)) := by
  have hh : p.org.height % 16 = 0 := hsq ▸ h16
  have c1 : chosenTile v1 p.org.width p.org.height = some .T16x16 := by
    rw [chosenTile_eq, if_neg (by omega), if_neg (by omega), if_neg (by omega),
      if_neg (by omega), if_pos ⟨h1, ⟨hh, h16⟩, hsq.symm⟩]
  have c2 : chosenTile v2 p.org.width p.org.height = some .T8x8 := by
    rw [chosenTile_eq, if_neg (by omega), if_neg (by omega), if_neg (by omega),
      if_neg (by omega), if_neg (by rw [h2]; simp), if_pos ⟨⟨by omega, by omega⟩, hsq.symm⟩]
  have key : p.bitDepth ≤ 10 → p.applyWeight = false →
      xGetHADs_SIMD K xGetHADs v1 p = xGetHADs_SIMD K xGetHADs v2 p ∧
      xGetHADs_SIMD K xGetHADs v2 p =
        .ok (tiledCost K v2 p .T8x8 >>> DISTORTION_PRECISION_ADJUSTMENT p.bitDepth) := by
    intro hbd hw
    rw [xGetHADs_SIMD_eq K xGetHADs v1 p hbd hw, xGetHADs_SIMD_eq K xGetHADs v2 p hbd hw, c1, c2]
    simp only
    rw [tiledCost_T16x16_eq_T8x8 K v1 v2 p h16 hh]
    exact ⟨rfl, trivial⟩
  refine ⟨?_, fun hbd hw => ⟨c1, c2, (key hbd hw).2⟩⟩
  by_cases hg : p.bitDepth > 10 ∨ p.applyWeight = true
  · unfold xGetHADs_SIMD
    rw [if_pos hg, if_pos hg]
  · have hbd : p.bitDepth ≤ 10 := by omega
    have hw : p.applyWeight = false := by
      cases h : p.applyWeight
      · rfl
      · exact absurd (Or.inr h) hg
    exact (key hbd hw).1

/-! ## The fixed-width SAD against the generic SAD -/

theorem NxN_eq_generic_8 (xGetSAD : DistParam → Except String Nat) (vext : X86_VEXT)
    (p : DistParam) (hw : p.org.width = 8) (hbd : p.bitDepth ≤ 10)
    (hnw : p.applyWeight = false) :
    xGetSAD_NxN_SIMD xGetSAD 8 vext p = xGetSAD_SIMD xGetSAD vext p := by
  have hg : ¬ (p.org.width < 4 ∨ p.bitDepth > 10 ∨ p.applyWeight = true) := by
    rw [hnw, hw]; simp; omega
  have hg2 : ¬ (p.bitDepth > 10 ∨ p.applyWeight = true) := by
    rw [hnw]; simp; omega
  unfold xGetSAD_NxN_SIMD xGetSAD_SIMD
  rw [if_neg hg, if_neg hg2]
  simp only [hw, xGetSAD_SIMD_vsum16_step8]
  rw [if_neg (by decide), if_neg (by simp), if_neg (by simp), if_pos (by decide)]

theorem NxN_eq_generic_16n (xGetSAD : DistParam → Except String Nat) (vext : X86_VEXT)
    (p : DistParam) (iWidth : Nat) (hW : iWidth = 16 ∨ iWidth = 32 ∨ iWidth = 64)
    (hw : p.org.width = iWidth) (hbd : p.bitDepth ≤ 10) (hnw : p.applyWeight = false) :
    xGetSAD_NxN_SIMD xGetSAD iWidth vext p = xGetSAD_SIMD xGetSAD vext p := by
  have h16 : iWidth % 16 = 0 ∧ iWidth % 8 = 0 ∧ iWidth ≥ 16 ∧ iWidth ≠ 4 := by omega
  have hg : ¬ (p.org.width < 4 ∨ p.bitDepth > 10 ∨ p.applyWeight = true) := by
    rw [hnw, hw]; simp; omega
  have hg2 : ¬ (p.bitDepth > 10 ∨ p.applyWeight = true) := by
    rw [hnw]; simp; omega
  unfold xGetSAD_NxN_SIMD xGetSAD_SIMD
  rw [if_neg hg, if_neg hg2]
  simp only [hw, xGetSAD_SIMD_vsum16_step8, xGetSAD_SIMD_vsum16_avx2, land15, land7]
  rw [if_neg h16.2.2.2]
  cases hv : vext.geAVX2
  · rw [if_neg (by simp), if_neg (by simp), if_pos h16.2.1]
  · rw [if_pos ⟨rfl, h16.2.2.1⟩, if_pos ⟨rfl, h16.1⟩]


theorem forLoop_4_4 {σ : Type} (body : Nat → σ → σ) (s : σ) :
    forLoop 4 0 4 4 body s = body 0 s := by
  simp [forLoop]

theorem NxN_eq_generic_4_loop (xGetSAD : DistParam → Except String Nat) (vext : X86_VEXT)
    (p : DistParam) (hw : p.org.width = 4) (hbd : p.bitDepth ≤ 10)
    (hnw : p.applyWeight = false) (h44 : ¬ (p.org.height = 4 ∧ p.subShift = 0)) :
    xGetSAD_NxN_SIMD xGetSAD 4 vext p = xGetSAD_SIMD xGetSAD vext p := by
  have hg : ¬ (p.org.width < 4 ∨ p.bitDepth > 10 ∨ p.applyWeight = true) := by
    rw [hnw, hw]; simp; omega
  have hg2 : ¬ (p.bitDepth > 10 ∨ p.applyWeight = true) := by
    rw [hnw]; simp; omega
  unfold xGetSAD_NxN_SIMD xGetSAD_SIMD
  rw [if_neg hg, if_neg hg2]
  simp only [hw, xGetSAD_SIMD_vsum16_step4, forLoop_4_4]
  rw [if_pos trivial, if_neg h44, if_neg (by simp), if_neg (by decide), if_neg (by decide)]
  rfl

/-- The dedicated 4x4 path of `xGetSAD_NxN_SIMD`: the 16-bit horizontal additions yield the
exact sum of the sixteen absolute differences. -/
theorem sad4x4_value (org cur : Nat → Nat) (S1 S2 : Nat)
    (hr : ∀ y x, y < 4 → x < 4 → org (y * S1 + x) < 1024 ∧ cur (y * S2 + x) < 1024) :
    mm_cvtsi128_si32
      (mm_hadd_epi16 (mm_hadd_epi16 (mm_hadd_epi16
        (mm_hadd_epi16
          (mm_abs_epi16 (mm_sub_epi16 (mm_loadh_pi (mm_loadl_epi64 org 0) org S1)
            (mm_loadh_pi (mm_loadl_epi64 cur 0) cur S2)))
          (mm_abs_epi16 (mm_sub_epi16
            (mm_loadh_pi (mm_loadl_epi64 org (2 * S1)) org (3 * S1))
            (mm_loadh_pi (mm_loadl_epi64 cur (2 * S2)) cur (3 * S2)))))
        mm_setzero_si128) mm_setzero_si128) mm_setzero_si128) =
      ∑ y ∈ Finset.range 4, rowSad org cur (y * S1) (y * S2) 4 := by
  have h00 := hr 0 0 (by decide) (by decide)
  have h01 := hr 0 1 (by decide) (by decide)
  have h02 := hr 0 2 (by decide) (by decide)
  have h03 := hr 0 3 (by decide) (by decide)
  have h10 := hr 1 0 (by decide) (by decide)
  have h11 := hr 1 1 (by decide) (by decide)
  have h12 := hr 1 2 (by decide) (by decide)
  have h13 := hr 1 3 (by decide) (by decide)
  have h20 := hr 2 0 (by decide) (by decide)
  have h21 := hr 2 1 (by decide) (by decide)
  have h22 := hr 2 2 (by decide) (by decide)
  have h23 := hr 2 3 (by decide) (by decide)
  have h30 := hr 3 0 (by decide) (by decide)
  have h31 := hr 3 1 (by decide) (by decide)
  have h32 := hr 3 2 (by decide) (by decide)
  have h33 := hr 3 3 (by decide) (by decide)
  simp only [Nat.zero_mul, Nat.one_mul, Nat.zero_add, Nat.add_zero] at h00 h01 h02 h03 h10 h11
  simp only [Nat.zero_mul, Nat.one_mul, Nat.zero_add, Nat.add_zero] at h12 h13 h20 h21 h22 h23
  simp only [Nat.zero_mul, Nat.one_mul, Nat.zero_add, Nat.add_zero] at h30 h31 h32 h33
  simp only [mm_cvtsi128_si32, mm_hadd_epi16, mm_abs_epi16, mm_sub_epi16, mm_loadh_pi,
    mm_loadl_epi64, mm_setzero_si128, M128.map, M128.map2, M128.w0, Nat.zero_add, Nat.add_zero,
    Finset.sum_range_succ, Finset.sum_range_zero, rowSad, Nat.zero_mul, Nat.one_mul]
  rw [abs16_sub16 _ _ (by omega) (by omega), abs16_sub16 _ _ (by omega) (by omega),
    abs16_sub16 _ _ (by omega) (by omega), abs16_sub16 _ _ (by omega) (by omega),
    abs16_sub16 _ _ (by omega) (by omega), abs16_sub16 _ _ (by omega) (by omega),
    abs16_sub16 _ _ (by omega) (by omega), abs16_sub16 _ _ (by omega) (by omega),
    abs16_sub16 _ _ (by omega) (by omega), abs16_sub16 _ _ (by omega) (by omega),
    abs16_sub16 _ _ (by omega) (by omega), abs16_sub16 _ _ (by omega) (by omega),
    abs16_sub16 _ _ (by omega) (by omega), abs16_sub16 _ _ (by omega) (by omega),
    abs16_sub16 _ _ (by omega) (by omega), abs16_sub16 _ _ (by omega) (by omega)]
  have d00 := dist_lt_of_lt _ _ 1024 h00.1 h00.2
  have d01 := dist_lt_of_lt _ _ 1024 h01.1 h01.2
  have d02 := dist_lt_of_lt _ _ 1024 h02.1 h02.2
  have d03 := dist_lt_of_lt _ _ 1024 h03.1 h03.2
  have d10 := dist_lt_of_lt _ _ 1024 h10.1 h10.2
  have d11 := dist_lt_of_lt _ _ 1024 h11.1 h11.2
  have d12 := dist_lt_of_lt _ _ 1024 h12.1 h12.2
  have d13 := dist_lt_of_lt _ _ 1024 h13.1 h13.2
  have d20 := dist_lt_of_lt _ _ 1024 h20.1 h20.2
  have d21 := dist_lt_of_lt _ _ 1024 h21.1 h21.2
  have d22 := dist_lt_of_lt _ _ 1024 h22.1 h22.2
  have d23 := dist_lt_of_lt _ _ 1024 h23.1 h23.2
  have d30 := dist_lt_of_lt _ _ 1024 h30.1 h30.2
  have d31 := dist_lt_of_lt _ _ 1024 h31.1 h31.2
  have d32 := dist_lt_of_lt _ _ 1024 h32.1 h32.2
  have d33 := dist_lt_of_lt _ _ 1024 h33.1 h33.2
  unfold add16
  omega


theorem NxN_eq_generic_4x4 (xGetSAD : DistParam → Except String Nat) (vext : X86_VEXT)
    (p : DistParam) (hw : p.org.width = 4) (hbd : p.bitDepth ≤ 10)
    (hnw : p.applyWeight = false) (hr : p.InRange) (hh : p.org.height = 4)
    (hs : p.subShift = 0) :
    xGetSAD_NxN_SIMD xGetSAD 4 vext p = xGetSAD_SIMD xGetSAD vext p := by
  have hg2 : ¬ (p.bitDepth > 10 ∨ p.applyWeight = true) := by
    rw [hnw]; simp; omega
  rw [xGetSAD_SIMD_value xGetSAD vext p hbd hnw (by omega) (by omega) (by omega) hr,
    sadSum_eq_rows]
  unfold xGetSAD_NxN_SIMD
  rw [if_neg hg2]
  simp only [hh, hs, one_shl]
  rw [if_pos trivial, if_pos ⟨trivial, trivial⟩]
  have hrange := row_in_range p hbd hr
  rw [hh, hs, hw] at hrange
  have hit : iters 4 (2 ^ 0) = 4 := by decide
  rw [hit] at hrange
  rw [sad4x4_value p.org.buf p.cur.buf _ _ (fun y x hy hx => hrange y x hy hx), hw, hit]

/-! ## The intermediate-bit-depth SAD, the SSE, the 16x16 tiles and the fixed-width SAD -/

theorem ibdParam_inRange : ibdParam.InRange := by
  intro x y _ _
  simp only [ibdParam, PelBuf.at]
  constructor
  · split <;> decide
  · decide

/-- C2, evaluated at a 4x8 block (width 4, height 8) of 8-bit samples whose original is 1 on the
last row and 0 elsewhere and whose current block is 0: the sum of absolute differences over the
block is 4 and `xGetSAD_SIMD` returns 4, but `xGetSAD_IBD_SIMD`, which takes its `width` from
`org.height` and its `height` from `org.width`, visits four rows of eight samples, never reads
the last row and returns 0. -/
theorem xGetSAD_IBD_SIMD_swapped_dimensions :
    ibdParam.InRange ∧ ibdParam.org.width = 4 ∧ ibdParam.org.height = 8 ∧
    sadSum ibdParam = 4 ∧
    xGetSAD_SIMD exampleScalar .SSE41 ibdParam = .ok 4 ∧
    xGetSAD_IBD_SIMD exampleScalar .SSE41 ibdParam = .ok 0 :=
  ⟨ibdParam_inRange, rfl, rfl, by decide, rfl, rfl⟩

/-- C6: for every square block whose side is a multiple of 16, with `bitDepth <= 10` (whether or
not the samples are in range), `xGetHADs_SIMD` returns the same value on the AVX2 path as on the
SSE path; without weighting the AVX2 path costs the block with 16x16 tiles and the SSE path with
8x8 tiles and both return a cost; and `xCalcHAD16x16_AVX2` of a 16x16 tile equals the sum of
`xCalcHAD8x8_SSE` over its four 8x8 quadrants. -/
theorem xGetHADs_SIMD_avx2_eq_sse (K : HadKernels) (xGetHADs : DistParam → Except String Nat)
    (v1 v2 : X86_VEXT) (p : DistParam) (h1 : v1.geAVX2 = true) (h2 : v2.geAVX2 = false)
    (hsq : p.org.width = p.org.height) (h16 : p.org.width % 16 = 0) (hbd : p.bitDepth ≤ 10) :
    xGetHADs_SIMD K xGetHADs v1 p = xGetHADs_SIMD K xGetHADs v2 p ∧
    (p.applyWeight = false →
      chosenTile v1 p.org.width p.org.height = some .T16x16 ∧
      chosenTile v2 p.org.width p.org.height = some .T8x8 ∧
      xGetHADs_SIMD K xGetHADs v2 p =
        .ok (tiledCost K v2 p .T8x8 >>> DISTORTION_PRECISION_ADJUSTMENT p.bitDepth)) ∧
    (∀ pOrg pCur,
      xCalcHAD16x16_AVX2 p.org.buf p.cur.buf pOrg pCur p.org.stride p.cur.stride p.bitDepth =
        xCalcHAD8x8_SSE p.org.buf p.cur.buf pOrg pCur p.org.stride p.cur.stride p.bitDepth +
        xCalcHAD8x8_SSE p.org.buf p.cur.buf (pOrg + 8) (pCur + 8) p.org.stride p.cur.stride
          p.bitDepth +
        xCalcHAD8x8_SSE p.org.buf p.cur.buf (pOrg + 8 * p.org.stride) (pCur + 8 * p.cur.stride)
          p.org.stride p.cur.stride p.bitDepth +
        xCalcHAD8x8_SSE p.org.buf p.cur.buf (pOrg + 8 * p.org.stride + 8)
          (pCur + 8 * p.cur.stride + 8) p.org.stride p.cur.stride p.bitDepth) := by
  have h := xGetHADs_SIMD_square16 K xGetHADs v1 v2 p h1 h2 hsq h16
  exact ⟨h.1, fun hw => h.2 hbd hw, fun pOrg pCur => xCalcHAD16x16_AVX2_eq _ _ _ _ _ _ _⟩

/-- C6 at a 16x16 block of 10-bit samples: AVX2 against SSE4.1. -/
theorem xGetHADs_SIMD_avx2_eq_sse_witness :
    xGetHADs_SIMD exampleKernels exampleScalar .AVX2 (exampleParam 16 16 10 false) =
      xGetHADs_SIMD exampleKernels exampleScalar .SSE41 (exampleParam 16 16 10 false) :=
  (xGetHADs_SIMD_avx2_eq_sse exampleKernels exampleScalar .AVX2 .SSE41
    (exampleParam 16 16 10 false) rfl rfl rfl (by decide) (by decide)).1

/-- C7: for `iWidth` in {4, 8, 16, 32, 64} and every block with `org.width = iWidth`,
`bitDepth <= 10`, no weighting, any `subShift` and in-range samples, the fixed-width
`xGetSAD_NxN_SIMD<iWidth>` returns exactly the value the generic `xGetSAD_SIMD` returns for the
same parameters (the dedicated 4x4, `subShift = 0` path included), and that value is a cost, not
an error. -/
theorem xGetSAD_NxN_SIMD_eq_generic (xGetSAD : DistParam → Except String Nat) (iWidth : Nat)
    (vext : X86_VEXT) (p : DistParam)
    (hW : iWidth = 4 ∨ iWidth = 8 ∨ iWidth = 16 ∨ iWidth = 32 ∨ iWidth = 64)
    (hw : p.org.width = iWidth) (hbd : p.bitDepth ≤ 10) (hnw : p.applyWeight = false)
    (hr : p.InRange) :
    xGetSAD_NxN_SIMD xGetSAD iWidth vext p = xGetSAD_SIMD xGetSAD vext p ∧
    xGetSAD_SIMD xGetSAD vext p =
      .ok (((sadSum p <<< p.subShift) % 4294967296) >>>
        DISTORTION_PRECISION_ADJUSTMENT p.bitDepth) := by
  refine ⟨?_, xGetSAD_SIMD_value xGetSAD vext p hbd hnw (by omega) (by omega) (by omega) hr⟩
  rcases hW with h | h | h
  · subst h
    by_cases h44 : p.org.height = 4 ∧ p.subShift = 0
    · exact NxN_eq_generic_4x4 xGetSAD vext p hw hbd hnw hr h44.1 h44.2
    · exact NxN_eq_generic_4_loop xGetSAD vext p hw hbd hnw h44
  · subst h
    exact NxN_eq_generic_8 xGetSAD vext p hw hbd hnw
  · exact NxN_eq_generic_16n xGetSAD vext p iWidth h hw hbd hnw

/-- C7 at a 4x4 block of 10-bit samples with `subShift = 0`, the dedicated path. -/
theorem xGetSAD_NxN_SIMD_eq_generic_witness :
    xGetSAD_NxN_SIMD exampleScalar 4 .SSE41 (exampleParam 4 4 10 false) =
      xGetSAD_SIMD exampleScalar .SSE41 (exampleParam 4 4 10 false) :=
  (xGetSAD_NxN_SIMD_eq_generic exampleScalar 4 .SSE41 (exampleParam 4 4 10 false) (Or.inl rfl)
    rfl (by decide) rfl (exampleParam_inRange 4 4)).1

/-! ## Decoder reconstruction: buffers and traces -/

theorem Plane.view_write (p : Plane) (a : CompArea) (blk : Plane) (i j : Nat)
    (hv : a.valid = true) (h : a.inside i j) : (p.write a blk).view a i j = blk i j := by
  unfold CompArea.inside at h
  have hc : a.contains (a.x + i) (a.y + j) = true := by
    simp only [CompArea.contains, hv, Bool.true_and, decide_eq_true_eq]; omega
  simp only [Plane.view, Plane.write, hc, if_true, Nat.add_sub_cancel_left]

theorem Planes.write_same (b : Planes) (c : ComponentID) (a : CompArea) (blk : Plane) :
    Planes.write b c a blk c = (b c).write a blk := by
  simp only [Planes.write, if_true]

theorem Planes.write_other (b : Planes) (c c2 : ComponentID) (a : CompArea) (blk : Plane)
    (h : c2 ≠ c) : Planes.write b c a blk c2 = b c2 := by
  simp only [Planes.write, if_neg h]

theorem residualOfTU_resi_joint (C : Config) (E : Ext) (tu : TransformUnit) (flag : Bool)
    (s : Dec) (hj : tu.jointCbCr = true) (ha : tu.compAlpha .COMPONENT_Cr = 0) :
    (residualOfTU C E tu .COMPONENT_Cr flag s).resi =
      Planes.write s.resi .COMPONENT_Cr (tu.blocks .COMPONENT_Cr)
        (PelBuf.copyAndNegate ((s.resi .COMPONENT_Cb).view (tu.blocks .COMPONENT_Cb))) := by
  unfold residualOfTU
  simp [hj, ha, Dec.log, Dec.writeResi]

theorem residualOfTU_resi_fill (C : Config) (E : Ext) (tu : TransformUnit)
    (compID : ComponentID) (flag : Bool) (s : Dec) (hcbf : E.getCbf tu compID = false)
    (hj : ¬ (tu.jointCbCr = true ∧ compID = .COMPONENT_Cr))
    (ha : isChroma compID = true → tu.compAlpha compID = 0) :
    (residualOfTU C E tu compID flag s).resi =
      Planes.write s.resi compID (tu.blocks compID) (PelBuf.fill 0) := by
  unfold residualOfTU
  have hj2 : (tu.jointCbCr && decide (compID = .COMPONENT_Cr)) = false := by
    cases h1 : tu.jointCbCr <;> simp_all
  cases hc : isChroma compID
  · simp [hj2, hcbf, hc, Dec.log, Dec.writeResi]
  · simp [hj2, hcbf, hc, ha hc, Dec.log, Dec.writeResi]

theorem residualOfTU_fields (C : Config) (E : Ext) (tu : TransformUnit) (compID : ComponentID)
    (flag : Bool) (s : Dec) :
    (residualOfTU C E tu compID flag s).pred = s.pred ∧
    (residualOfTU C E tu compID flag s).reco = s.reco ∧
    (residualOfTU C E tu compID flag s).picPred = s.picPred ∧
    (residualOfTU C E tu compID flag s).chromaAdj = s.chromaAdj := by
  unfold residualOfTU
  simp only []
  split_ifs <;> simp [Dec.log, Dec.writeResi]

theorem residualOfTU_resi_other (C : Config) (E : Ext) (tu : TransformUnit)
    (compID c2 : ComponentID) (flag : Bool) (s : Dec) (h : c2 ≠ compID) :
    (residualOfTU C E tu compID flag s).resi c2 = s.resi c2 := by
  unfold residualOfTU
  simp only []
  split_ifs <;> simp [Dec.log, Dec.writeResi, Planes.write, h]

theorem xIntraRecBlk_pred_trace (C : Config) (E : Ext) (cu : CodingUnit) (tu : TransformUnit)
    (compID : ComponentID) (s : Dec) :
    (xIntraRecBlk_pred C E cu tu compID s).trace = s.trace ++
      [Event.initIntraPatternChType tu.idx compID,
        if compID ≠ .COMPONENT_Y &&
            E.isLMCMode (E.getFinalIntraMode (E.getPU cu (tu.blocks compID)
              (toChannelType compID)) (toChannelType compID))
          then Event.predIntraChromaLM tu.idx compID
        else if E.isMIP (E.getPU cu (tu.blocks compID) (toChannelType compID))
            (toChannelType compID)
          then Event.predIntraMip tu.idx compID
        else Event.predIntraAng tu.idx compID] ++
      (if xIntraRecBlk_setsAdj C tu compID
        then [Event.setChromaAdj tu.idx (xIntraRecBlk_adj C E tu (s.picPred .COMPONENT_Y))]
        else []) := by
  unfold xIntraRecBlk_pred xIntraRecBlk_setsAdj xIntraRecBlk_adj
  simp only []
  split_ifs <;> simp_all [Dec.log, Dec.writePred, Dec.setChromaAdj]

theorem xIntraRecBlk_pred_fields (C : Config) (E : Ext) (cu : CodingUnit) (tu : TransformUnit)
    (compID : ComponentID) (s : Dec) :
    (xIntraRecBlk_pred C E cu tu compID s).resi = s.resi ∧
    (xIntraRecBlk_pred C E cu tu compID s).picPred = s.picPred ∧
    (xIntraRecBlk_pred C E cu tu compID s).pred =
      Planes.write s.pred compID (tu.blocks compID)
        (xIntraRecBlk_prediction E cu tu compID
          (s.log (.initIntraPatternChType tu.idx compID))) ∧
    (xIntraRecBlk_pred C E cu tu compID s).chromaAdj =
      (if xIntraRecBlk_setsAdj C tu compID
        then Function.update s.chromaAdj tu.idx (xIntraRecBlk_adj C E tu (s.picPred .COMPONENT_Y))
        else s.chromaAdj) := by
  unfold xIntraRecBlk_pred xIntraRecBlk_setsAdj xIntraRecBlk_adj xIntraRecBlk_prediction
  simp only []
  split_ifs <;> simp_all [Dec.log, Dec.writePred, Dec.setChromaAdj]

theorem xIntraRecBlk_reco_trace (C : Config) (E : Ext) (cu : CodingUnit) (tu : TransformUnit)
    (compID : ComponentID) (s : Dec) :
    (xIntraRecBlk_reco C E cu tu compID s).trace = s.trace ++
      (if cu.ispMode = 0 || !isLuma compID then [Event.setDecomp compID (tu.blocks compID)]
        else if cu.ispMode ≠ 0 && isLuma compID && E.isISPFirst cu (tu.blocks compID) compID
          then [Event.setDecomp compID (cu.blocks compID)]
        else []) ++ [Event.writeReco compID (tu.blocks compID)] := by
  unfold xIntraRecBlk_reco
  simp only []
  split_ifs <;> simp_all [Dec.log, Dec.writePred, Dec.writeReco, Dec.writeTmp, Dec.writePicReco,
    Dec.writePicPred]

theorem xIntraRecBlk_reco_fields (C : Config) (E : Ext) (cu : CodingUnit) (tu : TransformUnit)
    (compID : ComponentID) (s : Dec) :
    (xIntraRecBlk_reco C E cu tu compID s).resi = s.resi ∧
    (xIntraRecBlk_reco C E cu tu compID s).chromaAdj = s.chromaAdj ∧
    (∀ c2, c2 ≠ compID → (xIntraRecBlk_reco C E cu tu compID s).picPred c2 = s.picPred c2) := by
  unfold xIntraRecBlk_reco
  simp only []
  split_ifs <;> simp_all [Dec.log, Dec.writePred, Dec.writeReco, Dec.writeTmp, Dec.writePicReco,
    Dec.writePicPred, Planes.write]

/-- The events `residualOfTU` appends to the trace. -/
theorem residualOfTU_trace (C : Config) (E : Ext) (tu : TransformUnit) (compID : ComponentID)
    (flag : Bool) (s : Dec) :
    (residualOfTU C E tu compID flag s).trace = s.trace ++
      [if tu.jointCbCr && compID = .COMPONENT_Cr then Event.copyAndNegate tu.idx compID
        else if E.getCbf tu compID then Event.invTransformNxN tu.idx compID
        else Event.fill tu.idx compID] ++
      (if (flag && E.getCbf tu compID && isChroma compID && C.lmcsChromaResidualScaleFlag) &&
          !(tu.jointCbCr && compID = .COMPONENT_Cr)
        then [Event.scaleSignal tu.idx compID (s.chromaAdj tu.idx)] else []) ++
      (if isChroma compID && tu.compAlpha compID ≠ 0
        then [Event.crossComponentPrediction tu.idx compID] else []) := by
  unfold residualOfTU
  simp only []
  split_ifs <;> simp_all [Dec.log, Dec.writeResi]

theorem residualOfTU_chromaAdj (C : Config) (E : Ext) (tu : TransformUnit) (compID : ComponentID)
    (flag : Bool) (s : Dec) :
    (residualOfTU C E tu compID flag s).chromaAdj = s.chromaAdj := by
  unfold residualOfTU
  simp only []
  split_ifs <;> simp_all [Dec.log, Dec.writeResi]

theorem xIntraRecBlk_stages (C : Config) (E : Ext) (cu : CodingUnit) (tu : TransformUnit)
    (compID : ComponentID) (s : Dec) :
    xIntraRecBlk C E cu tu compID s =
      if !(tu.blocks compID).valid then s.log (.xIntraRecBlk tu.idx compID)
      else xIntraRecBlk_reco C E cu tu compID
        (residualOfTU C E tu compID (xIntraRecBlk_flag C tu compID)
          (xIntraRecBlk_pred C E cu tu compID (s.log (.xIntraRecBlk tu.idx compID)))) := rfl

theorem xDecodeInterTU_stages (C : Config) (E : Ext) (tu : TransformUnit)
    (compID : ComponentID) (s : Dec) :
    xDecodeInterTU C E tu compID s =
      if !(tu.blocks compID).valid then s.log (.xDecodeInterTU tu.idx compID)
      else residualOfTU C E tu compID (xDecodeInterTU_flag C tu compID)
          (s.log (.xDecodeInterTU tu.idx compID)) := by
  unfold xDecodeInterTU residualOfTU xDecodeInterTU_flag
  simp only [Bool.and_assoc, Bool.and_comm, Bool.and_left_comm]

/-! ## Decoder reconstruction: failures -/

theorem CHECK_true (msg : String) : CHECK true msg = .error msg := rfl
theorem CHECK_false (msg : String) : CHECK false msg = .ok () := rfl

theorem xReconInter_of_predict_error (C : Config) (E : Ext) (cu : CodingUnit) (s : Dec)
    (e : String) (h : xReconInter_predict E cu (s.log (.xReconInter cu.idx)) = .error e) :
    xReconInter C E cu s = .error e := by
  unfold xReconInter
  simp only [bind, Except.bind, h]

theorem xReconInter_of_predict_ok (C : Config) (E : Ext) (cu : CodingUnit) (s s1 : Dec)
    (h : xReconInter_predict E cu (s.log (.xReconInter cu.idx)) = .ok s1) :
    xReconInter C E cu s = .ok (xReconInter_rest C E cu s1) := by
  unfold xReconInter
  simp only [bind, Except.bind, h, pure, Except.pure]

theorem xReconInter_predict_IBC (E : Ext) (cu : CodingUnit) (s : Dec)
    (ht : cu.triangle = false) (hibc : CU.isIBC cu = true)
    (h : cu.affine = true ∨ cu.firstPU.mhIntraFlag = true ∨ cu.firstPU.mmvdMergeFlag = true) :
    xReconInter_predict E cu s =
      .error (if cu.firstPU.mhIntraFlag then "IBC and MHIntra cannot be used together"
        else if cu.affine then "IBC and Affine cannot be used together"
        else "IBC and MMVD cannot be used together") := by
  unfold xReconInter_predict
  simp only [ht, hibc, Bool.false_eq_true, if_false, Bool.true_and, Bool.and_false, CHECK,
    bind, Except.bind]
  cases hm : cu.firstPU.mhIntraFlag
  · cases ha : cu.affine
    · have hv : cu.firstPU.mmvdMergeFlag = true := by
        rcases h with h | h | h
        · rw [ha] at h; cases h
        · rw [hm] at h; cases h
        · exact h
      simp only [hv, Bool.false_eq_true, if_false, if_true]
    · simp only [Bool.false_eq_true, if_false, if_true]
  · simp only [if_true]

theorem xReconInter_predict_triangle (E : Ext) (cu : CodingUnit) (s : Dec)
    (ht : cu.triangle = true) :
    xReconInter_predict E cu s = .ok
      (((forValidBlocks cu.blocks (fun c a s1 => s1.writePred c a
          (E.motionCompensation4Triangle cu s.triangleMrgCtx cu.firstPU.triangleSplitDir
            cu.firstPU.triangleMergeIdx0 cu.firstPU.triangleMergeIdx1 s c)) s).log
        (.motionCompensation4Triangle cu.idx)).log (.spanTriangleMotionInfo cu.idx)) := by
  unfold xReconInter_predict
  simp only [ht, if_true, bind, Except.bind, pure, Except.pure]

theorem xReconInter_predict_error (E : Ext) (cu : CodingUnit) (s : Dec) (e : String)
    (h : xReconInter_predict E cu s = .error e) :
    cu.triangle = false ∧ CU.isIBC cu = true ∧
    (e = "IBC and MHIntra cannot be used together" ∨
     e = "IBC and Affine cannot be used together" ∨
     e = "IBC and triangle cannot be used together" ∨
     e = "IBC and MMVD cannot be used together") := by
  unfold xReconInter_predict at h
  simp only [bind, Except.bind, pure, Except.pure, CHECK] at h
  split_ifs at h <;> cases h <;> simp_all

theorem xReconInter_error (C : Config) (E : Ext) (cu : CodingUnit) (s : Dec) (e : String)
    (h : xReconInter C E cu s = .error e) :
    xReconInter_predict E cu (s.log (.xReconInter cu.idx)) = .error e := by
  unfold xReconInter at h
  simp only [bind, Except.bind, pure, Except.pure] at h
  split at h
  · rename_i e1 h1; cases h; exact h1
  · cases h

theorem xDeriveCUMV_merge_error (C : Config) (E : Ext) (d : DeriveState) (e : String)
    (h : xDeriveCUMV_merge C E d = .error e) : e = "invalid MHIntra" := by
  unfold xDeriveCUMV_merge at h
  simp only [CHECK, bind, Except.bind, pure, Except.pure] at h
  split_ifs at h <;> cases h <;> rfl

theorem xDeriveCUMV_affineAMVP_error (C : Config) (E : Ext) (cu : CodingUnit) (i : Nat)
    (ps : PredictionUnit × Dec) (e : String)
    (h : xDeriveCUMV_affineAMVP C E cu i ps = .error e) : e = "Unexpected negative refIdx." := by
  unfold xDeriveCUMV_affineAMVP at h
  simp only [CHECK, bind, Except.bind, pure, Except.pure] at h
  split_ifs at h <;> cases h <;> rfl

theorem xDeriveCUMV_nonMerge_error (C : Config) (E : Ext) (d : DeriveState) (e : String)
    (h : xDeriveCUMV_nonMerge C E d = .error e) : e = "Unexpected negative refIdx." := by
  unfold xDeriveCUMV_nonMerge at h
  simp only [bind, Except.bind, pure, Except.pure] at h
  split_ifs at h
  all_goals
    split at h
    · rename_i e1 h1
      cases h
      exact xDeriveCUMV_affineAMVP_error C E _ _ _ _ h1
    · split at h
      · rename_i e2 h2
        cases h
        exact xDeriveCUMV_affineAMVP_error C E _ _ _ _ h2
      · cases h

theorem xDeriveCUMV_motion_error (C : Config) (E : Ext) (d : DeriveState) (e : String)
    (h : xDeriveCUMV_motion C E d = .error e) :
    e = "invalid MHIntra" ∨ e = "Unexpected negative refIdx." := by
  unfold xDeriveCUMV_motion at h
  split_ifs at h
  · exact Or.inl (xDeriveCUMV_merge_error C E d e h)
  · exact Or.inr (xDeriveCUMV_nonMerge_error C E d e h)

/-- The derivation of the motion leaves the prediction mode and the flags of the coding unit
as they are. -/
theorem xDeriveCUMV_merge_cu (C : Config) (E : Ext) (d d1 : DeriveState)
    (h : xDeriveCUMV_merge C E d = .ok d1) :
    d1.cu.predMode = d.cu.predMode ∧ d1.cu.idx = d.cu.idx := by
  unfold xDeriveCUMV_merge at h
  simp only [CHECK, bind, Except.bind, pure, Except.pure] at h
  split_ifs at h <;> (cases h; exact ⟨rfl, rfl⟩)

theorem xDeriveCUMV_nonMerge_cu (C : Config) (E : Ext) (d d1 : DeriveState)
    (h : xDeriveCUMV_nonMerge C E d = .ok d1) : d1.cu = d.cu := by
  unfold xDeriveCUMV_nonMerge at h
  simp only [bind, Except.bind, pure, Except.pure] at h
  split_ifs at h
  all_goals first
    | (cases h; rfl)
    | (split at h
       · cases h
       · split at h
         · cases h
         · cases h; rfl)

theorem xDeriveCUMV_motion_cu (C : Config) (E : Ext) (d d1 : DeriveState)
    (h : xDeriveCUMV_motion C E d = .ok d1) :
    d1.cu.predMode = d.cu.predMode ∧ d1.cu.idx = d.cu.idx := by
  unfold xDeriveCUMV_motion at h
  split_ifs at h
  · exact xDeriveCUMV_merge_cu C E d d1 h
  · rw [xDeriveCUMV_nonMerge_cu C E d d1 h]; exact ⟨rfl, rfl⟩

theorem xDeriveCUMV_check_ok (C : Config) (E : Ext) (d d1 : DeriveState)
    (h : xDeriveCUMV_check C E d = .ok d1) : d1.cu = d.cu ∧ d1.pu = d.pu := by
  unfold xDeriveCUMV_check at h
  simp only [CHECK, bind, Except.bind, pure, Except.pure] at h
  split_ifs at h <;> (cases h; exact ⟨rfl, rfl⟩)

theorem xDeriveCUMV_check_error (C : Config) (E : Ext) (d : DeriveState) (e : String)
    (h : xDeriveCUMV_check C E d = .error e) :
    e = "invalid block vector for IBC detected." := by
  unfold xDeriveCUMV_check at h
  simp only [CHECK, bind, Except.bind, pure, Except.pure] at h
  split_ifs at h
  cases h
  rfl

theorem xDeriveCUMV_loop_spec (C : Config) (E : Ext) :
    ∀ (pus : List PredictionUnit) (cu : CodingUnit) (done : List PredictionUnit) (s : Dec),
      (∀ e, xDeriveCUMV_loop C E pus cu done s = .error e →
        e = "invalid MHIntra" ∨ e = "Unexpected negative refIdx." ∨
          e = "invalid block vector for IBC detected.") ∧
      (∀ r, xDeriveCUMV_loop C E pus cu done s = .ok r →
        r.1.predMode = cu.predMode ∧ r.1.idx = cu.idx) := by
  intro pus
  induction pus with
  | nil =>
    intro cu done s
    constructor
    · intro e h; cases h
    · intro r h; cases h; exact ⟨rfl, rfl⟩
  | cons pu pus ih =>
    intro cu done s
    simp only [xDeriveCUMV_loop, bind, Except.bind]
    cases hm : xDeriveCUMV_motion C E ⟨cu, pu, s⟩ with
    | error e1 =>
      constructor
      · intro e h
        cases h
        rcases xDeriveCUMV_motion_error C E _ _ hm with h | h
        · exact Or.inl h
        · exact Or.inr (Or.inl h)
      · intro r h; cases h
    | ok d1 =>
      simp only
      cases hc : xDeriveCUMV_check C E d1 with
      | error e2 =>
        constructor
        · intro e h
          cases h
          exact Or.inr (Or.inr (xDeriveCUMV_check_error C E _ _ hc))
        · intro r h; cases h
      | ok d2 =>
        simp only
        have h1 := xDeriveCUMV_motion_cu C E _ _ hm
        have h2 := xDeriveCUMV_check_ok C E _ _ hc
        obtain ⟨ihe, iho⟩ := ih d2.cu (d2.pu :: done) d2.s
        constructor
        · exact ihe
        · intro r h
          have := iho r h
          rw [h2.1] at this
          exact ⟨this.1.trans h1.1, this.2.trans h1.2⟩

theorem xDeriveCUMV_spec (C : Config) (E : Ext) (cu : CodingUnit) (s : Dec) :
    (∀ e, xDeriveCUMV C E cu s = .error e →
      e = "invalid MHIntra" ∨ e = "Unexpected negative refIdx." ∨
        e = "invalid block vector for IBC detected.") ∧
    (∀ r, xDeriveCUMV C E cu s = .ok r → r.1.predMode = cu.predMode ∧ r.1.idx = cu.idx) := by
  obtain ⟨he, ho⟩ := xDeriveCUMV_loop_spec C E (CU.traversePUs cu) cu []
    (s.log (.xDeriveCUMV cu.idx))
  unfold xDeriveCUMV
  simp only [bind, Except.bind, pure, Except.pure]
  cases hl : xDeriveCUMV_loop C E (CU.traversePUs cu) cu [] (s.log (.xDeriveCUMV cu.idx)) with
  | error e1 =>
    constructor
    · intro e h; cases h; exact he _ hl
    · intro r h; cases h
  | ok r1 =>
    have := ho r1 hl
    constructor
    · intro e h
      simp only at h
      split at h <;> cases h
    · intro r h
      simp only at h
      split at h
      all_goals (cases h; exact this)

theorem decompressCtu_loop_error_iff (C : Config) (E : Ext) (spc : Bool) (e : String) :
    ∀ (cus : List CodingUnit) (st : CtuState),
      decompressCtu_loop C E spc cus st = .error e ↔
        ∃ pre cu post st1, cus = pre ++ cu :: post ∧
          decompressCtu_loop C E spc pre st = .ok st1 ∧
          decompressCtu_body C E spc st1 cu = .error e := by
  intro cus
  induction cus with
  | nil =>
    intro st
    constructor
    · intro h; cases h
    · rintro ⟨pre, cu, post, st1, h, _⟩
      cases pre <;> cases h
  | cons c cs ih =>
    intro st
    constructor
    · intro h
      cases hb : decompressCtu_body C E spc st c with
      | error e1 =>
        have : e1 = e := by
          simp only [decompressCtu_loop, bind, Except.bind, hb] at h
          cases h; rfl
        exact ⟨[], c, cs, st, rfl, rfl, this ▸ hb⟩
      | ok st2 =>
        simp only [decompressCtu_loop, bind, Except.bind, hb] at h
        obtain ⟨pre, cu, post, st1, h1, h2, h3⟩ := (ih st2).mp h
        refine ⟨c :: pre, cu, post, st1, by rw [h1]; rfl, ?_, h3⟩
        simp only [decompressCtu_loop, bind, Except.bind, hb, h2]
    · rintro ⟨pre, cu, post, st1, h1, h2, h3⟩
      cases pre with
      | nil =>
        simp only [List.nil_append, List.cons.injEq] at h1
        obtain ⟨rfl, rfl⟩ := h1
        simp only [decompressCtu_loop] at h2
        cases h2
        simp only [decompressCtu_loop, bind, Except.bind, h3]
      | cons p ps =>
        simp only [List.cons_append, List.cons.injEq] at h1
        obtain ⟨rfl, rfl⟩ := h1
        simp only [decompressCtu_loop, bind, Except.bind] at h2 ⊢
        cases hb : decompressCtu_body C E spc st c with
        | error e1 => rw [hb] at h2; cases h2
        | ok st2 =>
          rw [hb] at h2
          simp only at h2 ⊢
          exact (ih st2).mpr ⟨ps, cu, post, st1, rfl, h2, h3⟩

theorem decompressCtu_derive_spec (C : Config) (E : Ext) (spc : Bool) (st : CtuState)
    (cu : CodingUnit) :
    (∀ e, decompressCtu_derive C E spc st cu = .error e →
      e = "invalid MHIntra" ∨ e = "Unexpected negative refIdx." ∨
        e = "invalid block vector for IBC detected.") ∧
    (∀ r, decompressCtu_derive C E spc st cu = .ok r → r.1.predMode = cu.predMode) := by
  unfold decompressCtu_derive
  simp only [bind, Except.bind, pure, Except.pure]
  split_ifs
  all_goals
    first
    | (constructor
       · intro e h; cases h
       · intro r h; cases h; rfl)
    | (constructor
       · intro e h
         split at h
         · rename_i e1 h1; cases h; exact (xDeriveCUMV_spec C E _ _).1 _ h1
         · cases h
       · intro r h
         split at h
         · cases h
         · rename_i r1 h1; cases h; exact ((xDeriveCUMV_spec C E _ _).2 _ h1).1)

theorem decompressCtu_dispatch_error_iff (C : Config) (E : Ext) (cu : CodingUnit)
    (st : CtuState) :
    decompressCtu_dispatch C E cu st = .error "Invalid prediction mode" ↔
      cu.predMode = .NUMBER_OF_PREDICTION_MODES := by
  unfold decompressCtu_dispatch
  simp only [bind, Except.bind, pure, Except.pure]
  cases hp : cu.predMode
  · simp only
    constructor
    · intro h
      split at h
      · rename_i e1 h1
        cases h
        have := (xReconInter_predict_error E cu _ _ (xReconInter_error C E cu _ _ h1)).2.2
        rcases this with h | h | h | h <;> exact absurd h (by decide)
      · cases h
    · intro h; cases h
  · simp only
    constructor
    · intro h; cases h
    · intro h; cases h
  · simp only
    constructor
    · intro h
      split at h
      · rename_i e1 h1
        cases h
        have := (xReconInter_predict_error E cu _ _ (xReconInter_error C E cu _ _ h1)).2.2
        rcases this with h | h | h | h <;> exact absurd h (by decide)
      · cases h
    · intro h; cases h
  · simp only

theorem decompressCtu_body_error_iff (C : Config) (E : Ext) (spc : Bool) (st : CtuState)
    (cu : CodingUnit) :
    decompressCtu_body C E spc st cu = .error "Invalid prediction mode" ↔
      ∃ cu1 st1, decompressCtu_derive C E spc st cu = .ok (cu1, st1) ∧
        cu.predMode = .NUMBER_OF_PREDICTION_MODES := by
  unfold decompressCtu_body
  simp only [bind, Except.bind]
  cases hd : decompressCtu_derive C E spc st cu with
  | error e1 =>
    simp only
    constructor
    · intro h
      cases h
      rcases (decompressCtu_derive_spec C E spc st cu).1 _ hd with h | h | h <;>
        exact absurd h (by decide)
    · rintro ⟨cu1, st1, h, _⟩; cases h
  | ok r =>
    simp only
    rw [decompressCtu_dispatch_error_iff, (decompressCtu_derive_spec C E spc st cu).2 _ hd]
    constructor
    · intro h; exact ⟨r.1, r.2, rfl, h⟩
    · rintro ⟨_, _, _, h⟩; exact h

theorem residualOfTU_trace_events (C : Config) (E : Ext) (tu : TransformUnit)
    (compID : ComponentID) (flag : Bool) (s : Dec) :
    (residualOfTU C E tu compID flag s).trace =
      s.trace ++ residualEvents C E tu compID flag (s.chromaAdj tu.idx) := by
  rw [residualOfTU_trace, residualEvents]
  simp only [List.append_assoc]

theorem xDecodeInterTU_trace (C : Config) (E : Ext) (tu : TransformUnit)
    (compID : ComponentID) (s : Dec) (hv : (tu.blocks compID).valid = true) :
    (xDecodeInterTU C E tu compID s).trace = s.trace ++
      (Event.xDecodeInterTU tu.idx compID ::
        residualEvents C E tu compID (xDecodeInterTU_flag C tu compID) (s.chromaAdj tu.idx)) := by
  rw [xDecodeInterTU_stages, hv]
  simp only [Bool.not_true, Bool.false_eq_true, if_false]
  rw [residualOfTU_trace_events]
  simp [Dec.log]

theorem xDecodeInterTU_invalid (C : Config) (E : Ext) (tu : TransformUnit)
    (compID : ComponentID) (s : Dec) (hv : (tu.blocks compID).valid = false) :
    xDecodeInterTU C E tu compID s = s.log (.xDecodeInterTU tu.idx compID) := by
  rw [xDecodeInterTU_stages, hv]
  simp

theorem xDecodeInterTU_resi (C : Config) (E : Ext) (tu : TransformUnit)
    (compID : ComponentID) (s : Dec) (hv : (tu.blocks compID).valid = true) :
    (xDecodeInterTU C E tu compID s).resi =
      (residualOfTU C E tu compID (xDecodeInterTU_flag C tu compID)
        (s.log (.xDecodeInterTU tu.idx compID))).resi := by
  rw [xDecodeInterTU_stages, hv]
  simp

theorem xIntraRecBlk_trace (C : Config) (E : Ext) (cu : CodingUnit) (tu : TransformUnit)
    (compID : ComponentID) (s : Dec) (hv : (tu.blocks compID).valid = true) :
    (xIntraRecBlk C E cu tu compID s).trace = s.trace ++
      (Event.xIntraRecBlk tu.idx compID ::
        (xIntraRecBlk_predEvents C E cu tu compID (s.picPred .COMPONENT_Y) ++
          (residualEvents C E tu compID (xIntraRecBlk_flag C tu compID)
            (xIntraRecBlk_storedAdj C E tu compID (s.picPred .COMPONENT_Y) (s.chromaAdj tu.idx)) ++
          xIntraRecBlk_recoEvents E cu tu compID))) := by
  rw [xIntraRecBlk_stages, hv]
  simp only [Bool.not_true, Bool.false_eq_true, if_false]
  rw [xIntraRecBlk_reco_trace, residualOfTU_trace_events, xIntraRecBlk_pred_trace,
    (xIntraRecBlk_pred_fields C E cu tu compID _).2.2.2]
  unfold xIntraRecBlk_predEvents xIntraRecBlk_recoEvents xIntraRecBlk_storedAdj
  by_cases h : xIntraRecBlk_setsAdj C tu compID = true
  · simp [Dec.log, h]
  · simp [Dec.log, h]

theorem xIntraRecBlk_resi (C : Config) (E : Ext) (cu : CodingUnit) (tu : TransformUnit)
    (compID : ComponentID) (s : Dec) (hv : (tu.blocks compID).valid = true) :
    (xIntraRecBlk C E cu tu compID s).resi =
      (residualOfTU C E tu compID (xIntraRecBlk_flag C tu compID)
        (xIntraRecBlk_pred C E cu tu compID (s.log (.xIntraRecBlk tu.idx compID)))).resi := by
  rw [xIntraRecBlk_stages, hv]
  simp only [Bool.not_true, Bool.false_eq_true, if_false]
  rw [(xIntraRecBlk_reco_fields C E cu tu compID _).1]

theorem xIntraRecBlk_reco_value (C : Config) (E : Ext) (cu : CodingUnit) (tu : TransformUnit)
    (compID : ComponentID) (s : Dec) (hv : (tu.blocks compID).valid = true) (i j : Nat)
    (h : (tu.blocks compID).inside i j) :
    ((xIntraRecBlk_reco C E cu tu compID s).reco compID).view (tu.blocks compID) i j =
      ClipPel ((s.pred compID).view (tu.blocks compID) i j +
        (s.resi compID).view (tu.blocks compID) i j) (C.clpRng compID) := by
  unfold xIntraRecBlk_reco
  simp only []
  split_ifs <;>
    simp [Dec.log, Dec.writePred, Dec.writeReco, Dec.writeTmp, Dec.writePicReco,
      Dec.writePicPred, Planes.write_same, Plane.view_write _ _ _ i j hv h, PelBuf.reconstruct]

theorem scaleSignal_mem_residualEvents (C : Config) (E : Ext) (tu : TransformUnit)
    (compID : ComponentID) (flag : Bool) (adj : Int) (t : Nat) (c : ComponentID) (a : Int) :
    Event.scaleSignal t c a ∈ residualEvents C E tu compID flag adj ↔
      (t = tu.idx ∧ c = compID ∧ a = adj) ∧
        (flag = true ∧ E.getCbf tu compID = true ∧ isChroma compID = true ∧
          C.lmcsChromaResidualScaleFlag = true) ∧
        ¬ (tu.jointCbCr = true ∧ compID = .COMPONENT_Cr) := by
  unfold residualEvents
  simp only [List.mem_append, List.mem_singleton]
  constructor
  · rintro ((h | h) | h)
    · split_ifs at h
    · split_ifs at h with h1
      · simp only [List.mem_singleton, Event.scaleSignal.injEq] at h
        simp only [Bool.and_eq_true, Bool.not_eq_true', Bool.and_eq_false_imp,
          decide_eq_true_eq, decide_eq_false_iff_not] at h1
        refine ⟨h, ⟨h1.1.1.1.1, h1.1.1.1.2, h1.1.1.2, h1.1.2⟩, ?_⟩
        rintro ⟨h2, h3⟩
        exact h1.2 h2 h3
      · cases h
    · split_ifs at h
      · simp only [List.mem_singleton] at h; cases h
      · cases h
  · rintro ⟨⟨rfl, rfl, rfl⟩, ⟨h1, h2, h3, h4⟩, h5⟩
    refine Or.inl (Or.inr ?_)
    have h6 : (tu.jointCbCr && decide (c = .COMPONENT_Cr)) = false := by
      cases hj : tu.jointCbCr
      · rfl
      · simp only [Bool.true_and, decide_eq_false_iff_not]
        exact fun hc => h5 ⟨hj, hc⟩
    simp [h1, h2, h3, h4, h6]

theorem invTransformNxN_not_mem_residualEvents (C : Config) (E : Ext) (tu : TransformUnit)
    (compID : ComponentID) (flag : Bool) (adj : Int) (t : Nat) (c : ComponentID)
    (hcbf : E.getCbf tu compID = false) :
    Event.invTransformNxN t c ∉ residualEvents C E tu compID flag adj := by
  unfold residualEvents
  simp only [hcbf, Bool.false_eq_true, if_false]
  split_ifs <;> simp

theorem fill_mem_residualEvents (C : Config) (E : Ext) (tu : TransformUnit)
    (compID : ComponentID) (flag : Bool) (adj : Int) (hcbf : E.getCbf tu compID = false)
    (hj : ¬ (tu.jointCbCr = true ∧ compID = .COMPONENT_Cr)) :
    Event.fill tu.idx compID ∈ residualEvents C E tu compID flag adj := by
  unfold residualEvents
  have h6 : (tu.jointCbCr && decide (compID = .COMPONENT_Cr)) = false := by
    cases h : tu.jointCbCr
    · rfl
    · simp only [Bool.true_and, decide_eq_false_iff_not]
      exact fun hc => hj ⟨h, hc⟩
  simp [h6, hcbf]

theorem scaleSignal_not_mem_predEvents (C : Config) (E : Ext) (cu : CodingUnit)
    (tu : TransformUnit) (compID : ComponentID) (p : Plane) (t : Nat) (c : ComponentID)
    (a : Int) : Event.scaleSignal t c a ∉ xIntraRecBlk_predEvents C E cu tu compID p := by
  unfold xIntraRecBlk_predEvents
  split_ifs <;> simp

theorem invTransformNxN_not_mem_predEvents (C : Config) (E : Ext) (cu : CodingUnit)
    (tu : TransformUnit) (compID : ComponentID) (p : Plane) (t : Nat) (c : ComponentID) :
    Event.invTransformNxN t c ∉ xIntraRecBlk_predEvents C E cu tu compID p := by
  unfold xIntraRecBlk_predEvents
  split_ifs <;> simp

theorem scaleSignal_not_mem_recoEvents (E : Ext) (cu : CodingUnit) (tu : TransformUnit)
    (compID : ComponentID) (t : Nat) (c : ComponentID) (a : Int) :
    Event.scaleSignal t c a ∉ xIntraRecBlk_recoEvents E cu tu compID := by
  unfold xIntraRecBlk_recoEvents
  split_ifs <;> simp

theorem invTransformNxN_not_mem_recoEvents (E : Ext) (cu : CodingUnit) (tu : TransformUnit)
    (compID : ComponentID) (t : Nat) (c : ComponentID) :
    Event.invTransformNxN t c ∉ xIntraRecBlk_recoEvents E cu tu compID := by
  unfold xIntraRecBlk_recoEvents
  split_ifs <;> simp

theorem countSetChromaAdj_append (t : Nat) (a b : List Event) :
    countSetChromaAdj t (a ++ b) = countSetChromaAdj t a + countSetChromaAdj t b := by
  simp [countSetChromaAdj, List.filter_append]

theorem countSetChromaAdj_nil (t : Nat) : countSetChromaAdj t [] = 0 := rfl

theorem countSetChromaAdj_residualEvents (C : Config) (E : Ext) (tu : TransformUnit)
    (compID : ComponentID) (flag : Bool) (adj : Int) (t : Nat) :
    countSetChromaAdj t (residualEvents C E tu compID flag adj) = 0 := by
  unfold residualEvents countSetChromaAdj
  split_ifs <;> simp

theorem countSetChromaAdj_le_length (t : Nat) (l : List Event) :
    countSetChromaAdj t l ≤ l.length := List.length_filter_le _ _

theorem countSetChromaAdj_predEvents (C : Config) (E : Ext) (cu : CodingUnit)
    (tu : TransformUnit) (compID : ComponentID) (p : Plane) (t : Nat) :
    countSetChromaAdj t (xIntraRecBlk_predEvents C E cu tu compID p) ≤ 1 := by
  unfold xIntraRecBlk_predEvents
  rw [countSetChromaAdj_append]
  have h1 : countSetChromaAdj t [Event.initIntraPatternChType tu.idx compID,
      if compID ≠ .COMPONENT_Y &&
          E.isLMCMode (E.getFinalIntraMode (E.getPU cu (tu.blocks compID)
            (toChannelType compID)) (toChannelType compID))
        then Event.predIntraChromaLM tu.idx compID
      else if E.isMIP (E.getPU cu (tu.blocks compID) (toChannelType compID))
          (toChannelType compID)
        then Event.predIntraMip tu.idx compID
      else Event.predIntraAng tu.idx compID] = 0 := by
    unfold countSetChromaAdj
    split_ifs <;> simp
  have h2 := countSetChromaAdj_le_length t (if xIntraRecBlk_setsAdj C tu compID
    then [Event.setChromaAdj tu.idx (xIntraRecBlk_adj C E tu p)] else [])
  have h3 : (if xIntraRecBlk_setsAdj C tu compID
    then [Event.setChromaAdj tu.idx (xIntraRecBlk_adj C E tu p)] else []).length ≤ 1 := by
    split_ifs <;> simp
  omega

theorem countSetChromaAdj_recoEvents (E : Ext) (cu : CodingUnit) (tu : TransformUnit)
    (compID : ComponentID) (t : Nat) :
    countSetChromaAdj t (xIntraRecBlk_recoEvents E cu tu compID) = 0 := by
  unfold xIntraRecBlk_recoEvents countSetChromaAdj
  split_ifs <;> simp

/-- A loop whose body appends calls to the trace appends calls, and the number of
`setChromaAdj` calls it appends is bounded by the sum of the bounds of the passes. -/
theorem foldl_countSetChromaAdj {α : Type} (f : Dec → α → Dec) (k : α → Nat) (t : Nat)
    (hf : ∀ s x, ∃ new, (f s x).trace = s.trace ++ new ∧ countSetChromaAdj t new ≤ k x) :
    ∀ (l : List α) (s : Dec), ∃ new, (l.foldl f s).trace = s.trace ++ new ∧
      countSetChromaAdj t new ≤ (l.map k).sum := by
  intro l
  induction l with
  | nil => intro s; exact ⟨[], by simp, by simp [countSetChromaAdj_nil]⟩
  | cons x xs ih =>
    intro s
    obtain ⟨n1, h1, h2⟩ := hf s x
    obtain ⟨n2, h3, h4⟩ := ih (f s x)
    refine ⟨n1 ++ n2, ?_, ?_⟩
    · rw [List.foldl_cons, h3, h1, List.append_assoc]
    · rw [countSetChromaAdj_append, List.map_cons, List.sum_cons]
      omega

theorem sum_indicator_le_one {α : Type} (key : α → Nat) (t : Nat) :
    ∀ (l : List α), (l.map key).Nodup →
      (l.map (fun x => if key x = t then 1 else 0)).sum ≤ 1 := by
  intro l
  induction l with
  | nil => intro _; simp
  | cons x xs ih =>
    intro hn
    rw [List.map_cons, List.nodup_cons] at hn
    rw [List.map_cons, List.sum_cons]
    by_cases hx : key x = t
    · rw [if_pos hx]
      have : (xs.map (fun x => if key x = t then 1 else 0)).sum = 0 := by
        apply List.sum_eq_zero
        intro n hn2
        rw [List.mem_map] at hn2
        obtain ⟨y, hy, hy2⟩ := hn2
        by_cases hyt : key y = t
        · exact absurd (List.mem_map.mpr ⟨y, hy, hyt.trans hx.symm⟩) hn.1
        · rw [if_neg hyt] at hy2; exact hy2.symm
      omega
    · rw [if_neg hx]
      have := ih hn.2
      omega

theorem xDecodeInterTexture_steps (C : Config) (E : Ext) (cu : CodingUnit) (s : Dec) :
    xDecodeInterTexture C E cu s =
      if !cu.rootCbf then s
      else ([ComponentID.COMPONENT_Y, .COMPONENT_Cb, .COMPONENT_Cr].filter
        (fun c => c.toNat < E.getNumberValidComponents cu.chromaFormat)).foldl
          (fun s compID => (CU.traverseTUs cu).foldl (xDecodeInterTexture_step C E cu compID) s)
          s := rfl

theorem xDecodeInterTU_trace_count (C : Config) (E : Ext) (tu : TransformUnit)
    (compID : ComponentID) (s : Dec) (t : Nat) :
    ∃ new, (xDecodeInterTU C E tu compID s).trace = s.trace ++ new ∧
      countSetChromaAdj t new = 0 := by
  rcases Bool.eq_false_or_eq_true (tu.blocks compID).valid with hv | hv
  · refine ⟨_, xDecodeInterTU_trace C E tu compID s hv, ?_⟩
    rw [← List.singleton_append, countSetChromaAdj_append, countSetChromaAdj_residualEvents]
    rfl
  · refine ⟨[.xDecodeInterTU tu.idx compID], ?_, rfl⟩
    rw [xDecodeInterTU_invalid C E tu compID s hv]; rfl

theorem countSetChromaAdj_singleton (t u : Nat) (a : Int) :
    countSetChromaAdj t [Event.setChromaAdj u a] = if u = t then 1 else 0 := by
  unfold countSetChromaAdj
  by_cases h : u = t
  · simp [h]
  · simp [h]

theorem xDecodeInterTexture_adj_trace (C : Config) (E : Ext) (cu : CodingUnit)
    (compID : ComponentID) (tu : TransformUnit) (s : Dec) (t : Nat) :
    ∃ new, (xDecodeInterTexture_adj C E cu compID tu s).trace = s.trace ++ new ∧
      countSetChromaAdj t new ≤
        (if compID = .COMPONENT_Y then (if tu.idx = t then 1 else 0) else 0) := by
  unfold xDecodeInterTexture_adj
  simp only []
  by_cases h1 : (C.lmcsEnabledFlag && C.reshapeCTUFlag && C.lmcsChromaResidualScaleFlag &&
      decide (compID = .COMPONENT_Y) &&
      (tu.cbf .COMPONENT_Cb ≠ 0 || tu.cbf .COMPONENT_Cr ≠ 0)) = true
  · rw [if_pos h1]
    have hy : compID = .COMPONENT_Y := by
      simp only [Bool.and_eq_true, decide_eq_true_eq] at h1
      exact h1.1.2
    rw [if_pos hy]
    by_cases h2 : (!cu.firstPU.mhIntraFlag && !CU.isIBC cu) = true
    · rw [if_pos h2]
      simp only [Dec.log, Dec.writeTmp, Dec.setChromaAdj]
      refine ⟨_, List.append_assoc _ _ _, ?_⟩
      rw [countSetChromaAdj_append, countSetChromaAdj_singleton]
      exact Nat.le_of_eq (Nat.zero_add _)
    · rw [if_neg h2]
      simp only [Dec.log, Dec.writeTmp, Dec.setChromaAdj]
      refine ⟨_, rfl, ?_⟩
      rw [countSetChromaAdj_singleton]
  · rw [if_neg h1]
    exact ⟨[], by simp, by simp [countSetChromaAdj_nil]⟩

theorem xDecodeInterTexture_step_trace (C : Config) (E : Ext) (cu : CodingUnit)
    (compID : ComponentID) (s : Dec) (tu : TransformUnit) (t : Nat) :
    ∃ new, (xDecodeInterTexture_step C E cu compID s tu).trace = s.trace ++ new ∧
      countSetChromaAdj t new ≤
        (if compID = .COMPONENT_Y then (if tu.idx = t then 1 else 0) else 0) := by
  unfold xDecodeInterTexture_step
  obtain ⟨n1, h1, h2⟩ := xDecodeInterTexture_adj_trace C E cu compID tu s t
  obtain ⟨n2, h3, h4⟩ := xDecodeInterTU_trace_count C E tu compID
    (xDecodeInterTexture_adj C E cu compID tu s) t
  refine ⟨n1 ++ n2, ?_, ?_⟩
  · rw [h3, h1, List.append_assoc]
  · rw [countSetChromaAdj_append]; omega

theorem xDecodeInterTexture_count (C : Config) (E : Ext) (cu : CodingUnit) (s : Dec) (t : Nat)
    (hn : ((CU.traverseTUs cu).map (fun tu => tu.idx)).Nodup) :
    ∃ new, (xDecodeInterTexture C E cu s).trace = s.trace ++ new ∧
      countSetChromaAdj t new ≤ 1 := by
  rw [xDecodeInterTexture_steps]
  split_ifs with hr
  · exact ⟨[], by simp, by simp [countSetChromaAdj_nil]⟩
  · have inner : ∀ (s : Dec) (compID : ComponentID), ∃ new,
        ((CU.traverseTUs cu).foldl (xDecodeInterTexture_step C E cu compID) s).trace =
          s.trace ++ new ∧
        countSetChromaAdj t new ≤ (if compID = .COMPONENT_Y then 1 else 0) := by
      intro s compID
      obtain ⟨new, h1, h2⟩ := foldl_countSetChromaAdj (xDecodeInterTexture_step C E cu compID)
        (fun (tu : TransformUnit) => if compID = .COMPONENT_Y then
          (if tu.idx = t then 1 else 0) else 0) t
        (fun s tu => xDecodeInterTexture_step_trace C E cu compID s tu t) (CU.traverseTUs cu) s
      refine ⟨new, h1, h2.trans ?_⟩
      by_cases hc : compID = .COMPONENT_Y
      · simp only [hc, if_true]
        exact sum_indicator_le_one (fun tu : TransformUnit => tu.idx) t _ hn
      · simp only [hc, if_false]
        simp
    obtain ⟨new, h1, h2⟩ := foldl_countSetChromaAdj
      (fun s compID => (CU.traverseTUs cu).foldl (xDecodeInterTexture_step C E cu compID) s)
      (fun (compID : ComponentID) => if compID = .COMPONENT_Y then 1 else 0) t inner
      ([ComponentID.COMPONENT_Y, .COMPONENT_Cb, .COMPONENT_Cr].filter
        (fun c => c.toNat < E.getNumberValidComponents cu.chromaFormat)) s
    refine ⟨new, h1, h2.trans ?_⟩
    simp only [List.filter]
    split <;> split <;> split <;> simp

/-! ## Decoder reconstruction: aborts -/

set_option maxRecDepth 100000

/-- C11, the claim refuted at a CTU with one coding unit: its prediction mode is none of
`MODE_INTER`, `MODE_IBC` and `MODE_INTRA`, its luma block is valid and its prediction unit is in
MMVD merge mode with the MHIntra flag set.  The traversal reaches the unit, and `decompressCtu`
aborts in `xDeriveCUMV`, which it runs before the `switch`, with "invalid MHIntra" and not with
"Invalid prediction mode". -/
theorem decompressCtu_invalid_mode_other_abort :
    badModeCU.predMode = .NUMBER_OF_PREDICTION_MODES ∧ badModeCU.Y.valid = true ∧
    decompressCtu (exampleConfig false) exampleExt (singleTree [badModeCU]) exampleDec =
      .error "invalid MHIntra" :=
  ⟨rfl, rfl, rfl⟩

/-- C11, amended: `decompressCtu` aborts with "Invalid prediction mode" if and only if the
traversal reaches the `switch` of a coding unit whose `predMode` is none of `MODE_INTER`,
`MODE_IBC` and `MODE_INTRA`, that is, the coding units before it are processed without an abort
and the statements before the `switch`, among them `xDeriveCUMV`, complete for the unit itself
(in the loop of the luma channel type or, with two channel types, in that of the chroma channel
type after the luma loop has completed); an abort of `xDeriveCUMV` or of `xReconInter` ends the
traversal with its own message.  Every coding unit whose `switch` is reached with one of the
three modes is dispatched to exactly one reconstruction routine: `xReconInter` for `MODE_INTER`
and `MODE_IBC`, `xReconIntraQT` for `MODE_INTRA`. -/
theorem decompressCtu_invalid_prediction_mode (C : Config) (E : Ext)
    (traverseCUs : ChannelType → List CodingUnit) (s : Dec) :
    (∀ cus st, decompressCtu_loop C E (decompressCtu_sharePrepareCondition C) cus st =
        .error "Invalid prediction mode" ↔
      ∃ pre cu post st1 cu1 st2, cus = pre ++ cu :: post ∧
        decompressCtu_loop C E (decompressCtu_sharePrepareCondition C) pre st = .ok st1 ∧
        decompressCtu_derive C E (decompressCtu_sharePrepareCondition C) st1 cu =
          .ok (cu1, st2) ∧
        cu.predMode = .NUMBER_OF_PREDICTION_MODES) ∧
    (decompressCtu C E traverseCUs s = .error "Invalid prediction mode" ↔
      (decompressCtu_loop C E (decompressCtu_sharePrepareCondition C)
          (traverseCUs .CHANNEL_TYPE_LUMA) (decompressCtu_start C s) =
        .error "Invalid prediction mode" ∨
       ((C.chrFormat ≠ .CHROMA_400 ∧ C.isDualITree = true) ∧
         ∃ st, decompressCtu_loop C E (decompressCtu_sharePrepareCondition C)
            (traverseCUs .CHANNEL_TYPE_LUMA) (decompressCtu_start C s) = .ok st ∧
          decompressCtu_loop C E (decompressCtu_sharePrepareCondition C)
            (traverseCUs .CHANNEL_TYPE_CHROMA) ⟨(-1, -1), st.s⟩ =
              .error "Invalid prediction mode"))) ∧
    (∀ cu st,
      ((cu.predMode = .MODE_INTER ∨ cu.predMode = .MODE_IBC) →
        decompressCtu_dispatch C E cu st =
          (xReconInter C E cu st.s).map (fun s1 => ⟨st.prevTmpPos,
            if E.isLosslessCoded cu && !cu.ipcm then xFillPCMBuffer cu s1 else s1⟩)) ∧
      (cu.predMode = .MODE_INTRA →
        decompressCtu_dispatch C E cu st =
          .ok ⟨st.prevTmpPos,
            if E.isLosslessCoded cu && !cu.ipcm then xFillPCMBuffer cu (xReconIntraQT C E cu st.s)
            else xReconIntraQT C E cu st.s⟩)) := by
  refine ⟨?_, ?_, ?_⟩
  · intro cus st
    rw [decompressCtu_loop_error_iff]
    constructor
    · rintro ⟨pre, cu, post, st1, h1, h2, h3⟩
      obtain ⟨cu1, st2, h4, h5⟩ := (decompressCtu_body_error_iff C E _ st1 cu).mp h3
      exact ⟨pre, cu, post, st1, cu1, st2, h1, h2, h4, h5⟩
    · rintro ⟨pre, cu, post, st1, cu1, st2, h1, h2, h4, h5⟩
      exact ⟨pre, cu, post, st1, h1, h2,
        (decompressCtu_body_error_iff C E _ st1 cu).mpr ⟨cu1, st2, h4, h5⟩⟩
  · unfold decompressCtu decompressCtu_start decompressCtu_sharePrepareCondition
    simp only [bind, Except.bind, pure, Except.pure]
    generalize decompressCtu_loop C E _ (traverseCUs ChannelType.CHANNEL_TYPE_LUMA) _ = r
    cases r with
    | error e1 =>
      simp only
      constructor
      · intro h; cases h; exact Or.inl rfl
      · rintro (h | ⟨_, st, h, _⟩)
        · cases h; rfl
        · cases h
    | ok st =>
      simp only
      by_cases h2 : C.chrFormat ≠ .CHROMA_400 ∧ C.isDualITree = true
      · rw [if_pos h2]
        simp only [if_true]
        constructor
        · intro h
          refine Or.inr ⟨h2, st, rfl, ?_⟩
          split at h
          · rename_i e1 h1; cases h; exact h1
          · cases h
        · rintro (h | ⟨_, st1, h, h3⟩)
          · cases h
          · cases h
            rw [h3]
      · rw [if_neg h2, if_neg (by decide)]
        constructor
        · intro h; cases h
        · rintro (h | ⟨h3, _⟩)
          · cases h
          · exact absurd h3 h2
  · intro cu st
    constructor
    · intro h
      unfold decompressCtu_dispatch
      simp only [bind, Except.bind, pure, Except.pure, Except.map]
      rcases h with h | h <;> rw [h]
    · intro h
      unfold decompressCtu_dispatch
      simp only [bind, Except.bind, pure, Except.pure, h]

/-- C13, evaluated at an IBC coding unit with the triangle flag set: the check "IBC and triangle
cannot be used together" stands in the branch `xReconInter` takes when the triangle flag is not
set, so it is not reached; `xReconInter` does not abort, runs the triangle motion compensation
and reconstructs the unit. -/
theorem xReconInter_IBC_triangle_not_checked :
    CU.isIBC ibcTriangleCU = true ∧ ibcTriangleCU.triangle = true ∧
    errorOf (xReconInter (exampleConfig false) exampleExt ibcTriangleCU exampleDec) = none ∧
    traceOf (xReconInter (exampleConfig false) exampleExt ibcTriangleCU exampleDec) =
      [.xReconInter 0, .motionCompensation4Triangle 0, .spanTriangleMotionInfo 0,
        .xDecodeInterTU 0 .COMPONENT_Y, .invTransformNxN 0 .COMPONENT_Y,
        .xDecodeInterTU 0 .COMPONENT_Cb, .invTransformNxN 0 .COMPONENT_Cb,
        .xDecodeInterTU 0 .COMPONENT_Cr, .invTransformNxN 0 .COMPONENT_Cr,
        .writeReco .COMPONENT_Y (exampleArea 4 4), .writeReco .COMPONENT_Cb (exampleArea 2 2),
        .writeReco .COMPONENT_Cr (exampleArea 2 2),
        .setDecomp .COMPONENT_Y (exampleArea 4 4), .setDecomp .COMPONENT_Cb (exampleArea 2 2),
        .setDecomp .COMPONENT_Cr (exampleArea 2 2)] :=
  ⟨rfl, rfl, rfl, by decide⟩

/-- C17, evaluated at an inter coding unit in AMVP mode that uses reference list 0 with the
reference index -1: when the unit is not affine `xDeriveCUMV` does not abort and derives the
motion vector of the list, the candidate plus the difference (3, 5); only the affine branch
checks the reference index and aborts with "Unexpected negative refIdx.". -/
theorem xDeriveCUMV_negative_refIdx_AMVP :
    (negRefIdxCU false).firstPU.refIdx 0 = -1 ∧ (negRefIdxCU false).firstPU.interDir = 1 ∧
    (negRefIdxCU false).firstPU.mergeFlag = false ∧
    (xDeriveCUMV (exampleConfig false) exampleExt (negRefIdxCU false) exampleDec).toOption.map
      (fun r => (r.1.firstPU.mv 0, r.2.trace)) =
        some (⟨3, 5⟩, [.xDeriveCUMV 0, .spanMotionInfo 0]) ∧
    errorOf (xDeriveCUMV (exampleConfig false) exampleExt (negRefIdxCU true) exampleDec) =
      some "Unexpected negative refIdx." :=
  ⟨rfl, rfl, rfl, by decide, rfl⟩

/-- C18, evaluated with reshaping active at an IBC coding unit with the triangle flag and the
MHIntra flag set, which passes the prediction part of `xReconInter` as the checks of IBC stand
in the branch without the triangle flag: the forward table (here `v + 1`) is applied to the luma
prediction 100 of the IBC unit before the blending, and the luma reconstruction is
`101 + 5 = 106`. -/
theorem xReconInter_IBC_triangle_MHIntra_reshaped :
    CU.isIBC ibcTriangleMHIntraCU = true ∧
    Event.rspSignal .predBuf 0 ∈
      traceOf (xReconInter (exampleConfig true) exampleExt ibcTriangleMHIntraCU exampleDec) ∧
    (xReconInter (exampleConfig true) exampleExt ibcTriangleMHIntraCU exampleDec).toOption.map
      (fun s => s.reco .COMPONENT_Y 0 0) = some 106 :=
  ⟨rfl, by decide, by decide⟩

theorem xDeriveCUMV_check_IBC (C : Config) (E : Ext) (d : DeriveState)
    (hibc : CU.isIBC d.cu = true) :
    xDeriveCUMV_check C E d =
      if blockVectorValid C E d then
        .ok ⟨d.cu, d.pu, d.s.log (.isBlockVectorValid d.pu.idx
          ((d.pu.mv 0).hor >>> C.MV_FRACTIONAL_BITS_INTERNAL)
          ((d.pu.mv 0).ver >>> C.MV_FRACTIONAL_BITS_INTERNAL) true)⟩
      else .error "invalid block vector for IBC detected." := by
  unfold xDeriveCUMV_check blockVectorValid
  simp only [hibc, if_true, CHECK, bind, Except.bind, pure, Except.pure]
  cases hv : E.isBlockVectorValid d.pu d.pu.Y.x d.pu.Y.y d.pu.Y.width d.pu.Y.height
    C.picWidthInLumaSamples C.picHeightInLumaSamples 0 0
    ((d.pu.mv 0).hor >>> C.MV_FRACTIONAL_BITS_INTERNAL)
    ((d.pu.mv 0).ver >>> C.MV_FRACTIONAL_BITS_INTERNAL) C.maxCUWidth d.s <;> simp

/-! ## Decoder reconstruction: the residual of the chroma components -/

theorem xDecodeInterTU_joint_Cr (C : Config) (E : Ext) (tu : TransformUnit) (s : Dec)
    (hj : tu.jointCbCr = true) (ha : tu.compAlpha .COMPONENT_Cr = 0)
    (hv : (tu.blocks .COMPONENT_Cr).valid = true) :
    (xDecodeInterTU C E tu .COMPONENT_Cr s).resi =
      Planes.write s.resi .COMPONENT_Cr (tu.blocks .COMPONENT_Cr)
        (PelBuf.copyAndNegate ((s.resi .COMPONENT_Cb).view (tu.blocks .COMPONENT_Cb))) := by
  rw [xDecodeInterTU_resi C E tu _ s hv, residualOfTU_resi_joint C E tu _ _ hj ha]
  rfl

theorem xIntraRecBlk_joint_Cr (C : Config) (E : Ext) (cu : CodingUnit) (tu : TransformUnit)
    (s : Dec) (hj : tu.jointCbCr = true) (ha : tu.compAlpha .COMPONENT_Cr = 0)
    (hv : (tu.blocks .COMPONENT_Cr).valid = true) :
    (xIntraRecBlk C E cu tu .COMPONENT_Cr s).resi =
      Planes.write s.resi .COMPONENT_Cr (tu.blocks .COMPONENT_Cr)
        (PelBuf.copyAndNegate ((s.resi .COMPONENT_Cb).view (tu.blocks .COMPONENT_Cb))) := by
  rw [xIntraRecBlk_resi C E cu tu _ s hv, residualOfTU_resi_joint C E tu _ _ hj ha,
    (xIntraRecBlk_pred_fields C E cu tu _ _).1]
  rfl

theorem negated_of_write (r : Planes) (aCb aCr : CompArea) (i j : Nat)
    (hv : aCr.valid = true) (h : aCr.inside i j) :
    ((Planes.write r .COMPONENT_Cr aCr
        (PelBuf.copyAndNegate ((r .COMPONENT_Cb).view aCb))) .COMPONENT_Cr).view aCr i j =
      - ((Planes.write r .COMPONENT_Cr aCr
        (PelBuf.copyAndNegate ((r .COMPONENT_Cb).view aCb))) .COMPONENT_Cb).view aCb i j := by
  rw [Planes.write_same, Plane.view_write _ _ _ i j hv h,
    Planes.write_other _ _ _ _ _ (by decide)]
  rfl

/-- C14, the claim refuted at a transform unit coded in the joint chroma mode whose
cross-component prediction parameter of Cr is 1, the luma residual being 8 and the inverse
transform of Cb yielding 5: after Cb and then Cr are processed, by `xDecodeInterTU` as by
`xIntraRecBlk`, the Cb residual is 5 and the Cr residual is `-5 + ((1 * 8) >> 3) = -4`, not
`-5`. -/
theorem jointCbCr_Cr_cross_component :
    jointAlphaTU.jointCbCr = true ∧
    (xDecodeInterTU (exampleConfig false) exampleExt jointAlphaTU .COMPONENT_Cr
      (xDecodeInterTU (exampleConfig false) exampleExt jointAlphaTU .COMPONENT_Cb
        exampleDec)).resi .COMPONENT_Cb 0 0 = 5 ∧
    (xDecodeInterTU (exampleConfig false) exampleExt jointAlphaTU .COMPONENT_Cr
      (xDecodeInterTU (exampleConfig false) exampleExt jointAlphaTU .COMPONENT_Cb
        exampleDec)).resi .COMPONENT_Cr 0 0 = -4 ∧
    (xIntraRecBlk (exampleConfig false) exampleExt (exampleCU .MODE_INTRA) jointAlphaTU
      .COMPONENT_Cr (xIntraRecBlk (exampleConfig false) exampleExt (exampleCU .MODE_INTRA)
        jointAlphaTU .COMPONENT_Cb exampleDec)).resi .COMPONENT_Cb 0 0 = 5 ∧
    (xIntraRecBlk (exampleConfig false) exampleExt (exampleCU .MODE_INTRA) jointAlphaTU
      .COMPONENT_Cr (xIntraRecBlk (exampleConfig false) exampleExt (exampleCU .MODE_INTRA)
        jointAlphaTU .COMPONENT_Cb exampleDec)).resi .COMPONENT_Cr 0 0 = -4 :=
  ⟨rfl, by decide, by decide, by decide, by decide⟩

/-- C14, amended: for every transform unit with `jointCbCr` set whose cross-component
prediction parameter `compAlpha` of Cr is 0 (and whose Cr block is valid), after `xIntraRecBlk`
(intra) or `xDecodeInterTU` (inter) has processed Cb and then Cr, the Cr residual buffer equals
the sample-wise negation of the Cb residual buffer, which the processing of Cr leaves as it is,
whatever the coded-block flags, the parameter `compAlpha` of Cb and the reshaper settings
are. -/
theorem jointCbCr_Cr_negated (C : Config) (E : Ext) (cu : CodingUnit) (tu : TransformUnit)
    (s : Dec) (hj : tu.jointCbCr = true) (ha : tu.compAlpha .COMPONENT_Cr = 0)
    (hv : (tu.blocks .COMPONENT_Cr).valid = true) :
    (∀ i j, (tu.blocks .COMPONENT_Cr).inside i j →
      ((xIntraRecBlk C E cu tu .COMPONENT_Cr
          (xIntraRecBlk C E cu tu .COMPONENT_Cb s)).resi .COMPONENT_Cr).view
          (tu.blocks .COMPONENT_Cr) i j =
        - ((xIntraRecBlk C E cu tu .COMPONENT_Cr
          (xIntraRecBlk C E cu tu .COMPONENT_Cb s)).resi .COMPONENT_Cb).view
          (tu.blocks .COMPONENT_Cb) i j) ∧
    (xIntraRecBlk C E cu tu .COMPONENT_Cr
        (xIntraRecBlk C E cu tu .COMPONENT_Cb s)).resi .COMPONENT_Cb =
      (xIntraRecBlk C E cu tu .COMPONENT_Cb s).resi .COMPONENT_Cb ∧
    (∀ i j, (tu.blocks .COMPONENT_Cr).inside i j →
      ((xDecodeInterTU C E tu .COMPONENT_Cr
          (xDecodeInterTU C E tu .COMPONENT_Cb s)).resi .COMPONENT_Cr).view
          (tu.blocks .COMPONENT_Cr) i j =
        - ((xDecodeInterTU C E tu .COMPONENT_Cr
          (xDecodeInterTU C E tu .COMPONENT_Cb s)).resi .COMPONENT_Cb).view
          (tu.blocks .COMPONENT_Cb) i j) ∧
    (xDecodeInterTU C E tu .COMPONENT_Cr
        (xDecodeInterTU C E tu .COMPONENT_Cb s)).resi .COMPONENT_Cb =
      (xDecodeInterTU C E tu .COMPONENT_Cb s).resi .COMPONENT_Cb := by
  refine ⟨fun i j h => ?_, ?_, fun i j h => ?_, ?_⟩
  · rw [xIntraRecBlk_joint_Cr C E cu tu _ hj ha hv]
    exact negated_of_write _ _ _ i j hv h
  · rw [xIntraRecBlk_joint_Cr C E cu tu _ hj ha hv, Planes.write_other _ _ _ _ _ (by decide)]
  · rw [xDecodeInterTU_joint_Cr C E tu _ hj ha hv]
    exact negated_of_write _ _ _ i j hv h
  · rw [xDecodeInterTU_joint_Cr C E tu _ hj ha hv, Planes.write_other _ _ _ _ _ (by decide)]

/-- C14 amended, at a 2x2 chroma block: the top-left Cr residual after the inter path. -/
theorem jointCbCr_Cr_negated_witness :
    ((xDecodeInterTU (exampleConfig false) exampleExt (exampleTU true) .COMPONENT_Cr
        (xDecodeInterTU (exampleConfig false) exampleExt (exampleTU true) .COMPONENT_Cb
          exampleDec)).resi .COMPONENT_Cr).view ((exampleTU true).blocks .COMPONENT_Cr) 0 0 =
      - ((xDecodeInterTU (exampleConfig false) exampleExt (exampleTU true) .COMPONENT_Cr
        (xDecodeInterTU (exampleConfig false) exampleExt (exampleTU true) .COMPONENT_Cb
          exampleDec)).resi .COMPONENT_Cb).view ((exampleTU true).blocks .COMPONENT_Cb) 0 0 :=
  (jointCbCr_Cr_negated (exampleConfig false) exampleExt (exampleCU .MODE_INTRA) (exampleTU true)
    exampleDec rfl rfl rfl).2.2.1 0 0 ⟨by decide, by decide⟩

theorem xIntraRecBlk_invalid (C : Config) (E : Ext) (cu : CodingUnit) (tu : TransformUnit)
    (compID : ComponentID) (s : Dec) (hv : (tu.blocks compID).valid = false) :
    xIntraRecBlk C E cu tu compID s = s.log (.xIntraRecBlk tu.idx compID) := by
  rw [xIntraRecBlk_stages, hv]
  simp

/-- C15: for a transform unit with `jointCbCr` set, among the calls `xIntraRecBlk` and
`xDecodeInterTU` make for a component there is a residual scaling `scaleSignal` only when the
component is Cb, and it is the scaling of the Cb residual of the unit: none is made when Cr (or
luma) is processed, whatever the coded-block flags, the block size and the reshaper flags are;
and when Cb is processed with its block valid, its coded-block flag set, the chroma residual
scaling enabled and the flag of the function set, the scaling of the Cb residual is made. -/
theorem jointCbCr_Cr_not_scaled (C : Config) (E : Ext) (cu : CodingUnit) (tu : TransformUnit)
    (s : Dec) (hj : tu.jointCbCr = true) :
    (∀ compID, ∃ new, (xIntraRecBlk C E cu tu compID s).trace = s.trace ++ new ∧
      ∀ t c adj, Event.scaleSignal t c adj ∈ new →
        t = tu.idx ∧ c = .COMPONENT_Cb ∧ compID = .COMPONENT_Cb) ∧
    (∀ compID, ∃ new, (xDecodeInterTU C E tu compID s).trace = s.trace ++ new ∧
      ∀ t c adj, Event.scaleSignal t c adj ∈ new →
        t = tu.idx ∧ c = .COMPONENT_Cb ∧ compID = .COMPONENT_Cb) ∧
    ((tu.blocks .COMPONENT_Cb).valid = true → E.getCbf tu .COMPONENT_Cb = true →
      C.lmcsChromaResidualScaleFlag = true →
      (xIntraRecBlk_flag C tu .COMPONENT_Cb = true →
        ∃ adj, Event.scaleSignal tu.idx .COMPONENT_Cb adj ∈
          (xIntraRecBlk C E cu tu .COMPONENT_Cb s).trace) ∧
      (xDecodeInterTU_flag C tu .COMPONENT_Cb = true →
        Event.scaleSignal tu.idx .COMPONENT_Cb (s.chromaAdj tu.idx) ∈
          (xDecodeInterTU C E tu .COMPONENT_Cb s).trace)) := by
  have key : ∀ (compID : ComponentID) (flag : Bool) (adj0 : Int) (t : Nat) (c : ComponentID)
      (adj : Int), Event.scaleSignal t c adj ∈ residualEvents C E tu compID flag adj0 →
      t = tu.idx ∧ c = .COMPONENT_Cb ∧ compID = .COMPONENT_Cb := by
    intro compID flag adj0 t c adj h
    obtain ⟨⟨h1, h2, _⟩, ⟨_, _, h3, _⟩, h4⟩ :=
      (scaleSignal_mem_residualEvents C E tu compID flag adj0 t c adj).mp h
    have h5 : compID = .COMPONENT_Cb := by
      cases compID
      · cases h3
      · rfl
      · exact absurd ⟨hj, rfl⟩ h4
    exact ⟨h1, h2.trans h5, h5⟩
  refine ⟨fun compID => ?_, fun compID => ?_, fun hv hcbf hs => ⟨fun hf => ?_, fun hf => ?_⟩⟩
  · rcases Bool.eq_false_or_eq_true (tu.blocks compID).valid with hv | hv
    · refine ⟨_, xIntraRecBlk_trace C E cu tu compID s hv, ?_⟩
      intro t c adj h
      simp only [List.mem_cons, List.mem_append] at h
      rcases h with h | h | h | h
      · cases h
      · exact absurd h (scaleSignal_not_mem_predEvents C E cu tu compID _ t c adj)
      · exact key _ _ _ _ _ _ h
      · exact absurd h (scaleSignal_not_mem_recoEvents E cu tu compID t c adj)
    · refine ⟨[.xIntraRecBlk tu.idx compID], ?_, ?_⟩
      · rw [xIntraRecBlk_invalid C E cu tu compID s hv]; rfl
      · intro t c adj h
        simp only [List.mem_singleton] at h
        cases h
  · rcases Bool.eq_false_or_eq_true (tu.blocks compID).valid with hv | hv
    · refine ⟨_, xDecodeInterTU_trace C E tu compID s hv, ?_⟩
      intro t c adj h
      simp only [List.mem_cons] at h
      rcases h with h | h
      · cases h
      · exact key _ _ _ _ _ _ h
    · refine ⟨[.xDecodeInterTU tu.idx compID], ?_, ?_⟩
      · rw [xDecodeInterTU_invalid C E tu compID s hv]; rfl
      · intro t c adj h
        simp only [List.mem_singleton] at h
        cases h
  · refine ⟨xIntraRecBlk_storedAdj C E tu .COMPONENT_Cb (s.picPred .COMPONENT_Y)
      (s.chromaAdj tu.idx), ?_⟩
    rw [xIntraRecBlk_trace C E cu tu _ s hv]
    simp only [List.mem_append, List.mem_cons]
    refine Or.inr (Or.inr (Or.inr (Or.inl ?_)))
    exact (scaleSignal_mem_residualEvents C E tu _ _ _ _ _ _).mpr
      ⟨⟨rfl, rfl, rfl⟩, ⟨hf, hcbf, rfl, hs⟩, fun h => by cases h.2⟩
  · rw [xDecodeInterTU_trace C E tu _ s hv]
    simp only [List.mem_append, List.mem_cons]
    refine Or.inr (Or.inr ?_)
    exact (scaleSignal_mem_residualEvents C E tu _ _ _ _ _ _).mpr
      ⟨⟨rfl, rfl, rfl⟩, ⟨hf, hcbf, rfl, hs⟩, fun h => by cases h.2⟩

/-- C15 at a unit coded in the joint chroma mode: the inter path makes no scaling call for Cr
with the stored adjustment 0. -/
theorem jointCbCr_Cr_not_scaled_witness :
    Event.scaleSignal 0 .COMPONENT_Cr 0 ∉
      (xDecodeInterTU (exampleConfig true) exampleExt (exampleTU true) .COMPONENT_Cr
        exampleDec).trace := by
  intro h
  obtain ⟨new, h1, h2⟩ := (jointCbCr_Cr_not_scaled (exampleConfig true) exampleExt
    (exampleCU .MODE_INTER) (exampleTU true) exampleDec rfl).2.1 .COMPONENT_Cr
  rw [h1] at h
  simp only [exampleDec, List.nil_append] at h
  exact absurd (h2 _ _ _ h).2.2 (by decide)

/-- C19: for every transform-unit component with a valid block whose coded-block flag is unset,
other than Cr of a `jointCbCr` unit, `xIntraRecBlk` and `xDecodeInterTU` fill the residual
buffer with zeros and do not invoke the inverse transform; with `compAlpha = 0` for a chroma
component the residual of the block is therefore all zero after either function, and the
reconstruction `xIntraRecBlk` writes equals the clipped prediction. -/
theorem zero_residual_without_cbf (C : Config) (E : Ext) (cu : CodingUnit) (tu : TransformUnit)
    (compID : ComponentID) (s : Dec) (hv : (tu.blocks compID).valid = true)
    (hcbf : E.getCbf tu compID = false)
    (hj : ¬ (tu.jointCbCr = true ∧ compID = .COMPONENT_Cr)) :
    (∃ new, (xIntraRecBlk C E cu tu compID s).trace = s.trace ++ new ∧
      Event.fill tu.idx compID ∈ new ∧ ∀ t c, Event.invTransformNxN t c ∉ new) ∧
    (∃ new, (xDecodeInterTU C E tu compID s).trace = s.trace ++ new ∧
      Event.fill tu.idx compID ∈ new ∧ ∀ t c, Event.invTransformNxN t c ∉ new) ∧
    ((isChroma compID = true → tu.compAlpha compID = 0) →
      ∀ i j, (tu.blocks compID).inside i j →
        ((xIntraRecBlk C E cu tu compID s).resi compID).view (tu.blocks compID) i j = 0 ∧
        ((xDecodeInterTU C E tu compID s).resi compID).view (tu.blocks compID) i j = 0 ∧
        ((xIntraRecBlk C E cu tu compID s).reco compID).view (tu.blocks compID) i j =
          ClipPel (xIntraRecBlk_prediction E cu tu compID
            ((s.log (.xIntraRecBlk tu.idx compID)).log
              (.initIntraPatternChType tu.idx compID)) i j) (C.clpRng compID)) := by
  refine ⟨⟨_, xIntraRecBlk_trace C E cu tu compID s hv, ?_, ?_⟩,
    ⟨_, xDecodeInterTU_trace C E tu compID s hv, ?_, ?_⟩, ?_⟩
  · simp only [List.mem_cons, List.mem_append]
    exact Or.inr (Or.inr (Or.inl (fill_mem_residualEvents C E tu compID _ _ hcbf hj)))
  · intro t c h
    simp only [List.mem_cons, List.mem_append] at h
    rcases h with h | h | h | h
    · cases h
    · exact invTransformNxN_not_mem_predEvents C E cu tu compID _ t c h
    · exact invTransformNxN_not_mem_residualEvents C E tu compID _ _ t c hcbf h
    · exact invTransformNxN_not_mem_recoEvents E cu tu compID t c h
  · simp only [List.mem_cons]
    exact Or.inr (fill_mem_residualEvents C E tu compID _ _ hcbf hj)
  · intro t c h
    simp only [List.mem_cons] at h
    rcases h with h | h
    · cases h
    · exact invTransformNxN_not_mem_residualEvents C E tu compID _ _ t c hcbf h
  · intro ha i j hin
    have hz : ∀ r : Planes, ((Planes.write r compID (tu.blocks compID) (PelBuf.fill 0))
        compID).view (tu.blocks compID) i j = 0 := by
      intro r
      rw [Planes.write_same, Plane.view_write _ _ _ i j hv hin]
      rfl
    refine ⟨?_, ?_, ?_⟩
    · rw [xIntraRecBlk_resi C E cu tu compID s hv,
        residualOfTU_resi_fill C E tu compID _ _ hcbf hj ha]
      exact hz _
    · rw [xDecodeInterTU_resi C E tu compID s hv,
        residualOfTU_resi_fill C E tu compID _ _ hcbf hj ha]
      exact hz _
    · rw [xIntraRecBlk_stages, hv]
      simp only [Bool.not_true, Bool.false_eq_true, if_false]
      rw [xIntraRecBlk_reco_value C E cu tu compID _ hv i j hin,
        residualOfTU_resi_fill C E tu compID _ _ hcbf hj ha, hz,
        (residualOfTU_fields C E tu compID _ _).1,
        (xIntraRecBlk_pred_fields C E cu tu compID _).2.2.1, Planes.write_same,
        Plane.view_write _ _ _ i j hv hin, Int.add_zero]

/-- C19 at the luma block of a unit whose luma coded-block flag is unset: the top-left
residual sample after the inter path. -/
theorem zero_residual_without_cbf_witness :
    ((xDecodeInterTU (exampleConfig false) exampleExt
        { exampleTU false with cbf := fun _ => 0 } .COMPONENT_Y exampleDec).resi
      .COMPONENT_Y).view (exampleArea 4 4) 0 0 = 0 :=
  ((zero_residual_without_cbf (exampleConfig false) exampleExt (exampleCU .MODE_INTER)
    { exampleTU false with cbf := fun _ => 0 } .COMPONENT_Y exampleDec rfl rfl
    (fun h => by cases h.2)).2.2 (fun h => by cases h) 0 0 ⟨by decide, by decide⟩).2.1

theorem setChromaAdj_not_mem_residualEvents (C : Config) (E : Ext) (tu : TransformUnit)
    (compID : ComponentID) (flag : Bool) (adj : Int) (t : Nat) (a : Int) :
    Event.setChromaAdj t a ∉ residualEvents C E tu compID flag adj := by
  unfold residualEvents
  split_ifs <;> simp

theorem setChromaAdj_not_mem_recoEvents (E : Ext) (cu : CodingUnit) (tu : TransformUnit)
    (compID : ComponentID) (t : Nat) (a : Int) :
    Event.setChromaAdj t a ∉ xIntraRecBlk_recoEvents E cu tu compID := by
  unfold xIntraRecBlk_recoEvents
  split_ifs <;> simp

theorem setChromaAdj_mem_predEvents (C : Config) (E : Ext) (cu : CodingUnit)
    (tu : TransformUnit) (compID : ComponentID) (p : Plane) (t : Nat) (a : Int)
    (h : Event.setChromaAdj t a ∈ xIntraRecBlk_predEvents C E cu tu compID p) :
    t = tu.idx ∧ compID ≠ .COMPONENT_Y ∧ a = xIntraRecBlk_adj C E tu p := by
  unfold xIntraRecBlk_predEvents at h
  rw [List.mem_append] at h
  rcases h with h | h
  · exfalso
    revert h
    split_ifs <;> simp
  · by_cases hs : xIntraRecBlk_setsAdj C tu compID = true
    · rw [if_pos hs, List.mem_singleton] at h
      injection h with h1 h2
      refine ⟨h1, ?_, h2⟩
      unfold xIntraRecBlk_setsAdj at hs
      simp only [Bool.and_eq_true, decide_eq_true_eq] at hs
      exact hs.1.2
    · rw [if_neg hs] at h; cases h

theorem xIntraRecBlk_picPred_Y (C : Config) (E : Ext) (cu : CodingUnit) (tu : TransformUnit)
    (compID : ComponentID) (s : Dec) (hc : compID ≠ .COMPONENT_Y) :
    (xIntraRecBlk C E cu tu compID s).picPred .COMPONENT_Y = s.picPred .COMPONENT_Y := by
  rw [xIntraRecBlk_stages]
  split_ifs
  · rfl
  · rw [(xIntraRecBlk_reco_fields C E cu tu compID _).2.2 _ (Ne.symm hc),
      (residualOfTU_fields C E tu compID _ _).2.2.1,
      (xIntraRecBlk_pred_fields C E cu tu compID _).2.1]
    rfl

theorem xDecodeInterTU_chromaAdj (C : Config) (E : Ext) (tu : TransformUnit)
    (compID : ComponentID) (s : Dec) :
    (xDecodeInterTU C E tu compID s).chromaAdj = s.chromaAdj := by
  rw [xDecodeInterTU_stages]
  split_ifs
  · rfl
  · rw [(residualOfTU_fields C E tu compID _ _).2.2.2]
    rfl

/-- C20, the claim refuted on the intra path, with reshaping and chroma residual scaling
active, at a coding unit with one transform unit: `xIntraRecQT` calls `xIntraRecBlk` for Cb and
for Cr, and each of the two calls computes and stores the chroma adjustment of the unit, so
`setChromaAdj` is executed twice during the reconstruction of the unit. -/
theorem xIntraRecQT_setChromaAdj_twice :
    CU.traverseTUs (exampleCU .MODE_INTRA) = [exampleTU false] ∧
    countSetChromaAdj (exampleTU false).idx
      (xIntraRecQT (exampleConfig true) exampleExt (exampleCU .MODE_INTRA) .CHANNEL_TYPE_CHROMA
        exampleDec).trace = 2 :=
  ⟨rfl, by decide⟩

/-- C20, amended: on the inter path (`xDecodeInterTexture`), for a coding unit whose transform
units are distinct, the chroma residual scale factor of a transform unit is computed and stored
(`setChromaAdj`) at most once; `xDecodeInterTU` does not store it and scales a residual with
the value stored for the unit.  On the intra path every call of `xIntraRecBlk` computes and
stores the factor at most once, and only for a chroma component, so `xIntraRecQT` stores it once
when it processes Cb and once more when it processes Cr; the value is computed from the luma
prediction buffer of the picture, which the call for Cb leaves as it is, so both calls store the
same value, and a call scales a residual with the value stored for the unit at that time. -/
theorem chromaAdj_stored_and_used (C : Config) (E : Ext) (cu : CodingUnit) (s : Dec) :
    (((CU.traverseTUs cu).map (fun tu => tu.idx)).Nodup →
      ∀ t, ∃ new, (xDecodeInterTexture C E cu s).trace = s.trace ++ new ∧
        countSetChromaAdj t new ≤ 1) ∧
    (∀ tu compID s1, (xDecodeInterTU C E tu compID s1).chromaAdj = s1.chromaAdj ∧
      ∃ new, (xDecodeInterTU C E tu compID s1).trace = s1.trace ++ new ∧
        ∀ t c a, Event.scaleSignal t c a ∈ new → t = tu.idx ∧ a = s1.chromaAdj tu.idx) ∧
    (∀ tu compID s1, ∃ new, (xIntraRecBlk C E cu tu compID s1).trace = s1.trace ++ new ∧
      countSetChromaAdj tu.idx new ≤ 1 ∧
      (∀ t a, Event.setChromaAdj t a ∈ new →
        t = tu.idx ∧ compID ≠ .COMPONENT_Y ∧
          a = xIntraRecBlk_adj C E tu (s1.picPred .COMPONENT_Y)) ∧
      (∀ t c a, Event.scaleSignal t c a ∈ new →
        t = tu.idx ∧ a = xIntraRecBlk_storedAdj C E tu compID (s1.picPred .COMPONENT_Y)
          (s1.chromaAdj tu.idx))) ∧
    (∀ tu s1, (xIntraRecBlk C E cu tu .COMPONENT_Cb s1).picPred .COMPONENT_Y =
      s1.picPred .COMPONENT_Y) := by
  refine ⟨fun hn t => xDecodeInterTexture_count C E cu s t hn, fun tu compID s1 => ?_,
    fun tu compID s1 => ?_, fun tu s1 => xIntraRecBlk_picPred_Y C E cu tu _ s1 (by decide)⟩
  · refine ⟨xDecodeInterTU_chromaAdj C E tu compID s1, ?_⟩
    rcases Bool.eq_false_or_eq_true (tu.blocks compID).valid with hv | hv
    · refine ⟨_, xDecodeInterTU_trace C E tu compID s1 hv, ?_⟩
      intro t c a h
      simp only [List.mem_cons] at h
      rcases h with h | h
      · cases h
      · have := ((scaleSignal_mem_residualEvents C E tu compID _ _ t c a).mp h).1
        exact ⟨this.1, this.2.2⟩
    · refine ⟨[.xDecodeInterTU tu.idx compID], ?_, ?_⟩
      · rw [xDecodeInterTU_invalid C E tu compID s1 hv]; rfl
      · intro t c a h
        simp only [List.mem_singleton] at h
        cases h
  · rcases Bool.eq_false_or_eq_true (tu.blocks compID).valid with hv | hv
    · refine ⟨_, xIntraRecBlk_trace C E cu tu compID s1 hv, ?_, ?_, ?_⟩
      · rw [← List.singleton_append, countSetChromaAdj_append, countSetChromaAdj_append,
          countSetChromaAdj_append, countSetChromaAdj_residualEvents,
          countSetChromaAdj_recoEvents]
        have := countSetChromaAdj_predEvents C E cu tu compID (s1.picPred .COMPONENT_Y) tu.idx
        have h0 : countSetChromaAdj tu.idx [Event.xIntraRecBlk tu.idx compID] = 0 := rfl
        omega
      · intro t a h
        simp only [List.mem_cons, List.mem_append] at h
        rcases h with h | h | h | h
        · cases h
        · exact setChromaAdj_mem_predEvents C E cu tu compID _ t a h
        · exact absurd h (setChromaAdj_not_mem_residualEvents C E tu compID _ _ t a)
        · exact absurd h (setChromaAdj_not_mem_recoEvents E cu tu compID t a)
      · intro t c a h
        simp only [List.mem_cons, List.mem_append] at h
        rcases h with h | h | h | h
        · cases h
        · exact absurd h (scaleSignal_not_mem_predEvents C E cu tu compID _ t c a)
        · have := ((scaleSignal_mem_residualEvents C E tu compID _ _ t c a).mp h).1
          exact ⟨this.1, this.2.2⟩
        · exact absurd h (scaleSignal_not_mem_recoEvents E cu tu compID t c a)
    · refine ⟨[.xIntraRecBlk tu.idx compID], ?_, ?_, ?_, ?_⟩
      · rw [xIntraRecBlk_stages, hv]; rfl
      · exact Nat.zero_le _
      · intro t a h
        simp only [List.mem_singleton] at h
        cases h
      · intro t c a h
        simp only [List.mem_singleton] at h
        cases h

/-! ## Intra prediction: integer slopes -/

theorem land31 (n : Nat) : n &&& 31 = n % 32 := Nat.and_pow_two_sub_one_eq_mod n 5

theorem ofInt32_land31_eq_zero (a : Int) : 0 = (ofInt32 a &&& 0x1F) ↔ (32 : Int) ∣ a := by
  rw [land31]
  unfold ofInt32
  omega

theorem isIntegerSlope_true (a : Int) : isIntegerSlope true a = true ↔ (32 : Int) ∣ a := by
  unfold isIntegerSlope
  rw [if_pos rfl, decide_eq_true_eq, ofInt32_land31_eq_zero]

theorem isIntegerSlope_false (a : Int) :
    isIntegerSlope false a = true ↔ (32 : Int) ∣ a ∧ a ≤ 32 := by
  unfold isIntegerSlope
  rw [if_neg (by decide), Bool.and_eq_true, decide_eq_true_eq, decide_eq_true_eq,
    ofInt32_land31_eq_zero]

/-- C25: with the wide-angle harmonization `isIntegerSlope( absAng )` holds exactly when
`absAng` is divisible by 32, and without it exactly when `absAng` is divisible by 32 and
`absAng <= 32`; hence the predicate without harmonization implies the one with it, the two
agree for every `absAng <= 32`, and they differ exactly on the multiples of 32 greater
than 32. -/
theorem isIntegerSlope_harmonization (absAng : Int) :
    (isIntegerSlope true absAng = true ↔ (32 : Int) ∣ absAng) ∧
    (isIntegerSlope false absAng = true ↔ (32 : Int) ∣ absAng ∧ absAng ≤ 32) ∧
    (isIntegerSlope false absAng = true → isIntegerSlope true absAng = true) ∧
    (absAng ≤ 32 → isIntegerSlope false absAng = isIntegerSlope true absAng) ∧
    (isIntegerSlope false absAng ≠ isIntegerSlope true absAng ↔
      (32 : Int) ∣ absAng ∧ 32 < absAng) := by
  have ht := isIntegerSlope_true absAng
  have hf := isIntegerSlope_false absAng
  refine ⟨ht, hf, fun h => ht.mpr (hf.mp h).1, fun h => ?_, ?_⟩
  · cases h1 : isIntegerSlope true absAng <;> cases h2 : isIntegerSlope false absAng
    · rfl
    · exact absurd (ht.mpr (hf.mp h2).1) (by rw [h1]; decide)
    · exact absurd (hf.mpr ⟨ht.mp h1, h⟩) (by rw [h2]; decide)
    · rfl
  · cases h1 : isIntegerSlope true absAng <;> cases h2 : isIntegerSlope false absAng
    · constructor
      · intro h; exact absurd rfl h
      · intro h; exact absurd (ht.mpr h.1) (by rw [h1]; decide)
    · exact absurd (ht.mpr (hf.mp h2).1) (by rw [h1]; decide)
    · constructor
      · intro _
        refine ⟨ht.mp h1, ?_⟩
        by_contra hc
        exact absurd (hf.mpr ⟨ht.mp h1, by omega⟩) (by rw [h2]; decide)
      · intro _ h; cases h
    · constructor
      · intro h; exact absurd rfl h
      · intro h; have := (hf.mp h2).2; omega

/-! ## Decoder: the chroma adjustment of the intra path -/

theorem xIntraRecBlk_chromaAdj (C : Config) (E : Ext) (cu : CodingUnit) (tu : TransformUnit)
    (compID : ComponentID) (s : Dec) :
    (xIntraRecBlk C E cu tu compID s).chromaAdj =
      if (tu.blocks compID).valid = true ∧ xIntraRecBlk_setsAdj C tu compID = true
        then Function.update s.chromaAdj tu.idx (xIntraRecBlk_adj C E tu (s.picPred .COMPONENT_Y))
        else s.chromaAdj := by
  rw [xIntraRecBlk_stages]
  rcases Bool.eq_false_or_eq_true (tu.blocks compID).valid with hv | hv
  · rw [hv]
    simp only [Bool.not_true, Bool.false_eq_true, if_false, true_and]
    rw [(xIntraRecBlk_reco_fields C E cu tu compID _).2.1,
      (residualOfTU_fields C E tu compID _ _).2.2.2,
      (xIntraRecBlk_pred_fields C E cu tu compID _).2.2.2]
    rfl
  · rw [hv]
    simp only [Bool.not_false, if_true, Bool.false_eq_true, false_and, if_false]
    rfl

theorem xIntraRecBlk_new_events (C : Config) (E : Ext) (cu : CodingUnit) (tu : TransformUnit)
    (compID : ComponentID) (s : Dec) (hv : (tu.blocks compID).valid = true) :
    (xIntraRecBlk C E cu tu compID s).trace.drop s.trace.length =
      Event.xIntraRecBlk tu.idx compID ::
        (xIntraRecBlk_predEvents C E cu tu compID (s.picPred .COMPONENT_Y) ++
          (residualEvents C E tu compID (xIntraRecBlk_flag C tu compID)
            (xIntraRecBlk_storedAdj C E tu compID (s.picPred .COMPONENT_Y) (s.chromaAdj tu.idx)) ++
          xIntraRecBlk_recoEvents E cu tu compID)) := by
  rw [xIntraRecBlk_trace C E cu tu compID s hv, List.drop_left]

theorem xIntraRecBlk_new_events_invalid (C : Config) (E : Ext) (cu : CodingUnit)
    (tu : TransformUnit) (compID : ComponentID) (s : Dec)
    (hv : (tu.blocks compID).valid = false) :
    (xIntraRecBlk C E cu tu compID s).trace.drop s.trace.length =
      [Event.xIntraRecBlk tu.idx compID] := by
  rw [xIntraRecBlk_stages, hv]
  simp only [Bool.not_false, if_true, Dec.log, List.drop_left]

/-- What a `setChromaAdj` call among the calls of one `xIntraRecBlk` call tells. -/
theorem xIntraRecBlk_setChromaAdj_mem (C : Config) (E : Ext) (cu : CodingUnit)
    (tu : TransformUnit) (compID : ComponentID) (s : Dec) (t : Nat) (a : Int)
    (h : Event.setChromaAdj t a ∈ (xIntraRecBlk C E cu tu compID s).trace.drop s.trace.length) :
    (tu.blocks compID).valid = true ∧ xIntraRecBlk_setsAdj C tu compID = true ∧ t = tu.idx ∧
      compID ≠ .COMPONENT_Y ∧ a = xIntraRecBlk_adj C E tu (s.picPred .COMPONENT_Y) := by
  rcases Bool.eq_false_or_eq_true (tu.blocks compID).valid with hv | hv
  · rw [xIntraRecBlk_new_events C E cu tu compID s hv] at h
    simp only [List.mem_cons, List.mem_append] at h
    rcases h with h | h | h | h
    · cases h
    · have h3 := setChromaAdj_mem_predEvents C E cu tu compID _ t a h
      refine ⟨hv, ?_, h3⟩
      by_contra hs
      unfold xIntraRecBlk_predEvents at h
      rw [if_neg hs, List.append_nil] at h
      revert h
      split_ifs <;> simp
    · exact absurd h (setChromaAdj_not_mem_residualEvents C E tu compID _ _ t a)
    · exact absurd h (setChromaAdj_not_mem_recoEvents E cu tu compID t a)
  · rw [xIntraRecBlk_new_events_invalid C E cu tu compID s hv, List.mem_singleton] at h
    cases h

/-- C21: whenever `xIntraRecBlk` stores a chroma adjustment for a transform unit (a
`setChromaAdj` call among the calls it makes), the component is a chroma component and the value,
which is then the one stored for the unit, is `calculateChromaAdj( avg )`, `avg` being the
average of the luma prediction buffer of the picture over the area `tu.Y()` when that is valid
and otherwise over `tu.blocks[tu.chType]` converted to luma coordinates; the value does not
depend on the component processed: when `xIntraRecBlk` is called for Cb and then for Cr, the
two calls store the same value. -/
theorem xIntraRecBlk_chromaAdj_from_luma_average (C : Config) (E : Ext) (cu : CodingUnit)
    (tu : TransformUnit) (s : Dec) :
    let areaY := if tu.Y.valid then tu.Y
      else E.recalcArea tu.chromaFormat tu.chType (tu.blocks tu.chType.toComponent)
    let adj := C.calculateChromaAdj (E.computeAvg areaY ((s.picPred .COMPONENT_Y).view areaY))
    (∀ compID t a,
      Event.setChromaAdj t a ∈ (xIntraRecBlk C E cu tu compID s).trace.drop s.trace.length →
        t = tu.idx ∧ compID ≠ .COMPONENT_Y ∧ a = adj ∧
          (xIntraRecBlk C E cu tu compID s).chromaAdj tu.idx = adj) ∧
    (∀ a b,
      Event.setChromaAdj tu.idx a ∈
        (xIntraRecBlk C E cu tu .COMPONENT_Cb s).trace.drop s.trace.length →
      Event.setChromaAdj tu.idx b ∈
        (xIntraRecBlk C E cu tu .COMPONENT_Cr (xIntraRecBlk C E cu tu .COMPONENT_Cb s)).trace.drop
          (xIntraRecBlk C E cu tu .COMPONENT_Cb s).trace.length →
      a = adj ∧ b = adj ∧
        (xIntraRecBlk C E cu tu .COMPONENT_Cr
          (xIntraRecBlk C E cu tu .COMPONENT_Cb s)).chromaAdj tu.idx = adj) := by
  intro areaY adj
  have key : ∀ compID (s1 : Dec) t a,
      Event.setChromaAdj t a ∈ (xIntraRecBlk C E cu tu compID s1).trace.drop s1.trace.length →
        t = tu.idx ∧ compID ≠ .COMPONENT_Y ∧
          a = xIntraRecBlk_adj C E tu (s1.picPred .COMPONENT_Y) ∧
          (xIntraRecBlk C E cu tu compID s1).chromaAdj tu.idx =
            xIntraRecBlk_adj C E tu (s1.picPred .COMPONENT_Y) := by
    intro compID s1 t a h
    obtain ⟨hv, hs, ht, hc, ha⟩ := xIntraRecBlk_setChromaAdj_mem C E cu tu compID s1 t a h
    refine ⟨ht, hc, ha, ?_⟩
    rw [xIntraRecBlk_chromaAdj, if_pos ⟨hv, hs⟩, Function.update_same]
  refine ⟨fun compID t a h => key compID s t a h, fun a b ha hb => ?_⟩
  have h1 := key _ s _ _ ha
  have h2 := key _ _ _ _ hb
  rw [xIntraRecBlk_picPred_Y C E cu tu _ s (by decide)] at h2
  exact ⟨h1.2.2.1, h2.2.2.1, h2.2.2.2⟩

/-- C21 with reshaping and chroma residual scaling active, at the Cb block of an intra transform
unit: the call stores `calculateChromaAdj( 0 ) = 2`. -/
theorem xIntraRecBlk_chromaAdj_from_luma_average_witness :
    (xIntraRecBlk (exampleConfig true) exampleExt (exampleCU .MODE_INTRA) (exampleTU false)
      .COMPONENT_Cb exampleDec).chromaAdj 0 = 2 :=
  ((xIntraRecBlk_chromaAdj_from_luma_average (exampleConfig true) exampleExt
    (exampleCU .MODE_INTRA) (exampleTU false) exampleDec).1 .COMPONENT_Cb 0 2 (by decide)).2.2.2

/-! ## Decoder: the order of the calls -/

theorem xReconInter_rest_stages (C : Config) (E : Ext) (cu : CodingUnit) (s : Dec) :
    xReconInter_rest C E cu s =
      xReconInter_setDecomp cu (xReconInter_recon C cu (xDecodeInterTexture C E cu
        (xReconInter_mhIntra C E cu (xReconInter_lut C E cu s)))) := by
  unfold xReconInter_rest xReconInter_setDecomp xReconInter_recon xReconInter_reconCbf
    xReconInter_reconNoCbf xReconInter_mhIntra xReconInter_lut
  rfl

theorem Dec.Grows.refl (p : Event → Bool) (s : Dec) : Dec.Grows p s s :=
  ⟨[], (List.append_nil _).symm, fun _ h => by cases h⟩

theorem Dec.Grows.trans {p : Event → Bool} {s s1 s2 : Dec} (h1 : Dec.Grows p s s1)
    (h2 : Dec.Grows p s1 s2) : Dec.Grows p s s2 := by
  obtain ⟨n1, e1, q1⟩ := h1
  obtain ⟨n2, e2, q2⟩ := h2
  refine ⟨n1 ++ n2, by rw [e2, e1, List.append_assoc], fun e he => ?_⟩
  rcases List.mem_append.mp he with h | h
  · exact q1 e h
  · exact q2 e h

theorem Dec.Grows.of_trace {p : Event → Bool} {s s1 s2 : Dec} (h1 : Dec.Grows p s s1)
    (h2 : s2.trace = s1.trace) : Dec.Grows p s s2 := by
  obtain ⟨n1, e1, q1⟩ := h1
  exact ⟨n1, by rw [h2, e1], q1⟩

theorem Dec.Grows.log {p : Event → Bool} {s s1 : Dec} (h1 : Dec.Grows p s s1) (e : Event)
    (he : p e = true) : Dec.Grows p s (s1.log e) := by
  obtain ⟨n1, e1, q1⟩ := h1
  refine ⟨n1 ++ [e], by simp only [Dec.log, e1, List.append_assoc], fun x hx => ?_⟩
  rcases List.mem_append.mp hx with h | h
  · exact q1 x h
  · rw [List.mem_singleton.mp h]; exact he

theorem Dec.Grows.mono {p q : Event → Bool} {s s1 : Dec} (h : Dec.Grows p s s1)
    (hpq : ∀ e, p e = true → q e = true) : Dec.Grows q s s1 := by
  obtain ⟨n1, e1, q1⟩ := h
  exact ⟨n1, e1, fun e he => hpq e (q1 e he)⟩

theorem Dec.Grows.writePred {p : Event → Bool} {s s1 : Dec} (h1 : Dec.Grows p s s1)
    (c : ComponentID) (a : CompArea) (b : Plane) : Dec.Grows p s (s1.writePred c a b) :=
  h1.of_trace rfl

theorem Dec.Grows.writeResi {p : Event → Bool} {s s1 : Dec} (h1 : Dec.Grows p s s1)
    (c : ComponentID) (a : CompArea) (b : Plane) : Dec.Grows p s (s1.writeResi c a b) :=
  h1.of_trace rfl

theorem Dec.Grows.writeReco {p : Event → Bool} {s s1 : Dec} (h1 : Dec.Grows p s s1)
    (c : ComponentID) (a : CompArea) (b : Plane) : Dec.Grows p s (s1.writeReco c a b) :=
  h1.of_trace rfl

theorem Dec.Grows.writePicPred {p : Event → Bool} {s s1 : Dec} (h1 : Dec.Grows p s s1)
    (c : ComponentID) (a : CompArea) (b : Plane) : Dec.Grows p s (s1.writePicPred c a b) :=
  h1.of_trace rfl

theorem Dec.Grows.writePicReco {p : Event → Bool} {s s1 : Dec} (h1 : Dec.Grows p s s1)
    (c : ComponentID) (a : CompArea) (b : Plane) : Dec.Grows p s (s1.writePicReco c a b) :=
  h1.of_trace rfl

theorem Dec.Grows.writeTmp {p : Event → Bool} {s s1 : Dec} (h1 : Dec.Grows p s s1)
    (a : CompArea) (b : Plane) : Dec.Grows p s (s1.writeTmp a b) :=
  h1.of_trace rfl

theorem Dec.Grows.setChromaAdj {p : Event → Bool} {s s1 : Dec} (h1 : Dec.Grows p s s1)
    (t : Nat) (a : Int) : Dec.Grows p s (s1.setChromaAdj t a) :=
  h1.of_trace rfl

theorem Dec.Grows.setPcm {p : Event → Bool} {s s1 : Dec} (h1 : Dec.Grows p s s1)
    (t : Nat) (c : ComponentID) (b : Plane) : Dec.Grows p s (s1.setPcm t c b) :=
  h1.of_trace rfl

theorem Dec.Grows.foldl {α : Type} {p : Event → Bool} (f : Dec → α → Dec)
    (hf : ∀ s x, Dec.Grows p s (f s x)) :
    ∀ (l : List α) (s s1 : Dec), Dec.Grows p s s1 → Dec.Grows p s (l.foldl f s1) := by
  intro l
  induction l with
  | nil => intro s s1 h; exact h
  | cons x xs ih => intro s s1 h; exact ih s (f s1 x) (h.trans (hf s1 x))

theorem Dec.Grows.validBlocks {p : Event → Bool} (blocks : ComponentID → CompArea)
    (f : ComponentID → CompArea → Dec → Dec) (hf : ∀ c a s, Dec.Grows p s (f c a s))
    {s s1 : Dec} (h : Dec.Grows p s s1) : Dec.Grows p s (forValidBlocks blocks f s1) := by
  unfold forValidBlocks
  refine Dec.Grows.foldl _ (fun s2 c => ?_) _ s s1 h
  split_ifs
  · exact hf c _ s2
  · exact Dec.Grows.refl p s2

/-- The calls a `forValidBlocks` pass records when it records one call per valid block. -/
theorem forValidBlocks_trace (blocks : ComponentID → CompArea)
    (f : ComponentID → CompArea → Dec → Dec) (kind : ComponentID → CompArea → Event)
    (hf : ∀ c a s, (f c a s).trace = s.trace ++ [kind c a]) (s : Dec) :
    (forValidBlocks blocks f s).trace = s.trace ++ validBlockEvents blocks kind := by
  unfold forValidBlocks validBlockEvents
  simp only [List.foldl_cons, List.foldl_nil, List.filter_cons, List.filter_nil]
  split_ifs <;> simp [hf]

theorem residualOfTU_grows (C : Config) (E : Ext) (tu : TransformUnit) (compID : ComponentID)
    (flag : Bool) (s : Dec) (p : Event → Bool)
    (hq : ∀ e, e.isDerive = false → e.isSetDecomp = false → p e = true) :
    Dec.Grows p s (residualOfTU C E tu compID flag s) := by
  refine ⟨_, by rw [residualOfTU_trace, List.append_assoc, List.append_assoc], fun e he => ?_⟩
  simp only [List.mem_append, List.mem_singleton] at he
  rcases he with h | h | h
  · rw [h]; split_ifs <;> exact hq _ rfl rfl
  · split_ifs at h
    · rw [List.mem_singleton.mp h]; exact hq _ rfl rfl
    · cases h
  · split_ifs at h
    · rw [List.mem_singleton.mp h]; exact hq _ rfl rfl
    · cases h

theorem xDecodeInterTU_grows (C : Config) (E : Ext) (tu : TransformUnit) (compID : ComponentID)
    (s : Dec) (p : Event → Bool)
    (hq : ∀ e, e.isDerive = false → e.isSetDecomp = false → p e = true) :
    Dec.Grows p s (xDecodeInterTU C E tu compID s) := by
  rw [xDecodeInterTU_stages]
  split_ifs
  · exact (Dec.Grows.refl p s).log _ (hq _ rfl rfl)
  · exact ((Dec.Grows.refl p s).log (.xDecodeInterTU tu.idx compID) (hq _ rfl rfl)).trans
      (residualOfTU_grows C E tu compID _ _ p hq)

theorem xDecodeInterTexture_adj_grows (C : Config) (E : Ext) (cu : CodingUnit)
    (compID : ComponentID) (tu : TransformUnit) (s : Dec) (p : Event → Bool)
    (hq : ∀ e, e.isDerive = false → e.isSetDecomp = false → p e = true) :
    Dec.Grows p s (xDecodeInterTexture_adj C E cu compID tu s) := by
  unfold xDecodeInterTexture_adj
  simp only []
  split_ifs
  · refine Dec.Grows.log ?_ _ (hq _ rfl rfl)
    refine Dec.Grows.setChromaAdj ?_ _ _
    refine Dec.Grows.log ?_ _ (hq _ rfl rfl)
    exact ((Dec.Grows.refl p s).writeTmp _ _).writeTmp _ _
  · refine Dec.Grows.log ?_ _ (hq _ rfl rfl)
    refine Dec.Grows.setChromaAdj ?_ _ _
    exact (Dec.Grows.refl p s).writeTmp _ _
  · exact Dec.Grows.refl p s

theorem xDecodeInterTexture_grows (C : Config) (E : Ext) (cu : CodingUnit) (s : Dec)
    (p : Event → Bool) (hq : ∀ e, e.isDerive = false → e.isSetDecomp = false → p e = true) :
    Dec.Grows p s (xDecodeInterTexture C E cu s) := by
  rw [xDecodeInterTexture_steps]
  split_ifs
  · exact Dec.Grows.refl p s
  · refine Dec.Grows.foldl _ (fun s1 compID => ?_) _ s s (Dec.Grows.refl p s)
    refine Dec.Grows.foldl _ (fun s2 tu => ?_) _ s1 s1 (Dec.Grows.refl p s1)
    unfold xDecodeInterTexture_step
    exact (xDecodeInterTexture_adj_grows C E cu compID tu s2 p hq).trans
      (xDecodeInterTU_grows C E tu compID _ p hq)

theorem xReconInter_lut_grows (C : Config) (E : Ext) (cu : CodingUnit) (s : Dec)
    (p : Event → Bool) (hq : ∀ e, e.isDerive = false → e.isSetDecomp = false → p e = true) :
    Dec.Grows p s (xReconInter_lut C E cu s) := by
  unfold xReconInter_lut
  simp only []
  split_ifs
  all_goals first
    | exact Dec.Grows.refl p s
    | exact Dec.Grows.log ((Dec.Grows.refl p s).of_trace rfl) _ (hq _ rfl rfl)

theorem xReconInter_mhIntra_grows (C : Config) (E : Ext) (cu : CodingUnit) (s : Dec)
    (p : Event → Bool) (hq : ∀ e, e.isDerive = false → e.isSetDecomp = false → p e = true) :
    Dec.Grows p s (xReconInter_mhIntra C E cu s) := by
  unfold xReconInter_mhIntra
  simp only []
  have hstep : ∀ (s2 : Dec) (c : ComponentID), Dec.Grows p s2
      ((s2.writePred c (cu.firstPU.blocks c)
        (E.geneWeightedPred c ((s2.pred c).view (cu.firstPU.blocks c)) cu.firstPU s2)).log
          (.geneWeightedPred cu.idx c)) :=
    fun s2 c => ((Dec.Grows.refl p s2).writePred _ _ _).log _ (hq _ rfl rfl)
  split_ifs
  · exact Dec.Grows.foldl _ hstep _ s _
      (((Dec.Grows.refl p s).writePred _ _ _).log _ (hq _ rfl rfl))
  · exact Dec.Grows.foldl _ hstep _ s _ (Dec.Grows.refl p s)
  · exact Dec.Grows.refl p s

theorem forValidBlocks_trace_eq (blocks : ComponentID → CompArea)
    (f : ComponentID → CompArea → Dec → Dec) (hf : ∀ c a s, (f c a s).trace = s.trace)
    (s : Dec) : (forValidBlocks blocks f s).trace = s.trace := by
  unfold forValidBlocks
  simp only [List.foldl_cons, List.foldl_nil]
  split_ifs <;> simp [hf]

/-- The calls the reconstruction of `xReconInter` records: the write of the reconstruction of
every valid block, after the forward mapping of the luma prediction when the unit has a coded
residual, before the forward mapping of the luma reconstruction when it has none. -/
theorem xReconInter_recon_trace (C : Config) (cu : CodingUnit) (s : Dec) :
    (xReconInter_recon C cu s).trace = s.trace ++
      ((if cu.rootCbf && (C.lmcsEnabledFlag && C.reshapeCTUFlag) &&
          (!cu.firstPU.mhIntraFlag && !CU.isIBC cu)
        then [Event.rspSignal .predBuf cu.idx] else []) ++
      (validBlockEvents cu.blocks Event.writeReco ++
      (if !cu.rootCbf && (C.lmcsEnabledFlag && C.reshapeCTUFlag && !cu.firstPU.mhIntraFlag &&
          !CU.isIBC cu)
        then [Event.rspSignal .recoBuf cu.idx] else []))) := by
  have h1 : ∀ s1 : Dec, (forValidBlocks cu.blocks (fun c a s =>
      (s.writeReco c a (PelBuf.reconstruct ((s.pred c).view a) ((s.resi c).view a)
        (C.clpRng c))).log (.writeReco c a)) s1).trace =
      s1.trace ++ validBlockEvents cu.blocks Event.writeReco :=
    fun s1 => by apply forValidBlocks_trace; intro c a s; rfl
  have h2 : ∀ s1 : Dec, (forValidBlocks cu.blocks (fun c a s =>
      (s.writeReco c a ((s.resi c).view a)).log (.writeReco c a)) s1).trace =
      s1.trace ++ validBlockEvents cu.blocks Event.writeReco :=
    fun s1 => by apply forValidBlocks_trace; intro c a s; rfl
  have h3 : ∀ s1 : Dec, (forValidBlocks cu.blocks (fun c a s =>
      (s.writeReco c a (PelBuf.copyClip ((s.pred c).view a) (C.clpRng c))).log
        (.writeReco c a)) s1).trace =
      s1.trace ++ validBlockEvents cu.blocks Event.writeReco :=
    fun s1 => by apply forValidBlocks_trace; intro c a s; rfl
  have h4 : ∀ s1 : Dec, (forValidBlocks cu.blocks (fun c a s =>
      s.writeResi c a (PelBuf.reconstruct ((s.pred c).view a) ((s.resi c).view a)
        (C.clpRng c))) s1).trace = s1.trace :=
    fun s1 => by apply forValidBlocks_trace_eq; intro c a s; rfl
  have hl : ∀ (s1 : Dec) (e : Event), (s1.log e).trace = s1.trace ++ [e] := fun _ _ => rfl
  have hp : ∀ (s1 : Dec) c a b, (s1.writePred c a b).trace = s1.trace := fun _ _ _ _ => rfl
  have hr : ∀ (s1 : Dec) c a b, (s1.writeReco c a b).trace = s1.trace := fun _ _ _ _ => rfl
  have ht : ∀ (s1 : Dec) a b, (s1.writeTmp a b).trace = s1.trace := fun _ _ _ => rfl
  unfold xReconInter_recon xReconInter_reconCbf xReconInter_reconNoCbf
  simp only []
  cases cu.rootCbf
  · simp only [Bool.false_eq_true, if_false, Bool.false_and, Bool.not_false, Bool.true_and,
      List.nil_append]
    split_ifs <;> simp only [hl, hr, h3, List.append_assoc, List.append_nil]
  · simp only [if_true, Bool.true_and, Bool.not_true, Bool.false_and, Bool.false_eq_true,
      if_false, List.append_nil]
    split_ifs <;> simp_all [hl, hp, hr, ht, h1, h2, h4]

theorem xReconInter_predict_grows (E : Ext) (cu : CodingUnit) (s s1 : Dec) (p : Event → Bool)
    (hq : ∀ e, e.isDerive = false → e.isSetDecomp = false → p e = true)
    (h : xReconInter_predict E cu s = .ok s1) : Dec.Grows p s s1 := by
  have hw : ∀ (blk : Planes) (s2 : Dec), Dec.Grows p s2
      (forValidBlocks cu.blocks (fun c a s => s.writePred c a (blk c)) s2) :=
    fun blk s2 => Dec.Grows.validBlocks _ _
      (fun c a s3 => (Dec.Grows.refl p s3).writePred _ _ _) (Dec.Grows.refl p s2)
  have hw2 : ∀ (blk : Planes) (f : ComponentID → Bool) (s2 s3 : Dec), Dec.Grows p s2 s3 →
      Dec.Grows p s2 (forValidBlocks cu.blocks (fun c a s =>
        if f c then s.writePred c a (blk c) else s) s3) := by
    intro blk f s2 s3 h23
    refine Dec.Grows.validBlocks _ _ (fun c a s4 => ?_) h23
    split_ifs
    · exact (Dec.Grows.refl p s4).writePred _ _ _
    · exact Dec.Grows.refl p s4
  unfold xReconInter_predict at h
  simp only [bind, Except.bind, pure, Except.pure, CHECK] at h
  split_ifs at h
  all_goals first
    | (cases h; done)
    | (cases h
       refine Dec.Grows.log ?_ _ (hq _ rfl rfl)
       refine Dec.Grows.log ?_ _ (hq _ rfl rfl)
       exact hw _ s)
    | (cases h
       refine Dec.Grows.log ?_ _ (hq _ rfl rfl)
       exact ((Dec.Grows.refl p s).log (.geneIntrainterPred cu.idx) (hq _ rfl rfl)).trans
         (hw _ _))
    | (cases h
       refine Dec.Grows.log ?_ _ (hq _ rfl rfl)
       exact hw2 _ _ s _ ((Dec.Grows.refl p s).log (.geneIntrainterPred cu.idx) (hq _ rfl rfl)))

/-- The calls of a successful `xReconInter`: the call itself, then calls that neither derive
motion nor mark a block as decoded and that include the write of the reconstruction of every
valid block of the unit, and last the calls that mark the valid blocks of the unit as
decoded. -/
theorem xReconInter_trace (C : Config) (E : Ext) (cu : CodingUnit) (s s1 : Dec)
    (h : xReconInter C E cu s = .ok s1) :
    ∃ pre, s1.trace = s.trace ++ (Event.xReconInter cu.idx :: pre ++
        validBlockEvents cu.blocks Event.setDecomp) ∧
      (∀ e ∈ pre, e.isDerive = false ∧ e.isSetDecomp = false) ∧
      (∀ e ∈ validBlockEvents cu.blocks Event.writeReco, e ∈ pre) := by
  unfold xReconInter at h
  simp only [bind, Except.bind, pure, Except.pure] at h
  split at h
  · cases h
  · rename_i s2 h2
    cases h
    have hq : ∀ e : Event, e.isDerive = false → e.isSetDecomp = false →
        (!e.isDerive && !e.isSetDecomp) = true := fun e h1 h2 => by rw [h1, h2]; rfl
    obtain ⟨n1, e1, q1⟩ := ((xReconInter_predict_grows E cu _ s2 _ hq h2).trans
      ((xReconInter_lut_grows C E cu s2 _ hq).trans
        ((xReconInter_mhIntra_grows C E cu _ _ hq).trans
          (xDecodeInterTexture_grows C E cu _ _ hq))))
    rw [xReconInter_rest_stages]
    unfold xReconInter_setDecomp
    rw [forValidBlocks_trace _ _ Event.setDecomp (fun _ _ _ => rfl), xReconInter_recon_trace, e1]
    refine ⟨n1 ++ ((if cu.rootCbf && (C.lmcsEnabledFlag && C.reshapeCTUFlag) &&
          (!cu.firstPU.mhIntraFlag && !CU.isIBC cu)
        then [Event.rspSignal .predBuf cu.idx] else []) ++
      (validBlockEvents cu.blocks Event.writeReco ++
      (if !cu.rootCbf && (C.lmcsEnabledFlag && C.reshapeCTUFlag && !cu.firstPU.mhIntraFlag &&
          !CU.isIBC cu)
        then [Event.rspSignal .recoBuf cu.idx] else []))), ?_, ?_, ?_⟩
    · simp only [Dec.log, List.append_assoc, List.cons_append, List.nil_append,
        List.singleton_append]
    · intro e he
      simp only [List.mem_append] at he
      rcases he with he | he | he | he
      · have := q1 e he
        simp only [Bool.and_eq_true, Bool.not_eq_true'] at this
        exact this
      · split_ifs at he
        · rw [List.mem_singleton.mp he]; exact ⟨rfl, rfl⟩
        · cases he
      · unfold validBlockEvents at he
        obtain ⟨c, _, hc⟩ := List.mem_map.mp he
        rw [← hc]; exact ⟨rfl, rfl⟩
      · split_ifs at he
        · rw [List.mem_singleton.mp he]; exact ⟨rfl, rfl⟩
        · cases he
    · intro e he
      simp only [List.mem_append]
      exact Or.inr (Or.inr (Or.inl he))

theorem xIntraRecBlk_pred_grows (C : Config) (E : Ext) (cu : CodingUnit) (tu : TransformUnit)
    (compID : ComponentID) (s : Dec) (p : Event → Bool)
    (hq : ∀ e, e.isDerive = false → e.isSetDecomp = false → p e = true) :
    Dec.Grows p s (xIntraRecBlk_pred C E cu tu compID s) := by
  refine ⟨_, by rw [xIntraRecBlk_pred_trace, List.append_assoc], fun e he => ?_⟩
  simp only [List.mem_append, List.mem_cons, List.mem_singleton, List.not_mem_nil,
    or_false] at he
  rcases he with (h | h) | h
  · rw [h]; exact hq _ rfl rfl
  · rw [h]; split_ifs <;> exact hq _ rfl rfl
  · split_ifs at h
    · rw [List.mem_singleton.mp h]; exact hq _ rfl rfl
    · cases h

theorem xIntraRecBlk_grows (C : Config) (E : Ext) (cu : CodingUnit) (tu : TransformUnit)
    (compID : ComponentID) (s : Dec) (p : Event → Bool)
    (hp : ∀ e, e.isDerive = false → p e = true) :
    Dec.Grows p s (xIntraRecBlk C E cu tu compID s) := by
  have h0 : Dec.Grows p s (s.log (.xIntraRecBlk tu.idx compID)) :=
    (Dec.Grows.refl p s).log _ (hp _ rfl)
  have h3 : ∀ s1 : Dec, Dec.Grows p s1 (xIntraRecBlk_reco C E cu tu compID s1) := by
    intro s1
    refine ⟨_, by rw [xIntraRecBlk_reco_trace, List.append_assoc], fun e he => ?_⟩
    simp only [List.mem_append, List.mem_singleton] at he
    rcases he with h | h
    · split_ifs at h
      · rw [List.mem_singleton.mp h]; exact hp _ rfl
      · rw [List.mem_singleton.mp h]; exact hp _ rfl
      · cases h
    · rw [h]; exact hp _ rfl
  rw [xIntraRecBlk_stages]
  split_ifs
  · exact h0
  · exact h0.trans ((xIntraRecBlk_pred_grows C E cu tu compID _ p (fun e h _ => hp e h)).trans
      ((residualOfTU_grows C E tu compID _ _ p (fun e h _ => hp e h)).trans (h3 _)))

theorem xIntraRecQT_grows (C : Config) (E : Ext) (cu : CodingUnit) (chType : ChannelType)
    (s : Dec) (p : Event → Bool) (hp : ∀ e, e.isDerive = false → p e = true) :
    Dec.Grows p s (xIntraRecQT C E cu chType s) := by
  unfold xIntraRecQT
  refine Dec.Grows.foldl _ (fun s1 tu => ?_) _ s s (Dec.Grows.refl p s)
  split_ifs
  · exact xIntraRecBlk_grows C E cu tu _ s1 p hp
  · exact Dec.Grows.foldl _ (fun s2 c => xIntraRecBlk_grows C E cu tu c s2 p hp) _ s1 s1
      (Dec.Grows.refl p s1)

theorem xDecodePCMTexture_grows (C : Config) (tu : TransformUnit) (compID : ComponentID)
    (s : Dec) (p : Event → Bool) (hp : ∀ e, e.isDerive = false → p e = true) :
    Dec.Grows p s (xDecodePCMTexture C tu compID s) := by
  unfold xDecodePCMTexture
  simp only []
  refine Dec.Grows.log ?_ _ (hp _ rfl)
  refine Dec.Grows.writePicReco ?_ _ _ _
  refine Dec.Grows.log ?_ _ (hp _ rfl)
  exact (Dec.Grows.refl p s).writeReco _ _ _

theorem xReconPCM_grows (C : Config) (tu : TransformUnit) (s : Dec) (p : Event → Bool)
    (hp : ∀ e, e.isDerive = false → p e = true) :
    Dec.Grows p s (xReconPCM C tu s) := by
  unfold xReconPCM
  simp only []
  exact Dec.Grows.foldl _ (fun s1 c => xDecodePCMTexture_grows C tu c s1 p hp) _ s _
    ((Dec.Grows.refl p s).log (.xReconPCM tu.idx) (hp _ rfl))

theorem xReconIntraQT_trace (C : Config) (E : Ext) (cu : CodingUnit) (s : Dec) :
    ∃ new, (xReconIntraQT C E cu s).trace = s.trace ++ Event.xReconIntraQT cu.idx :: new ∧
      ∀ e ∈ new, e.isDerive = false := by
  have hp : ∀ e : Event, e.isDerive = false → (!e.isDerive) = true :=
    fun e h => by rw [h]; rfl
  have key : Dec.Grows (fun e => !e.isDerive) (s.log (.xReconIntraQT cu.idx))
      (xReconIntraQT C E cu s) := by
    unfold xReconIntraQT
    simp only []
    split_ifs
    · exact xReconPCM_grows C _ _ _ hp
    · refine Dec.Grows.foldl _ (fun s1 t => ?_) _ _ _ (Dec.Grows.refl _ _)
      split_ifs
      · exact xIntraRecQT_grows C E cu t s1 _ hp
      · exact Dec.Grows.refl _ s1
  obtain ⟨new, e1, q1⟩ := key
  refine ⟨new, ?_, fun e he => ?_⟩
  · rw [e1]; simp only [Dec.log, List.append_assoc, List.singleton_append]
  · have := q1 e he
    simpa using this

theorem xFillPCMBuffer_trace (cu : CodingUnit) (s : Dec) :
    (xFillPCMBuffer cu s).trace = s.trace ++ [Event.xFillPCMBuffer cu.idx] := by
  have key : Dec.Grows (fun _ => false) (s.log (.xFillPCMBuffer cu.idx))
      (xFillPCMBuffer cu s) := by
    unfold xFillPCMBuffer
    simp only []
    refine Dec.Grows.foldl _ (fun s1 tu => ?_) _ _ _ (Dec.Grows.refl _ _)
    refine Dec.Grows.foldl _ (fun s2 c => ?_) _ _ _ (Dec.Grows.refl _ _)
    split_ifs
    · exact Dec.Grows.refl _ s2
    · exact (Dec.Grows.refl _ s2).setPcm _ _ _
  obtain ⟨new, e1, q1⟩ := key
  cases new with
  | nil => rw [e1]; simp only [Dec.log, List.append_nil]
  | cons x xs => exact absurd (q1 x (List.mem_cons_self _ _)) Bool.false_ne_true

theorem xDeriveCUMV_merge_grows (C : Config) (E : Ext) (d d1 : DeriveState) (p : Event → Bool)
    (hq : ∀ e, e.isDerive = false → e.isSetDecomp = false → p e = true)
    (h : xDeriveCUMV_merge C E d = .ok d1) : Dec.Grows p d.s d1.s := by
  unfold xDeriveCUMV_merge at h
  simp only [CHECK, bind, Except.bind, pure, Except.pure] at h
  split_ifs at h
  all_goals first
    | (cases h; done)
    | (cases h; exact Dec.Grows.log (Dec.Grows.refl p d.s) _ (hq _ rfl rfl))
    | (cases h; exact (Dec.Grows.refl p d.s).of_trace rfl)

theorem xDeriveCUMV_affineAMVP_grows (C : Config) (E : Ext) (cu : CodingUnit) (i : Nat)
    (ps ps1 : PredictionUnit × Dec) (p : Event → Bool)
    (hq : ∀ e, e.isDerive = false → e.isSetDecomp = false → p e = true)
    (h : xDeriveCUMV_affineAMVP C E cu i ps = .ok ps1) : Dec.Grows p ps.2 ps1.2 := by
  unfold xDeriveCUMV_affineAMVP at h
  simp only [CHECK, bind, Except.bind, pure, Except.pure] at h
  split_ifs at h
  all_goals first
    | (cases h; done)
    | (cases h; exact Dec.Grows.log (Dec.Grows.refl p ps.2) _ (hq _ rfl rfl))
    | (cases h; exact Dec.Grows.refl p ps.2)

theorem xDeriveCUMV_nonMerge_grows (C : Config) (E : Ext) (d d1 : DeriveState)
    (p : Event → Bool) (hq : ∀ e, e.isDerive = false → e.isSetDecomp = false → p e = true)
    (h : xDeriveCUMV_nonMerge C E d = .ok d1) : Dec.Grows p d.s d1.s := by
  unfold xDeriveCUMV_nonMerge at h
  simp only [bind, Except.bind, pure, Except.pure] at h
  split_ifs at h
  all_goals first
    | (cases h; exact Dec.Grows.log (Dec.Grows.refl p d.s) _ (hq _ rfl rfl))
    | (split at h
       · cases h
       · split at h
         · cases h
         · rename_i ps1 h1 _ ps2 h2
           cases h
           exact Dec.Grows.log
             ((xDeriveCUMV_affineAMVP_grows C E _ _ _ _ p hq h1).trans
               (xDeriveCUMV_affineAMVP_grows C E _ _ _ _ p hq h2)) _ (hq _ rfl rfl))

theorem xDeriveCUMV_motion_grows (C : Config) (E : Ext) (d d1 : DeriveState) (p : Event → Bool)
    (hq : ∀ e, e.isDerive = false → e.isSetDecomp = false → p e = true)
    (h : xDeriveCUMV_motion C E d = .ok d1) : Dec.Grows p d.s d1.s := by
  unfold xDeriveCUMV_motion at h
  split_ifs at h
  · exact xDeriveCUMV_merge_grows C E d d1 p hq h
  · exact xDeriveCUMV_nonMerge_grows C E d d1 p hq h

theorem xDeriveCUMV_check_grows (C : Config) (E : Ext) (d d1 : DeriveState) (p : Event → Bool)
    (hq : ∀ e, e.isDerive = false → e.isSetDecomp = false → p e = true)
    (h : xDeriveCUMV_check C E d = .ok d1) : Dec.Grows p d.s d1.s := by
  unfold xDeriveCUMV_check at h
  simp only [CHECK, bind, Except.bind, pure, Except.pure] at h
  split_ifs at h
  all_goals first
    | (cases h; done)
    | (cases h; exact Dec.Grows.log (Dec.Grows.refl p d.s) _ (hq _ rfl rfl))
    | (cases h; exact Dec.Grows.refl p d.s)

theorem xDeriveCUMV_loop_grows (C : Config) (E : Ext) (p : Event → Bool)
    (hq : ∀ e, e.isDerive = false → e.isSetDecomp = false → p e = true) :
    ∀ (pus : List PredictionUnit) (cu : CodingUnit) (done : List PredictionUnit) (s : Dec)
      (r : CodingUnit × List PredictionUnit × Dec),
      xDeriveCUMV_loop C E pus cu done s = .ok r → Dec.Grows p s r.2.2 := by
  intro pus
  induction pus with
  | nil => intro cu done s r h; cases h; exact Dec.Grows.refl p s
  | cons pu pus ih =>
    intro cu done s r h
    simp only [xDeriveCUMV_loop, bind, Except.bind] at h
    split at h
    · cases h
    · rename_i d1 h1
      split at h
      · cases h
      · rename_i d2 h2
        exact ((xDeriveCUMV_motion_grows C E _ d1 p hq h1).trans
          (xDeriveCUMV_check_grows C E d1 d2 p hq h2)).trans (ih _ _ _ r h)

/-- The calls of a successful `xDeriveCUMV`: the call itself, then calls that neither derive
motion nor mark a block as decoded. -/
theorem xDeriveCUMV_trace (C : Config) (E : Ext) (cu : CodingUnit) (s : Dec)
    (r : CodingUnit × Dec) (h : xDeriveCUMV C E cu s = .ok r) :
    ∃ new, r.2.trace = s.trace ++ Event.xDeriveCUMV cu.idx :: new ∧
      ∀ e ∈ new, e.isDerive = false ∧ e.isSetDecomp = false := by
  have hq : ∀ e : Event, e.isDerive = false → e.isSetDecomp = false →
      (!e.isDerive && !e.isSetDecomp) = true := fun e h1 h2 => by rw [h1, h2]; rfl
  unfold xDeriveCUMV at h
  simp only [bind, Except.bind, pure, Except.pure] at h
  split at h
  · cases h
  · rename_i r1 h1
    obtain ⟨new, e1, q1⟩ := xDeriveCUMV_loop_grows C E _ hq _ _ _ _ r1 h1
    have e2 : r.2.trace = r1.2.2.trace := by
      split at h <;> (cases h; rfl)
    refine ⟨new, ?_, fun e he => ?_⟩
    · rw [e2, e1]; simp only [Dec.log, List.append_assoc, List.singleton_append]
    · have := q1 e he
      simp only [Bool.and_eq_true, Bool.not_eq_true'] at this
      exact this

theorem decompressCtu_derive_trace (C : Config) (E : Ext) (spc : Bool) (st : CtuState)
    (cu : CodingUnit) :
    (∀ e, decompressCtu_derive C E spc st cu = .error e →
      cu.predMode ≠ .MODE_INTRA ∧ cu.Y.valid = true) ∧
    (∀ r, decompressCtu_derive C E spc st cu = .ok r →
      r.1.predMode = cu.predMode ∧ r.1.idx = cu.idx ∧
      ∃ derived, r.2.s.trace = st.s.trace ++
          (if cu.predMode ≠ .MODE_INTRA ∧ cu.Y.valid = true
            then Event.xDeriveCUMV cu.idx :: derived else []) ∧
        ∀ e ∈ derived, e.isDerive = false) := by
  unfold decompressCtu_derive
  simp only [bind, Except.bind, pure, Except.pure]
  by_cases hc : cu.predMode ≠ .MODE_INTRA ∧ cu.Y.valid = true
  · simp only [hc, and_self, if_true, ne_eq, not_false_eq_true]
    constructor
    · intro e _; trivial
    · intro r h
      split at h
      · cases h
      · rename_i r1 h1
        cases h
        obtain ⟨h2, h3⟩ := (xDeriveCUMV_spec C E _ _).2 _ h1
        obtain ⟨new, e1, q1⟩ := xDeriveCUMV_trace C E _ _ _ h1
        refine ⟨h2, h3, new, ?_, fun e he => (q1 e he).1⟩
        rw [e1]
        congr 1
        split_ifs <;> rfl
  · simp only [hc, if_false]
    constructor
    · intro e h; cases h
    · intro r h
      cases h
      refine ⟨rfl, rfl, [], ?_, fun e he => by cases he⟩
      rw [List.append_nil]
      split_ifs <;> rfl

theorem decompressCtu_dispatch_trace (C : Config) (E : Ext) (cu : CodingUnit) (st st2 : CtuState)
    (h : decompressCtu_dispatch C E cu st = .ok st2) :
    ∃ recon, st2.s.trace = st.s.trace ++ recon ∧ (∀ e ∈ recon, e.isDerive = false) ∧
      (cu.predMode ≠ .MODE_INTRA → ∃ rest, recon = Event.xReconInter cu.idx :: rest) ∧
      (cu.predMode = .MODE_INTRA → ∃ rest, recon = Event.xReconIntraQT cu.idx :: rest) := by
  have inter : ∀ s1, xReconInter C E cu st.s = .ok s1 → cu.predMode ≠ .MODE_INTRA →
      ∃ recon, (if E.isLosslessCoded cu && !cu.ipcm then xFillPCMBuffer cu s1 else s1).trace =
          st.s.trace ++ recon ∧ (∀ e ∈ recon, e.isDerive = false) ∧
        (cu.predMode ≠ .MODE_INTRA → ∃ rest, recon = Event.xReconInter cu.idx :: rest) ∧
        (cu.predMode = .MODE_INTRA → ∃ rest, recon = Event.xReconIntraQT cu.idx :: rest) := by
    intro s1 h1 hm
    obtain ⟨pre, e1, q1, _⟩ := xReconInter_trace C E cu st.s s1 h1
    have hd : ∀ e ∈ validBlockEvents cu.blocks Event.setDecomp, e.isDerive = false := by
      intro e he
      unfold validBlockEvents at he
      obtain ⟨c, _, hc⟩ := List.mem_map.mp he
      rw [← hc]; rfl
    split_ifs
    · refine ⟨Event.xReconInter cu.idx :: (pre ++ validBlockEvents cu.blocks Event.setDecomp ++
        [Event.xFillPCMBuffer cu.idx]), ?_, ?_, fun _ => ⟨_, rfl⟩, fun h => absurd h hm⟩
      · rw [xFillPCMBuffer_trace, e1]
        simp only [List.append_assoc, List.cons_append]
      · intro e he
        simp only [List.mem_cons, List.mem_append, List.mem_singleton, List.not_mem_nil,
          or_false] at he
        rcases he with h | (h | h) | h
        · rw [h]; rfl
        · exact (q1 e h).1
        · exact hd e h
        · rw [h]; rfl
    · refine ⟨Event.xReconInter cu.idx :: (pre ++ validBlockEvents cu.blocks Event.setDecomp),
        ?_, ?_, fun _ => ⟨_, rfl⟩, fun h => absurd h hm⟩
      · rw [e1]
        simp only [List.append_assoc, List.cons_append]
      · intro e he
        simp only [List.mem_cons, List.mem_append] at he
        rcases he with h | h | h
        · rw [h]; rfl
        · exact (q1 e h).1
        · exact hd e h
  unfold decompressCtu_dispatch at h
  simp only [bind, Except.bind, pure, Except.pure] at h
  cases hp : cu.predMode
  · rw [hp] at h
    simp only at h
    split at h
    · cases h
    · rename_i s1 h1
      cases h
      exact hp ▸ inter s1 h1 (by rw [hp]; decide)
  · rw [hp] at h
    simp only at h
    cases h
    obtain ⟨new, e1, q1⟩ := xReconIntraQT_trace C E cu st.s
    split_ifs
    · refine ⟨Event.xReconIntraQT cu.idx :: (new ++ [Event.xFillPCMBuffer cu.idx]), ?_, ?_,
        fun h => absurd rfl h, fun _ => ⟨_, rfl⟩⟩
      · rw [xFillPCMBuffer_trace, e1]
        simp only [List.append_assoc, List.cons_append]
      · intro e he
        simp only [List.mem_cons, List.mem_append, List.mem_singleton, List.not_mem_nil,
          or_false] at he
        rcases he with h | h | h
        · rw [h]; rfl
        · exact q1 e h
        · rw [h]; rfl
    · exact ⟨Event.xReconIntraQT cu.idx :: new, e1, fun e he => by
        rcases List.mem_cons.mp he with h | h
        · rw [h]; rfl
        · exact q1 e h, fun h => absurd rfl h, fun _ => ⟨_, rfl⟩⟩
  · rw [hp] at h
    simp only at h
    split at h
    · cases h
    · rename_i s1 h1
      cases h
      exact hp ▸ inter s1 h1 (by rw [hp]; decide)
  · rw [hp] at h
    simp only at h
    cases h

/-! ## Decoder: motion derivation before reconstruction, marking after reconstruction -/

/-- C22: in the body of the loop of `decompressCtu` over the coding units, for every coding unit
and every state, `xDeriveCUMV` runs if and only if `predMode` is not `MODE_INTRA` and the luma
block is valid.  A failure of the derivation is the failure of the body, which then is in that
case and does not reach the `switch`.  When the body succeeds, the calls it makes are: the call
of `xDeriveCUMV` followed by the calls of the derivation when the condition holds and none
otherwise, then the calls of the `switch`, which start with the call of `xReconInter` for a
unit that is not intra and with the call of `xReconIntraQT` for an intra unit; no other call of
`xDeriveCUMV` is made, so the derivation has returned when `xReconInter` starts and it never
runs for an intra unit. -/
theorem decompressCtu_derives_motion_before_recon (C : Config) (E : Ext) (spc : Bool)
    (st : CtuState) (cu : CodingUnit) :
    (∀ e, decompressCtu_derive C E spc st cu = .error e →
      (cu.predMode ≠ .MODE_INTRA ∧ cu.Y.valid = true) ∧
        decompressCtu_body C E spc st cu = .error e) ∧
    (∀ st2, decompressCtu_body C E spc st cu = .ok st2 →
      ∃ derived recon,
        st2.s.trace = st.s.trace ++
          ((if cu.predMode ≠ .MODE_INTRA ∧ cu.Y.valid = true
              then Event.xDeriveCUMV cu.idx :: derived else []) ++ recon) ∧
        (∀ e ∈ derived, e.isDerive = false) ∧ (∀ e ∈ recon, e.isDerive = false) ∧
        (cu.predMode ≠ .MODE_INTRA → ∃ rest, recon = Event.xReconInter cu.idx :: rest) ∧
        (cu.predMode = .MODE_INTRA → ∃ rest, recon = Event.xReconIntraQT cu.idx :: rest)) := by
  obtain ⟨he, ho⟩ := decompressCtu_derive_trace C E spc st cu
  constructor
  · intro e h
    refine ⟨he e h, ?_⟩
    unfold decompressCtu_body
    simp only [bind, Except.bind, h]
  · intro st2 h
    unfold decompressCtu_body at h
    simp only [bind, Except.bind] at h
    split at h
    · cases h
    · rename_i r hr
      obtain ⟨hm, hi, derived, e1, q1⟩ := ho r hr
      obtain ⟨recon, e2, q2, h3, h4⟩ := decompressCtu_dispatch_trace C E r.1 r.2 st2 h
      rw [hm, hi] at h3
      rw [hm, hi] at h4
      exact ⟨derived, recon, by rw [e2, e1, List.append_assoc], q1, q2, h3, h4⟩

/-- C22 at an inter coding unit with a valid luma block: the body succeeds and its calls start
with the call of `xDeriveCUMV`, and the call of `xReconInter` follows the calls of the
derivation. -/
theorem decompressCtu_derives_motion_before_recon_witness :
    ∃ st2, decompressCtu_body (exampleConfig false) exampleExt true ⟨(-1, -1), exampleDec⟩
        (exampleCU .MODE_INTER) = .ok st2 ∧
      ∃ derived recon,
        st2.s.trace = exampleDec.trace ++
          ((if (exampleCU .MODE_INTER).predMode ≠ .MODE_INTRA ∧
                (exampleCU .MODE_INTER).Y.valid = true
              then Event.xDeriveCUMV (exampleCU .MODE_INTER).idx :: derived else []) ++ recon) ∧
        (∀ e ∈ derived, e.isDerive = false) ∧ (∀ e ∈ recon, e.isDerive = false) ∧
        ((exampleCU .MODE_INTER).predMode ≠ .MODE_INTRA →
          ∃ rest, recon = Event.xReconInter (exampleCU .MODE_INTER).idx :: rest) ∧
        ((exampleCU .MODE_INTER).predMode = .MODE_INTRA →
          ∃ rest, recon = Event.xReconIntraQT (exampleCU .MODE_INTER).idx :: rest) := by
  cases h : decompressCtu_body (exampleConfig false) exampleExt true ⟨(-1, -1), exampleDec⟩
      (exampleCU .MODE_INTER) with
  | error e =>
    have h0 : errorOf (decompressCtu_body (exampleConfig false) exampleExt true
        ⟨(-1, -1), exampleDec⟩ (exampleCU .MODE_INTER)) = none := by decide
    rw [h] at h0
    cases h0
  | ok st2 =>
    exact ⟨st2, rfl, (decompressCtu_derives_motion_before_recon (exampleConfig false) exampleExt
      true ⟨(-1, -1), exampleDec⟩ (exampleCU .MODE_INTER)).2 st2 h⟩

theorem plain_of_mem_predEvents (C : Config) (E : Ext) (cu : CodingUnit) (tu : TransformUnit)
    (compID : ComponentID) (p : Plane) (e : Event)
    (h : e ∈ xIntraRecBlk_predEvents C E cu tu compID p) :
    e.isSetDecomp = false ∧ ∀ c a, e = Event.writeReco c a → False := by
  unfold xIntraRecBlk_predEvents at h
  simp only [List.mem_append, List.mem_cons, List.mem_singleton, List.not_mem_nil,
    or_false] at h
  rcases h with (h | h) | h
  · rw [h]; exact ⟨rfl, fun c a hc => by cases hc⟩
  · rw [h]; split_ifs <;> exact ⟨rfl, fun c a hc => by cases hc⟩
  · split_ifs at h
    · rw [List.mem_singleton.mp h]; exact ⟨rfl, fun c a hc => by cases hc⟩
    · cases h

theorem plain_of_mem_residualEvents (C : Config) (E : Ext) (tu : TransformUnit)
    (compID : ComponentID) (flag : Bool) (adj : Int) (e : Event)
    (h : e ∈ residualEvents C E tu compID flag adj) :
    e.isSetDecomp = false ∧ ∀ c a, e = Event.writeReco c a → False := by
  unfold residualEvents at h
  simp only [List.mem_append, List.mem_singleton] at h
  rcases h with (h | h) | h
  · rw [h]; split_ifs <;> exact ⟨rfl, fun c a hc => by cases hc⟩
  · split_ifs at h
    · rw [List.mem_singleton.mp h]; exact ⟨rfl, fun c a hc => by cases hc⟩
    · cases h
  · split_ifs at h
    · rw [List.mem_singleton.mp h]; exact ⟨rfl, fun c a hc => by cases hc⟩
    · cases h

/-- C23, the claim refuted on the intra path at the luma block of a transform unit: among the
calls of `xIntraRecBlk` the one that marks the area as decoded comes before the one that writes
the reconstruction of the area. -/
theorem xIntraRecBlk_marks_before_reconstruction :
    (xIntraRecBlk (exampleConfig false) exampleExt (exampleCU .MODE_INTRA) (exampleTU false)
      .COMPONENT_Y exampleDec).trace =
      [Event.xIntraRecBlk 0 .COMPONENT_Y, Event.initIntraPatternChType 0 .COMPONENT_Y,
        Event.predIntraAng 0 .COMPONENT_Y, Event.invTransformNxN 0 .COMPONENT_Y,
        Event.setDecomp .COMPONENT_Y (exampleArea 4 4),
        Event.writeReco .COMPONENT_Y (exampleArea 4 4)] := by
  decide

/-- C23, amended: in `xReconInter` the valid blocks of the coding unit are marked as decoded by
the last calls, after the reconstruction of each of them has been written; in `xIntraRecBlk`
the call that marks the component area (or, for the first ISP luma sub-partition, the luma block
of the coding unit; none for the other ISP luma sub-partitions) is made once the prediction and
the residual are complete and immediately before the reconstruction of the area is written,
which is the last call. -/
theorem marked_decoded_and_reconstructed (C : Config) (E : Ext) (cu : CodingUnit) (s : Dec) :
    (∀ s1, xReconInter C E cu s = .ok s1 →
      ∃ pre, s1.trace = s.trace ++ (Event.xReconInter cu.idx :: pre ++
          validBlockEvents cu.blocks Event.setDecomp) ∧
        (∀ e ∈ pre, e.isSetDecomp = false) ∧
        (∀ c, (cu.blocks c).valid = true → Event.writeReco c (cu.blocks c) ∈ pre)) ∧
    (∀ tu compID, (tu.blocks compID).valid = true →
      ∃ pre, (xIntraRecBlk C E cu tu compID s).trace = s.trace ++ (pre ++
          ((if cu.ispMode = 0 || !isLuma compID then [Event.setDecomp compID (tu.blocks compID)]
            else if cu.ispMode ≠ 0 && isLuma compID && E.isISPFirst cu (tu.blocks compID) compID
              then [Event.setDecomp compID (cu.blocks compID)]
            else []) ++ [Event.writeReco compID (tu.blocks compID)])) ∧
        (∀ e ∈ pre, e.isSetDecomp = false) ∧
        (∀ a, Event.writeReco compID a ∉ pre)) := by
  constructor
  · intro s1 h
    obtain ⟨pre, e1, q1, q2⟩ := xReconInter_trace C E cu s s1 h
    refine ⟨pre, e1, fun e he => (q1 e he).2, fun c hc => q2 _ ?_⟩
    unfold validBlockEvents
    refine List.mem_map.mpr ⟨c, List.mem_filter.mpr ⟨?_, hc⟩, rfl⟩
    cases c <;> simp
  · intro tu compID hv
    refine ⟨Event.xIntraRecBlk tu.idx compID ::
      (xIntraRecBlk_predEvents C E cu tu compID (s.picPred .COMPONENT_Y) ++
        residualEvents C E tu compID (xIntraRecBlk_flag C tu compID)
          (xIntraRecBlk_storedAdj C E tu compID (s.picPred .COMPONENT_Y)
            (s.chromaAdj tu.idx))), ?_, ?_, ?_⟩
    · rw [xIntraRecBlk_trace C E cu tu compID s hv]
      unfold xIntraRecBlk_recoEvents
      simp only [List.append_assoc, List.cons_append]
    · intro e he
      simp only [List.mem_cons, List.mem_append] at he
      rcases he with h | h | h
      · rw [h]; rfl
      · exact (plain_of_mem_predEvents C E cu tu compID _ e h).1
      · exact (plain_of_mem_residualEvents C E tu compID _ _ e h).1
    · intro a he
      simp only [List.mem_cons, List.mem_append] at he
      rcases he with h | h | h
      · cases h
      · exact (plain_of_mem_predEvents C E cu tu compID _ _ h).2 _ _ rfl
      · exact (plain_of_mem_residualEvents C E tu compID _ _ _ h).2 _ _ rfl

/-- C23 amended, at the luma block of an intra transform unit: the marking call and the write
of the reconstruction are the last two calls. -/
theorem marked_decoded_and_reconstructed_witness :
    ∃ pre, (xIntraRecBlk (exampleConfig false) exampleExt (exampleCU .MODE_INTRA)
        (exampleTU false) .COMPONENT_Y exampleDec).trace = exampleDec.trace ++ (pre ++
          ((if (exampleCU .MODE_INTRA).ispMode = 0 || !isLuma .COMPONENT_Y
              then [Event.setDecomp .COMPONENT_Y ((exampleTU false).blocks .COMPONENT_Y)]
            else if (exampleCU .MODE_INTRA).ispMode ≠ 0 && isLuma .COMPONENT_Y &&
                exampleExt.isISPFirst (exampleCU .MODE_INTRA)
                  ((exampleTU false).blocks .COMPONENT_Y) .COMPONENT_Y
              then [Event.setDecomp .COMPONENT_Y ((exampleCU .MODE_INTRA).blocks .COMPONENT_Y)]
            else []) ++ [Event.writeReco .COMPONENT_Y ((exampleTU false).blocks .COMPONENT_Y)])) ∧
      (∀ e ∈ pre, e.isSetDecomp = false) ∧
      (∀ a, Event.writeReco .COMPONENT_Y a ∉ pre) :=
  (marked_decoded_and_reconstructed (exampleConfig false) exampleExt (exampleCU .MODE_INTRA)
    exampleDec).2 (exampleTU false) .COMPONENT_Y rfl

/-! ## SEI writer -/

/-- C24, evaluated at the empty list with `isNested` false and a writer that an earlier call
left pointing to the bitstream 0: `writeSEImessages( bs = 1, .. )` never calls
`setBitstream( &bs )`, writes the RBSP trailing bits to the bitstream 0 and leaves `bs`
empty. -/
theorem writeSEImessages_empty_list_other_bitstream :
    errorOf (writeSEImessages exampleSEIParams 2 1 .nil false exampleSEIWriter) = none ∧
    streamOf (writeSEImessages exampleSEIParams 2 1 .nil false exampleSEIWriter) 1 = [] ∧
    streamOf (writeSEImessages exampleSEIParams 2 1 .nil false exampleSEIWriter) 0 =
      [⟨1, 1⟩, ⟨0, 1⟩, ⟨0, 1⟩, ⟨0, 1⟩, ⟨0, 1⟩, ⟨0, 1⟩, ⟨0, 1⟩, ⟨0, 1⟩] ∧
    bitIfOf (writeSEImessages exampleSEIParams 2 1 .nil false exampleSEIWriter) = some 0 ∧
    streamOf (writeSEImessages exampleSEIParams 2 1
      (.cons (.mk .USER_DATA_UNREGISTERED [⟨171, 8⟩] .nil) .nil) false exampleSEIWriter) 1 =
      [⟨5, 8⟩, ⟨1, 8⟩, ⟨171, 8⟩, ⟨1, 1⟩, ⟨0, 1⟩, ⟨0, 1⟩, ⟨0, 1⟩, ⟨0, 1⟩, ⟨0, 1⟩, ⟨0, 1⟩,
        ⟨0, 1⟩] ∧
    streamOf (writeSEImessages exampleSEIParams 2 1
      (.cons (.mk .USER_DATA_UNREGISTERED [⟨171, 8⟩] .nil) .nil) false exampleSEIWriter) 0 = [] := by
  decide

/-! ## Hadamard cost: the precision shift -/

theorem xCalcHAD4x4_SSE_lt (org cur : Nat → Nat) (po pc so sc : Nat) :
    xCalcHAD4x4_SSE org cur po pc so sc < 4294967296 := by
  unfold xCalcHAD4x4_SSE
  simp only [Nat.shiftRight_eq_div_pow]
  omega

theorem xCalcHAD16x16_AVX2_lt (org cur : Nat → Nat) (po pc so sc bd : Nat) :
    xCalcHAD16x16_AVX2 org cur po pc so sc bd < 4294967296 := by
  rw [xCalcHAD16x16_AVX2_eq]
  have h1 := xCalcHAD8x8_SSE_lt org cur po pc so sc bd
  have h2 := xCalcHAD8x8_SSE_lt org cur (po + 8) (pc + 8) so sc bd
  have h3 := xCalcHAD8x8_SSE_lt org cur (po + 8 * so) (pc + 8 * sc) so sc bd
  have h4 := xCalcHAD8x8_SSE_lt org cur (po + 8 * so + 8) (pc + 8 * sc + 8) so sc bd
  omega

theorem tileCost_lt (K : HadKernels) (hK : K.ReturnsUInt32) (vext : X86_VEXT) (p : DistParam)
    (t : Tile) (x y : Nat) : tileCost K vext p t x y < 4294967296 := by
  have h := hK p.org.buf p.cur.buf (y * p.org.stride + x) (y * p.cur.stride + x) p.org.stride
    p.cur.stride p.bitDepth
  cases t <;> simp only [tileCost]
  · split_ifs
    · exact h.1
    · exact h.2.1
  · split_ifs
    · exact h.2.2.1
    · exact h.2.2.2.1
  · exact h.2.2.2.2.1
  · exact h.2.2.2.2.2.1
  · exact xCalcHAD16x16_AVX2_lt _ _ _ _ _ _ _
  · exact lt_trans (xCalcHAD8x8_SSE_lt _ _ _ _ _ _ _) (by decide)
  · exact xCalcHAD4x4_SSE_lt _ _ _ _ _ _
  · exact (hK p.org.buf p.cur.buf (y * p.org.stride + x) (y * p.cur.stride + x * p.step)
      p.org.stride p.cur.stride p.step).2.2.2.2.2.2

theorem Tile.width_pos (t : Tile) : 0 < t.width := by cases t <;> decide
theorem Tile.height_pos (t : Tile) : 0 < t.height := by cases t <;> decide

/-- The 64-bit accumulator of the tile loop does not wrap for a block of at most `2^32`
samples. -/
theorem tiledCost_eq_sum (K : HadKernels) (hK : K.ReturnsUInt32) (vext : X86_VEXT)
    (p : DistParam) (t : Tile) (ha : p.org.width * p.org.height ≤ 4294967296) :
    tiledCost K vext p t =
      ∑ j ∈ Finset.range (p.org.height / t.height), ∑ i ∈ Finset.range (p.org.width / t.width),
        tileCost K vext p t (i * t.width) (j * t.height) := by
  unfold tiledCost
  apply Nat.mod_eq_of_lt
  have h1 : ∀ j ∈ Finset.range (p.org.height / t.height),
      ∑ i ∈ Finset.range (p.org.width / t.width),
        tileCost K vext p t (i * t.width) (j * t.height) ≤
      (p.org.width / t.width) * 4294967295 := by
    intro j _
    have := Finset.sum_le_sum (s := Finset.range (p.org.width / t.width))
      (f := fun i => tileCost K vext p t (i * t.width) (j * t.height))
      (g := fun _ => 4294967295)
      (fun i _ => Nat.le_of_lt_succ (tileCost_lt K hK vext p t _ _))
    simpa [Finset.sum_const, Finset.card_range] using this
  have h2 := Finset.sum_le_sum h1
  simp only [Finset.sum_const, Finset.card_range, smul_eq_mul] at h2
  have h3 : p.org.width / t.width ≤ p.org.width := Nat.div_le_self _ _
  have h4 : p.org.height / t.height ≤ p.org.height := Nat.div_le_self _ _
  have h5 : p.org.height / t.height * (p.org.width / t.width) ≤ 4294967296 :=
    le_trans (Nat.mul_le_mul h4 h3) (by rw [Nat.mul_comm]; exact ha)
  calc _ ≤ p.org.height / t.height * (p.org.width / t.width * 4294967295) := h2
    _ = p.org.height / t.height * (p.org.width / t.width) * 4294967295 := by ring
    _ ≤ 4294967296 * 4294967295 := Nat.mul_le_mul_right _ h5
    _ < 18446744073709551616 := by decide

/-- C30: with `bitDepth <= 10` and no weighting, for a block that some tile shape covers (`t`
being the shape the code selects) and that has at most `2^32` samples, the tile kernels
returning `uint32_t` values, `xGetHADs_SIMD` returns the sum of the costs of all tiles of the
block, shifted right by `DISTORTION_PRECISION_ADJUSTMENT( bitDepth ) = max( 0, bitDepth - 8 )`:
the shift is applied once, to the accumulated sum, and to no single tile cost. -/
theorem xGetHADs_SIMD_shifts_sum_once (K : HadKernels) (xGetHADs : DistParam → Except String Nat)
    (vext : X86_VEXT) (p : DistParam) (t : Tile) (hK : K.ReturnsUInt32)
    (hbd : p.bitDepth ≤ 10) (hw : p.applyWeight = false)
    (ht : chosenTile vext p.org.width p.org.height = some t)
    (ha : p.org.width * p.org.height ≤ 4294967296) :
    xGetHADs_SIMD K xGetHADs vext p =
      .ok ((∑ j ∈ Finset.range (p.org.height / t.height),
        ∑ i ∈ Finset.range (p.org.width / t.width),
          tileCost K vext p t (i * t.width) (j * t.height)) >>> (p.bitDepth - 8)) := by
  rw [xGetHADs_SIMD_eq K xGetHADs vext p hbd hw, ht]
  simp only []
  rw [tiledCost_eq_sum K hK vext p t ha]
  rfl

theorem exampleKernels_returnsUInt32 : exampleKernels.ReturnsUInt32 := by
  intro org cur a b c d e
  unfold exampleKernels
  simp

/-- C30 at a 16x16 block of 10-bit samples without AVX2: four 8x8 tiles, their costs added and
the sum shifted by 2. -/
theorem xGetHADs_SIMD_shifts_sum_once_witness :
    xGetHADs_SIMD exampleKernels exampleScalar .SSE41 (exampleParam 16 16 10 false) =
      .ok ((∑ j ∈ Finset.range ((exampleParam 16 16 10 false).org.height / Tile.T8x8.height),
        ∑ i ∈ Finset.range ((exampleParam 16 16 10 false).org.width / Tile.T8x8.width),
          tileCost exampleKernels .SSE41 (exampleParam 16 16 10 false) .T8x8
            (i * Tile.T8x8.width) (j * Tile.T8x8.height)) >>>
        ((exampleParam 16 16 10 false).bitDepth - 8)) :=
  xGetHADs_SIMD_shifts_sum_once exampleKernels exampleScalar .SSE41 (exampleParam 16 16 10 false)
    .T8x8 exampleKernels_returnsUInt32 (by decide) rfl (by decide) (by decide)

/-! ## SEI writer: the time offset and the coding of payload type and size -/

/-- C35: for the time offset value `-1` with the time offset length 8, `xWriteSEITimeCode`
writes the 8-bit code 129 for `time_offset_value` (the sign bit and the magnitude 1), whereas
the 8-bit two's complement representation of `-1` is 255. -/
theorem xWriteSEITimeCode_negative_offset_sign_magnitude :
    (xWriteSEITimeCode (exampleTimeCode 8 (-1)) exampleSEIWriter).streams 0 =
      [⟨1, 2⟩, ⟨1, 1⟩, ⟨0, 1⟩, ⟨0, 5⟩, ⟨1, 1⟩, ⟨0, 1⟩, ⟨0, 1⟩, ⟨0, 9⟩, ⟨0, 6⟩, ⟨0, 6⟩, ⟨0, 5⟩,
        ⟨8, 5⟩, ⟨129, 8⟩] ∧
    twosComplement (-1) 8 = 255 := by
  refine ⟨?_, by decide⟩
  simp [xWriteSEITimeCode, xWriteSEITimeCode_timeSet, exampleTimeCode, exampleTimeSet,
    exampleSEIWriter, WRITE_CODE, WRITE_FLAG, SEIWriter.write, flagValue, List.range,
    List.range.loop]
  decide

theorem SEIWriter.write_nil (w : SEIWriter) : w.write [] = w := by
  cases w
  simp [SEIWriter.write]

theorem SEIWriter.write_write (w : SEIWriter) (a b : List Code) :
    (w.write a).write b = w.write (a ++ b) := by
  cases w
  simp [SEIWriter.write, List.append_assoc]

theorem writeFFBytes_eq (fuel : Nat) : ∀ (v : Nat) (w : SEIWriter), v / 255 ≤ fuel →
    writeFFBytes fuel v w = (v % 255, w.write (List.replicate (v / 255) ⟨255, 8⟩)) := by
  induction fuel with
  | zero =>
    intro v w h
    have h0 : v / 255 = 0 := by omega
    have hv : v < 255 := by omega
    simp [writeFFBytes, h0, SEIWriter.write_nil, Nat.mod_eq_of_lt hv]
  | succ n ih =>
    intro v w h
    by_cases hv : v ≥ 0xff
    · have h1 : (v - 255) / 255 ≤ n := by omega
      have h2 : v / 255 = (v - 255) / 255 + 1 := by omega
      have h3 : v % 255 = (v - 255) % 255 := by omega
      simp only [writeFFBytes, hv, if_true]
      rw [ih _ _ h1, h2, h3, WRITE_CODE, SEIWriter.write_write, List.replicate_succ]
      rfl
    · have h0 : v / 255 = 0 := by omega
      have hv1 : v < 255 := by omega
      simp [writeFFBytes, hv, h0, SEIWriter.write_nil, Nat.mod_eq_of_lt hv1]

theorem writeFF_header (v : Nat) (w : SEIWriter) :
    WRITE_CODE (writeFFBytes v v w).1 8 (writeFFBytes v v w).2 = w.write (ffCodes v) := by
  rw [writeFFBytes_eq v v w (Nat.div_le_self v 255), WRITE_CODE, SEIWriter.write_write]
  rfl

theorem valueSum_append (a b : List Code) : valueSum (a ++ b) = valueSum a + valueSum b := by
  simp [valueSum]

theorem valueSum_replicate (n : Nat) : valueSum (List.replicate n ⟨255, 8⟩) = 255 * n := by
  induction n with
  | zero => rfl
  | succ n ih =>
    rw [List.replicate_succ]
    show 255 + valueSum (List.replicate n ⟨255, 8⟩) = 255 * (n + 1)
    rw [ih]
    ring

theorem readFF_replicate (n : Nat) (c : Code) (hc : c.value ≠ 255) (tail : List Code) :
    readFF (List.replicate n ⟨255, 8⟩ ++ c :: tail) = (255 * n + c.value, tail) := by
  induction n with
  | zero => simp [readFF, hc]
  | succ n ih =>
    rw [List.replicate_succ, List.cons_append, readFF, ih]
    simp
    ring

theorem ffCodes_props (v : Nat) :
    (ffCodes v).length = v / 255 + 1 ∧
    (∀ c ∈ (ffCodes v).dropLast, c = ⟨255, 8⟩) ∧
    (ffCodes v).getLast? = some ⟨v % 255, 8⟩ ∧
    v % 255 < 255 ∧
    valueSum (ffCodes v) = v ∧
    ∀ tail, readFF (ffCodes v ++ tail) = (v, tail) := by
  refine ⟨by simp [ffCodes], ?_, by simp [ffCodes], Nat.mod_lt _ (by decide), ?_, ?_⟩
  · intro c hc
    rw [ffCodes, List.dropLast_concat] at hc
    exact List.eq_of_mem_replicate hc
  · rw [ffCodes, valueSum_append, valueSum_replicate]
    show 255 * (v / 255) + (v % 255 + 0) = v
    omega
  · intro tail
    have hne : (⟨v % 255, 8⟩ : Code).value ≠ 255 := by
      show v % 255 ≠ 255
      omega
    rw [ffCodes, List.append_assoc]
    show readFF (List.replicate (v / 255) ⟨255, 8⟩ ++ ⟨v % 255, 8⟩ :: tail) = (v, tail)
    rw [readFF_replicate _ _ hne]
    show (255 * (v / 255) + v % 255, tail) = (v, tail)
    congr 1
    omega

/-- C39: for every message of the list `writeSEImessages` writes, after the dry run of the
payload, the payload type `t` and then the payload size `n`, each coded as `v / 255` bytes
`0xFF` followed by one last byte `v % 255` (the loops of lines 161-172 write exactly these
codes), and then the payload; the last byte is smaller than `0xFF`, the byte values sum to
`v`, and reading bytes up to and including the first byte different from `0xFF` and adding
them recovers `v`. -/
theorem writeSEImessages_codes_type_and_size (P : SEIParams) (loc bs : Nat) (sei : SEI)
    (rest : SEIMessages) (isNested : Bool) (w : SEIWriter) :
    writeSEImessages P loc bs (.cons sei rest) isNested w =
      (match xWriteSEIpayloadData P (loc + 1) loc sei ((w.clear loc).setBitstream loc) with
       | .error e => .error e
       | .ok w1 =>
         if 0 ≠ (numberOfBits (w1.streams loc) % 4294967296) % 8 then
           .error "Invalid number of payload data bits"
         else
           match xWriteSEIpayloadData P (loc + 1) bs sei
             (((w1.setBitstream bs).write
               (ffCodes (P.payloadTypeValue sei.payloadType % 4294967296))).write
               (ffCodes (numberOfBits (w1.streams loc) % 4294967296 / 8))) with
           | .error e => .error e
           | .ok w2 => writeSEImessages P loc bs rest isNested w2) ∧
    ∀ v : Nat,
      (ffCodes v).length = v / 255 + 1 ∧
      (∀ c ∈ (ffCodes v).dropLast, c = ⟨255, 8⟩) ∧
      (ffCodes v).getLast? = some ⟨v % 255, 8⟩ ∧
      v % 255 < 255 ∧
      valueSum (ffCodes v) = v ∧
      ∀ tail, readFF (ffCodes v ++ tail) = (v, tail) := by
  refine ⟨?_, ffCodes_props⟩
  rw [writeSEImessages]
  simp only [writeFF_header]

/-! ## The dispatch table -/

/-- C36: `_initRdCostX86` installs `xGetSAD_SIMD` for the generic SAD kinds (`DF_SAD`,
`DF_SAD2`, `DF_SAD16N`) and for the widths 12, 24 and 48, `xGetSAD_NxN_SIMD` of the width for
the widths 4, 8, 16, 32 and 64, `xGetHADs_SIMD` for the eight HAD kinds and `xGetSAD_IBD_SIMD`
for the SAD at intermediate bit depth; every SSE entry, like every entry the function does not
name, keeps the function it held, so a table whose SSE entries hold scalar functions still
holds them. -/
theorem initRdCostX86_installs (vext : X86_VEXT) (m : DFunc → FpDistFunc) :
    (_initRdCostX86 vext m .DF_SAD = .xGetSAD_SIMD vext ∧
     _initRdCostX86 vext m .DF_SAD2 = .xGetSAD_SIMD vext ∧
     _initRdCostX86 vext m .DF_SAD16N = .xGetSAD_SIMD vext) ∧
    (_initRdCostX86 vext m .DF_SAD4 = .xGetSAD_NxN_SIMD 4 vext ∧
     _initRdCostX86 vext m .DF_SAD8 = .xGetSAD_NxN_SIMD 8 vext ∧
     _initRdCostX86 vext m .DF_SAD16 = .xGetSAD_NxN_SIMD 16 vext ∧
     _initRdCostX86 vext m .DF_SAD32 = .xGetSAD_NxN_SIMD 32 vext ∧
     _initRdCostX86 vext m .DF_SAD64 = .xGetSAD_NxN_SIMD 64 vext) ∧
    (_initRdCostX86 vext m .DF_SAD12 = .xGetSAD_SIMD vext ∧
     _initRdCostX86 vext m .DF_SAD24 = .xGetSAD_SIMD vext ∧
     _initRdCostX86 vext m .DF_SAD48 = .xGetSAD_SIMD vext) ∧
    (_initRdCostX86 vext m .DF_HAD = .xGetHADs_SIMD vext ∧
     _initRdCostX86 vext m .DF_HAD2 = .xGetHADs_SIMD vext ∧
     _initRdCostX86 vext m .DF_HAD4 = .xGetHADs_SIMD vext ∧
     _initRdCostX86 vext m .DF_HAD8 = .xGetHADs_SIMD vext ∧
     _initRdCostX86 vext m .DF_HAD16 = .xGetHADs_SIMD vext ∧
     _initRdCostX86 vext m .DF_HAD32 = .xGetHADs_SIMD vext ∧
     _initRdCostX86 vext m .DF_HAD64 = .xGetHADs_SIMD vext ∧
     _initRdCostX86 vext m .DF_HAD16N = .xGetHADs_SIMD vext) ∧
    _initRdCostX86 vext m .DF_SAD_INTERMEDIATE_BITDEPTH = .xGetSAD_IBD_SIMD vext ∧
    (∀ k : DFunc, k.isSSE = true → _initRdCostX86 vext m k = m k) ∧
    (∀ v : Nat, _initRdCostX86 vext m (.other v) = m (.other v)) ∧
    (∀ k : DFunc, k.isSSE = false → (∀ v, k ≠ .other v) →
      (_initRdCostX86 vext m k).isSIMD = true) ∧
    ((∀ k : DFunc, k.isSSE = true → (m k).isSIMD = false) →
      ∀ k : DFunc, k.isSSE = true → (_initRdCostX86 vext m k).isSIMD = false) := by
  have hsse : ∀ k : DFunc, k.isSSE = true → _initRdCostX86 vext m k = m k := by
    intro k hk
    cases k <;> first | (cases hk; done) | rfl
  refine ⟨⟨rfl, rfl, rfl⟩, ⟨rfl, rfl, rfl, rfl, rfl⟩, ⟨rfl, rfl, rfl⟩,
    ⟨rfl, rfl, rfl, rfl, rfl, rfl, rfl, rfl⟩, rfl, hsse, fun v => rfl, ?_, ?_⟩
  · intro k hk hv
    cases k <;> first | (cases hk; done) | rfl | exact absurd rfl (hv _)
  · intro h k hk
    rw [hsse k hk]
    exact h k hk

/-! ## The tiles of the Hadamard cost -/

theorem areaKernels_16x32 :
    xGetHADs_SIMD areaKernels exampleScalar .AVX2 (exampleParam 16 32 8 false) = .ok 512 := by
  rw [xGetHADs_SIMD_eq _ _ _ _ (by decide) rfl]
  have h : chosenTile .AVX2 (exampleParam 16 32 8 false).org.width
      (exampleParam 16 32 8 false).org.height = some .T8x16 := by decide
  rw [h]
  simp [tiledCost, tileCost, areaKernels, exampleParam, Tile.width, Tile.height,
    Finset.sum_range_succ, DISTORTION_PRECISION_ADJUSTMENT, X86_VEXT.geAVX2, X86_VEXT.toNat]

/-- C32: for the block of width 16 and height 32 with AVX2 (8-bit samples, no weighting) the
code selects the 8x16 tile, of area 128: with kernels that return the area of their tile the
cost is 4 * 128; yet the 16x16 tile, of area 256, divides the block as well. -/
theorem xGetHADs_SIMD_16x32_uses_8x16 :
    chosenTile .AVX2 16 32 = some .T8x16 ∧
    xGetHADs_SIMD areaKernels exampleScalar .AVX2 (exampleParam 16 32 8 false) = .ok 512 ∧
    Tile.T16x16.divides 16 32 ∧
    Tile.T8x16.area < Tile.T16x16.area := by
  refine ⟨by decide, areaKernels_16x32, ⟨⟨1, rfl⟩, ⟨2, rfl⟩⟩, by decide⟩

theorem Tile.applies_area_le (vext : X86_VEXT) (w h : Nat) (t t2 : Tile)
    (ht : chosenTile vext w h = some t) (h2 : t2.applies vext w h = true) :
    t2.area ≤ t.area := by
  rw [chosenTile_eq] at ht
  cases hv : vext.geAVX2 <;>
    simp only [hv, Bool.false_eq_true, false_and, if_false, true_and] at ht <;>
    split_ifs at ht <;>
    first
    | (cases ht; done)
    | (cases ht
       cases t2 <;>
         simp only [Tile.applies, Tile.area, Tile.width, Tile.height, Bool.and_eq_true, hv,
           Bool.false_eq_true, false_and, true_and,
           decide_eq_true_eq, Nat.dvd_iff_mod_eq_zero] at h2 ⊢ <;>
         omega)

theorem Tile.divides_of_chosen (vext : X86_VEXT) (w h : Nat) (t : Tile)
    (ht : chosenTile vext w h = some t) : t.divides w h := by
  rw [chosenTile_eq] at ht
  split_ifs at ht <;>
    first
    | (cases ht; done)
    | (cases ht
       simp only [Tile.divides, Tile.width, Tile.height, Nat.dvd_iff_mod_eq_zero]
       omega)

theorem Tile.square_area_le (vext : X86_VEXT) (hv : vext.geAVX2 = true) (w : Nat) (t t2 : Tile)
    (ht : chosenTile vext w w = some t) (h2 : t2.divides w w) :
    t2.area ≤ t.area := by
  rw [chosenTile_eq] at ht
  simp only [hv, true_and, and_true, and_self] at ht
  split_ifs at ht <;>
    first
    | (cases ht; done)
    | (cases ht
       cases t2 <;>
         simp only [Tile.divides, Tile.area, Tile.width, Tile.height,
           Nat.dvd_iff_mod_eq_zero] at h2 ⊢ <;>
         omega)

/-- C32 (amended): for every block with even width and height, AVX2 available,
`bitDepth <= 10` and no weighting, `xGetHADs_SIMD` costs the block with a tile shape `t` that
divides the block and has the largest area among the canonical tiles whose rule applies to
the block, the rule of a tile being its aspect condition together with the divisibility; for a
square block `t` has the largest area among all canonical tiles that divide the block. -/
theorem xGetHADs_SIMD_largest_applicable_tile (K : HadKernels)
    (xGetHADs : DistParam → Except String Nat) (vext : X86_VEXT) (p : DistParam)
    (hv : vext.geAVX2 = true) (hbd : p.bitDepth ≤ 10) (hw : p.applyWeight = false)
    (hwe : p.org.width % 2 = 0) (hhe : p.org.height % 2 = 0) :
    ∃ t : Tile, chosenTile vext p.org.width p.org.height = some t ∧
      xGetHADs_SIMD K xGetHADs vext p =
        .ok (tiledCost K vext p t >>> DISTORTION_PRECISION_ADJUSTMENT p.bitDepth) ∧
      t.divides p.org.width p.org.height ∧
      (∀ t2 : Tile, t2.applies vext p.org.width p.org.height = true → t2.area ≤ t.area) ∧
      (p.org.width = p.org.height →
        ∀ t2 : Tile, t2.divides p.org.width p.org.height → t2.area ≤ t.area) := by
  cases ht : chosenTile vext p.org.width p.org.height with
  | none =>
    rw [chosenTile_eq_none_iff] at ht
    omega
  | some t =>
    refine ⟨t, rfl, ?_, Tile.divides_of_chosen _ _ _ _ ht,
      fun t2 h2 => Tile.applies_area_le _ _ _ _ _ ht h2, ?_⟩
    · rw [xGetHADs_SIMD_eq K xGetHADs vext p hbd hw, ht]
    · intro he t2 h2
      rw [← he] at ht h2
      exact Tile.square_area_le vext hv _ t t2 ht h2

/-- C32 (amended) at the block of width 16 and height 32 with AVX2. -/
theorem xGetHADs_SIMD_largest_applicable_tile_witness :
    ∃ t : Tile, chosenTile .AVX2 (exampleParam 16 32 8 false).org.width
        (exampleParam 16 32 8 false).org.height = some t ∧
      xGetHADs_SIMD areaKernels exampleScalar .AVX2 (exampleParam 16 32 8 false) =
        .ok (tiledCost areaKernels .AVX2 (exampleParam 16 32 8 false) t >>>
          DISTORTION_PRECISION_ADJUSTMENT (exampleParam 16 32 8 false).bitDepth) ∧
      t.divides (exampleParam 16 32 8 false).org.width (exampleParam 16 32 8 false).org.height ∧
      (∀ t2 : Tile, t2.applies .AVX2 (exampleParam 16 32 8 false).org.width
        (exampleParam 16 32 8 false).org.height = true → t2.area ≤ t.area) ∧
      ((exampleParam 16 32 8 false).org.width = (exampleParam 16 32 8 false).org.height →
        ∀ t2 : Tile, t2.divides (exampleParam 16 32 8 false).org.width
          (exampleParam 16 32 8 false).org.height → t2.area ≤ t.area) :=
  xGetHADs_SIMD_largest_applicable_tile areaKernels exampleScalar .AVX2
    (exampleParam 16 32 8 false) (by decide) (by decide) rfl (by decide) (by decide)

theorem tile_cell_unique (tw w x : Nat) (htw : 0 < tw) (hd : tw ∣ w) (hx : x < w) :
    ∃! i : Nat, i < w / tw ∧ i * tw ≤ x ∧ x < i * tw + tw := by
  obtain ⟨k, rfl⟩ := hd
  rw [Nat.mul_div_cancel_left k htw]
  refine ⟨x / tw, ⟨?_, ?_, ?_⟩, ?_⟩
  · exact Nat.div_lt_of_lt_mul hx
  · exact Nat.div_mul_le_self x tw
  · have := Nat.lt_succ_self (x / tw)
    have h2 := Nat.div_add_mod x tw
    have h3 := Nat.mod_lt x htw
    calc x = tw * (x / tw) + x % tw := h2.symm
      _ < x / tw * tw + tw := by rw [Nat.mul_comm]; omega
  · rintro i ⟨_, h1, h2⟩
    symm
    apply Nat.div_eq_of_lt_le
    · exact h1
    · calc x < i * tw + tw := h2
        _ = (i + 1) * tw := by ring

theorem tile_inside (tw w i c : Nat) (hd : tw ∣ w) (hi : i < w / tw) (hc : c < tw) :
    i * tw + c < w := by
  have h1 : (i + 1) * tw ≤ w / tw * tw := Nat.mul_le_mul_right tw hi
  have h2 : w / tw * tw = w := Nat.div_mul_cancel hd
  have h3 : (i + 1) * tw = i * tw + tw := by ring
  omega

theorem kernelLoads_inside (vext : X86_VEXT) (t : Tile) (ld : Nat × Nat × Nat)
    (h : ld ∈ kernelLoads vext t) : ld.1 < t.height ∧ ld.2.1 + ld.2.2 ≤ t.width := by
  cases t <;>
    simp only [kernelLoads, List.mem_map, List.mem_flatMap, List.mem_range, Tile.width,
      Tile.height] at h ⊢
  · split_ifs at h
    · simp only [List.mem_map, List.mem_range] at h
      obtain ⟨k, hk, rfl⟩ := h
      simp only
      omega
    · simp only [List.mem_map, List.mem_flatMap, List.mem_range] at h
      obtain ⟨l, hl, k, hk, rfl⟩ := h
      simp only
      omega
  all_goals first
    | (obtain ⟨k, hk, rfl⟩ := h
       simp only
       omega)
    | (obtain ⟨l, hl, k, hk, rfl⟩ := h
       simp only
       omega)

/-- C31: with `bitDepth <= 10` and no weighting, whichever tile shape `t` the code selects,
`xGetHADs_SIMD` returns the cost of the block tiled with `t` at the positions
`(i * t.width, j * t.height)`, `i < width / t.width`, `j < height / t.height`; the tile width
divides the block width and the tile height the block height; every sample of the block lies
in exactly one of these tiles; and, with `step = 1`, every sample a kernel loads from the
original or from the current block is a sample `(X, Y)` of the block, `X < width`,
`Y < height`. -/
theorem xGetHADs_SIMD_tiles_partition (K : HadKernels)
    (xGetHADs : DistParam → Except String Nat) (vext : X86_VEXT) (p : DistParam) (t : Tile)
    (hbd : p.bitDepth ≤ 10) (hw : p.applyWeight = false) (hs : p.step = 1)
    (ht : chosenTile vext p.org.width p.org.height = some t) :
    xGetHADs_SIMD K xGetHADs vext p =
      .ok (tiledCost K vext p t >>> DISTORTION_PRECISION_ADJUSTMENT p.bitDepth) ∧
    t.width ∣ p.org.width ∧ t.height ∣ p.org.height ∧
    (∀ x y : Nat, x < p.org.width → y < p.org.height →
      ∃! ij : Nat × Nat, ij.1 < p.org.width / t.width ∧ ij.2 < p.org.height / t.height ∧
        (ij.1 * t.width ≤ x ∧ x < ij.1 * t.width + t.width) ∧
        (ij.2 * t.height ≤ y ∧ y < ij.2 * t.height + t.height)) ∧
    (∀ i j : Nat, i < p.org.width / t.width → j < p.org.height / t.height →
      (∀ o ∈ tileReadsOrg vext p t (i * t.width) (j * t.height),
        ∃ X Y : Nat, X < p.org.width ∧ Y < p.org.height ∧ o = Y * p.org.stride + X) ∧
      (∀ o ∈ tileReadsCur vext p t (i * t.width) (j * t.height),
        ∃ X Y : Nat, X < p.org.width ∧ Y < p.org.height ∧ o = Y * p.cur.stride + X)) := by
  have hd := Tile.divides_of_chosen _ _ _ _ ht
  refine ⟨by rw [xGetHADs_SIMD_eq K xGetHADs vext p hbd hw, ht], hd.1, hd.2, ?_, ?_⟩
  · intro x y hx hy
    obtain ⟨i, ⟨hi1, hi2, hi3⟩, hiu⟩ := tile_cell_unique t.width _ x t.width_pos hd.1 hx
    obtain ⟨j, ⟨hj1, hj2, hj3⟩, hju⟩ := tile_cell_unique t.height _ y t.height_pos hd.2 hy
    refine ⟨(i, j), ⟨hi1, hj1, ⟨hi2, hi3⟩, ⟨hj2, hj3⟩⟩, ?_⟩
    rintro ⟨i2, j2⟩ ⟨a1, a2, ⟨a3, a4⟩, ⟨a5, a6⟩⟩
    rw [hiu i2 ⟨a1, a3, a4⟩, hju j2 ⟨a2, a5, a6⟩]
  · intro i j hi hj
    constructor
    · intro o ho
      simp only [tileReadsOrg, List.mem_flatMap, List.mem_map, List.mem_range] at ho
      obtain ⟨ld, hld, c, hc, rfl⟩ := ho
      have hl := kernelLoads_inside vext t ld hld
      refine ⟨i * t.width + (ld.2.1 + c), j * t.height + ld.1,
        tile_inside _ _ _ _ hd.1 hi (by omega), tile_inside _ _ _ _ hd.2 hj hl.1, ?_⟩
      ring
    · intro o ho
      simp only [tileReadsCur, List.mem_flatMap, List.mem_map, List.mem_range] at ho
      obtain ⟨ld, hld, c, hc, rfl⟩ := ho
      have hl := kernelLoads_inside vext t ld hld
      refine ⟨i * t.width + (ld.2.1 + c), j * t.height + ld.1,
        tile_inside _ _ _ _ hd.1 hi (by omega), tile_inside _ _ _ _ hd.2 hj hl.1, ?_⟩
      rw [hs]
      split_ifs <;> ring

/-- C31 at the 16x16 block of 10-bit samples without AVX2, which is tiled with 8x8 tiles. -/
theorem xGetHADs_SIMD_tiles_partition_witness :
    xGetHADs_SIMD exampleKernels exampleScalar .SSE41 (exampleParam 16 16 10 false) =
      .ok (tiledCost exampleKernels .SSE41 (exampleParam 16 16 10 false) .T8x8 >>>
        DISTORTION_PRECISION_ADJUSTMENT (exampleParam 16 16 10 false).bitDepth) ∧
    Tile.T8x8.width ∣ (exampleParam 16 16 10 false).org.width ∧
    Tile.T8x8.height ∣ (exampleParam 16 16 10 false).org.height ∧
    (∀ x y : Nat, x < (exampleParam 16 16 10 false).org.width →
      y < (exampleParam 16 16 10 false).org.height →
      ∃! ij : Nat × Nat, ij.1 < (exampleParam 16 16 10 false).org.width / Tile.T8x8.width ∧
        ij.2 < (exampleParam 16 16 10 false).org.height / Tile.T8x8.height ∧
        (ij.1 * Tile.T8x8.width ≤ x ∧ x < ij.1 * Tile.T8x8.width + Tile.T8x8.width) ∧
        (ij.2 * Tile.T8x8.height ≤ y ∧ y < ij.2 * Tile.T8x8.height + Tile.T8x8.height)) ∧
    (∀ i j : Nat, i < (exampleParam 16 16 10 false).org.width / Tile.T8x8.width →
      j < (exampleParam 16 16 10 false).org.height / Tile.T8x8.height →
      (∀ o ∈ tileReadsOrg .SSE41 (exampleParam 16 16 10 false) .T8x8 (i * Tile.T8x8.width)
          (j * Tile.T8x8.height),
        ∃ X Y : Nat, X < (exampleParam 16 16 10 false).org.width ∧
          Y < (exampleParam 16 16 10 false).org.height ∧
          o = Y * (exampleParam 16 16 10 false).org.stride + X) ∧
      (∀ o ∈ tileReadsCur .SSE41 (exampleParam 16 16 10 false) .T8x8 (i * Tile.T8x8.width)
          (j * Tile.T8x8.height),
        ∃ X Y : Nat, X < (exampleParam 16 16 10 false).org.width ∧
          Y < (exampleParam 16 16 10 false).org.height ∧
          o = Y * (exampleParam 16 16 10 false).cur.stride + X)) :=
  xGetHADs_SIMD_tiles_partition exampleKernels exampleScalar .SSE41 (exampleParam 16 16 10 false)
    .T8x8 (by decide) rfl rfl (by decide)

/-! ## Decoder: what the stages of `xReconInter` leave untouched -/

theorem frame_foldl {α β : Type} (g : Dec → β) (f : Dec → α → Dec)
    (hf : ∀ s x, g (f s x) = g s) : ∀ (l : List α) (s : Dec), g (l.foldl f s) = g s := by
  intro l
  induction l with
  | nil => intro s; rfl
  | cons x xs ih => intro s; rw [List.foldl_cons, ih, hf]

theorem frame_validBlocks {β : Type} (g : Dec → β) (blocks : ComponentID → CompArea)
    (f : ComponentID → CompArea → Dec → Dec) (hf : ∀ c a s, g (f c a s) = g s) (s : Dec) :
    g (forValidBlocks blocks f s) = g s := by
  unfold forValidBlocks
  refine frame_foldl g _ (fun s c => ?_) _ s
  split_ifs
  · exact hf c _ s
  · rfl

theorem residualOfTU_frame {β : Type} (g : Dec → β)
    (hlog : ∀ s e, g (Dec.log s e) = g s)
    (hresi : ∀ s c a b, g (Dec.writeResi s c a b) = g s)
    (C : Config) (E : Ext) (tu : TransformUnit) (compID : ComponentID) (flag : Bool) (s : Dec) :
    g (residualOfTU C E tu compID flag s) = g s := by
  unfold residualOfTU
  simp only []
  split_ifs <;> simp only [hlog, hresi]

theorem xDecodeInterTU_frame {β : Type} (g : Dec → β)
    (hlog : ∀ s e, g (Dec.log s e) = g s)
    (hresi : ∀ s c a b, g (Dec.writeResi s c a b) = g s)
    (C : Config) (E : Ext) (tu : TransformUnit) (compID : ComponentID) (s : Dec) :
    g (xDecodeInterTU C E tu compID s) = g s := by
  rw [xDecodeInterTU_stages]
  split_ifs
  · exact hlog _ _
  · rw [residualOfTU_frame g hlog hresi, hlog]

theorem xDecodeInterTexture_adj_frame {β : Type} (g : Dec → β)
    (hlog : ∀ s e, g (Dec.log s e) = g s)
    (htmp : ∀ s a b, g (Dec.writeTmp s a b) = g s)
    (hadj : ∀ s t a, g (Dec.setChromaAdj s t a) = g s)
    (C : Config) (E : Ext) (cu : CodingUnit) (compID : ComponentID) (tu : TransformUnit)
    (s : Dec) : g (xDecodeInterTexture_adj C E cu compID tu s) = g s := by
  unfold xDecodeInterTexture_adj
  simp only []
  split_ifs <;> simp only [hlog, htmp, hadj]

theorem xDecodeInterTexture_frame {β : Type} (g : Dec → β)
    (hlog : ∀ s e, g (Dec.log s e) = g s)
    (hresi : ∀ s c a b, g (Dec.writeResi s c a b) = g s)
    (htmp : ∀ s a b, g (Dec.writeTmp s a b) = g s)
    (hadj : ∀ s t a, g (Dec.setChromaAdj s t a) = g s)
    (C : Config) (E : Ext) (cu : CodingUnit) (s : Dec) :
    g (xDecodeInterTexture C E cu s) = g s := by
  rw [xDecodeInterTexture_steps]
  split_ifs
  · rfl
  · refine frame_foldl g _ (fun s1 compID => ?_) _ s
    refine frame_foldl g _ (fun s2 tu => ?_) _ s1
    unfold xDecodeInterTexture_step
    rw [xDecodeInterTU_frame g hlog hresi, xDecodeInterTexture_adj_frame g hlog htmp hadj]

theorem xReconInter_mhIntra_frame {β : Type} (g : Dec → β)
    (hlog : ∀ s e, g (Dec.log s e) = g s)
    (hpred : ∀ s c a b, g (Dec.writePred s c a b) = g s)
    (C : Config) (E : Ext) (cu : CodingUnit) (s : Dec) :
    g (xReconInter_mhIntra C E cu s) = g s := by
  unfold xReconInter_mhIntra
  simp only []
  split_ifs
  · rw [frame_foldl g _ (fun s1 c => by simp only [hlog, hpred]), hlog, hpred]
  · rw [frame_foldl g _ (fun s1 c => by simp only [hlog, hpred])]
  · rfl

theorem xReconInter_recon_frame {β : Type} (g : Dec → β)
    (hlog : ∀ s e, g (Dec.log s e) = g s)
    (hpred : ∀ s c a b, g (Dec.writePred s c a b) = g s)
    (hresi : ∀ s c a b, g (Dec.writeResi s c a b) = g s)
    (hreco : ∀ s c a b, g (Dec.writeReco s c a b) = g s)
    (htmp : ∀ s a b, g (Dec.writeTmp s a b) = g s)
    (C : Config) (cu : CodingUnit) (s : Dec) :
    g (xReconInter_recon C cu s) = g s := by
  have h1 : ∀ s1 : Dec, g (forValidBlocks cu.blocks (fun c a s =>
      (s.writeReco c a (PelBuf.reconstruct ((s.pred c).view a) ((s.resi c).view a)
        (C.clpRng c))).log (.writeReco c a)) s1) = g s1 :=
    fun s1 => frame_validBlocks g _ _ (fun c a s2 => by simp only [hlog, hreco]) s1
  have h2 : ∀ s1 : Dec, g (forValidBlocks cu.blocks (fun c a s =>
      s.writeResi c a (PelBuf.reconstruct ((s.pred c).view a) ((s.resi c).view a)
        (C.clpRng c))) s1) = g s1 :=
    fun s1 => frame_validBlocks g _ _ (fun c a s2 => by simp only [hresi]) s1
  have h3 : ∀ s1 : Dec, g (forValidBlocks cu.blocks (fun c a s =>
      (s.writeReco c a ((s.resi c).view a)).log (.writeReco c a)) s1) = g s1 :=
    fun s1 => frame_validBlocks g _ _ (fun c a s2 => by simp only [hlog, hreco]) s1
  have h4 : ∀ s1 : Dec, g (forValidBlocks cu.blocks (fun c a s =>
      (s.writeReco c a (PelBuf.copyClip ((s.pred c).view a) (C.clpRng c))).log
        (.writeReco c a)) s1) = g s1 :=
    fun s1 => frame_validBlocks g _ _ (fun c a s2 => by simp only [hlog, hreco]) s1
  unfold xReconInter_recon xReconInter_reconCbf xReconInter_reconNoCbf
  simp only []
  split_ifs <;> simp only [h1, h2, h3, h4, hlog, hpred, hreco, htmp]

theorem xReconInter_setDecomp_frame {β : Type} (g : Dec → β)
    (hlog : ∀ s e, g (Dec.log s e) = g s) (cu : CodingUnit) (s : Dec) :
    g (xReconInter_setDecomp cu s) = g s := by
  unfold xReconInter_setDecomp
  exact frame_validBlocks g _ _ (fun c a s2 => hlog _ _) s

theorem xReconInter_predict_frame {β : Type} (g : Dec → β)
    (hlog : ∀ s e, g (Dec.log s e) = g s)
    (hpred : ∀ s c a b, g (Dec.writePred s c a b) = g s)
    (E : Ext) (cu : CodingUnit) (s s1 : Dec) (h : xReconInter_predict E cu s = .ok s1) :
    g s1 = g s := by
  have hw : ∀ (blk : Planes) (s2 : Dec),
      g (forValidBlocks cu.blocks (fun c a s => s.writePred c a (blk c)) s2) = g s2 :=
    fun blk s2 => frame_validBlocks g _ _ (fun c a s3 => hpred _ _ _ _) s2
  have hw2 : ∀ (blk : Planes) (l ch : Bool) (s2 : Dec),
      g (forValidBlocks cu.blocks (fun c a s =>
        if (if isLuma c then l else ch) then s.writePred c a (blk c) else s) s2) = g s2 :=
    fun blk l ch s2 => frame_validBlocks g _ _ (fun c a s3 => by
      split_ifs
      · exact hpred _ _ _ _
      · rfl
      · exact hpred _ _ _ _
      · rfl) s2
  unfold xReconInter_predict at h
  simp only [CHECK, bind, Except.bind, pure, Except.pure] at h
  split_ifs at h
  all_goals first
    | (cases h; done)
    | (cases h
       simp only [hlog, hw, hw2])

/-! ## Decoder: the motion look-up tables -/

/-- C33: when `xReconInter` returns, the prediction has returned a state `sp`, and: if the luma
block is valid and the coding unit is neither affine nor triangle, the motion of the first
prediction unit, with the GBi index of the coding unit when `interDir` is 3 and the default
index otherwise, has been added to the IBC table for an IBC unit and to the regular table
otherwise, the other table being as before; in every other case both tables are as before. -/
theorem xReconInter_adds_motion_to_lut (C : Config) (E : Ext) (cu : CodingUnit) (s s1 : Dec)
    (h : xReconInter C E cu s = .ok s1) :
    ∃ sp, xReconInter_predict E cu (s.log (.xReconInter cu.idx)) = .ok sp ∧
      (xReconInter_lutMotion C E cu sp).GBiIdx =
        (if (E.getMotionInfo cu.firstPU sp).interDir = 3 then cu.GBiIdx else C.GBI_DEFAULT) ∧
      (cu.Y.valid = true ∧ cu.affine = false ∧ cu.triangle = false →
        (CU.isIBC cu = true →
          s1.lutIbc = E.addMiToLut s.lutIbc (xReconInter_lutMotion C E cu sp) ∧
          s1.lut = s.lut) ∧
        (CU.isIBC cu = false →
          s1.lut = E.addMiToLut s.lut (xReconInter_lutMotion C E cu sp) ∧
          s1.lutIbc = s.lutIbc)) ∧
      (¬ (cu.Y.valid = true ∧ cu.affine = false ∧ cu.triangle = false) →
        s1.lut = s.lut ∧ s1.lutIbc = s.lutIbc) := by
  cases hp : xReconInter_predict E cu (s.log (.xReconInter cu.idx)) with
  | error e =>
    rw [xReconInter_of_predict_error C E cu s e hp] at h
    cases h
  | ok sp =>
    rw [xReconInter_of_predict_ok C E cu s sp hp] at h
    cases h
    have hsp0 : sp.luts = s.luts :=
      (xReconInter_predict_frame Dec.luts (fun _ _ => rfl) (fun _ _ _ _ => rfl) E cu _ sp
        hp).trans rfl
    have hrest0 : (xReconInter_rest C E cu sp).luts = (xReconInter_lut C E cu sp).luts := by
      rw [xReconInter_rest_stages]
      exact (xReconInter_setDecomp_frame Dec.luts (fun _ _ => rfl) cu _).trans
        ((xReconInter_recon_frame Dec.luts (fun _ _ => rfl) (fun _ _ _ _ => rfl)
          (fun _ _ _ _ => rfl) (fun _ _ _ _ => rfl) (fun _ _ _ => rfl) C cu _).trans
        ((xDecodeInterTexture_frame Dec.luts (fun _ _ => rfl) (fun _ _ _ _ => rfl)
          (fun _ _ _ => rfl) (fun _ _ _ => rfl) C E cu _).trans
        (xReconInter_mhIntra_frame Dec.luts (fun _ _ => rfl) (fun _ _ _ _ => rfl) C E cu _)))
    have hsp : sp.lut = s.lut ∧ sp.lutIbc = s.lutIbc := Prod.mk.inj hsp0
    have hrest : (xReconInter_rest C E cu sp).lut = (xReconInter_lut C E cu sp).lut ∧
        (xReconInter_rest C E cu sp).lutIbc = (xReconInter_lut C E cu sp).lutIbc :=
      Prod.mk.inj hrest0
    refine ⟨sp, rfl, rfl, ?_, ?_⟩
    · rintro ⟨hv, ha, ht⟩
      constructor
      · intro hi
        rw [hrest.1, hrest.2, ← hsp.1, ← hsp.2]
        unfold xReconInter_lut xReconInter_lutMotion
        simp [hv, ha, ht, hi, Dec.log]
      · intro hi
        rw [hrest.1, hrest.2, ← hsp.1, ← hsp.2]
        unfold xReconInter_lut xReconInter_lutMotion
        simp [hv, ha, ht, hi, Dec.log]
    · intro hn
      rw [hrest.1, hrest.2, ← hsp.1, ← hsp.2]
      unfold xReconInter_lut
      simp only []
      split_ifs with h1 h2 h3
      all_goals first
        | exact ⟨rfl, rfl⟩
        | (exfalso
           apply hn
           simp only [Bool.and_eq_true, Bool.not_eq_true'] at h2
           exact ⟨h1, h2.1, h2.2⟩)

/-- C33 at an inter coding unit with a valid luma block, not affine and not triangle: its
motion is added to the regular table. -/
theorem xReconInter_adds_motion_to_lut_witness :
    ∃ sp, xReconInter_predict exampleExt (exampleCU .MODE_INTER)
        (exampleDec.log (.xReconInter (exampleCU .MODE_INTER).idx)) = .ok sp ∧
      (xReconInter_lutMotion (exampleConfig false) exampleExt (exampleCU .MODE_INTER) sp).GBiIdx =
        (if (exampleExt.getMotionInfo (exampleCU .MODE_INTER).firstPU sp).interDir = 3
          then (exampleCU .MODE_INTER).GBiIdx else (exampleConfig false).GBI_DEFAULT) ∧
      ((exampleCU .MODE_INTER).Y.valid = true ∧ (exampleCU .MODE_INTER).affine = false ∧
          (exampleCU .MODE_INTER).triangle = false →
        (CU.isIBC (exampleCU .MODE_INTER) = true →
          (stateOf (xReconInter (exampleConfig false) exampleExt (exampleCU .MODE_INTER)
              exampleDec) exampleDec).lutIbc =
            exampleExt.addMiToLut exampleDec.lutIbc
              (xReconInter_lutMotion (exampleConfig false) exampleExt (exampleCU .MODE_INTER)
                sp) ∧
          (stateOf (xReconInter (exampleConfig false) exampleExt (exampleCU .MODE_INTER)
              exampleDec) exampleDec).lut = exampleDec.lut) ∧
        (CU.isIBC (exampleCU .MODE_INTER) = false →
          (stateOf (xReconInter (exampleConfig false) exampleExt (exampleCU .MODE_INTER)
              exampleDec) exampleDec).lut =
            exampleExt.addMiToLut exampleDec.lut
              (xReconInter_lutMotion (exampleConfig false) exampleExt (exampleCU .MODE_INTER)
                sp) ∧
          (stateOf (xReconInter (exampleConfig false) exampleExt (exampleCU .MODE_INTER)
              exampleDec) exampleDec).lutIbc = exampleDec.lutIbc)) ∧
      (¬ ((exampleCU .MODE_INTER).Y.valid = true ∧ (exampleCU .MODE_INTER).affine = false ∧
          (exampleCU .MODE_INTER).triangle = false) →
        (stateOf (xReconInter (exampleConfig false) exampleExt (exampleCU .MODE_INTER)
            exampleDec) exampleDec).lut = exampleDec.lut ∧
        (stateOf (xReconInter (exampleConfig false) exampleExt (exampleCU .MODE_INTER)
            exampleDec) exampleDec).lutIbc = exampleDec.lutIbc) :=
  xReconInter_adds_motion_to_lut (exampleConfig false) exampleExt (exampleCU .MODE_INTER)
    exampleDec _ rfl

/-! ## Decoder: the reconstruction of an inter coding unit without residual -/

theorem contains_sub (a : CompArea) (x y : Nat) (h : a.contains x y = true) :
    a.x + (x - a.x) = x ∧ a.y + (y - a.y) = y := by
  simp only [CompArea.contains, Bool.and_eq_true, decide_eq_true_eq] at h
  omega

theorem forValidBlocks_writeReco (blocks : ComponentID → CompArea)
    (blk : ComponentID → CompArea → Dec → Plane)
    (hblk : ∀ c a s c2 a2 b, blk c a ((s.writeReco c2 a2 b).log (.writeReco c2 a2)) = blk c a s)
    (s : Dec) (c : ComponentID) (x y : Nat) :
    (forValidBlocks blocks (fun c a s => (s.writeReco c a (blk c a s)).log (.writeReco c a))
      s).reco c x y =
      if (blocks c).contains x y then blk c (blocks c) s (x - (blocks c).x) (y - (blocks c).y)
      else s.reco c x y := by
  unfold forValidBlocks
  simp only [List.foldl_cons, List.foldl_nil]
  by_cases hY : (blocks .COMPONENT_Y).valid = true <;>
  by_cases hCb : (blocks .COMPONENT_Cb).valid = true <;>
  by_cases hCr : (blocks .COMPONENT_Cr).valid = true <;>
  simp only [hY, hCb, hCr, if_true, if_false, Bool.false_eq_true, hblk] <;>
  cases c <;>
  simp [Dec.writeReco, Dec.log, Planes.write, Plane.write, CompArea.contains, hY, hCb, hCr]

theorem forValidBlocks_writeResi (blocks : ComponentID → CompArea)
    (blk : ComponentID → CompArea → Dec → Plane)
    (hblk : ∀ c a s c2 a2 b, c2 ≠ c → blk c a (s.writeResi c2 a2 b) = blk c a s)
    (s : Dec) (c : ComponentID) (x y : Nat) :
    (forValidBlocks blocks (fun c a s => s.writeResi c a (blk c a s)) s).resi c x y =
      if (blocks c).contains x y then blk c (blocks c) s (x - (blocks c).x) (y - (blocks c).y)
      else s.resi c x y := by
  have e1 : ∀ a s a2 b, blk .COMPONENT_Cb a (s.writeResi .COMPONENT_Y a2 b) =
      blk .COMPONENT_Cb a s := fun a s a2 b => hblk _ a s _ a2 b (by decide)
  have e2 : ∀ a s a2 b, blk .COMPONENT_Cr a (s.writeResi .COMPONENT_Y a2 b) =
      blk .COMPONENT_Cr a s := fun a s a2 b => hblk _ a s _ a2 b (by decide)
  have e3 : ∀ a s a2 b, blk .COMPONENT_Cr a (s.writeResi .COMPONENT_Cb a2 b) =
      blk .COMPONENT_Cr a s := fun a s a2 b => hblk _ a s _ a2 b (by decide)
  unfold forValidBlocks
  simp only [List.foldl_cons, List.foldl_nil]
  by_cases hY : (blocks .COMPONENT_Y).valid = true <;>
  by_cases hCb : (blocks .COMPONENT_Cb).valid = true <;>
  by_cases hCr : (blocks .COMPONENT_Cr).valid = true <;>
  simp only [hY, hCb, hCr, if_true, if_false, Bool.false_eq_true, e1, e2, e3] <;>
  cases c <;>
  simp [Dec.writeResi, Planes.write, Plane.write, CompArea.contains, hY, hCb, hCr]

theorem xReconInter_reconCbf_stages (C : Config) (cu : CodingUnit) (s : Dec) :
    xReconInter_reconCbf C cu s =
      xReconInter_reconCbf_restore C cu (xReconInter_reconCbf_add C cu
        (xReconInter_reconCbf_reshape C cu s)) := rfl

theorem writePred_rspSignal_pred (s : Dec) (p : Plane) (a : CompArea) (fwd : Int → Int)
    (c : ComponentID) (x y : Nat) :
    (s.writePred .COMPONENT_Y a (PelBuf.rspSignal fwd (p.view a))).pred c x y =
      if c = .COMPONENT_Y ∧ a.contains x y = true then fwd (p x y) else s.pred c x y := by
  by_cases hc : a.contains x y = true
  · cases c <;>
      simp [Dec.writePred, Planes.write, Plane.write, PelBuf.rspSignal, Plane.view, hc,
        (contains_sub _ _ _ hc).1, (contains_sub _ _ _ hc).2]
  · cases c <;> simp [Dec.writePred, Planes.write, Plane.write, hc]

theorem Dec.log_pred (s : Dec) (e : Event) : (s.log e).pred = s.pred := rfl

theorem Dec.writeTmp_pred (s : Dec) (a : CompArea) (b : Plane) :
    (s.writeTmp a b).pred = s.pred := rfl

theorem xReconInter_reconCbf_reshape_fields (C : Config) (cu : CodingUnit) (s : Dec) :
    (xReconInter_reconCbf_reshape C cu s).resi = s.resi ∧
    (xReconInter_reconCbf_reshape C cu s).reco = s.reco ∧
    ∀ c x y, (xReconInter_reconCbf_reshape C cu s).pred c x y =
      if (c = .COMPONENT_Y ∧ (cu.blocks c).contains x y = true) ∧
          (C.lmcsEnabledFlag && C.reshapeCTUFlag &&
            (!cu.firstPU.mhIntraFlag && !CU.isIBC cu)) = true
        then C.fwdLUT (s.pred c x y) else s.pred c x y := by
  unfold xReconInter_reconCbf_reshape
  simp only []
  refine ⟨?_, ?_, ?_⟩
  · split_ifs <;> rfl
  · split_ifs <;> rfl
  · intro c x y
    generalize (C.lmcsEnabledFlag && C.reshapeCTUFlag) = R
    generalize (!cu.firstPU.mhIntraFlag && !CU.isIBC cu) = M
    generalize (C.REUSE_CU_RESULTS && C.isEncoder) = Q
    cases R <;> cases M <;> cases Q <;> cases c <;>
      simp [writePred_rspSignal_pred, Dec.log_pred, Dec.writeTmp_pred]

theorem xReconInter_reconCbf_add_reco (C : Config) (cu : CodingUnit) (s1 : Dec) (c : ComponentID)
    (x y : Nat) :
    (xReconInter_reconCbf_add C cu s1).reco c x y =
      if (cu.blocks c).contains x y then
        ClipPel (s1.pred c x y + s1.resi c x y) (C.clpRng c)
      else s1.reco c x y := by
  unfold xReconInter_reconCbf_add
  simp only []
  split_ifs with hK hc hc
  · rw [forValidBlocks_writeReco cu.blocks (fun c a s =>
      PelBuf.reconstruct ((s.pred c).view a) ((s.resi c).view a) (C.clpRng c))
      (fun _ _ _ _ _ _ => rfl), if_pos hc]
    simp only [PelBuf.reconstruct, Plane.view, (contains_sub _ _ _ hc).1,
      (contains_sub _ _ _ hc).2]
  · rw [forValidBlocks_writeReco cu.blocks (fun c a s =>
      PelBuf.reconstruct ((s.pred c).view a) ((s.resi c).view a) (C.clpRng c))
      (fun _ _ _ _ _ _ => rfl), if_neg hc]
  · rw [forValidBlocks_writeReco cu.blocks (fun c a s => (s.resi c).view a)
      (fun _ _ _ _ _ _ => rfl), if_pos hc]
    simp only [Plane.view, (contains_sub _ _ _ hc).1, (contains_sub _ _ _ hc).2]
    rw [forValidBlocks_writeResi cu.blocks (fun c a s =>
      PelBuf.reconstruct ((s.pred c).view a) ((s.resi c).view a) (C.clpRng c))
      (fun c a s c2 a2 b hne => by
        simp only [Dec.writeResi, Planes.write, if_neg (Ne.symm hne)]), if_pos hc]
    simp only [PelBuf.reconstruct, Plane.view, (contains_sub _ _ _ hc).1,
      (contains_sub _ _ _ hc).2]
  · rw [forValidBlocks_writeReco cu.blocks (fun c a s => (s.resi c).view a)
      (fun _ _ _ _ _ _ => rfl), if_neg hc]
    exact frame_validBlocks (fun d : Dec => d.reco c x y) cu.blocks (fun c a s =>
      s.writeResi c a (PelBuf.reconstruct ((s.pred c).view a) ((s.resi c).view a)
        (C.clpRng c))) (fun _ _ _ => rfl) s1

/-- The reconstruction `xReconInter` writes for a unit with a coded residual. -/
theorem xReconInter_reconCbf_value (C : Config) (cu : CodingUnit) (s : Dec) (c : ComponentID)
    (x y : Nat) :
    (xReconInter_reconCbf C cu s).reco c x y =
      if (cu.blocks c).contains x y then
        ClipPel ((if c = .COMPONENT_Y ∧ (C.lmcsEnabledFlag && C.reshapeCTUFlag &&
            (!cu.firstPU.mhIntraFlag && !CU.isIBC cu)) = true
          then C.fwdLUT (s.pred c x y) else s.pred c x y) + s.resi c x y) (C.clpRng c)
      else s.reco c x y := by
  have h0 : (xReconInter_reconCbf C cu s).reco c x y =
      (xReconInter_reconCbf_add C cu (xReconInter_reconCbf_reshape C cu s)).reco c x y := by
    rw [xReconInter_reconCbf_stages]
    unfold xReconInter_reconCbf_restore
    simp only []
    split_ifs <;> rfl
  obtain ⟨e1, e2, e3⟩ := xReconInter_reconCbf_reshape_fields C cu s
  rw [h0, xReconInter_reconCbf_add_reco, e1, e2, e3]
  by_cases hc : (cu.blocks c).contains x y = true
  · simp only [hc, and_true, if_true]
  · simp only [hc, if_false, Bool.false_eq_true]

theorem writeReco_rspSignal_reco (s : Dec) (a : CompArea) (fwd : Int → Int) (c : ComponentID)
    (x y : Nat) :
    (s.writeReco .COMPONENT_Y a (PelBuf.rspSignal fwd ((s.reco .COMPONENT_Y).view a))).reco
        c x y =
      if c = .COMPONENT_Y ∧ a.contains x y = true then fwd (s.reco c x y) else s.reco c x y := by
  by_cases hc : a.contains x y = true
  · cases c <;>
      simp [Dec.writeReco, Planes.write, Plane.write, PelBuf.rspSignal, Plane.view, hc,
        (contains_sub _ _ _ hc).1, (contains_sub _ _ _ hc).2]
  · cases c <;> simp [Dec.writeReco, Planes.write, Plane.write, hc]

/-- The reconstruction `xReconInter` writes for a unit without a coded residual. -/
theorem xReconInter_reconNoCbf_value (C : Config) (cu : CodingUnit) (s : Dec) (c : ComponentID)
    (x y : Nat) :
    (xReconInter_reconNoCbf C cu s).reco c x y =
      if (cu.blocks c).contains x y then
        (if c = .COMPONENT_Y ∧ (C.lmcsEnabledFlag && C.reshapeCTUFlag &&
            !cu.firstPU.mhIntraFlag && !CU.isIBC cu) = true
          then C.fwdLUT (ClipPel (s.pred c x y) (C.clpRng c))
          else ClipPel (s.pred c x y) (C.clpRng c))
      else s.reco c x y := by
  have h1 : ∀ c x y, (forValidBlocks cu.blocks (fun c a s =>
        (s.writeReco c a (PelBuf.copyClip ((s.pred c).view a) (C.clpRng c))).log
          (.writeReco c a)) s).reco c x y =
      if (cu.blocks c).contains x y then ClipPel (s.pred c x y) (C.clpRng c)
      else s.reco c x y := by
    intro c x y
    rw [forValidBlocks_writeReco cu.blocks (fun c a s =>
      PelBuf.copyClip ((s.pred c).view a) (C.clpRng c)) (fun _ _ _ _ _ _ => rfl)]
    split_ifs with hc
    · simp only [PelBuf.copyClip, Plane.view, (contains_sub _ _ _ hc).1,
        (contains_sub _ _ _ hc).2]
    · rfl
  unfold xReconInter_reconNoCbf
  simp only []
  by_cases hR : (C.lmcsEnabledFlag && C.reshapeCTUFlag && !cu.firstPU.mhIntraFlag &&
      !CU.isIBC cu) = true
  · rw [if_pos hR]
    show (Dec.writeReco _ .COMPONENT_Y (cu.blocks .COMPONENT_Y) _).reco c x y = _
    rw [writeReco_rspSignal_reco, h1]
    by_cases hc : (cu.blocks c).contains x y = true
    · cases c <;> simp [hc, hR]
    · cases c <;> simp [hc]
  · rw [if_neg hR, h1]
    by_cases hc : (cu.blocks c).contains x y = true
    · simp [hc, hR]
    · simp [hc]

theorem xReconInter_lut_pred_reco (C : Config) (E : Ext) (cu : CodingUnit) (s : Dec) :
    (xReconInter_lut C E cu s).pred = s.pred ∧ (xReconInter_lut C E cu s).reco = s.reco := by
  unfold xReconInter_lut
  simp only []
  split_ifs <;> exact ⟨rfl, rfl⟩

theorem xReconInter_mhIntra_of_not (C : Config) (E : Ext) (cu : CodingUnit) (s : Dec)
    (hmh : cu.firstPU.mhIntraFlag = false) : xReconInter_mhIntra C E cu s = s := by
  unfold xReconInter_mhIntra
  simp [hmh]

theorem xDecodeInterTexture_of_not (C : Config) (E : Ext) (cu : CodingUnit) (s : Dec)
    (h : cu.rootCbf = false) : xDecodeInterTexture C E cu s = s := by
  rw [xDecodeInterTexture_steps]
  simp [h]

theorem xReconInter_rest_reco_cbf (C : Config) (E : Ext) (cu : CodingUnit) (s : Dec)
    (hcbf : cu.rootCbf = true) (hmh : cu.firstPU.mhIntraFlag = false) (c : ComponentID)
    (x y : Nat) :
    (xReconInter_rest C E cu s).reco c x y =
      if (cu.blocks c).contains x y then
        ClipPel ((if c = .COMPONENT_Y ∧ (C.lmcsEnabledFlag && C.reshapeCTUFlag &&
            (!cu.firstPU.mhIntraFlag && !CU.isIBC cu)) = true
          then C.fwdLUT (s.pred c x y) else s.pred c x y) +
          (xDecodeInterTexture C E cu (xReconInter_mhIntra C E cu
            (xReconInter_lut C E cu s))).resi c x y) (C.clpRng c)
      else s.reco c x y := by
  have e1 : (xDecodeInterTexture C E cu (xReconInter_mhIntra C E cu
      (xReconInter_lut C E cu s))).pred = s.pred :=
    (xDecodeInterTexture_frame (fun d : Dec => d.pred) (fun _ _ => rfl) (fun _ _ _ _ => rfl)
      (fun _ _ _ => rfl) (fun _ _ _ => rfl) C E cu _).trans
      (by rw [xReconInter_mhIntra_of_not C E cu _ hmh]; exact (xReconInter_lut_pred_reco C E cu s).1)
  have e2 : (xDecodeInterTexture C E cu (xReconInter_mhIntra C E cu
      (xReconInter_lut C E cu s))).reco = s.reco :=
    (xDecodeInterTexture_frame (fun d : Dec => d.reco) (fun _ _ => rfl) (fun _ _ _ _ => rfl)
      (fun _ _ _ => rfl) (fun _ _ _ => rfl) C E cu _).trans
      (by rw [xReconInter_mhIntra_of_not C E cu _ hmh]; exact (xReconInter_lut_pred_reco C E cu s).2)
  rw [xReconInter_rest_stages]
  have e3 := xReconInter_setDecomp_frame (fun d : Dec => d.reco c x y) (fun _ _ => rfl) cu
    (xReconInter_recon C cu (xDecodeInterTexture C E cu (xReconInter_mhIntra C E cu
      (xReconInter_lut C E cu s))))
  simp only [] at e3
  rw [e3]
  unfold xReconInter_recon
  rw [if_pos hcbf, xReconInter_reconCbf_value, e1, e2]

theorem xReconInter_rest_reco_noCbf (C : Config) (E : Ext) (cu : CodingUnit) (s : Dec)
    (hcbf : cu.rootCbf = false) (hmh : cu.firstPU.mhIntraFlag = false) (c : ComponentID)
    (x y : Nat) :
    (xReconInter_rest C E cu s).reco c x y =
      if (cu.blocks c).contains x y then
        (if c = .COMPONENT_Y ∧ (C.lmcsEnabledFlag && C.reshapeCTUFlag &&
            !cu.firstPU.mhIntraFlag && !CU.isIBC cu) = true
          then C.fwdLUT (ClipPel (s.pred c x y) (C.clpRng c))
          else ClipPel (s.pred c x y) (C.clpRng c))
      else s.reco c x y := by
  rw [xReconInter_rest_stages]
  have e3 := xReconInter_setDecomp_frame (fun d : Dec => d.reco c x y) (fun _ _ => rfl) cu
    (xReconInter_recon C cu (xDecodeInterTexture C E cu (xReconInter_mhIntra C E cu
      (xReconInter_lut C E cu s))))
  simp only [] at e3
  rw [e3, xDecodeInterTexture_of_not C E cu _ hcbf, xReconInter_mhIntra_of_not C E cu _ hmh]
  unfold xReconInter_recon
  rw [hcbf]
  simp only [Bool.false_eq_true, if_false]
  rw [xReconInter_reconNoCbf_value, (xReconInter_lut_pred_reco C E cu s).1,
    (xReconInter_lut_pred_reco C E cu s).2]

theorem ClipPel_of_mem (v : Int) (r : ClpRng) (h1 : r.min ≤ v) (h2 : v ≤ r.max) :
    ClipPel v r = v := by
  unfold ClipPel
  split_ifs <;> omega

/-- C37: for a coding unit that is neither IBC nor MHIntra and a state `sp` left by the
prediction of `xReconInter`, if the residual left by `xDecodeInterTexture` is zero on every
block of the unit and, when the reshaper is active, the luma prediction samples of the unit lie
in the clipping range and the forward table maps the clipping range into itself, then the
statements of `xReconInter` after the prediction leave the same reconstruction buffer, luma and
chroma, with `rootCbf` set as with `rootCbf` unset. -/
theorem xReconInter_zero_residual_as_no_cbf (C : Config) (E : Ext) (cu : CodingUnit) (sp : Dec)
    (hcbf : cu.rootCbf = true) (hibc : CU.isIBC cu = false)
    (hmh : cu.firstPU.mhIntraFlag = false)
    (hres : ∀ c x y, (cu.blocks c).contains x y = true →
      (xDecodeInterTexture C E cu (xReconInter_mhIntra C E cu
        (xReconInter_lut C E cu sp))).resi c x y = 0)
    (hpred : (C.lmcsEnabledFlag && C.reshapeCTUFlag) = true →
      ∀ x y, cu.Y.contains x y = true →
        (C.clpRng .COMPONENT_Y).min ≤ sp.pred .COMPONENT_Y x y ∧
        sp.pred .COMPONENT_Y x y ≤ (C.clpRng .COMPONENT_Y).max)
    (hfwd : (C.lmcsEnabledFlag && C.reshapeCTUFlag) = true →
      ∀ v, (C.clpRng .COMPONENT_Y).min ≤ v → v ≤ (C.clpRng .COMPONENT_Y).max →
        (C.clpRng .COMPONENT_Y).min ≤ C.fwdLUT v ∧ C.fwdLUT v ≤ (C.clpRng .COMPONENT_Y).max) :
    (xReconInter_rest C E cu sp).reco =
      (xReconInter_rest C E { cu with rootCbf := false } sp).reco := by
  funext c x y
  rw [xReconInter_rest_reco_cbf C E cu sp hcbf hmh,
    xReconInter_rest_reco_noCbf C E { cu with rootCbf := false } sp rfl hmh]
  show _ = (if (cu.blocks c).contains x y then
        (if c = .COMPONENT_Y ∧ (C.lmcsEnabledFlag && C.reshapeCTUFlag &&
            !cu.firstPU.mhIntraFlag && !CU.isIBC cu) = true
          then C.fwdLUT (ClipPel (sp.pred c x y) (C.clpRng c))
          else ClipPel (sp.pred c x y) (C.clpRng c))
      else sp.reco c x y)
  by_cases hc : (cu.blocks c).contains x y = true
  · rw [if_pos hc, if_pos hc, hres c x y hc, hmh, hibc]
    simp only [Bool.not_false, Bool.and_true, add_zero]
    by_cases hR : (C.lmcsEnabledFlag && C.reshapeCTUFlag) = true
    · by_cases hY : c = .COMPONENT_Y
      · subst hY
        have h1 := hpred hR x y hc
        have h2 := hfwd hR _ h1.1 h1.2
        simp only [hR, and_self, if_true]
        rw [ClipPel_of_mem _ _ h1.1 h1.2, ClipPel_of_mem _ _ h2.1 h2.2]
      · simp only [hY, false_and, if_false]
    · simp only [hR, Bool.false_eq_true, and_false, if_false]
  · rw [if_neg hc, if_neg hc]

theorem zeroCbfCU_residual (c : ComponentID) (x y : Nat)
    (hc : (zeroCbfCU.blocks c).contains x y = true) :
    (xDecodeInterTexture reshapeConfig exampleExt zeroCbfCU
      (xReconInter_mhIntra reshapeConfig exampleExt zeroCbfCU
        (xReconInter_lut reshapeConfig exampleExt zeroCbfCU predictedDec))).resi c x y = 0 := by
  cases c <;>
    simp [xDecodeInterTexture, xReconInter_mhIntra, xReconInter_lut, zeroCbfCU, exampleCU,
      exampleTU, examplePU, exampleExt, reshapeConfig, exampleConfig, CU.traverseTUs,
      xDecodeInterTU, Dec.writeResi, Dec.log, Planes.write, Plane.write, PelBuf.fill,
      ComponentID.toNat, CU.isIBC, exampleArea, CodingUnit.Y, isChroma, predictedDec,
      exampleDec] at hc ⊢ <;>
    simp [hc]

theorem reshapeConfig_fwdLUT (v : Int) (h1 : (reshapeConfig.clpRng .COMPONENT_Y).min ≤ v)
    (h2 : v ≤ (reshapeConfig.clpRng .COMPONENT_Y).max) :
    (reshapeConfig.clpRng .COMPONENT_Y).min ≤ reshapeConfig.fwdLUT v ∧
    reshapeConfig.fwdLUT v ≤ (reshapeConfig.clpRng .COMPONENT_Y).max := by
  change (0 : Int) ≤ v at h1
  change v ≤ (255 : Int) at h2
  show (0 : Int) ≤ v / 2 + 64 ∧ v / 2 + 64 ≤ (255 : Int)
  omega

/-- C37 at an inter coding unit with the reshaper active, the prediction 100 and no coded
residual in its transform unit. -/
theorem xReconInter_zero_residual_as_no_cbf_witness :
    (xReconInter_rest reshapeConfig exampleExt zeroCbfCU predictedDec).reco =
      (xReconInter_rest reshapeConfig exampleExt { zeroCbfCU with rootCbf := false }
        predictedDec).reco :=
  xReconInter_zero_residual_as_no_cbf reshapeConfig exampleExt zeroCbfCU predictedDec rfl rfl rfl
    zeroCbfCU_residual
    (fun _ _ _ _ => ⟨show (0 : Int) ≤ 100 by decide, show (100 : Int) ≤ 255 by decide⟩)
    (fun _ v h1 h2 => reshapeConfig_fwdLUT v h1 h2)

/-! ## Decoder: the motion vectors of the AMVP branches -/

/-- C34: for the inter coding unit in AMVP mode with the candidate `(131071, 0)` and the
difference `(1, 0)`, `xDeriveCUMV` leaves `(-131072, 0)` in `mv[0]`, the sum `(131072, 0)` after
`mvCliptoStorageBitDepth`, and not the sum itself. -/
theorem xDeriveCUMV_AMVP_stores_clipped_mv :
    mvdOneCU.firstPU.mergeFlag = false ∧ mvdOneCU.affine = false ∧
    mvdOneCU.firstPU.mvd 0 = ⟨1, 0⟩ ∧
    (clipExt.fillMvpCand mvdOneCU.firstPU 0 0 exampleDec).mvCand 0 = ⟨131071, 0⟩ ∧
    (xDeriveCUMV (exampleConfig false) clipExt mvdOneCU exampleDec).toOption.map
      (fun r => r.1.firstPU.mv 0) = some ⟨-131072, 0⟩ ∧
    Mv.add ⟨131071, 0⟩ ⟨1, 0⟩ = ⟨131072, 0⟩ :=
  ⟨rfl, rfl, rfl, rfl, by decide, rfl⟩

/-- C34 (amended): in the decoder (`isEncoder` unset), for an affine AMVP prediction unit and
a reference list in use with a non-negative reference index, the pass of `xDeriveCUMV` over the
list hands to `setAllAffineMv` the control-point vectors
`mvLT = candLT[mvpIdx] + mvd0`, `mvRT = candRT[mvpIdx] + mvd1 + mvd0` and, for the 6-parameter
model, `mvLB = candLB[mvpIdx] + mvd2 + mvd0`, the zero vector otherwise, `mvd0..2` being the
signalled differences after `changeAffinePrecAmvr2Internal`; for a non-affine unit and a list
in use the motion vector stored is `mvCliptoStorageBitDepth( mvCand[mvpIdx] + mvd )`, `mvd`
being the signalled difference after `changeTransPrecAmvr2Internal` (in the IBC branch, for
list 0, after `changeIbcPrecAmvr2Internal`). -/
theorem xDeriveCUMV_AMVP_vectors (C : Config) (E : Ext) (cu : CodingUnit)
    (hdec : C.isEncoder = false) :
    (∀ (i : Nat) (pu : PredictionUnit) (s : Dec), affineListUsed C pu i → 0 ≤ pu.refIdx i →
      ∃ pu1 s1,
        xDeriveCUMV_affineAMVP C E cu i (pu, s) =
          .ok (E.setAllAffineMv pu1
            ((E.fillAffineMvpCand pu i (pu.refIdx i) s).mvCandLT (pu.mvpIdx i) |>.add
              (E.changeAffinePrecAmvr2Internal (pu.mvdAffi i 0) cu.imv))
            (((E.fillAffineMvpCand pu i (pu.refIdx i) s).mvCandRT (pu.mvpIdx i) |>.add
              (E.changeAffinePrecAmvr2Internal (pu.mvdAffi i 1) cu.imv)).add
              (E.changeAffinePrecAmvr2Internal (pu.mvdAffi i 0) cu.imv))
            (if cu.affineType = C.AFFINEMODEL_6PARAM then
              ((E.fillAffineMvpCand pu i (pu.refIdx i) s).mvCandLB (pu.mvpIdx i) |>.add
                (E.changeAffinePrecAmvr2Internal (pu.mvdAffi i 2) cu.imv)).add
                (E.changeAffinePrecAmvr2Internal (pu.mvdAffi i 0) cu.imv)
             else ⟨0, 0⟩) i, s1)) ∧
    (∀ (i : Nat) (pu : PredictionUnit) (s : Dec), listUsed C cu pu i →
      (xDeriveCUMV_AMVP C E cu s pu i).mv i =
        E.mvCliptoStorageBitDepth
          (((E.fillMvpCand pu i (pu.refIdx i) s).mvCand (pu.mvpIdx i)).add
            (E.changeTransPrecAmvr2Internal (pu.mvd i) cu.imv))) ∧
    (∀ d : DeriveState, d.cu.affine = false → d.cu.imv = 0 → CU.isIBC d.cu = true →
      d.pu.interDir = 1 →
      ∃ d1, xDeriveCUMV_nonMerge C E d = .ok d1 ∧
        d1.pu.mv 0 = E.mvCliptoStorageBitDepth
          (((E.fillIBCMvpCand (xDeriveCUMV_sharePU d.cu d.pu) d.s).mvCand (d.pu.mvpIdx 0)).add
            (E.changeIbcPrecAmvr2Internal (d.pu.mvd 0) d.cu.imv))) := by
  have n01 : ((0 : Nat) = 1) = False := by decide
  have n02 : ((0 : Nat) = 2) = False := by decide
  have n12 : ((1 : Nat) = 2) = False := by decide
  refine ⟨?_, ?_, ?_⟩
  · intro i pu s hu hr
    have hn : ¬ (pu.refIdx i < 0) := by omega
    unfold affineListUsed at hu
    unfold xDeriveCUMV_affineAMVP
    simp only [CHECK, bind, Except.bind, pure, Except.pure, hdec, Bool.not_false, if_true]
    rw [if_pos hu]
    simp only [decide_eq_true_eq, hn, if_false]
    by_cases h6 : cu.affineType = C.AFFINEMODEL_6PARAM
    · simp only [h6, if_true, Function.update_apply, n01, n02, n12, if_false]
      exact ⟨_, _, rfl⟩
    · simp only [h6, if_true, Function.update_apply, n01, n02, n12, if_false]
      exact ⟨_, _, rfl⟩
  · intro i pu s hu
    unfold listUsed at hu
    unfold xDeriveCUMV_AMVP
    simp only [hdec, Bool.not_false, if_true]
    rw [if_pos hu]
    simp only [Function.update_same]
  · intro d ha hi hb hd
    unfold xDeriveCUMV_nonMerge
    simp [bind, Except.bind, pure, Except.pure, ha, hi, hb, hd, hdec, xDeriveCUMV_sharePU]

/-- C34 (amended) at the inter coding unit in AMVP mode with the candidate `(131071, 0)` and
the difference `(1, 0)`, for the reference list 0. -/
theorem xDeriveCUMV_AMVP_vectors_witness :
    (xDeriveCUMV_AMVP (exampleConfig false) clipExt mvdOneCU exampleDec mvdOneCU.firstPU 0).mv
        0 =
      clipExt.mvCliptoStorageBitDepth
        (((clipExt.fillMvpCand mvdOneCU.firstPU 0 (mvdOneCU.firstPU.refIdx 0)
            exampleDec).mvCand (mvdOneCU.firstPU.mvpIdx 0)).add
          (clipExt.changeTransPrecAmvr2Internal (mvdOneCU.firstPU.mvd 0) mvdOneCU.imv)) :=
  (xDeriveCUMV_AMVP_vectors (exampleConfig false) clipExt mvdOneCU rfl).2.1 0 mvdOneCU.firstPU
    exampleDec ⟨Or.inl (by decide), by decide⟩

/-! ## Decoder: the chroma adjustment is stored before it is used -/

theorem mem_residualEvents_scale (C : Config) (E : Ext) (tu : TransformUnit)
    (compID : ComponentID) (flag : Bool) (adj : Int) (i : Nat) (c : ComponentID) (a : Int)
    (h : Event.scaleSignal i c a ∈ residualEvents C E tu compID flag adj) :
    i = tu.idx ∧ c = compID ∧ a = adj ∧
      (flag && E.getCbf tu compID && isChroma compID && C.lmcsChromaResidualScaleFlag) = true := by
  unfold residualEvents at h
  simp only [List.mem_append, List.mem_singleton] at h
  rcases h with (h | h) | h
  · split_ifs at h
  · split_ifs at h with h1
    · rw [List.mem_singleton] at h
      cases h
      rw [Bool.and_eq_true] at h1
      exact ⟨rfl, rfl, rfl, h1.1⟩
    · cases h
  · split_ifs at h
    · rw [List.mem_singleton] at h
      cases h
    · cases h

theorem residualEvents_no_setChromaAdj (C : Config) (E : Ext) (tu : TransformUnit)
    (compID : ComponentID) (flag : Bool) (adj : Int) (e : Event)
    (h : e ∈ residualEvents C E tu compID flag adj) : e.isSetChromaAdj = false := by
  unfold residualEvents at h
  simp only [List.mem_append, List.mem_singleton] at h
  rcases h with (h | h) | h
  · rw [h]; split_ifs <;> rfl
  · split_ifs at h
    · rw [List.mem_singleton.mp h]; rfl
    · cases h
  · split_ifs at h
    · rw [List.mem_singleton.mp h]; rfl
    · cases h

theorem predEvents_no_scaleSignal (C : Config) (E : Ext) (cu : CodingUnit)
    (tu : TransformUnit) (compID : ComponentID) (p : Plane) (e : Event)
    (h : e ∈ xIntraRecBlk_predEvents C E cu tu compID p) : e.isScaleSignal = false := by
  unfold xIntraRecBlk_predEvents at h
  simp only [List.mem_append, List.mem_cons, List.mem_singleton, List.not_mem_nil,
    or_false] at h
  rcases h with (h | h) | h
  · rw [h]; rfl
  · rw [h]; split_ifs <;> rfl
  · split_ifs at h
    · rw [List.mem_singleton.mp h]; rfl
    · cases h

theorem recoEvents_plain (E : Ext) (cu : CodingUnit) (tu : TransformUnit)
    (compID : ComponentID) (e : Event) (h : e ∈ xIntraRecBlk_recoEvents E cu tu compID) :
    e.isScaleSignal = false ∧ e.isSetChromaAdj = false := by
  unfold xIntraRecBlk_recoEvents at h
  simp only [List.mem_append, List.mem_singleton] at h
  rcases h with h | h
  · split_ifs at h
    · rw [List.mem_singleton.mp h]; exact ⟨rfl, rfl⟩
    · rw [List.mem_singleton.mp h]; exact ⟨rfl, rfl⟩
    · cases h
  · rw [h]; exact ⟨rfl, rfl⟩

theorem chroma_cbf_of_getCbf (E : Ext) (tu : TransformUnit) (c : ComponentID)
    (hcbf : ∀ (tu : TransformUnit) (c : ComponentID), E.getCbf tu c = true → tu.cbf c ≠ 0)
    (hg : E.getCbf tu c = true) (hc : isChroma c = true) :
    (decide (tu.cbf .COMPONENT_Cb ≠ 0) || decide (tu.cbf .COMPONENT_Cr ≠ 0)) = true := by
  have h := hcbf tu c hg
  cases c
  · cases hc
  · simp [h]
  · simp [h]

theorem xIntraRecBlk_scale_after_adj (C : Config) (E : Ext) (cu : CodingUnit)
    (tu : TransformUnit) (compID : ComponentID) (s : Dec)
    (hcbf : ∀ (tu : TransformUnit) (c : ComponentID), E.getCbf tu c = true → tu.cbf c ≠ 0) :
    ∃ pre rest, (xIntraRecBlk C E cu tu compID s).trace = s.trace ++ (pre ++ rest) ∧
      (∀ e ∈ pre, e.isScaleSignal = false) ∧
      (∀ e ∈ rest, e.isSetChromaAdj = false) ∧
      ∀ i c a, Event.scaleSignal i c a ∈ rest →
        Event.setChromaAdj i a ∈ pre ∧ i = tu.idx ∧ c = compID ∧ isChroma c = true ∧
        (tu.blocks c).width * (tu.blocks c).height > 4 := by
  rcases Bool.eq_false_or_eq_true (tu.blocks compID).valid with hv | hv
  · refine ⟨Event.xIntraRecBlk tu.idx compID ::
        xIntraRecBlk_predEvents C E cu tu compID (s.picPred .COMPONENT_Y),
      residualEvents C E tu compID (xIntraRecBlk_flag C tu compID)
        (xIntraRecBlk_storedAdj C E tu compID (s.picPred .COMPONENT_Y) (s.chromaAdj tu.idx)) ++
        xIntraRecBlk_recoEvents E cu tu compID, ?_, ?_, ?_, ?_⟩
    · rw [xIntraRecBlk_trace C E cu tu compID s hv]
      simp only [List.cons_append]
    · intro e he
      rcases List.mem_cons.mp he with h | h
      · rw [h]; rfl
      · exact predEvents_no_scaleSignal C E cu tu compID _ e h
    · intro e he
      rcases List.mem_append.mp he with h | h
      · exact residualEvents_no_setChromaAdj C E tu compID _ _ e h
      · exact (recoEvents_plain E cu tu compID e h).2
    · intro i c a he
      rcases List.mem_append.mp he with h | h
      · obtain ⟨h1, h2, h3, h4⟩ := mem_residualEvents_scale C E tu compID _ _ i c a h
        subst h1 h2
        simp only [Bool.and_eq_true] at h4
        obtain ⟨⟨⟨hf, hg⟩, hch⟩, hsc⟩ := h4
        unfold xIntraRecBlk_flag at hf
        rw [Bool.and_eq_true, decide_eq_true_eq] at hf
        have hsets : xIntraRecBlk_setsAdj C tu c = true := by
          unfold xIntraRecBlk_setsAdj
          have h5 := chroma_cbf_of_getCbf E tu c hcbf hg hch
          have h6 : (decide (c ≠ .COMPONENT_Y)) = true := hch
          rw [Bool.and_eq_true, Bool.and_eq_true, Bool.and_eq_true]
          exact ⟨⟨⟨hf.1, hsc⟩, h6⟩, h5⟩
        refine ⟨?_, rfl, rfl, hch, hf.2⟩
        rw [h3]
        unfold xIntraRecBlk_storedAdj xIntraRecBlk_predEvents
        rw [hsets]
        simp
      · have := (recoEvents_plain E cu tu compID _ h).1
        cases this
  · refine ⟨[Event.xIntraRecBlk tu.idx compID], [], ?_, ?_, ?_, ?_⟩
    · rw [xIntraRecBlk_stages, hv]
      rfl
    · intro e he
      rw [List.mem_singleton.mp he]; rfl
    · intro e he
      cases he
    · intro i c a he
      cases he

theorem xDecodeInterTexture_adj_events (C : Config) (E : Ext) (cu : CodingUnit)
    (c : ComponentID) (tu : TransformUnit) (s : Dec) :
    ∃ new, (xDecodeInterTexture_adj C E cu c tu s).trace = s.trace ++ new ∧
      (∀ e ∈ new, e.isScaleSignal = false) ∧
      (c ≠ .COMPONENT_Y → new = []) ∧
      (c = .COMPONENT_Y → xDecodeInterTexture_setsAdj C tu = true →
        ∃ a, Event.setChromaAdj tu.idx a ∈ new) := by
  unfold xDecodeInterTexture_adj
  simp only []
  by_cases hcond : (C.lmcsEnabledFlag && C.reshapeCTUFlag && C.lmcsChromaResidualScaleFlag &&
      decide (c = .COMPONENT_Y) &&
      (decide (tu.cbf .COMPONENT_Cb ≠ 0) || decide (tu.cbf .COMPONENT_Cr ≠ 0))) = true
  · rw [if_pos hcond]
    have hY : c = .COMPONENT_Y := by
      simp only [Bool.and_eq_true, decide_eq_true_eq] at hcond
      exact hcond.1.2
    by_cases hm : (!cu.firstPU.mhIntraFlag && !CU.isIBC cu) = true
    · rw [if_pos hm]
      refine ⟨_, List.append_assoc s.trace [Event.rspSignal .tmpPred cu.idx] [_], ?_, ?_, ?_⟩
      · intro e he
        simp only [List.mem_append, List.mem_singleton] at he
        rcases he with h | h <;> rw [h] <;> rfl
      · intro hn; exact absurd hY hn
      · intro _ _
        exact ⟨_, List.mem_append_right _ (List.mem_singleton.mpr rfl)⟩
    · rw [if_neg hm]
      refine ⟨[_], rfl, ?_, ?_, ?_⟩
      · intro e he
        rw [List.mem_singleton.mp he]; rfl
      · intro hn; exact absurd hY hn
      · intro _ _
        exact ⟨_, List.mem_singleton.mpr rfl⟩
  · rw [if_neg hcond]
    refine ⟨[], (List.append_nil _).symm, fun e he => (by cases he), fun _ => rfl, ?_⟩
    intro hY hs
    exfalso
    apply hcond
    unfold xDecodeInterTexture_setsAdj at hs
    simp only [Bool.and_eq_true] at hs ⊢
    exact ⟨⟨hs.1, decide_eq_true hY⟩, hs.2⟩

theorem xDecodeInterTU_events (C : Config) (E : Ext) (tu : TransformUnit) (c : ComponentID)
    (s : Dec) :
    ∃ new, (xDecodeInterTU C E tu c s).trace = s.trace ++ new ∧
      (∀ e ∈ new, e.isSetChromaAdj = false) ∧
      ∀ i c2 a, Event.scaleSignal i c2 a ∈ new →
        i = tu.idx ∧ c2 = c ∧
        (xDecodeInterTU_flag C tu c && E.getCbf tu c && isChroma c &&
          C.lmcsChromaResidualScaleFlag) = true := by
  rcases Bool.eq_false_or_eq_true (tu.blocks c).valid with hv | hv
  · refine ⟨_, xDecodeInterTU_trace C E tu c s hv, ?_, ?_⟩
    · intro e he
      rcases List.mem_cons.mp he with h | h
      · rw [h]; rfl
      · exact residualEvents_no_setChromaAdj C E tu c _ _ e h
    · intro i c2 a he
      rcases List.mem_cons.mp he with h | h
      · cases h
      · obtain ⟨h1, h2, _, h4⟩ := mem_residualEvents_scale C E tu c _ _ i c2 a h
        exact ⟨h1, h2, h4⟩
  · refine ⟨[Event.xDecodeInterTU tu.idx c], ?_, ?_, ?_⟩
    · rw [xDecodeInterTU_invalid C E tu c s hv]; rfl
    · intro e he
      rw [List.mem_singleton.mp he]; rfl
    · intro i c2 a he
      rw [List.mem_singleton] at he
      cases he

theorem xDecodeInterTexture_luma_pass (C : Config) (E : Ext) (cu : CodingUnit) :
    ∀ (l : List TransformUnit) (s : Dec),
      ∃ new, (l.foldl (xDecodeInterTexture_step C E cu .COMPONENT_Y) s).trace = s.trace ++ new ∧
        (∀ e ∈ new, e.isScaleSignal = false) ∧
        ∀ tu ∈ l, xDecodeInterTexture_setsAdj C tu = true →
          ∃ a, Event.setChromaAdj tu.idx a ∈ new := by
  intro l
  induction l with
  | nil =>
    intro s
    exact ⟨[], (List.append_nil _).symm, fun e he => (by cases he), fun tu htu => (by cases htu)⟩
  | cons tu l ih =>
    intro s
    obtain ⟨n1, e1, p1, _, q1⟩ := xDecodeInterTexture_adj_events C E cu .COMPONENT_Y tu s
    obtain ⟨n2, e2, _, p2⟩ := xDecodeInterTU_events C E tu .COMPONENT_Y
      (xDecodeInterTexture_adj C E cu .COMPONENT_Y tu s)
    obtain ⟨n3, e3, p3, q3⟩ := ih (xDecodeInterTexture_step C E cu .COMPONENT_Y s tu)
    refine ⟨n1 ++ n2 ++ n3, ?_, ?_, ?_⟩
    · rw [List.foldl_cons, e3]
      unfold xDecodeInterTexture_step
      rw [e2, e1]
      simp only [List.append_assoc]
    · intro e he
      simp only [List.mem_append] at he
      rcases he with (h | h) | h
      · exact p1 e h
      · cases e <;> first | rfl | (exfalso; have := (p2 _ _ _ h).2.2; simp [isChroma] at this)
      · exact p3 e h
    · intro tu2 htu hs
      rcases List.mem_cons.mp htu with h | h
      · subst h
        obtain ⟨a, ha⟩ := q1 rfl hs
        exact ⟨a, List.mem_append_left _ (List.mem_append_left _ ha)⟩
      · obtain ⟨a, ha⟩ := q3 tu2 h hs
        exact ⟨a, List.mem_append_right _ ha⟩

theorem xDecodeInterTexture_chroma_pass (C : Config) (E : Ext) (cu : CodingUnit)
    (c : ComponentID) (hc : c ≠ .COMPONENT_Y) :
    ∀ (l : List TransformUnit) (s : Dec),
      ∃ new, (l.foldl (xDecodeInterTexture_step C E cu c) s).trace = s.trace ++ new ∧
        (∀ e ∈ new, e.isSetChromaAdj = false) ∧
        ∀ i c2 a, Event.scaleSignal i c2 a ∈ new →
          c2 = c ∧ ∃ tu ∈ l, tu.idx = i ∧
            (xDecodeInterTU_flag C tu c && E.getCbf tu c && isChroma c &&
              C.lmcsChromaResidualScaleFlag) = true := by
  intro l
  induction l with
  | nil =>
    intro s
    exact ⟨[], (List.append_nil _).symm, fun e he => (by cases he), fun i c2 a he => (by cases he)⟩
  | cons tu l ih =>
    intro s
    obtain ⟨n1, e1, _, q1, _⟩ := xDecodeInterTexture_adj_events C E cu c tu s
    have hn1 := q1 hc
    subst hn1
    obtain ⟨n2, e2, p2, q2⟩ := xDecodeInterTU_events C E tu c
      (xDecodeInterTexture_adj C E cu c tu s)
    obtain ⟨n3, e3, p3, q3⟩ := ih (xDecodeInterTexture_step C E cu c s tu)
    refine ⟨n2 ++ n3, ?_, ?_, ?_⟩
    · rw [List.foldl_cons, e3]
      unfold xDecodeInterTexture_step
      rw [e2, e1]
      simp only [List.append_assoc, List.append_nil]
    · intro e he
      rcases List.mem_append.mp he with h | h
      · exact p2 e h
      · exact p3 e h
    · intro i c2 a he
      rcases List.mem_append.mp he with h | h
      · obtain ⟨h1, h2, h3⟩ := q2 i c2 a h
        exact ⟨h2, tu, List.mem_cons_self _ _, h1.symm, h3⟩
      · obtain ⟨h1, tu2, h2, h3⟩ := q3 i c2 a h
        exact ⟨h1, tu2, List.mem_cons_of_mem _ h2, h3⟩

theorem scale_needs_adj (C : Config) (E : Ext) (tu : TransformUnit) (c : ComponentID)
    (hcbf : ∀ (tu : TransformUnit) (c : ComponentID), E.getCbf tu c = true → tu.cbf c ≠ 0)
    (h : (xDecodeInterTU_flag C tu c && E.getCbf tu c && isChroma c &&
      C.lmcsChromaResidualScaleFlag) = true) :
    xDecodeInterTexture_setsAdj C tu = true ∧ isChroma c = true ∧
      (tu.blocks c).width * (tu.blocks c).height > 4 := by
  simp only [Bool.and_eq_true] at h
  obtain ⟨⟨⟨hf, hg⟩, hch⟩, hsc⟩ := h
  unfold xDecodeInterTU_flag at hf
  rw [Bool.and_eq_true, decide_eq_true_eq] at hf
  refine ⟨?_, hch, hf.2⟩
  unfold xDecodeInterTexture_setsAdj
  rw [Bool.and_eq_true, Bool.and_eq_true]
  exact ⟨⟨hf.1, hsc⟩, chroma_cbf_of_getCbf E tu c hcbf hg hch⟩

theorem xDecodeInterTexture_scale_after_adj (C : Config) (E : Ext) (cu : CodingUnit) (s : Dec)
    (hcbf : ∀ (tu : TransformUnit) (c : ComponentID), E.getCbf tu c = true → tu.cbf c ≠ 0) :
    ∃ luma chroma, (xDecodeInterTexture C E cu s).trace = s.trace ++ (luma ++ chroma) ∧
      (∀ e ∈ luma, e.isScaleSignal = false) ∧
      (∀ e ∈ chroma, e.isSetChromaAdj = false) ∧
      ∀ i c a, Event.scaleSignal i c a ∈ chroma →
        (∃ a2, Event.setChromaAdj i a2 ∈ luma) ∧ isChroma c = true ∧
        ∃ tu ∈ CU.traverseTUs cu, tu.idx = i ∧
          (tu.blocks c).width * (tu.blocks c).height > 4 := by
  have key : ∀ (luma : List Event)
      (q1 : ∀ tu ∈ CU.traverseTUs cu, xDecodeInterTexture_setsAdj C tu = true →
        ∃ a, Event.setChromaAdj tu.idx a ∈ luma)
      (i : Nat) (c c2 : ComponentID) (h2 : c2 = c) (tu : TransformUnit)
      (htu : tu ∈ CU.traverseTUs cu) (hi : tu.idx = i)
      (h : (xDecodeInterTU_flag C tu c && E.getCbf tu c && isChroma c &&
        C.lmcsChromaResidualScaleFlag) = true),
      (∃ a2, Event.setChromaAdj i a2 ∈ luma) ∧ isChroma c2 = true ∧
        ∃ tu ∈ CU.traverseTUs cu, tu.idx = i ∧
          (tu.blocks c2).width * (tu.blocks c2).height > 4 := by
    intro luma q1 i c c2 h2 tu htu hi h
    subst h2
    obtain ⟨hs, hch, ha⟩ := scale_needs_adj C E tu c2 hcbf h
    obtain ⟨a, hmem⟩ := q1 tu htu hs
    exact ⟨⟨a, hi ▸ hmem⟩, hch, tu, htu, hi, ha⟩
  rw [xDecodeInterTexture_steps]
  by_cases hr : (!cu.rootCbf) = true
  · rw [if_pos hr]
    exact ⟨[], [], (List.append_nil _).symm, fun e he => (by cases he),
      fun e he => (by cases he), fun i c a he => (by cases he)⟩
  · rw [if_neg hr]
    generalize E.getNumberValidComponents cu.chromaFormat = n
    obtain ⟨n1, e1, p1, q1⟩ := xDecodeInterTexture_luma_pass C E cu (CU.traverseTUs cu) s
    obtain ⟨n2, e2, p2, q2⟩ := xDecodeInterTexture_chroma_pass C E cu .COMPONENT_Cb
      (by decide) (CU.traverseTUs cu)
      ((CU.traverseTUs cu).foldl (xDecodeInterTexture_step C E cu .COMPONENT_Y) s)
    obtain ⟨n3, e3, p3, q3⟩ := xDecodeInterTexture_chroma_pass C E cu .COMPONENT_Cr
      (by decide) (CU.traverseTUs cu)
      ((CU.traverseTUs cu).foldl (xDecodeInterTexture_step C E cu .COMPONENT_Cb)
        ((CU.traverseTUs cu).foldl (xDecodeInterTexture_step C E cu .COMPONENT_Y) s))
    by_cases h0 : 0 < n
    · by_cases h1 : 1 < n
      · by_cases h2 : 2 < n
        · refine ⟨n1, n2 ++ n3, ?_, p1, ?_, ?_⟩
          · simp only [List.filter, ComponentID.toNat, h0, h1, h2, decide_True, List.foldl_cons,
              List.foldl_nil]
            rw [e3, e2, e1]
            simp only [List.append_assoc]
          · intro e he
            rcases List.mem_append.mp he with h | h
            · exact p2 e h
            · exact p3 e h
          · intro i c a he
            rcases List.mem_append.mp he with h | h
            · obtain ⟨h5, tu, h6, h7, h8⟩ := q2 i c a h
              exact key n1 q1 i _ c h5 tu h6 h7 h8
            · obtain ⟨h5, tu, h6, h7, h8⟩ := q3 i c a h
              exact key n1 q1 i _ c h5 tu h6 h7 h8
        · refine ⟨n1, n2, ?_, p1, p2, ?_⟩
          · simp only [List.filter, ComponentID.toNat, h0, h1, h2, decide_True, decide_False,
              List.foldl_cons, List.foldl_nil]
            rw [e2, e1]
            simp only [List.append_assoc]
          · intro i c a h
            obtain ⟨h5, tu, h6, h7, h8⟩ := q2 i c a h
            exact key n1 q1 i _ c h5 tu h6 h7 h8
      · have h2 : ¬ 2 < n := by omega
        refine ⟨n1, [], ?_, p1, fun e he => (by cases he), fun i c a he => (by cases he)⟩
        simp only [List.filter, ComponentID.toNat, h0, h1, h2, decide_True, decide_False,
          List.foldl_cons, List.foldl_nil]
        rw [e1, List.append_nil]
    · have h1 : ¬ 1 < n := by omega
      have h2 : ¬ 2 < n := by omega
      refine ⟨[], [], ?_, fun e he => (by cases he), fun e he => (by cases he),
        fun i c a he => (by cases he)⟩
      simp only [List.filter, ComponentID.toNat, h0, h1, h2, decide_False, List.foldl_nil,
        List.append_nil]

/-- C38: provided `TU::getCbf( tu, c )` implies `tu.cbf[c] != 0`: the calls of `xIntraRecBlk`
split into a first part without any `scaleSignal` and a second part without any `setChromaAdj`,
and every `scaleSignal` of the second part is applied to a chroma block of more than 4 samples
of the unit, with the value that a `setChromaAdj` of the first part has stored for the unit;
the calls of `xDecodeInterTexture` split into those of the luma pass, without any
`scaleSignal`, and those of the chroma passes, without any `setChromaAdj`, and every
`scaleSignal` of the chroma passes is applied to a chroma block of more than 4 samples of a
transform unit of the coding unit for which the luma pass has called `setChromaAdj`. -/
theorem scaleSignal_after_setChromaAdj (C : Config) (E : Ext) (cu : CodingUnit) (s : Dec)
    (hcbf : ∀ (tu : TransformUnit) (c : ComponentID), E.getCbf tu c = true → tu.cbf c ≠ 0) :
    (∀ (tu : TransformUnit) (compID : ComponentID),
      ∃ pre rest, (xIntraRecBlk C E cu tu compID s).trace = s.trace ++ (pre ++ rest) ∧
        (∀ e ∈ pre, e.isScaleSignal = false) ∧
        (∀ e ∈ rest, e.isSetChromaAdj = false) ∧
        ∀ i c a, Event.scaleSignal i c a ∈ rest →
          Event.setChromaAdj i a ∈ pre ∧ i = tu.idx ∧ c = compID ∧ isChroma c = true ∧
          (tu.blocks c).width * (tu.blocks c).height > 4) ∧
    (∃ luma chroma, (xDecodeInterTexture C E cu s).trace = s.trace ++ (luma ++ chroma) ∧
      (∀ e ∈ luma, e.isScaleSignal = false) ∧
      (∀ e ∈ chroma, e.isSetChromaAdj = false) ∧
      ∀ i c a, Event.scaleSignal i c a ∈ chroma →
        (∃ a2, Event.setChromaAdj i a2 ∈ luma) ∧ isChroma c = true ∧
        ∃ tu ∈ CU.traverseTUs cu, tu.idx = i ∧
          (tu.blocks c).width * (tu.blocks c).height > 4) :=
  ⟨fun tu compID => xIntraRecBlk_scale_after_adj C E cu tu compID s hcbf,
    xDecodeInterTexture_scale_after_adj C E cu s hcbf⟩

theorem exampleExt_getCbf (tu : TransformUnit) (c : ComponentID)
    (h : exampleExt.getCbf tu c = true) : tu.cbf c ≠ 0 := by
  simpa [exampleExt] using h

/-- C38 at the example inter coding unit with the reshaper and its chroma residual scaling
active. -/
theorem scaleSignal_after_setChromaAdj_witness :
    (∀ (tu : TransformUnit) (compID : ComponentID),
      ∃ pre rest, (xIntraRecBlk (exampleConfig true) exampleExt (exampleCU .MODE_INTER) tu compID
          exampleDec).trace = exampleDec.trace ++ (pre ++ rest) ∧
        (∀ e ∈ pre, e.isScaleSignal = false) ∧
        (∀ e ∈ rest, e.isSetChromaAdj = false) ∧
        ∀ i c a, Event.scaleSignal i c a ∈ rest →
          Event.setChromaAdj i a ∈ pre ∧ i = tu.idx ∧ c = compID ∧ isChroma c = true ∧
          (tu.blocks c).width * (tu.blocks c).height > 4) ∧
    (∃ luma chroma, (xDecodeInterTexture (exampleConfig true) exampleExt (exampleCU .MODE_INTER)
        exampleDec).trace = exampleDec.trace ++ (luma ++ chroma) ∧
      (∀ e ∈ luma, e.isScaleSignal = false) ∧
      (∀ e ∈ chroma, e.isSetChromaAdj = false) ∧
      ∀ i c a, Event.scaleSignal i c a ∈ chroma →
        (∃ a2, Event.setChromaAdj i a2 ∈ luma) ∧ isChroma c = true ∧
        ∃ tu ∈ CU.traverseTUs (exampleCU .MODE_INTER), tu.idx = i ∧
          (tu.blocks c).width * (tu.blocks c).height > 4) :=
  scaleSignal_after_setChromaAdj (exampleConfig true) exampleExt (exampleCU .MODE_INTER)
    exampleDec exampleExt_getCbf

/-! ## SEI writer: byte alignment of the payloads -/

theorem numberOfBits_append (a b : List Code) :
    numberOfBits (a ++ b) = numberOfBits a + numberOfBits b := by
  simp [numberOfBits]

theorem numberOfBits_replicate (k v : Nat) : numberOfBits (List.replicate k ⟨v, 1⟩) = k := by
  induction k with
  | zero => rfl
  | succ k ih =>
    rw [List.replicate_succ]
    show 1 + numberOfBits (List.replicate k ⟨v, 1⟩) = k + 1
    rw [ih]
    omega

theorem numberOfBits_replicate_byte (k : Nat) :
    numberOfBits (List.replicate k ⟨255, 8⟩) = 8 * k := by
  induction k with
  | zero => rfl
  | succ k ih =>
    rw [List.replicate_succ]
    show 8 + numberOfBits (List.replicate k ⟨255, 8⟩) = 8 * (k + 1)
    rw [ih]
    omega

theorem numberOfBits_ffCodes (v : Nat) : numberOfBits (ffCodes v) = 8 * (v / 255 + 1) := by
  rw [ffCodes, numberOfBits_append, numberOfBits_replicate_byte]
  show 8 * (v / 255) + (8 + 0) = 8 * (v / 255 + 1)
  omega

theorem zeroPad_aligns (n : Nat) : (n + numberOfBits (zeroPad n)) % 8 = 0 := by
  rw [zeroPad, numberOfBits_replicate]
  omega

theorem alignCodes_aligns (n : Nat) : (n + numberOfBits (alignCodes n)) % 8 = 0 := by
  unfold alignCodes
  split_ifs with h
  · show (n + (1 + numberOfBits (List.replicate (7 - n % 8) ⟨0, 1⟩))) % 8 = 0
    rw [numberOfBits_replicate]
    omega
  · show (n + 0) % 8 = 0
    omega

theorem alignCodes_of_aligned (n : Nat) (h : n % 8 = 0) : alignCodes n = [] := by
  unfold alignCodes
  rw [if_neg (by omega)]

theorem getNumberOfWrittenBits_mod (w : SEIWriter) :
    w.getNumberOfWrittenBits % 8 = numberOfBits (w.streams w.m_pcBitIf) % 8 := by
  unfold SEIWriter.getNumberOfWrittenBits
  omega

theorem SEIWriter.write_streams_self (w : SEIWriter) (c : List Code) :
    (w.write c).streams w.m_pcBitIf = w.streams w.m_pcBitIf ++ c := by
  simp [SEIWriter.write]

theorem SEIWriter.write_streams_other (w : SEIWriter) (c : List Code) (k : Nat)
    (h : k ≠ w.m_pcBitIf) : (w.write c).streams k = w.streams k := by
  simp [SEIWriter.write, Function.update_noteq h]

theorem zeroPad_succ (n : Nat) (h : n % 8 ≠ 0) : zeroPad n = ⟨0, 1⟩ :: zeroPad (n + 1) := by
  unfold zeroPad
  have e : (8 - n % 8) % 8 = (8 - (n + 1) % 8) % 8 + 1 := by omega
  rw [e, List.replicate_succ]

theorem writeZeroBits_eq (fuel : Nat) : ∀ w : SEIWriter,
    (8 - numberOfBits (w.streams w.m_pcBitIf) % 8) % 8 ≤ fuel →
    writeZeroBits fuel w = w.write (zeroPad (numberOfBits (w.streams w.m_pcBitIf))) := by
  induction fuel with
  | zero =>
    intro w h
    have e : zeroPad (numberOfBits (w.streams w.m_pcBitIf)) = [] := by
      unfold zeroPad
      have : (8 - numberOfBits (w.streams w.m_pcBitIf) % 8) % 8 = 0 := by omega
      rw [this]
      rfl
    rw [e, SEIWriter.write_nil]
    rfl
  | succ fuel ih =>
    intro w h
    unfold writeZeroBits
    by_cases hn : numberOfBits (w.streams w.m_pcBitIf) % 8 = 0
    · have h1 : ¬ (w.getNumberOfWrittenBits % 8 ≠ 0) := by
        rw [getNumberOfWrittenBits_mod]; omega
      rw [if_neg h1]
      have e : zeroPad (numberOfBits (w.streams w.m_pcBitIf)) = [] := by
        unfold zeroPad
        have : (8 - numberOfBits (w.streams w.m_pcBitIf) % 8) % 8 = 0 := by omega
        rw [this]
        rfl
      rw [e, SEIWriter.write_nil]
    · have h1 : w.getNumberOfWrittenBits % 8 ≠ 0 := by
        rw [getNumberOfWrittenBits_mod]; exact hn
      rw [if_pos h1]
      have hs : numberOfBits ((WRITE_FLAG 0 w).streams (WRITE_FLAG 0 w).m_pcBitIf) =
          numberOfBits (w.streams w.m_pcBitIf) + 1 := by
        show numberOfBits ((w.write [⟨0, 1⟩]).streams w.m_pcBitIf) = _
        rw [SEIWriter.write_streams_self, numberOfBits_append]
        rfl
      rw [ih (WRITE_FLAG 0 w) (by rw [hs]; omega), hs, zeroPad_succ _ hn]
      show (w.write [⟨0, 1⟩]).write _ = _
      rw [SEIWriter.write_write]
      rfl

theorem xWriteByteAlign_eq (w : SEIWriter) :
    xWriteByteAlign w = w.write (alignCodes (numberOfBits (w.streams w.m_pcBitIf))) := by
  unfold xWriteByteAlign alignCodes
  by_cases hn : numberOfBits (w.streams w.m_pcBitIf) % 8 = 0
  · have h1 : ¬ (w.getNumberOfWrittenBits % 8 ≠ 0) := by
      rw [getNumberOfWrittenBits_mod]; omega
    rw [if_neg h1, if_neg (by omega), SEIWriter.write_nil]
  · have h1 : w.getNumberOfWrittenBits % 8 ≠ 0 := by
      rw [getNumberOfWrittenBits_mod]; exact hn
    rw [if_pos h1, if_pos hn]
    have hs : numberOfBits ((WRITE_FLAG 1 w).streams (WRITE_FLAG 1 w).m_pcBitIf) =
        numberOfBits (w.streams w.m_pcBitIf) + 1 := by
      show numberOfBits ((w.write [⟨1, 1⟩]).streams w.m_pcBitIf) = _
      rw [SEIWriter.write_streams_self, numberOfBits_append]
      rfl
    simp only []
    rw [writeZeroBits_eq 8 (WRITE_FLAG 1 w) (by omega), hs]
    show (w.write [⟨1, 1⟩]).write _ = _
    rw [SEIWriter.write_write]
    have e : zeroPad (numberOfBits (w.streams w.m_pcBitIf) + 1) =
        List.replicate (7 - numberOfBits (w.streams w.m_pcBitIf) % 8) ⟨0, 1⟩ := by
      unfold zeroPad
      congr 1
      omega
    rw [e]
    rfl

theorem alignCodes_congr (a b : Nat) (h : a % 8 = b % 8) : alignCodes a = alignCodes b := by
  unfold alignCodes
  rw [h]

theorem zeroPad_congr (a b : Nat) (h : a % 8 = b % 8) : zeroPad a = zeroPad b := by
  unfold zeroPad
  rw [h]

theorem writeSEImessages_cons_eq (P : SEIParams) (loc bs : Nat) (sei : SEI)
    (rest : SEIMessages) (isNested : Bool) (w : SEIWriter) :
    writeSEImessages P loc bs (.cons sei rest) isNested w =
      (match xWriteSEIpayloadData P (loc + 1) loc sei ((w.clear loc).setBitstream loc) with
       | .error e => .error e
       | .ok w1 =>
         if 0 ≠ (numberOfBits (w1.streams loc) % 4294967296) % 8 then
           .error "Invalid number of payload data bits"
         else
           match xWriteSEIpayloadData P (loc + 1) bs sei
             (((w1.setBitstream bs).write
               (ffCodes (P.payloadTypeValue sei.payloadType % 4294967296))).write
               (ffCodes (numberOfBits (w1.streams loc) % 4294967296 / 8))) with
           | .error e => .error e
           | .ok w2 => writeSEImessages P loc bs rest isNested w2) := by
  rw [writeSEImessages]
  simp only [writeFF_header]

/-- A message other than a scalable nesting message: its codes, then `xWriteByteAlign`. -/
theorem plain_payload_write (w : SEIWriter) (sc : List Code) (b : Nat)
    (hm : w.m_pcBitIf = b) (ha : numberOfBits (w.streams b) % 8 = 0) :
    (xWriteByteAlign (w.write sc)).m_pcBitIf = b ∧
    (xWriteByteAlign (w.write sc)).streams b =
      w.streams b ++ (sc ++ alignCodes (numberOfBits sc)) ∧
    (∀ k, k ≠ b → (xWriteByteAlign (w.write sc)).streams k = w.streams k) ∧
    numberOfBits (sc ++ alignCodes (numberOfBits sc)) % 8 = 0 := by
  subst hm
  rw [xWriteByteAlign_eq, SEIWriter.write_write]
  have e : alignCodes (numberOfBits ((w.write sc).streams (w.write sc).m_pcBitIf)) =
      alignCodes (numberOfBits sc) := by
    apply alignCodes_congr
    show numberOfBits ((w.write sc).streams w.m_pcBitIf) % 8 = _
    rw [SEIWriter.write_streams_self, numberOfBits_append]
    omega
  rw [e]
  refine ⟨rfl, SEIWriter.write_streams_self _ _, ?_, ?_⟩
  · intro k hk
    exact SEIWriter.write_streams_other _ _ _ hk
  · rw [numberOfBits_append]
    exact alignCodes_aligns _

theorem SEI.returns_nesting (sc : List Code) (n : SEIMessages) :
    SEI.returns (.mk .SCALABLE_NESTING sc n) = n.returns := by
  rw [SEI.returns]

theorem SEI.returns_plain (t : PayloadType) (sc : List Code) (n : SEIMessages)
    (h : t ≠ .SCALABLE_NESTING) : SEI.returns (.mk t sc n) = true := by
  cases t <;> first | exact absurd rfl h | simp [SEI.returns]

theorem SEIAbort.message_mem (a : SEIAbort) : a.message ∈ writerAborts := by
  cases a <;> simp [SEIAbort.message, writerAborts]

theorem SEI.writeSpec_mk (P : SEIParams) (payloadType : PayloadType) (syntaxCodes : List Code)
    (m_nestedSEIs : SEIMessages) (hn : SEIMessages.WriteSpec P m_nestedSEIs) :
    SEI.WriteSpec P (.mk payloadType syntaxCodes m_nestedSEIs) := by
  intro hh loc b w hb hm ha
  rw [SEI.handled, Bool.and_eq_true] at hh
  obtain ⟨hp, hnh⟩ := hh
  by_cases hs : payloadType = .SCALABLE_NESTING
  · subst hs
    rw [xWriteSEIpayloadData.eq_2, payloadCodes.eq_1, SEI.returns_nesting]
    have hw1 : writeZeroBits 8 (w.write syntaxCodes) =
        w.write (syntaxCodes ++ zeroPad (numberOfBits syntaxCodes)) := by
      rw [writeZeroBits_eq 8 _ (by omega), SEIWriter.write_write]
      congr 2
      apply zeroPad_congr
      show numberOfBits ((w.write syntaxCodes).streams w.m_pcBitIf) % 8 = _
      rw [SEIWriter.write_streams_self, numberOfBits_append, hm]
      omega
    rw [hw1]
    have hal : numberOfBits (syntaxCodes ++ zeroPad (numberOfBits syntaxCodes)) % 8 = 0 := by
      rw [numberOfBits_append]
      exact zeroPad_aligns _
    have hb1 : ((w.write (syntaxCodes ++ zeroPad (numberOfBits syntaxCodes))).streams b) =
        w.streams b ++ (syntaxCodes ++ zeroPad (numberOfBits syntaxCodes)) := by
      rw [← hm]
      exact SEIWriter.write_streams_self _ _
    obtain ⟨hok, herr⟩ := hn hnh loc b
      (w.write (syntaxCodes ++ zeroPad (numberOfBits syntaxCodes))) hb
      (by rw [hb1, numberOfBits_append]; omega)
    refine ⟨fun hr => ?_, fun hr => ?_⟩
    · obtain ⟨w1, h1, hm1, hs1, hf1, ha1⟩ := hok hr
      rw [h1]
      have hm1b : w1.m_pcBitIf = b := by
        rcases hm1 with h | h
        · exact h
        · rw [h]; exact hm
      have hal1 : numberOfBits (w1.streams b) % 8 = 0 := by
        rw [hs1, hb1, numberOfBits_append, numberOfBits_append]
        omega
      have hx : xWriteByteAlign w1 = w1 := by
        rw [xWriteByteAlign_eq, hm1b, alignCodes_of_aligned _ hal1, SEIWriter.write_nil]
      refine ⟨w1, congrArg Except.ok hx, hm1b, ?_, ?_, ?_⟩
      · rw [hs1, hb1, List.append_assoc]
      · intro k hk hkb
        rw [hf1 k hk hkb]
        exact SEIWriter.write_streams_other _ _ _ (by rw [hm]; exact hkb)
      · rw [numberOfBits_append]
        omega
    · obtain ⟨e, h1, he⟩ := herr hr
      rw [h1]
      exact ⟨e, rfl, he⟩
  · have hret : SEI.returns (.mk payloadType syntaxCodes m_nestedSEIs) = true :=
      SEI.returns_plain _ _ _ hs
    rw [hret]
    refine ⟨fun _ => ?_, fun hr => absurd hr (by decide)⟩
    cases payloadType with
    | other v => exact absurd hp (by simp [PayloadType.isHandled])
    | SCALABLE_NESTING => exact absurd rfl hs
    | _ =>
      obtain ⟨p1, p2, p3, p4⟩ := plain_payload_write w syntaxCodes b hm ha
      exact ⟨_, rfl, p1, p2, fun k _ hkb => p3 k hkb, p4⟩

theorem SEI.writeSpec_aborting (P : SEIParams) (a : SEIAbort) :
    SEI.WriteSpec P (.aborting a) := by
  intro _ loc b w _ _ _
  refine ⟨fun hr => ?_, fun _ => ⟨a.message, ?_, a.message_mem⟩⟩
  · rw [SEI.returns] at hr
    exact absurd hr (by decide)
  · rw [xWriteSEIpayloadData]

theorem SEIMessages.writeSpec_nil (P : SEIParams) : SEIMessages.WriteSpec P .nil := by
  intro _ loc bs w _ _
  refine ⟨fun _ => ⟨w, rfl, Or.inr rfl, ?_, fun _ _ _ => rfl, rfl⟩, fun hr => ?_⟩
  · rw [messagesCodes, List.append_nil]
  · rw [SEIMessages.returns] at hr
    exact absurd hr (by decide)

theorem SEIMessages.writeSpec_cons (P : SEIParams) (sei : SEI) (rest : SEIMessages)
    (hs : SEI.WriteSpec P sei) (hr : SEIMessages.WriteSpec P rest) :
    SEIMessages.WriteSpec P (.cons sei rest) := by
  intro hh loc bs w hb ha
  rw [SEIMessages.handled, Bool.and_eq_true] at hh
  obtain ⟨hsei, hrest⟩ := hh
  rw [writeSEImessages_cons_eq, messagesCodes, SEIMessages.returns]
  have hc : ((w.clear loc).setBitstream loc).streams loc = [] := by
    simp [SEIWriter.clear, SEIWriter.setBitstream]
  have hck : ∀ k, k ≠ loc → ((w.clear loc).setBitstream loc).streams k = w.streams k := by
    intro k hk
    simp [SEIWriter.clear, SEIWriter.setBitstream, Function.update_noteq hk]
  -- the dry run into the local bitstream
  obtain ⟨hok1, herr1⟩ := hs hsei (loc + 1) loc
    ((w.clear loc).setBitstream loc) (by omega) rfl (by rw [hc]; rfl)
  cases hsr : sei.returns with
  | false =>
    obtain ⟨e, h1, he⟩ := herr1 hsr
    rw [h1]
    exact ⟨fun h => absurd h (by simp), fun _ => ⟨e, rfl, he⟩⟩
  | true =>
    obtain ⟨w1, h1, _, hs1, hf1, ha1⟩ := hok1 hsr
    rw [h1]
    have hs1p : w1.streams loc = payloadCodes P sei := by rw [hs1, hc]; rfl
    simp only []
    rw [if_neg (by rw [hs1p]; omega), SEIWriter.write_write, hs1p]
    -- the header
    generalize hty : ffCodes (P.payloadTypeValue sei.payloadType % 4294967296) = ty
    generalize hsz : ffCodes (numberOfBits (payloadCodes P sei) % 4294967296 / 8) = sz
    have hbl : bs ≠ loc := by omega
    have h1b : w1.streams bs = w.streams bs := by
      rw [hf1 bs (by omega) hbl, hck bs hbl]
    have h2b : ((w1.setBitstream bs).write (ty ++ sz)).streams bs =
        w.streams bs ++ (ty ++ sz) := by
      rw [← h1b]
      exact SEIWriter.write_streams_self (w1.setBitstream bs) _
    have h2k : ∀ k, k ≠ bs → ((w1.setBitstream bs).write (ty ++ sz)).streams k =
        w1.streams k := by
      intro k hk
      exact SEIWriter.write_streams_other (w1.setBitstream bs) _ k hk
    have hhd : numberOfBits (ty ++ sz) % 8 = 0 := by
      rw [numberOfBits_append, ← hty, ← hsz, numberOfBits_ffCodes, numberOfBits_ffCodes]
      omega
    -- the payload
    obtain ⟨w3, h3, hm3, hs3, hf3, _⟩ := (hs hsei (loc + 1) bs
      ((w1.setBitstream bs).write (ty ++ sz)) (by omega) rfl
      (by rw [h2b, numberOfBits_append]; omega)).1 hsr
    rw [h3]
    simp only []
    have h3b : w3.streams bs = w.streams bs ++ (ty ++ sz ++ payloadCodes P sei) := by
      rw [hs3, h2b]
      simp only [List.append_assoc]
    -- the rest of the list
    obtain ⟨hok4, herr4⟩ := hr hrest loc bs w3 hb
      (by rw [h3b, numberOfBits_append, numberOfBits_append]; omega)
    rw [Bool.true_and]
    refine ⟨fun hrr => ?_, herr4⟩
    obtain ⟨w4, h4, hm4, hs4, hf4, ha4⟩ := hok4 hrr
    refine ⟨w4, h4, Or.inl ?_, ?_, ?_, ?_⟩
    · rcases hm4 with h | h
      · exact h
      · rw [h]; exact hm3
    · rw [hs4, h3b]
      simp only [List.append_assoc]
    · intro k hk hkb
      rw [hf4 k hk hkb, hf3 k (by omega) hkb, h2k k hkb, hf1 k (by omega) (by omega),
        hck k (by omega)]
    · rw [numberOfBits_append, numberOfBits_append]
      omega

theorem SEI.writeSpec_message (P : SEIParams) (sei : SEI) : SEI.WriteSpec P sei :=
  @SEI.rec (fun sei => SEI.WriteSpec P sei) (fun msgs => SEIMessages.WriteSpec P msgs)
    (fun t sc n hn => SEI.writeSpec_mk P t sc n hn)
    (fun a => SEI.writeSpec_aborting P a)
    (SEIMessages.writeSpec_nil P)
    (fun sei rest hs hr => SEIMessages.writeSpec_cons P sei rest hs hr) sei

theorem SEIMessages.writeSpec_list (P : SEIParams) (msgs : SEIMessages) :
    SEIMessages.WriteSpec P msgs :=
  @SEIMessages.rec (fun sei => SEI.WriteSpec P sei) (fun msgs => SEIMessages.WriteSpec P msgs)
    (fun t sc n hn => SEI.writeSpec_mk P t sc n hn)
    (fun a => SEI.writeSpec_aborting P a)
    (SEIMessages.writeSpec_nil P)
    (fun sei rest hs hr => SEIMessages.writeSpec_cons P sei rest hs hr) msgs

/-- The messages of a list are written the same way whether nested or not: the call fails with
the same message, or returns the same writer, followed by the trailing bits for a list that is
not nested. -/
theorem writeSEImessages_trailing (P : SEIParams) (loc bs : Nat) (isNested : Bool)
    (msgs : SEIMessages) : ∀ w : SEIWriter,
    writeSEImessages P loc bs msgs isNested w =
      (match writeSEImessages P loc bs msgs true w with
       | .error e => .error e
       | .ok w1 =>
         .ok (if isNested then w1
           else w1.write (P.rbspTrailingBits w1.getNumberOfWrittenBits))) := by
  refine @SEIMessages.rec (fun _ => True)
    (fun msgs => ∀ w : SEIWriter,
      writeSEImessages P loc bs msgs isNested w =
        (match writeSEImessages P loc bs msgs true w with
         | .error e => .error e
         | .ok w1 =>
           .ok (if isNested then w1
             else w1.write (P.rbspTrailingBits w1.getNumberOfWrittenBits))))
    (fun _ _ _ _ => trivial) (fun _ => trivial) ?_ ?_ msgs
  · intro w
    cases isNested <;> simp [writeSEImessages]
  · intro sei rest _ ih w
    rw [writeSEImessages_cons_eq, writeSEImessages_cons_eq]
    cases hd : xWriteSEIpayloadData P (loc + 1) loc sei ((w.clear loc).setBitstream loc) with
    | error e => rfl
    | ok wa =>
      simp only []
      by_cases hc : 0 ≠ numberOfBits (wa.streams loc) % 4294967296 % 8
      · rw [if_pos hc, if_pos hc]
      · rw [if_neg hc, if_neg hc]
        cases hp : xWriteSEIpayloadData P (loc + 1) bs sei
            (((wa.setBitstream bs).write
              (ffCodes (P.payloadTypeValue sei.payloadType % 4294967296))).write
              (ffCodes (numberOfBits (wa.streams loc) % 4294967296 / 8))) with
        | error e => rfl
        | ok wb => exact ih _

/-- The dry run of a handled message into a cleared local bitstream: it fails with the message
of the function of a payload type, or it returns with the payload codes of the message in the
local bitstream, a whole number of bytes. -/
theorem xWriteSEIpayloadData_dry_run (P : SEIParams) (sei : SEI) (hs : sei.handled = true)
    (l : Nat) (v : SEIWriter) :
    (sei.returns = true →
      ∃ v1, xWriteSEIpayloadData P (l + 1) l sei ((v.clear l).setBitstream l) = .ok v1 ∧
        v1.streams l = payloadCodes P sei ∧
        (numberOfBits (v1.streams l) % 4294967296) % 8 = 0 ∧
        numberOfBits (payloadCodes P sei) % 8 = 0) ∧
    (sei.returns = false →
      ∃ e, xWriteSEIpayloadData P (l + 1) l sei ((v.clear l).setBitstream l) = .error e ∧
        e ∈ writerAborts) := by
  have hc : ((v.clear l).setBitstream l).streams l = [] := by
    simp [SEIWriter.clear, SEIWriter.setBitstream]
  obtain ⟨hok, herr⟩ := SEI.writeSpec_message P sei hs (l + 1) l
    ((v.clear l).setBitstream l) (by omega) rfl (by rw [hc]; rfl)
  refine ⟨fun hr => ?_, herr⟩
  obtain ⟨v1, h1, _, hs1, _, ha1⟩ := hok hr
  have e : v1.streams l = payloadCodes P sei := by rw [hs1, hc]; rfl
  exact ⟨v1, h1, e, by rw [e]; omega, ha1⟩

/-- C40: a list of handled SEI messages written by `writeSEImessages` to a bitstream `bs`
that is byte-aligned on entry (and is not one of the local bitstreams `bs_count`, which are
named from `loc` on).  The check "Invalid number of payload data bits" does not fire, and no
unhandled message is met: the call fails only with the message of the function of a payload
type ("Unknown hash type", "Unknown active SPS", "Undefined SEIToneMapModelId"), and it does
so exactly when one of the messages, or of the messages nested in them, is an `aborting` one.
Otherwise the call returns and `bs` receives the codes `messagesCodes` of the messages, a
whole number of bytes, followed by the trailing bits when the list is not nested.  The dry run
of a handled message into a cleared local bitstream, whenever it returns, has written the
payload codes `payloadCodes` of the message, and their number of bits, also as the `uint32_t`
that is checked, is a multiple of 8; it returns for every message whose functions return.
`xWriteByteAlign` writes `alignCodes`: nothing to an aligned bitstream, otherwise a 1 bit
followed by 0 bits up to the next byte boundary.  For the first message of a list whose
functions return, and so for each message in turn, the codes written to `bs` are the payload
type bytes, the payload size bytes and the payload codes, and the payload size is the number
of bits of the payload as a `uint32_t`, divided by 8, which is the number of payload bytes
written to `bs` for a payload of less than 2^32 bits. -/
theorem writeSEImessages_payload_bits_check_never_fires (P : SEIParams) (loc bs : Nat)
    (msgs : SEIMessages) (isNested : Bool) (w : SEIWriter)
    (hh : msgs.handled = true) (hb : bs < loc)
    (ha : numberOfBits (w.streams bs) % 8 = 0) :
    writeSEImessages P loc bs msgs isNested w ≠ .error "Invalid number of payload data bits" ∧
    writeSEImessages P loc bs msgs isNested w ≠ .error "Trying to write unhandled SEI message" ∧
    (∀ e, writeSEImessages P loc bs msgs isNested w = .error e →
      e ∈ writerAborts ∧ msgs.returns = false) ∧
    (msgs.returns = false → ∃ e, writeSEImessages P loc bs msgs isNested w = .error e) ∧
    (msgs.returns = true →
      ∃ w1, writeSEImessages P loc bs msgs isNested w = .ok w1 ∧
        ∃ w0, writeSEImessages P loc bs msgs true w = .ok w0 ∧
          w1 = (if isNested then w0
            else w0.write (P.rbspTrailingBits w0.getNumberOfWrittenBits)) ∧
          w0.streams bs = w.streams bs ++ messagesCodes P msgs ∧
          numberOfBits (messagesCodes P msgs) % 8 = 0) ∧
    (∀ sei : SEI, sei.handled = true → ∀ (l : Nat) (v : SEIWriter),
      (∀ v1, xWriteSEIpayloadData P (l + 1) l sei ((v.clear l).setBitstream l) = .ok v1 →
        v1.streams l = payloadCodes P sei ∧
        (numberOfBits (v1.streams l) % 4294967296) % 8 = 0 ∧
        numberOfBits (payloadCodes P sei) % 8 = 0) ∧
      (∀ e, xWriteSEIpayloadData P (l + 1) l sei ((v.clear l).setBitstream l) = .error e →
        e ∈ writerAborts) ∧
      (sei.returns = true →
        ∃ v1, xWriteSEIpayloadData P (l + 1) l sei ((v.clear l).setBitstream l) = .ok v1)) ∧
    (∀ v : SEIWriter,
      xWriteByteAlign v = v.write (alignCodes (numberOfBits (v.streams v.m_pcBitIf))) ∧
      numberOfBits ((xWriteByteAlign v).streams v.m_pcBitIf) % 8 = 0 ∧
      (numberOfBits (v.streams v.m_pcBitIf) % 8 = 0 → xWriteByteAlign v = v) ∧
      (numberOfBits (v.streams v.m_pcBitIf) % 8 ≠ 0 →
        alignCodes (numberOfBits (v.streams v.m_pcBitIf)) =
          ⟨1, 1⟩ :: List.replicate (7 - numberOfBits (v.streams v.m_pcBitIf) % 8) ⟨0, 1⟩)) ∧
    (∀ sei rest, msgs = .cons sei rest → msgs.returns = true →
      messagesCodes P msgs =
        ffCodes (P.payloadTypeValue sei.payloadType % 4294967296) ++
          ffCodes (numberOfBits (payloadCodes P sei) % 4294967296 / 8) ++
          payloadCodes P sei ++ messagesCodes P rest ∧
      (numberOfBits (payloadCodes P sei) < 4294967296 →
        8 * (numberOfBits (payloadCodes P sei) % 4294967296 / 8) =
          numberOfBits (payloadCodes P sei)) ∧
      rest.handled = true ∧ rest.returns = true ∧
      numberOfBits (w.streams bs ++
        (ffCodes (P.payloadTypeValue sei.payloadType % 4294967296) ++
          ffCodes (numberOfBits (payloadCodes P sei) % 4294967296 / 8) ++
          payloadCodes P sei)) % 8 = 0) := by
  obtain ⟨hok, herr⟩ := SEIMessages.writeSpec_list P msgs hh loc bs w hb ha
  have hmem : ∀ e, writeSEImessages P loc bs msgs isNested w = .error e →
      e ∈ writerAborts ∧ msgs.returns = false := by
    intro e he
    rw [writeSEImessages_trailing] at he
    cases hr : msgs.returns with
    | true =>
      obtain ⟨w0, h0, _⟩ := hok hr
      rw [h0] at he
      cases he
    | false =>
      obtain ⟨e1, h1, hm1⟩ := herr hr
      rw [h1] at he
      cases he
      exact ⟨hm1, rfl⟩
  refine ⟨fun h => ?_, fun h => ?_, hmem, fun hr => ?_, fun hr => ?_, fun sei hs l v => ?_,
    fun v => ?_, fun sei rest hm hr => ?_⟩
  · exact absurd (hmem _ h).1 (by decide)
  · exact absurd (hmem _ h).1 (by decide)
  · obtain ⟨e1, h1, _⟩ := herr hr
    refine ⟨e1, ?_⟩
    rw [writeSEImessages_trailing, h1]
  · obtain ⟨w0, h0, _, hs0, _, ha0⟩ := hok hr
    refine ⟨_, ?_, w0, h0, rfl, hs0, ha0⟩
    rw [writeSEImessages_trailing, h0]
  · obtain ⟨dok, derr⟩ := xWriteSEIpayloadData_dry_run P sei hs l v
    cases hr : sei.returns with
    | true =>
      obtain ⟨v1, h1, e1, e2, e3⟩ := dok hr
      refine ⟨fun v2 h2 => ?_, fun e he => ?_, fun _ => ⟨v1, h1⟩⟩
      · rw [h1] at h2
        cases h2
        exact ⟨e1, e2, e3⟩
      · rw [h1] at he
        cases he
    | false =>
      obtain ⟨e1, h1, hm1⟩ := derr hr
      refine ⟨fun v2 h2 => ?_, fun e he => ?_, fun h => absurd h (by decide)⟩
      · rw [h1] at h2
        cases h2
      · rw [h1] at he
        cases he
        exact hm1
  · refine ⟨xWriteByteAlign_eq v, ?_, ?_, ?_⟩
    · rw [xWriteByteAlign_eq, SEIWriter.write_streams_self, numberOfBits_append]
      exact alignCodes_aligns _
    · intro h
      rw [xWriteByteAlign_eq, alignCodes_of_aligned _ h, SEIWriter.write_nil]
    · intro h
      unfold alignCodes
      rw [if_pos h]
  · subst hm
    rw [SEIMessages.handled, Bool.and_eq_true] at hh
    rw [SEIMessages.returns, Bool.and_eq_true] at hr
    obtain ⟨h1, h2⟩ := hh
    obtain ⟨_, _, _, hp⟩ := (xWriteSEIpayloadData_dry_run P sei h1 0 w).1 hr.1
    refine ⟨by rw [messagesCodes], fun _ => by omega, h2, hr.2, ?_⟩
    rw [numberOfBits_append, numberOfBits_append, numberOfBits_append, numberOfBits_ffCodes,
      numberOfBits_ffCodes]
    omega

/-- C40 at the list of one scalable nesting message with three syntax bits that nests one user
data message of one byte, written without nesting to the empty bitstream 1; a decoded picture
hash message with an unknown method fails with "Unknown hash type". -/
theorem writeSEImessages_payload_bits_check_never_fires_witness :
    (SEIMessages.cons exampleNesting .nil).handled = true ∧ 1 < 2 ∧
    numberOfBits (exampleSEIWriter.streams 1) % 8 = 0 ∧
    (SEIMessages.cons exampleNesting .nil).returns = true ∧
    messagesCodes exampleSEIParams (.cons exampleNesting .nil) =
      [⟨133, 8⟩, ⟨4, 8⟩, ⟨1, 1⟩, ⟨0, 1⟩, ⟨1, 1⟩, ⟨0, 1⟩, ⟨0, 1⟩, ⟨0, 1⟩, ⟨0, 1⟩, ⟨0, 1⟩,
        ⟨5, 8⟩, ⟨1, 8⟩, ⟨171, 8⟩] ∧
    writeSEImessages exampleSEIParams 2 1 (.cons exampleNesting .nil) false exampleSEIWriter ≠
      .error "Invalid number of payload data bits" ∧
    writeSEImessages exampleSEIParams 2 1 (.cons (.aborting .unknownHashType) .nil) false
      exampleSEIWriter = .error "Unknown hash type" ∧
    ∃ w1, writeSEImessages exampleSEIParams 2 1 (.cons exampleNesting .nil) false
        exampleSEIWriter = .ok w1 ∧
      ∃ w0, writeSEImessages exampleSEIParams 2 1 (.cons exampleNesting .nil) true
          exampleSEIWriter = .ok w0 ∧
        w1 = (if false = true then w0
          else w0.write (exampleSEIParams.rbspTrailingBits w0.getNumberOfWrittenBits)) ∧
        w0.streams 1 = exampleSEIWriter.streams 1 ++
          messagesCodes exampleSEIParams (.cons exampleNesting .nil) ∧
        numberOfBits (messagesCodes exampleSEIParams (.cons exampleNesting .nil)) % 8 = 0 :=
  ⟨rfl, by decide, rfl, rfl, rfl,
    (writeSEImessages_payload_bits_check_never_fires exampleSEIParams 2 1
      (.cons exampleNesting .nil) false exampleSEIWriter rfl (by decide) rfl).1, rfl,
    (writeSEImessages_payload_bits_check_never_fires exampleSEIParams 2 1
      (.cons exampleNesting .nil) false exampleSEIWriter rfl (by decide) rfl).2.2.2.2.1 rfl⟩

/-! ## The 16x8 and 8x16 Hadamard kernels at 9 and 12 bits -/

theorem hadamardCoeff_le_absSum (wbits hbits : Nat) (D : Nat → Nat → Int) (u v : Nat)
    (hu : u < 2 ^ wbits) (hv : v < 2 ^ hbits) :
    (hadamardCoeff wbits hbits D u v).natAbs ≤ hadamardAbsSum wbits hbits D := by
  unfold hadamardAbsSum
  refine le_trans ?_ (Finset.single_le_sum
    (f := fun v => ∑ u ∈ Finset.range (2 ^ wbits), (hadamardCoeff wbits hbits D u v).natAbs)
    (fun _ _ => Nat.zero_le _) (Finset.mem_range.mpr hv))
  exact Finset.single_le_sum
    (f := fun u => (hadamardCoeff wbits hbits D u v).natAbs)
    (fun _ _ => Nat.zero_le _) (Finset.mem_range.mpr hu)

theorem saturatedParam_inRange (w h bd stride tw th : Nat) :
    TileInRange (saturatedParam w h bd).org.buf (saturatedParam w h bd).cur.buf 0 0 stride
      stride tw th bd := by
  intro x y _ _
  have : 0 < 2 ^ bd := Nat.two_pow_pos bd
  exact ⟨by show 2 ^ bd - 1 < 2 ^ bd; omega, this⟩

/-- C26: the 16x8 block of 9-bit samples with `org = 511` and `cur = 0` everywhere.  Its
samples are in range, `xGetHADs_SIMD` hands it to `xCalcHAD16x8_SSE` at bit depth 9 (below
AVX2), and the kernel takes the 16-bit horizontal path (`iBitDepth >= 10` fails): the sum of
the kernel before the normalisation is 128, while the coefficient `(0, 0)` of the exact 16x8
Hadamard transform alone is `128 * 511 = 65408`, so that the exact sum of the absolute values
is at least 65408. -/
theorem xCalcHAD16x8_SSE_wraps_at_9_bits :
    TileInRange (saturatedParam 16 8 9).org.buf (saturatedParam 16 8 9).cur.buf 0 0 16 16
      16 8 9 ∧
    (∀ (K : HadKernels) (xGetHADs : DistParam → Except String Nat),
      xGetHADs_SIMD K xGetHADs .SSE41 (saturatedParam 16 8 9) =
        .ok ((K.xCalcHAD16x8_SSE (saturatedParam 16 8 9).org.buf
          (saturatedParam 16 8 9).cur.buf 0 0 16 16 9 % 18446744073709551616) >>> 1)) ∧
    xCalcHAD16x8_SSE_sad (saturatedParam 16 8 9).org.buf (saturatedParam 16 8 9).cur.buf
      0 0 16 16 9 = 128 ∧
    hadamardCoeff 4 3 (tileDiff (saturatedParam 16 8 9).org.buf
      (saturatedParam 16 8 9).cur.buf 0 0 16 16) 0 0 = 65408 ∧
    65408 ≤ hadamardAbsSum 4 3 (tileDiff (saturatedParam 16 8 9).org.buf
      (saturatedParam 16 8 9).cur.buf 0 0 16 16) := by
  have hc : hadamardCoeff 4 3 (tileDiff (saturatedParam 16 8 9).org.buf
      (saturatedParam 16 8 9).cur.buf 0 0 16 16) 0 0 = 65408 := by decide
  refine ⟨saturatedParam_inRange _ _ _ _ _ _, ?_, rfl, hc, ?_⟩
  · intro K xGetHADs
    rw [xGetHADs_SIMD_eq K xGetHADs .SSE41 (saturatedParam 16 8 9) (by decide) rfl]
    have ht : chosenTile .SSE41 (saturatedParam 16 8 9).org.width
        (saturatedParam 16 8 9).org.height = some .T16x8 := by decide
    rw [ht]
    simp [tiledCost, tileCost, saturatedParam, Tile.width, Tile.height,
      DISTORTION_PRECISION_ADJUSTMENT, X86_VEXT.geAVX2, X86_VEXT.toNat]
  · have h := hadamardCoeff_le_absSum 4 3 (tileDiff (saturatedParam 16 8 9).org.buf
      (saturatedParam 16 8 9).cur.buf 0 0 16 16) 0 0 (by decide) (by decide)
    rw [hc] at h
    exact h

/-- C27: the 8x16 block with `org = 2^bitDepth - 1` and `cur = 0` everywhere, at the bit
depths 9 and 12.  At 9 bits the samples are in range, `xGetHADs_SIMD` hands the block to
`xCalcHAD8x16_SSE` (below AVX2) and the kernel takes the 16-bit horizontal path; at 12 bits
the vertical transform of sixteen rows wraps in its 16-bit lanes.  In both cases the sum of
the kernel before the normalisation is 128, while the coefficient `(0, 0)` of the exact 8x16
Hadamard transform alone is `128 * 511 = 65408` and `128 * 4095 = 524160`.  At 8, 10 and 11
bits the kernel gives `128 * (2^bitDepth - 1)` on these blocks. -/
theorem xCalcHAD8x16_SSE_wraps_at_9_and_12_bits :
    TileInRange (saturatedParam 8 16 9).org.buf (saturatedParam 8 16 9).cur.buf 0 0 8 8
      8 16 9 ∧
    (∀ (K : HadKernels) (xGetHADs : DistParam → Except String Nat),
      xGetHADs_SIMD K xGetHADs .SSE41 (saturatedParam 8 16 9) =
        .ok ((K.xCalcHAD8x16_SSE (saturatedParam 8 16 9).org.buf
          (saturatedParam 8 16 9).cur.buf 0 0 8 8 9 % 18446744073709551616) >>> 1)) ∧
    xCalcHAD8x16_SSE_sad (saturatedParam 8 16 9).org.buf (saturatedParam 8 16 9).cur.buf
      0 0 8 8 9 = 128 ∧
    65408 ≤ hadamardAbsSum 3 4 (tileDiff (saturatedParam 8 16 9).org.buf
      (saturatedParam 8 16 9).cur.buf 0 0 8 8) ∧
    TileInRange (saturatedParam 8 16 12).org.buf (saturatedParam 8 16 12).cur.buf 0 0 8 8
      8 16 12 ∧
    xCalcHAD8x16_SSE_sad (saturatedParam 8 16 12).org.buf (saturatedParam 8 16 12).cur.buf
      0 0 8 8 12 = 128 ∧
    524160 ≤ hadamardAbsSum 3 4 (tileDiff (saturatedParam 8 16 12).org.buf
      (saturatedParam 8 16 12).cur.buf 0 0 8 8) ∧
    xCalcHAD8x16_SSE_sad (saturatedParam 8 16 8).org.buf (saturatedParam 8 16 8).cur.buf
      0 0 8 8 8 = 128 * 255 ∧
    xCalcHAD8x16_SSE_sad (saturatedParam 8 16 10).org.buf (saturatedParam 8 16 10).cur.buf
      0 0 8 8 10 = 128 * 1023 ∧
    xCalcHAD8x16_SSE_sad (saturatedParam 8 16 11).org.buf (saturatedParam 8 16 11).cur.buf
      0 0 8 8 11 = 128 * 2047 := by
  have hc9 : hadamardCoeff 3 4 (tileDiff (saturatedParam 8 16 9).org.buf
      (saturatedParam 8 16 9).cur.buf 0 0 8 8) 0 0 = 65408 := by decide
  have hc12 : hadamardCoeff 3 4 (tileDiff (saturatedParam 8 16 12).org.buf
      (saturatedParam 8 16 12).cur.buf 0 0 8 8) 0 0 = 524160 := by decide
  refine ⟨saturatedParam_inRange _ _ _ _ _ _, ?_, rfl, ?_, saturatedParam_inRange _ _ _ _ _ _,
    rfl, ?_, rfl, rfl, rfl⟩
  · intro K xGetHADs
    rw [xGetHADs_SIMD_eq K xGetHADs .SSE41 (saturatedParam 8 16 9) (by decide) rfl]
    have ht : chosenTile .SSE41 (saturatedParam 8 16 9).org.width
        (saturatedParam 8 16 9).org.height = some .T8x16 := by decide
    rw [ht]
    simp [tiledCost, tileCost, saturatedParam, Tile.width, Tile.height,
      DISTORTION_PRECISION_ADJUSTMENT, X86_VEXT.geAVX2, X86_VEXT.toNat]
  · have h := hadamardCoeff_le_absSum 3 4 (tileDiff (saturatedParam 8 16 9).org.buf
      (saturatedParam 8 16 9).cur.buf 0 0 8 8) 0 0 (by decide) (by decide)
    rw [hc9] at h
    exact h
  · have h := hadamardCoeff_le_absSum 3 4 (tileDiff (saturatedParam 8 16 12).org.buf
      (saturatedParam 8 16 12).cur.buf 0 0 8 8) 0 0 (by decide) (by decide)
    rw [hc12] at h
    exact h

/-! ## Exactness of the 4x4 and 8x8 Hadamard kernels -/

theorem enc16_lt (z : Int) : enc16 z < 65536 := by
  unfold enc16; omega

theorem add16_enc (a b : Int) : add16 (enc16 a) (enc16 b) = enc16 (a + b) := by
  unfold add16 enc16; omega

theorem sub16_enc (a b : Int) : sub16 (enc16 a) (enc16 b) = enc16 (a - b) := by
  unfold sub16 enc16; omega

theorem sub16_load (a b : Nat) :
    sub16 (a % 65536) (b % 65536) = enc16 ((a : Int) - (b : Int)) := by
  unfold sub16 enc16; omega

theorem abs16_enc (z : Int) (h1 : -32768 ≤ z) (h2 : z ≤ 32767) :
    abs16 (enc16 z) = z.natAbs := by
  unfold abs16 enc16; split <;> omega

theorem hadamardEntry_abs (bits u i : Nat) : |hadamardEntry bits u i| = 1 := by
  induction bits generalizing u i with
  | zero => simp [hadamardEntry]
  | succ n ih =>
    rw [hadamardEntry, abs_mul, ih, mul_one]
    split_ifs <;> simp

/-- A row of the Hadamard matrix applied to values bounded by `M` is bounded by
`2^bits * M`. -/
theorem hadamardRow_abs_le (bits : Nat) (z : Nat → Int) (u : Nat) (M : Int)
    (h : ∀ x, x < 2 ^ bits → |z x| ≤ M) : |hadamardRow bits z u| ≤ 2 ^ bits * M := by
  unfold hadamardRow
  refine le_trans (Finset.abs_sum_le_sum_abs _ _) ?_
  have : ∀ x ∈ Finset.range (2 ^ bits), |hadamardEntry bits u x * z x| ≤ M := by
    intro x hx
    rw [abs_mul, hadamardEntry_abs, one_mul]
    exact h x (Finset.mem_range.mp hx)
  refine le_trans (Finset.sum_le_sum this) ?_
  simp

/-- The transform of the columns followed by the transform of the rows is the
two-dimensional transform. -/
theorem hadamardRow_hadamardRow (wbits hbits : Nat) (D : Nat → Nat → Int) (u v : Nat) :
    hadamardRow wbits (fun x => hadamardRow hbits (fun y => D x y) v) u =
      hadamardCoeff wbits hbits D u v := by
  unfold hadamardRow hadamardCoeff
  simp only [Finset.mul_sum]
  rw [Finset.sum_comm]
  refine Finset.sum_congr rfl (fun y _ => Finset.sum_congr rfl (fun x _ => ?_))
  ring

theorem hadamardCoeff_abs_le (wbits hbits : Nat) (D : Nat → Nat → Int) (u v : Nat) (M : Int)
    (h : ∀ x y, x < 2 ^ wbits → y < 2 ^ hbits → |D x y| ≤ M) :
    |hadamardCoeff wbits hbits D u v| ≤ 2 ^ wbits * (2 ^ hbits * M) := by
  rw [← hadamardRow_hadamardRow]
  exact hadamardRow_abs_le _ _ _ _
    (fun x hx => hadamardRow_abs_le _ _ _ _ (fun y hy => h x y hx hy))

theorem tileDiff_abs_le (org cur : Nat → Nat) (po pc so sc w h bd : Nat)
    (hr : TileInRange org cur po pc so sc w h bd) (x y : Nat) (hx : x < w) (hy : y < h) :
    |tileDiff org cur po pc so sc x y| ≤ 2 ^ bd - 1 := by
  obtain ⟨h1, h2⟩ := hr x y hx hy
  unfold tileDiff
  have h1z : (org (po + y * so + x) : Int) < 2 ^ bd := by exact_mod_cast h1
  have h2z : (cur (pc + y * sc + x) : Int) < 2 ^ bd := by exact_mod_cast h2
  rw [abs_le]
  constructor <;> omega

theorem butterfly4_enc (z : Nat → Int) (i : Nat) :
    butterfly4 add16 sub16 (fun k => enc16 (z k)) i =
      enc16 (butterfly4 (fun a b => a + b) (fun a b => a - b) z i) := by
  unfold butterfly4
  rcases i with _ | _ | _ | i <;> simp only [add16_enc, sub16_enc]

theorem butterfly4_row (z : Nat → Int) (i : Nat) :
    butterfly4 (fun a b => a + b) (fun a b => a - b) z i = hadamardRow 2 z (hadRow4 i) := by
  unfold butterfly4 hadamardRow
  rcases i with _ | _ | _ | i <;>
    simp [hadRow4, Finset.sum_range_succ, hadamardEntry] <;> ring

theorem rowAddr4_eq (p s y : Nat) (hy : y < 4) : rowAddr4 p s y = p + y * s := by
  interval_cases y <;> simp [rowAddr4]

theorem xCalcHAD4x4_SSE_diff_eq (org cur : Nat → Nat) (po pc so sc y x : Nat) (hy : y < 4) :
    xCalcHAD4x4_SSE_diff org cur po pc so sc y x = enc16 (tileDiff org cur po pc so sc x y) := by
  unfold xCalcHAD4x4_SSE_diff tileDiff
  rw [rowAddr4_eq _ _ _ hy, rowAddr4_eq _ _ _ hy, sub16_load]

/-- The 4x4 kernel in terms of the four lanes of `Sum`. -/
theorem xCalcHAD4x4_SSE_lanes (X : Nat → Nat → Nat) (org cur : Nat → Nat)
    (po pc so sc : Nat)
    (hX : ∀ y x, y < 4 → x < 4 → xCalcHAD4x4_SSE_diff org cur po pc so sc y x = X y x) :
    xCalcHAD4x4_SSE org cur po pc so sc =
      ((word32 (add32 (word32 (add32 (xCalcHAD4x4_SSE_lane X 0) (xCalcHAD4x4_SSE_lane X 1)))
        (word32 (add32 (xCalcHAD4x4_SSE_lane X 2) (xCalcHAD4x4_SSE_lane X 3)))) + 1)
          % 4294967296) >>> 1 := by
  simp only [xCalcHAD4x4_SSE, mm_loadl_epi64, mm_sub_epi16, mm_add_epi16, mm_abs_epi16,
    M128.map2, M128.map, mm_unpacklo_epi16, mm_unpacklo_epi32, mm_unpackhi_epi32,
    mm_srli_si128_8, mm_set1_epi16, mm_hadd_epi32, mm_cvtsi128_si32, M128.w0, M128.w1,
    M128.w2, M128.w3, M128.ofWords]
  have e00 := hX 0 0 (by decide) (by decide)
  have e01 := hX 0 1 (by decide) (by decide)
  have e02 := hX 0 2 (by decide) (by decide)
  have e03 := hX 0 3 (by decide) (by decide)
  have e10 := hX 1 0 (by decide) (by decide)
  have e11 := hX 1 1 (by decide) (by decide)
  have e12 := hX 1 2 (by decide) (by decide)
  have e13 := hX 1 3 (by decide) (by decide)
  have e20 := hX 2 0 (by decide) (by decide)
  have e21 := hX 2 1 (by decide) (by decide)
  have e22 := hX 2 2 (by decide) (by decide)
  have e23 := hX 2 3 (by decide) (by decide)
  have e30 := hX 3 0 (by decide) (by decide)
  have e31 := hX 3 1 (by decide) (by decide)
  have e32 := hX 3 2 (by decide) (by decide)
  have e33 := hX 3 3 (by decide) (by decide)
  simp only [xCalcHAD4x4_SSE_diff, rowAddr4, Nat.add_zero] at e00 e01 e02 e03 e10 e11 e12 e13
  simp only [xCalcHAD4x4_SSE_diff, rowAddr4, Nat.add_zero] at e20 e21 e22 e23 e30 e31 e32 e33
  simp only [e00, e01, e02, e03, e10, e11, e12, e13, e20, e21, e22, e23, e30, e31, e32, e33]
  simp only [xCalcHAD4x4_SSE_lane, butterfly4, word32, Nat.zero_mod, Nat.mul_zero,
    Nat.add_zero]

/-- A lane of `Sum` in the 4x4 kernel holds the sum of the absolute values of four
coefficients, without wrap-around, when the differences are at most 1023 in absolute
value. -/
theorem xCalcHAD4x4_SSE_lane_eq (D : Nat → Nat → Int)
    (hD : ∀ x y, x < 2 ^ 2 → y < 2 ^ 2 → |D x y| ≤ 1023) (t : Nat) :
    xCalcHAD4x4_SSE_lane (fun y x => enc16 (D x y)) t =
      (hadamardCoeff 2 2 D 0 (hadRow4 t)).natAbs + (hadamardCoeff 2 2 D 3 (hadRow4 t)).natAbs +
      (hadamardCoeff 2 2 D 1 (hadRow4 t)).natAbs + (hadamardCoeff 2 2 D 2 (hadRow4 t)).natAbs ∧
    (hadamardCoeff 2 2 D 0 (hadRow4 t)).natAbs + (hadamardCoeff 2 2 D 3 (hadRow4 t)).natAbs +
      (hadamardCoeff 2 2 D 1 (hadRow4 t)).natAbs + (hadamardCoeff 2 2 D 2 (hadRow4 t)).natAbs
        < 65536 := by
  have hC : ∀ u v, |hadamardCoeff 2 2 D u v| ≤ 16368 := by
    intro u v
    have := hadamardCoeff_abs_le 2 2 D u v 1023 hD
    norm_num at this
    exact this
  have hA : ∀ u v, abs16 (enc16 (hadamardCoeff 2 2 D u v)) =
      (hadamardCoeff 2 2 D u v).natAbs := by
    intro u v
    have := abs_le.mp (hC u v)
    exact abs16_enc _ (by omega) (by omega)
  have hN : ∀ u v, (hadamardCoeff 2 2 D u v).natAbs ≤ 16368 := by
    intro u v
    have := abs_le.mp (hC u v)
    omega
  have h0 := hN 0 (hadRow4 t)
  have h1 := hN 1 (hadRow4 t)
  have h2 := hN 2 (hadRow4 t)
  have h3 := hN 3 (hadRow4 t)
  refine ⟨?_, by omega⟩
  have r0 : hadRow4 0 = 0 := rfl
  have r1 : hadRow4 1 = 2 := rfl
  have r2 : hadRow4 2 = 3 := rfl
  have r3 : hadRow4 3 = 1 := rfl
  simp only [xCalcHAD4x4_SSE_lane, butterfly4_enc, butterfly4_row, hadamardRow_hadamardRow, hA,
    r0, r1, r2, r3, add16]
  omega

/-- C29: for a 4x4 tile of samples in `[0, 2^bitDepth)`, `bitDepth <= 10`,
`xCalcHAD4x4_SSE` returns `(S + 1) >> 1`, where `S` is the exact sum of the absolute values
of the sixteen coefficients of the two-dimensional 4x4 Hadamard transform of `org - cur`;
every coefficient is at most `16 * 1023` in absolute value, and the sum of the absolute
values of the four coefficients that a 16-bit lane adds (those of one vertical frequency) is
below `2^16`. -/
theorem xCalcHAD4x4_SSE_exact (org cur : Nat → Nat) (piOrg piCur iStrideOrg iStrideCur
    bitDepth : Nat) (hbd : bitDepth ≤ 10)
    (hr : TileInRange org cur piOrg piCur iStrideOrg iStrideCur 4 4 bitDepth) :
    xCalcHAD4x4_SSE org cur piOrg piCur iStrideOrg iStrideCur =
      (hadamardAbsSum 2 2 (tileDiff org cur piOrg piCur iStrideOrg iStrideCur) + 1) >>> 1 ∧
    (∀ u v, (hadamardCoeff 2 2 (tileDiff org cur piOrg piCur iStrideOrg iStrideCur)
      u v).natAbs ≤ 16368) ∧
    (∀ v, ∑ u ∈ Finset.range 4, (hadamardCoeff 2 2
      (tileDiff org cur piOrg piCur iStrideOrg iStrideCur) u v).natAbs < 65536) := by
  have hp : (2 : Int) ^ bitDepth ≤ 1024 := by
    have : (2 : Int) ^ bitDepth ≤ 2 ^ 10 := pow_le_pow_right₀ (by norm_num) hbd
    simpa using this
  have hD : ∀ x y, x < 2 ^ 2 → y < 2 ^ 2 →
      |tileDiff org cur piOrg piCur iStrideOrg iStrideCur x y| ≤ 1023 := by
    intro x y hx hy
    have := tileDiff_abs_le org cur piOrg piCur iStrideOrg iStrideCur 4 4 bitDepth hr x y hx hy
    omega
  have hN : ∀ u v, (hadamardCoeff 2 2 (tileDiff org cur piOrg piCur iStrideOrg iStrideCur)
      u v).natAbs ≤ 16368 := by
    intro u v
    have := hadamardCoeff_abs_le 2 2 _ u v 1023 hD
    norm_num at this
    have := abs_le.mp this
    omega
  have hL := fun t => xCalcHAD4x4_SSE_lane_eq _ hD t
  have hK := xCalcHAD4x4_SSE_lanes (fun y x => enc16 (tileDiff org cur piOrg piCur iStrideOrg
      iStrideCur x y)) org cur piOrg piCur iStrideOrg iStrideCur
      (fun y x hy _ => xCalcHAD4x4_SSE_diff_eq org cur piOrg piCur iStrideOrg iStrideCur y x hy)
  refine ⟨?_, hN, ?_⟩
  · rw [hK, (hL 0).1, (hL 1).1, (hL 2).1, (hL 3).1]
    have r0 : hadRow4 0 = 0 := rfl
    have r1 : hadRow4 1 = 2 := rfl
    have r2 : hadRow4 2 = 3 := rfl
    have r3 : hadRow4 3 = 1 := rfl
    simp only [r0, r1, r2, r3]
    unfold hadamardAbsSum
    obtain ⟨A, hA⟩ : ∃ A : Nat → Nat → Nat, ∀ u v, (hadamardCoeff 2 2
        (tileDiff org cur piOrg piCur iStrideOrg iStrideCur) u v).natAbs = A u v :=
      ⟨_, fun _ _ => rfl⟩
    simp only [hA] at hN ⊢
    have e : (2 : Nat) ^ 2 = 3 + 1 := rfl
    rw [e]
    simp only [Finset.sum_range_succ, Finset.sum_range_zero, zero_add, word32, add32]
    have h00 := hN 0 0
    have h10 := hN 1 0
    have h20 := hN 2 0
    have h30 := hN 3 0
    have h01 := hN 0 1
    have h11 := hN 1 1
    have h21 := hN 2 1
    have h31 := hN 3 1
    have h02 := hN 0 2
    have h12 := hN 1 2
    have h22 := hN 2 2
    have h32 := hN 3 2
    have h03 := hN 0 3
    have h13 := hN 1 3
    have h23 := hN 2 3
    have h33 := hN 3 3
    congr 1
    omega
  · intro v
    obtain ⟨A, hA⟩ : ∃ A : Nat → Nat → Nat, ∀ u v, (hadamardCoeff 2 2
        (tileDiff org cur piOrg piCur iStrideOrg iStrideCur) u v).natAbs = A u v :=
      ⟨_, fun _ _ => rfl⟩
    simp only [hA] at hN ⊢
    have e : (4 : Nat) = 3 + 1 := rfl
    rw [e]
    simp only [Finset.sum_range_succ, Finset.sum_range_zero, zero_add]
    have h0 := hN 0 v
    have h1 := hN 1 v
    have h2 := hN 2 v
    have h3 := hN 3 v
    omega

/-- C29 at the 4x4 block of 10-bit samples with `org = 1023` and `cur = 0` everywhere. -/
theorem xCalcHAD4x4_SSE_exact_witness :
    (10 ≤ 10) ∧
    TileInRange (saturatedParam 4 4 10).org.buf (saturatedParam 4 4 10).cur.buf 0 0 4 4 4 4 10 ∧
    xCalcHAD4x4_SSE (saturatedParam 4 4 10).org.buf (saturatedParam 4 4 10).cur.buf 0 0 4 4 =
      (hadamardAbsSum 2 2 (tileDiff (saturatedParam 4 4 10).org.buf
        (saturatedParam 4 4 10).cur.buf 0 0 4 4) + 1) >>> 1 :=
  ⟨le_refl 10, saturatedParam_inRange 4 4 10 4 4 4,
    (xCalcHAD4x4_SSE_exact (saturatedParam 4 4 10).org.buf (saturatedParam 4 4 10).cur.buf
      0 0 4 4 10 (le_refl 10) (saturatedParam_inRange 4 4 10 4 4 4)).1⟩

/-! ### The stages of the 8x8 kernel on tables of lanes -/

theorem ofWords_word0 (a b c d : Nat) : (M128.ofWords a b c d).w0 = word32 a := rfl
theorem ofWords_word1 (a b c d : Nat) : (M128.ofWords a b c d).w1 = word32 b := rfl
theorem ofWords_word2 (a b c d : Nat) : (M128.ofWords a b c d).w2 = word32 c := rfl
theorem ofWords_word3 (a b c d : Nat) : (M128.ofWords a b c d).w3 = word32 d := rfl

theorem xCalcHAD8x8_SSE_load_tab (org cur : Nat → Nat) (po pc so sc : Nat) :
    xCalcHAD8x8_SSE_load org cur po pc so sc =
      Regs8.tab (fun y x => enc16 (tileDiff org cur po pc so sc x y)) := by
  simp only [xCalcHAD8x8_SSE_load, mm_loadu_si128, mm_sub_epi16, M128.map2, sub16_load,
    Regs8.tab, M128.tab, tileDiff, Nat.zero_mul, Nat.add_zero]

theorem xCalcHAD8x8_SSE_horizontal_tab (F : Nat → Nat → Nat) :
    xCalcHAD8x8_SSE_horizontal (Regs8.tab F) =
      Regs8.tab (fun r j => butterfly8 add16 sub16 (fun k => F k r) j) := by
  simp only [xCalcHAD8x8_SSE_horizontal, Regs8.tab, M128.tab, mm_add_epi16, mm_sub_epi16,
    M128.map2, mm_unpacklo_epi16, mm_unpackhi_epi16, mm_unpacklo_epi32, mm_unpackhi_epi32,
    mm_unpacklo_epi64, mm_unpackhi_epi64, butterfly8]

theorem xCalcHAD8x8_SSE_vertical16_tab (G : Nat → Nat → Nat) :
    xCalcHAD8x8_SSE_vertical16 (Regs8.tab G) =
      Regs8.tabw (fun r j =>
        add32 (abs16 (butterfly8 add16 sub16 (fun k => G k j) r))
          (abs16 (butterfly8 add16 sub16 (fun k => G k (j + 4)) r))) := by
  simp only [xCalcHAD8x8_SSE_vertical16, Regs8.tab, Regs8.tabw, M128.tab, mm_add_epi16,
    mm_sub_epi16, mm_abs_epi16, M128.map2, M128.map, mm_unpacklo_epi16, mm_unpackhi_epi16,
    mm_setzero_si128, mm_add_epi32, M128.map2w, M128.w0, M128.w1, M128.w2, M128.w3,
    Nat.mul_zero, Nat.add_zero, butterfly8, Nat.reduceAdd]

theorem xCalcHAD8x8_SSE_vertical32_tab (G : Nat → Nat → Nat) :
    xCalcHAD8x8_SSE_vertical32 (Regs8.tab G) =
      Regs8.tabw (fun r j =>
        add32w (abs32w (butterfly8 add32w sub32w (fun k => sext16 (G k j)) r))
          (abs32w (butterfly8 add32w sub32w (fun k => sext16 (G k (j + 4))) r))) := by
  simp only [xCalcHAD8x8_SSE_vertical32, Regs8.tab, Regs8.tabw, M128.tab, mm_add_epi32,
    mm_sub_epi32, mm_abs_epi32, M128.map2w, M128.mapw, mm_cvtepi16_epi32, mm_shuffle_epi32_EE,
    ofWords_word0, ofWords_word1, ofWords_word2, ofWords_word3, butterfly8, Nat.reduceAdd,
    add32w, sub32w, abs32w]

theorem word32_eq (a : Nat) : word32 a = a % 4294967296 := by
  unfold word32; omega

theorem xCalcHAD8x8_SSE_sum_tabw (W : Nat → Nat → Nat)
    (h : ∀ r j, W r j ≤ 524288) :
    xCalcHAD8x8_SSE_sum (Regs8.tabw W) =
      ((∑ r ∈ Finset.range 8, ∑ j ∈ Finset.range 4, W r j) + 2) >>> 2 := by
  have e8 : (8 : Nat) = 7 + 1 := rfl
  have e4 : (4 : Nat) = 3 + 1 := rfl
  rw [e8, e4]
  simp only [xCalcHAD8x8_SSE_sum, Regs8.tabw, mm_add_epi32, mm_hadd_epi32, mm_cvtsi128_si32,
    M128.map2w, ofWords_word0, ofWords_word1, ofWords_word2, ofWords_word3, word32_eq, add32,
    Finset.sum_range_succ, Finset.sum_range_zero, zero_add, Nat.mod_mod, Nat.add_mod_mod,
    Nat.mod_add_mod]
  have h00 := h 0 0
  have h01 := h 0 1
  have h02 := h 0 2
  have h03 := h 0 3
  have h10 := h 1 0
  have h11 := h 1 1
  have h12 := h 1 2
  have h13 := h 1 3
  have h20 := h 2 0
  have h21 := h 2 1
  have h22 := h 2 2
  have h23 := h 2 3
  have h30 := h 3 0
  have h31 := h 3 1
  have h32 := h 3 2
  have h33 := h 3 3
  have h40 := h 4 0
  have h41 := h 4 1
  have h42 := h 4 2
  have h43 := h 4 3
  have h50 := h 5 0
  have h51 := h 5 1
  have h52 := h 5 2
  have h53 := h 5 3
  have h60 := h 6 0
  have h61 := h 6 1
  have h62 := h 6 2
  have h63 := h 6 3
  have h70 := h 7 0
  have h71 := h 7 1
  have h72 := h 7 2
  have h73 := h 7 3
  congr 1
  omega

/-! ### Lane arithmetic of the 8x8 kernel -/

theorem butterfly8_enc (z : Nat → Int) (r : Nat) :
    butterfly8 add16 sub16 (fun k => enc16 (z k)) r =
      enc16 (butterfly8 (fun a b => a + b) (fun a b => a - b) z r) := by
  unfold butterfly8
  rcases r with _ | _ | _ | _ | _ | _ | _ | r <;> simp only [add16_enc, sub16_enc]

theorem add32w_ofInt32 (a b : Int) : add32w (ofInt32 a) (ofInt32 b) = ofInt32 (a + b) := by
  unfold add32w add32 word32 ofInt32; omega

theorem sub32w_ofInt32 (a b : Int) : sub32w (ofInt32 a) (ofInt32 b) = ofInt32 (a - b) := by
  unfold sub32w sub32 word32 ofInt32; omega

theorem butterfly8_ofInt32 (z : Nat → Int) (r : Nat) :
    butterfly8 add32w sub32w (fun k => ofInt32 (z k)) r =
      ofInt32 (butterfly8 (fun a b => a + b) (fun a b => a - b) z r) := by
  unfold butterfly8
  rcases r with _ | _ | _ | _ | _ | _ | _ | r <;> simp only [add32w_ofInt32, sub32w_ofInt32]

theorem sext16_enc (z : Int) (h1 : -32768 ≤ z) (h2 : z ≤ 32767) :
    sext16 (enc16 z) = ofInt32 z := by
  unfold sext16 enc16 ofInt32; split <;> omega

theorem abs32w_ofInt32 (z : Int) (h1 : -2147483648 < z) (h2 : z < 2147483648) :
    abs32w (ofInt32 z) = z.natAbs := by
  unfold abs32w abs32 word32 ofInt32; split <;> omega

theorem add32w_small (a b : Nat) (h : a + b < 4294967296) : add32w a b = a + b := by
  unfold add32w add32 word32; omega

theorem butterfly8_row (z : Nat → Int) (r : Nat) :
    butterfly8 (fun a b => a + b) (fun a b => a - b) z r = hadamardRow 3 z (min r 7) := by
  unfold butterfly8 hadamardRow
  rcases r with _ | _ | _ | _ | _ | _ | _ | r
  case succ.succ.succ.succ.succ.succ.succ =>
    have : min (r + 1 + 1 + 1 + 1 + 1 + 1 + 1) 7 = 7 := by omega
    rw [this]
    simp [Finset.sum_range_succ, hadamardEntry]
    ring
  all_goals
    simp [Finset.sum_range_succ, hadamardEntry]
    ring

/-- The two butterfly passes of the 8x8 kernel on exact integers give the coefficients of the
two-dimensional transform. -/
theorem butterfly8_butterfly8 (D : Nat → Nat → Int) (r j : Nat) :
    butterfly8 (fun a b => a + b) (fun a b => a - b)
      (fun k => butterfly8 (fun a b => a + b) (fun a b => a - b) (fun y => D k y) j) r =
      hadamardCoeff 3 3 D (min r 7) (min j 7) := by
  rw [butterfly8_row]
  simp only [butterfly8_row]
  exact hadamardRow_hadamardRow 3 3 D _ _

/-! ### The 8x8 kernel -/

theorem hadamardCoeff8_natAbs_le (D : Nat → Nat → Int) (M : Int)
    (hD : ∀ x y, x < 2 ^ 3 → y < 2 ^ 3 → |D x y| ≤ M) (u v : Nat) :
    |hadamardCoeff 3 3 D u v| ≤ 64 * M := by
  have := hadamardCoeff_abs_le 3 3 D u v M hD
  norm_num at this
  linarith

theorem hadamardRow8_abs_le (D : Nat → Nat → Int) (M : Int)
    (hD : ∀ x y, x < 2 ^ 3 → y < 2 ^ 3 → |D x y| ≤ M) (k j : Nat) (hk : k < 8) :
    |butterfly8 (fun a b => a + b) (fun a b => a - b) (fun y => D k y) j| ≤ 8 * M := by
  rw [butterfly8_row]
  have := hadamardRow_abs_le 3 (fun y => D k y) (min j 7) M (fun y hy => hD k y hk hy)
  norm_num at this
  exact this

/-- After the horizontal stage the registers hold the transforms of the columns. -/
theorem xCalcHAD8x8_SSE_horizontal_value (D : Nat → Nat → Int) :
    xCalcHAD8x8_SSE_horizontal (Regs8.tab (fun y x => enc16 (D x y))) =
      Regs8.tab (fun r j => enc16
        (butterfly8 (fun a b => a + b) (fun a b => a - b) (fun y => D r y) j)) := by
  rw [xCalcHAD8x8_SSE_horizontal_tab]
  simp only [butterfly8_enc]

/-- The 16-bit vertical stage leaves in each 32-bit lane the sum of the absolute values of two
coefficients, when the differences are at most 511 in absolute value. -/
theorem xCalcHAD8x8_SSE_vertical16_value (D : Nat → Nat → Int)
    (hD : ∀ x y, x < 2 ^ 3 → y < 2 ^ 3 → |D x y| ≤ 511) :
    xCalcHAD8x8_SSE_vertical16 (xCalcHAD8x8_SSE_horizontal
        (Regs8.tab (fun y x => enc16 (D x y)))) =
      Regs8.tabw (fun r j =>
        (hadamardCoeff 3 3 D (min r 7) (min j 7)).natAbs +
          (hadamardCoeff 3 3 D (min r 7) (min (j + 4) 7)).natAbs) := by
  rw [xCalcHAD8x8_SSE_horizontal_value, xCalcHAD8x8_SSE_vertical16_tab]
  congr 1
  funext r j
  simp only [butterfly8_enc, butterfly8_butterfly8]
  have h1 := abs_le.mp (hadamardCoeff8_natAbs_le D 511 hD (min r 7) (min j 7))
  have h2 := abs_le.mp (hadamardCoeff8_natAbs_le D 511 hD (min r 7) (min (j + 4) 7))
  rw [abs16_enc _ (by omega) (by omega), abs16_enc _ (by omega) (by omega)]
  unfold add32
  omega

/-- The 32-bit vertical stage leaves the same sums, when the differences are at most 4095 in
absolute value. -/
theorem xCalcHAD8x8_SSE_vertical32_value (D : Nat → Nat → Int)
    (hD : ∀ x y, x < 2 ^ 3 → y < 2 ^ 3 → |D x y| ≤ 4095) :
    xCalcHAD8x8_SSE_vertical32 (xCalcHAD8x8_SSE_horizontal
        (Regs8.tab (fun y x => enc16 (D x y)))) =
      Regs8.tabw (fun r j =>
        (hadamardCoeff 3 3 D (min r 7) (min j 7)).natAbs +
          (hadamardCoeff 3 3 D (min r 7) (min (j + 4) 7)).natAbs) := by
  rw [xCalcHAD8x8_SSE_horizontal_value, xCalcHAD8x8_SSE_vertical32_tab]
  unfold Regs8.tabw
  have hs : ∀ k j, k < 8 → sext16 (enc16
      (butterfly8 (fun a b => a + b) (fun a b => a - b) (fun y => D k y) j)) =
      ofInt32 (butterfly8 (fun a b => a + b) (fun a b => a - b) (fun y => D k y) j) := by
    intro k j hk
    have := abs_le.mp (hadamardRow8_abs_le D 4095 hD k j hk)
    exact sext16_enc _ (by omega) (by omega)
  have hb : ∀ (Z : Nat → Nat) (z : Nat → Int) (r : Nat), (∀ k, k < 8 → Z k = ofInt32 (z k)) →
      butterfly8 add32w sub32w Z r =
        ofInt32 (butterfly8 (fun a b => a + b) (fun a b => a - b) z r) := by
    intro Z z r h
    rw [← butterfly8_ofInt32]
    unfold butterfly8
    simp only [h 0 (by decide), h 1 (by decide), h 2 (by decide), h 3 (by decide),
      h 4 (by decide), h 5 (by decide), h 6 (by decide), h 7 (by decide)]
  have hw : ∀ r j,
      add32w (abs32w (butterfly8 add32w sub32w (fun k => sext16 (enc16
          (butterfly8 (fun a b => a + b) (fun a b => a - b) (fun y => D k y) j))) r))
        (abs32w (butterfly8 add32w sub32w (fun k => sext16 (enc16
          (butterfly8 (fun a b => a + b) (fun a b => a - b) (fun y => D k y) (j + 4)))) r)) =
      (hadamardCoeff 3 3 D (min r 7) (min j 7)).natAbs +
        (hadamardCoeff 3 3 D (min r 7) (min (j + 4) 7)).natAbs := by
    intro r j
    rw [hb _ _ r (fun k hk => hs k j hk), hb _ _ r (fun k hk => hs k (j + 4) hk),
      butterfly8_butterfly8, butterfly8_butterfly8]
    have h1 := abs_le.mp (hadamardCoeff8_natAbs_le D 4095 hD (min r 7) (min j 7))
    have h2 := abs_le.mp (hadamardCoeff8_natAbs_le D 4095 hD (min r 7) (min (j + 4) 7))
    rw [abs32w_ofInt32 _ (by omega) (by omega), abs32w_ofInt32 _ (by omega) (by omega)]
    exact add32w_small _ _ (by omega)
  simp only [hw]

/-- C28: for an 8x8 tile of samples in `[0, 2^bitDepth)`, `bitDepth <= 12` (so for every bit
depth from 8 to 12), `xCalcHAD8x8_SSE` returns `(S + 2) >> 2`, where `S` is the exact sum of
the absolute values of the 64 coefficients of the two-dimensional 8x8 Hadamard transform
`H8 D H8^T` of `D = org - cur`, on the 16-bit path (`bitDepth < 10`) as on the 32-bit path
(`bitDepth >= 10`). -/
theorem xCalcHAD8x8_SSE_exact (org cur : Nat → Nat) (piOrg piCur iStrideOrg iStrideCur
    bitDepth : Nat) (hbd : bitDepth ≤ 12)
    (hr : TileInRange org cur piOrg piCur iStrideOrg iStrideCur 8 8 bitDepth) :
    xCalcHAD8x8_SSE org cur piOrg piCur iStrideOrg iStrideCur bitDepth =
      (hadamardAbsSum 3 3 (tileDiff org cur piOrg piCur iStrideOrg iStrideCur) + 2) >>> 2 ∧
    (bitDepth < 10 →
      xCalcHAD8x8_SSE_sum (xCalcHAD8x8_SSE_vertical16 (xCalcHAD8x8_SSE_horizontal
        (xCalcHAD8x8_SSE_load org cur piOrg piCur iStrideOrg iStrideCur))) =
      (hadamardAbsSum 3 3 (tileDiff org cur piOrg piCur iStrideOrg iStrideCur) + 2) >>> 2) ∧
    (10 ≤ bitDepth →
      xCalcHAD8x8_SSE_sum (xCalcHAD8x8_SSE_vertical32 (xCalcHAD8x8_SSE_horizontal
        (xCalcHAD8x8_SSE_load org cur piOrg piCur iStrideOrg iStrideCur))) =
      (hadamardAbsSum 3 3 (tileDiff org cur piOrg piCur iStrideOrg iStrideCur) + 2) >>> 2) := by
  have hp : (2 : Int) ^ bitDepth ≤ 4096 := by
    have : (2 : Int) ^ bitDepth ≤ 2 ^ 12 := pow_le_pow_right₀ (by norm_num) hbd
    simpa using this
  have hD : ∀ x y, x < 2 ^ 3 → y < 2 ^ 3 →
      |tileDiff org cur piOrg piCur iStrideOrg iStrideCur x y| ≤ 4095 := by
    intro x y hx hy
    have := tileDiff_abs_le org cur piOrg piCur iStrideOrg iStrideCur 8 8 bitDepth hr x y hx hy
    omega
  have hN : ∀ u v, (hadamardCoeff 3 3 (tileDiff org cur piOrg piCur iStrideOrg iStrideCur)
      u v).natAbs ≤ 262080 := by
    intro u v
    have := abs_le.mp (hadamardCoeff8_natAbs_le _ 4095 hD u v)
    omega
  -- the value of the final sum on the table both paths produce
  have hS : xCalcHAD8x8_SSE_sum (Regs8.tabw (fun r j =>
      (hadamardCoeff 3 3 (tileDiff org cur piOrg piCur iStrideOrg iStrideCur)
        (min r 7) (min j 7)).natAbs +
      (hadamardCoeff 3 3 (tileDiff org cur piOrg piCur iStrideOrg iStrideCur)
        (min r 7) (min (j + 4) 7)).natAbs)) =
      (hadamardAbsSum 3 3 (tileDiff org cur piOrg piCur iStrideOrg iStrideCur) + 2) >>> 2 := by
    rw [xCalcHAD8x8_SSE_sum_tabw _ (fun r j => by
      have h1 := hN (min r 7) (min j 7)
      have h2 := hN (min r 7) (min (j + 4) 7)
      omega)]
    unfold hadamardAbsSum
    obtain ⟨A, hA⟩ : ∃ A : Nat → Nat → Nat, ∀ u v, (hadamardCoeff 3 3
        (tileDiff org cur piOrg piCur iStrideOrg iStrideCur) u v).natAbs = A u v :=
      ⟨_, fun _ _ => rfl⟩
    simp only [hA]
    have e8 : (8 : Nat) = 7 + 1 := rfl
    have e4 : (4 : Nat) = 3 + 1 := rfl
    have e3 : (2 : Nat) ^ 3 = 7 + 1 := rfl
    rw [e3]
    nth_rewrite 1 [e8]
    nth_rewrite 1 [e4]
    have m0 : min 0 7 = 0 := rfl
    have m1 : min 1 7 = 1 := rfl
    have m2 : min 2 7 = 2 := rfl
    have m3 : min 3 7 = 3 := rfl
    have m4 : min 4 7 = 4 := rfl
    have m5 : min 5 7 = 5 := rfl
    have m6 : min 6 7 = 6 := rfl
    have m7 : min 7 7 = 7 := rfl
    simp only [Finset.sum_range_succ, Finset.sum_range_zero, zero_add, Nat.reduceAdd,
      m0, m1, m2, m3, m4, m5, m6, m7]
    congr 1
    omega
  have h16 : bitDepth < 10 →
      xCalcHAD8x8_SSE_sum (xCalcHAD8x8_SSE_vertical16 (xCalcHAD8x8_SSE_horizontal
        (xCalcHAD8x8_SSE_load org cur piOrg piCur iStrideOrg iStrideCur))) =
      (hadamardAbsSum 3 3 (tileDiff org cur piOrg piCur iStrideOrg iStrideCur) + 2) >>> 2 := by
    intro hlt
    have hq : (2 : Int) ^ bitDepth ≤ 512 := by
      have : (2 : Int) ^ bitDepth ≤ 2 ^ 9 := pow_le_pow_right₀ (by norm_num) (by omega)
      simpa using this
    have hD9 : ∀ x y, x < 2 ^ 3 → y < 2 ^ 3 →
        |tileDiff org cur piOrg piCur iStrideOrg iStrideCur x y| ≤ 511 := by
      intro x y hx hy
      have := tileDiff_abs_le org cur piOrg piCur iStrideOrg iStrideCur 8 8 bitDepth hr x y
        hx hy
      omega
    rw [xCalcHAD8x8_SSE_load_tab, xCalcHAD8x8_SSE_vertical16_value _ hD9, hS]
  have h32 : 10 ≤ bitDepth →
      xCalcHAD8x8_SSE_sum (xCalcHAD8x8_SSE_vertical32 (xCalcHAD8x8_SSE_horizontal
        (xCalcHAD8x8_SSE_load org cur piOrg piCur iStrideOrg iStrideCur))) =
      (hadamardAbsSum 3 3 (tileDiff org cur piOrg piCur iStrideOrg iStrideCur) + 2) >>> 2 := by
    intro _
    rw [xCalcHAD8x8_SSE_load_tab, xCalcHAD8x8_SSE_vertical32_value _ hD, hS]
  refine ⟨?_, h16, h32⟩
  unfold xCalcHAD8x8_SSE
  by_cases hge : bitDepth ≥ 10
  · simp only [hge, if_true]
    exact h32 hge
  · simp only [hge, if_false]
    exact h16 (by omega)

/-- C28 at the 8x8 block of 12-bit samples with `org = 4095` and `cur = 0` everywhere. -/
theorem xCalcHAD8x8_SSE_exact_witness :
    (12 ≤ 12) ∧
    TileInRange (saturatedParam 8 8 12).org.buf (saturatedParam 8 8 12).cur.buf 0 0 8 8 8 8
      12 ∧
    xCalcHAD8x8_SSE (saturatedParam 8 8 12).org.buf (saturatedParam 8 8 12).cur.buf 0 0 8 8
      12 = (hadamardAbsSum 3 3 (tileDiff (saturatedParam 8 8 12).org.buf
        (saturatedParam 8 8 12).cur.buf 0 0 8 8) + 2) >>> 2 :=
  ⟨le_refl 12, saturatedParam_inRange 8 8 12 8 8 8,
    (xCalcHAD8x8_SSE_exact (saturatedParam 8 8 12).org.buf (saturatedParam 8 8 12).cur.buf
      0 0 8 8 12 (le_refl 12) (saturatedParam_inRange 8 8 12 8 8 8)).1⟩

/-! ## Decoder: the state at the abort of the checks of IBC -/

/-- The prediction part returns the state `xReconInter_predict_run` ends in, or fails with the
message it ends with. -/
theorem xReconInter_predict_eq_run (E : Ext) (cu : CodingUnit) (s : Dec) :
    xReconInter_predict E cu s =
      (match xReconInter_predict_run E cu s with
       | (s1, none) => .ok s1
       | (_, some e) => .error e) := by
  unfold xReconInter_predict xReconInter_predict_run
  simp only [bind, Except.bind, pure, Except.pure, CHECK]
  split_ifs <;> rfl

/-- `xReconInter` returns the state `xReconInter_run` ends in, or fails with the message it ends
with. -/
theorem xReconInter_eq_run (C : Config) (E : Ext) (cu : CodingUnit) (s : Dec) :
    xReconInter C E cu s =
      (match xReconInter_run C E cu s with
       | (s1, none) => .ok s1
       | (_, some e) => .error e) := by
  unfold xReconInter xReconInter_run
  simp only [bind, Except.bind, pure, Except.pure]
  rw [xReconInter_predict_eq_run]
  rcases xReconInter_predict_run E cu (s.log (.xReconInter cu.idx)) with ⟨s1, _ | e⟩ <;> rfl

theorem xReconInter_predict_run_IBC (E : Ext) (cu : CodingUnit) (s : Dec)
    (ht : cu.triangle = false) (hibc : CU.isIBC cu = true)
    (h : cu.affine = true ∨ cu.firstPU.mhIntraFlag = true ∨ cu.firstPU.mmvdMergeFlag = true) :
    xReconInter_predict_run E cu s =
      (s.log (.geneIntrainterPred cu.idx),
        some (if cu.firstPU.mhIntraFlag then "IBC and MHIntra cannot be used together"
          else if cu.affine then "IBC and Affine cannot be used together"
          else "IBC and MMVD cannot be used together")) := by
  unfold xReconInter_predict_run
  simp only [ht, hibc, Bool.false_eq_true, if_false, Bool.true_and, Bool.and_false]
  cases hm : cu.firstPU.mhIntraFlag
  · cases ha : cu.affine
    · have hv : cu.firstPU.mmvdMergeFlag = true := by
        rcases h with h | h | h
        · rw [ha] at h; cases h
        · rw [hm] at h; cases h
        · exact h
      simp only [hv, Bool.false_eq_true, if_false, if_true]
    · simp only [Bool.false_eq_true, if_false, if_true]
  · simp only [if_true]

/-- C12: for every non-triangle coding unit that is IBC and has the affine flag, the MHIntra
flag of its first prediction unit or the MMVD merge flag of its first prediction unit set,
`xReconInter` aborts with the message of the first failing check, and the state it has reached
at the abort is the state on entry with the calls `xReconInter` and `geneIntrainterPred`
recorded: no motion compensation has been performed and nothing has been written to the
reconstruction, the prediction, reconstruction and residual buffers being those on entry.  The
call fails, so no reconstruction is returned. -/
theorem xReconInter_IBC_exclusive_modes (C : Config) (E : Ext) (cu : CodingUnit) (s : Dec)
    (ht : cu.triangle = false) (hibc : CU.isIBC cu = true)
    (h : cu.affine = true ∨ cu.firstPU.mhIntraFlag = true ∨ cu.firstPU.mmvdMergeFlag = true) :
    xReconInter_run C E cu s =
      ((s.log (.xReconInter cu.idx)).log (.geneIntrainterPred cu.idx),
        some (if cu.firstPU.mhIntraFlag then "IBC and MHIntra cannot be used together"
          else if cu.affine then "IBC and Affine cannot be used together"
          else "IBC and MMVD cannot be used together")) ∧
    xReconInter C E cu s =
      .error (if cu.firstPU.mhIntraFlag then "IBC and MHIntra cannot be used together"
        else if cu.affine then "IBC and Affine cannot be used together"
        else "IBC and MMVD cannot be used together") ∧
    (xReconInter_run C E cu s).1.trace =
      s.trace ++ [.xReconInter cu.idx, .geneIntrainterPred cu.idx] ∧
    (∀ e ∈ (xReconInter_run C E cu s).1.trace.drop s.trace.length,
      e.isMotionCompensation = false ∧ e.isWriteReco = false) ∧
    (xReconInter_run C E cu s).1.pred = s.pred ∧
    (xReconInter_run C E cu s).1.reco = s.reco ∧
    (xReconInter_run C E cu s).1.picReco = s.picReco ∧
    (xReconInter_run C E cu s).1.resi = s.resi := by
  have hp := xReconInter_predict_run_IBC E cu (s.log (.xReconInter cu.idx)) ht hibc h
  have hr : xReconInter_run C E cu s =
      ((s.log (.xReconInter cu.idx)).log (.geneIntrainterPred cu.idx),
        some (if cu.firstPU.mhIntraFlag then "IBC and MHIntra cannot be used together"
          else if cu.affine then "IBC and Affine cannot be used together"
          else "IBC and MMVD cannot be used together")) := by
    unfold xReconInter_run
    simp only [hp]
  have htr : ((s.log (.xReconInter cu.idx)).log (.geneIntrainterPred cu.idx)).trace =
      s.trace ++ [.xReconInter cu.idx, .geneIntrainterPred cu.idx] := by
    simp [Dec.log]
  refine ⟨hr, ?_, ?_, ?_, ?_, ?_, ?_, ?_⟩
  · rw [xReconInter_eq_run, hr]
  · rw [hr]; exact htr
  · rw [hr]
    intro e he
    simp only [htr, List.drop_left] at he
    rcases List.mem_cons.mp he with he | he
    · subst he; exact ⟨rfl, rfl⟩
    · rcases List.mem_cons.mp he with he | he
      · subst he; exact ⟨rfl, rfl⟩
      · cases he
  · rw [hr]; rfl
  · rw [hr]; rfl
  · rw [hr]; rfl
  · rw [hr]; rfl

/-- C12 at an affine IBC coding unit. -/
theorem xReconInter_IBC_exclusive_modes_witness :
    ({ exampleCU .MODE_IBC with affine := true } : CodingUnit).triangle = false ∧
    CU.isIBC { exampleCU .MODE_IBC with affine := true } = true ∧
    xReconInter (exampleConfig false) exampleExt { exampleCU .MODE_IBC with affine := true }
      exampleDec = .error "IBC and Affine cannot be used together" ∧
    (xReconInter_run (exampleConfig false) exampleExt
      { exampleCU .MODE_IBC with affine := true } exampleDec).1.trace =
        [.xReconInter 0, .geneIntrainterPred 0] :=
  ⟨rfl, rfl,
    (xReconInter_IBC_exclusive_modes (exampleConfig false) exampleExt
      { exampleCU .MODE_IBC with affine := true } exampleDec rfl rfl (Or.inl rfl)).2.1,
    (xReconInter_IBC_exclusive_modes (exampleConfig false) exampleExt
      { exampleCU .MODE_IBC with affine := true } exampleDec rfl rfl (Or.inl rfl)).2.2.1⟩

/-! ## Decoder: the check of the block vector in the loop of `xDeriveCUMV` -/

theorem xDeriveCUMV_loop_cons_ok (C : Config) (E : Ext) (pu : PredictionUnit)
    (pus : List PredictionUnit) (cu : CodingUnit) (done : List PredictionUnit) (s : Dec)
    (d1 d2 : DeriveState) (hm : xDeriveCUMV_motion C E ⟨cu, pu, s⟩ = .ok d1)
    (hc : xDeriveCUMV_check C E d1 = .ok d2) :
    xDeriveCUMV_loop C E (pu :: pus) cu done s =
      xDeriveCUMV_loop C E pus d2.cu (d2.pu :: done) d2.s := by
  simp only [xDeriveCUMV_loop, bind, Except.bind, hm, hc]

theorem xDeriveCUMV_loop_cons_motion_error (C : Config) (E : Ext) (pu : PredictionUnit)
    (pus : List PredictionUnit) (cu : CodingUnit) (done : List PredictionUnit) (s : Dec)
    (e : String) (hm : xDeriveCUMV_motion C E ⟨cu, pu, s⟩ = .error e) :
    xDeriveCUMV_loop C E (pu :: pus) cu done s = .error e := by
  simp only [xDeriveCUMV_loop, bind, Except.bind, hm]

theorem xDeriveCUMV_loop_cons_check_error (C : Config) (E : Ext) (pu : PredictionUnit)
    (pus : List PredictionUnit) (cu : CodingUnit) (done : List PredictionUnit) (s : Dec)
    (d1 : DeriveState) (e : String) (hm : xDeriveCUMV_motion C E ⟨cu, pu, s⟩ = .ok d1)
    (hc : xDeriveCUMV_check C E d1 = .error e) :
    xDeriveCUMV_loop C E (pu :: pus) cu done s = .error e := by
  simp only [xDeriveCUMV_loop, bind, Except.bind, hm, hc]

/-- The loop over the prediction units of an IBC coding unit aborts with "invalid block vector
for IBC detected." exactly when it reaches a unit, the units before it having passed, whose
motion is derived and whose derived vector `PU::isBlockVectorValid` rejects. -/
theorem xDeriveCUMV_loop_block_vector (C : Config) (E : Ext) :
    ∀ (pus : List PredictionUnit) (cu : CodingUnit) (done : List PredictionUnit) (s : Dec),
      CU.isIBC cu = true →
      (xDeriveCUMV_loop C E pus cu done s = .error "invalid block vector for IBC detected." ↔
        ∃ pre pu post cu1 done1 s1 d1, pus = pre ++ pu :: post ∧
          xDeriveCUMV_loop C E pre cu done s = .ok (cu1, done1, s1) ∧
          xDeriveCUMV_motion C E ⟨cu1, pu, s1⟩ = .ok d1 ∧
          blockVectorValid C E d1 = false) := by
  intro pus
  induction pus with
  | nil =>
    intro cu done s _
    constructor
    · intro h
      cases h
    · rintro ⟨pre, pu, post, _, _, _, _, h, _⟩
      cases pre <;> cases h
  | cons p ps ih =>
    intro cu done s hibc
    cases hm : xDeriveCUMV_motion C E ⟨cu, p, s⟩ with
    | error e1 =>
      rw [xDeriveCUMV_loop_cons_motion_error C E p ps cu done s e1 hm]
      constructor
      · intro h
        cases h
        rcases xDeriveCUMV_motion_error C E _ _ hm with h1 | h1 <;>
          exact absurd h1 (by decide)
      · rintro ⟨pre, pu, post, cu1, done1, s1, d1, hl, hpre, hmo, _⟩
        cases pre with
        | nil =>
          cases hl
          cases hpre
          rw [hm] at hmo
          cases hmo
        | cons q pre =>
          cases hl
          rw [xDeriveCUMV_loop_cons_motion_error C E _ pre cu done s e1 hm] at hpre
          cases hpre
    | ok d1 =>
      have hibc1 : CU.isIBC d1.cu = true := by
        have := (xDeriveCUMV_motion_cu C E _ d1 hm).1
        unfold CU.isIBC at hibc ⊢
        rw [this]; exact hibc
      have hc := xDeriveCUMV_check_IBC C E d1 hibc1
      rcases Bool.eq_false_or_eq_true (blockVectorValid C E d1) with hv | hv
      · rw [hv, if_pos rfl] at hc
        rw [xDeriveCUMV_loop_cons_ok C E p ps cu done s d1 _ hm hc]
        rw [ih _ _ _ hibc1]
        constructor
        · rintro ⟨pre, pu, post, cu1, done1, s1, d2, hl, hpre, hmo, hrej⟩
          refine ⟨p :: pre, pu, post, cu1, done1, s1, d2, by rw [hl]; rfl, ?_, hmo, hrej⟩
          rw [xDeriveCUMV_loop_cons_ok C E p pre cu done s d1 _ hm hc]
          exact hpre
        · rintro ⟨pre, pu, post, cu1, done1, s1, d2, hl, hpre, hmo, hrej⟩
          cases pre with
          | nil =>
            cases hl
            cases hpre
            rw [hm] at hmo
            cases hmo
            rw [hv] at hrej
            cases hrej
          | cons q pre =>
            cases hl
            rw [xDeriveCUMV_loop_cons_ok C E _ pre cu done s d1 _ hm hc] at hpre
            exact ⟨pre, pu, post, cu1, done1, s1, d2, rfl, hpre, hmo, hrej⟩
      · rw [hv, if_neg (by decide)] at hc
        rw [xDeriveCUMV_loop_cons_check_error C E p ps cu done s d1 _ hm hc]
        exact ⟨fun _ => ⟨[], p, ps, cu, done.reverse, s, d1, rfl, rfl, hm, hv⟩, fun _ => rfl⟩

theorem xDeriveCUMV_error_iff_loop (C : Config) (E : Ext) (cu : CodingUnit) (s : Dec)
    (e : String) :
    xDeriveCUMV C E cu s = .error e ↔
      xDeriveCUMV_loop C E (CU.traversePUs cu) cu [] (s.log (.xDeriveCUMV cu.idx)) =
        .error e := by
  unfold xDeriveCUMV
  simp only [bind, Except.bind, pure, Except.pure]
  cases hl : xDeriveCUMV_loop C E (CU.traversePUs cu) cu [] (s.log (.xDeriveCUMV cu.idx)) with
  | error e1 => simp
  | ok r =>
    simp only []
    cases r.2.1 <;> simp

/-- C16, the claim refuted at an IBC coding unit whose prediction unit is in MMVD merge mode
with the MHIntra flag set and has the block vector zero, which `PU::isBlockVectorValid` (here:
valid when the vector points up or left) rejects: `xDeriveCUMV` aborts at the check of
line 691 with "invalid MHIntra" and not with "invalid block vector for IBC detected.". -/
theorem xDeriveCUMV_rejected_vector_other_abort :
    CU.isIBC ibcMmvdMHIntraCU = true ∧
    blockVectorValid (exampleConfig false) exampleExt
      ⟨ibcMmvdMHIntraCU, ibcMmvdMHIntraCU.firstPU, exampleDec.log (.xDeriveCUMV 0)⟩ = false ∧
    xDeriveCUMV (exampleConfig false) exampleExt ibcMmvdMHIntraCU exampleDec =
      .error "invalid MHIntra" ∧
    xDeriveCUMV (exampleConfig false) exampleExt ibcMmvdMHIntraCU exampleDec ≠
      .error "invalid block vector for IBC detected." :=
  ⟨rfl, rfl, rfl, by
    intro h
    have e : xDeriveCUMV (exampleConfig false) exampleExt ibcMmvdMHIntraCU exampleDec =
        .error "invalid MHIntra" := rfl
    rw [e] at h
    exact absurd (Except.error.inj h) (by decide)⟩

/-- C16, amended: for every prediction unit of an IBC coding unit, in merge mode as well as in
AMVP mode, that the loop of `xDeriveCUMV` reaches and whose motion derivation passes the checks
"invalid MHIntra" and "Unexpected negative refIdx.", `xDeriveCUMV` aborts with "invalid block
vector for IBC detected." at that unit if and only if `PU::isBlockVectorValid` rejects the
integer-sample block vector `mv[0] >> MV_FRACTIONAL_BITS_INTERNAL` for the luma position and
size of the unit, the picture size and the CTU width: `xDeriveCUMV` aborts with the message
exactly when there is such a unit, the units before it having passed; when `xDeriveCUMV`
returns, the vector of every unit was accepted; and the check of a unit of an IBC coding unit
fails exactly when the vector is rejected, passing the unit on unchanged otherwise. -/
theorem xDeriveCUMV_block_vector_check (C : Config) (E : Ext) (cu : CodingUnit) (s : Dec)
    (hibc : CU.isIBC cu = true) :
    (xDeriveCUMV C E cu s = .error "invalid block vector for IBC detected." ↔
      ∃ pre pu post cu1 done1 s1 d1, CU.traversePUs cu = pre ++ pu :: post ∧
        xDeriveCUMV_loop C E pre cu [] (s.log (.xDeriveCUMV cu.idx)) = .ok (cu1, done1, s1) ∧
        xDeriveCUMV_motion C E ⟨cu1, pu, s1⟩ = .ok d1 ∧
        blockVectorValid C E d1 = false) ∧
    (∀ r, xDeriveCUMV C E cu s = .ok r →
      ∀ pre pu post cu1 done1 s1 d1, CU.traversePUs cu = pre ++ pu :: post →
        xDeriveCUMV_loop C E pre cu [] (s.log (.xDeriveCUMV cu.idx)) = .ok (cu1, done1, s1) →
        xDeriveCUMV_motion C E ⟨cu1, pu, s1⟩ = .ok d1 →
        blockVectorValid C E d1 = true) ∧
    (∀ d : DeriveState, CU.isIBC d.cu = true →
      (xDeriveCUMV_check C E d = .error "invalid block vector for IBC detected." ↔
        blockVectorValid C E d = false) ∧
      (blockVectorValid C E d = true →
        ∃ d2, xDeriveCUMV_check C E d = .ok d2 ∧ d2.cu = d.cu ∧ d2.pu = d.pu)) ∧
    (∀ d : DeriveState, blockVectorValid C E d =
      E.isBlockVectorValid d.pu d.pu.Y.x d.pu.Y.y d.pu.Y.width d.pu.Y.height
        C.picWidthInLumaSamples C.picHeightInLumaSamples 0 0
        ((d.pu.mv 0).hor >>> C.MV_FRACTIONAL_BITS_INTERNAL)
        ((d.pu.mv 0).ver >>> C.MV_FRACTIONAL_BITS_INTERNAL) C.maxCUWidth d.s) := by
  have ha : xDeriveCUMV C E cu s = .error "invalid block vector for IBC detected." ↔
      ∃ pre pu post cu1 done1 s1 d1, CU.traversePUs cu = pre ++ pu :: post ∧
        xDeriveCUMV_loop C E pre cu [] (s.log (.xDeriveCUMV cu.idx)) = .ok (cu1, done1, s1) ∧
        xDeriveCUMV_motion C E ⟨cu1, pu, s1⟩ = .ok d1 ∧
        blockVectorValid C E d1 = false := by
    rw [xDeriveCUMV_error_iff_loop]
    exact xDeriveCUMV_loop_block_vector C E _ cu [] _ hibc
  refine ⟨ha, ?_, ?_, fun _ => rfl⟩
  · intro r hr pre pu post cu1 done1 s1 d1 hl hpre hmo
    rcases Bool.eq_false_or_eq_true (blockVectorValid C E d1) with hv | hv
    · exact hv
    · have := ha.mpr ⟨pre, pu, post, cu1, done1, s1, d1, hl, hpre, hmo, hv⟩
      rw [hr] at this
      cases this
  · intro d hd
    constructor
    · rw [xDeriveCUMV_check_IBC C E d hd]
      cases hv : blockVectorValid C E d <;> simp
    · intro hv
      rw [xDeriveCUMV_check_IBC C E d hd, hv]
      exact ⟨_, rfl, rfl, rfl⟩

/-- C16 amended, at an IBC coding unit in AMVP mode with the block vector zero, which is
rejected: `xDeriveCUMV` aborts with the message at its only prediction unit. -/
theorem xDeriveCUMV_block_vector_check_witness :
    CU.isIBC (exampleCU .MODE_IBC) = true ∧
    xDeriveCUMV (exampleConfig false) exampleExt (exampleCU .MODE_IBC) exampleDec =
      .error "invalid block vector for IBC detected." :=
  ⟨rfl, (xDeriveCUMV_block_vector_check (exampleConfig false) exampleExt (exampleCU .MODE_IBC)
    exampleDec rfl).1.mpr
    ⟨[], examplePU, [], exampleCU .MODE_IBC, [], exampleDec.log (.xDeriveCUMV 0), _,
      rfl, rfl, rfl, rfl⟩⟩

/-! ## The fallback on weighting -/

end VTM
